import Mathlib

/-!
# finance-tracker: the persistence layer of `database.js`

A shallow embedding of the record gateway of `database.js` (`getAll`, `getOne`,
`insert`, `update`, `deleteOne`, with `initDatabase`, `saveDatabase`,
`resultToObjects` and `resultToObject`), of its settings and credential functions
(`getSettings`, `isFirstRun`, `completeSetup`, `updateSettings`, `hashPassword`,
`verifyPassword`), of the image cache (`saveImage`, `getImage`, `deleteImage`) and of
the analytics (`getDashboardStats`, `getHistoryData`, `getPredictionData`), together
with the request handlers of `main.js` and `calculateProjections` of
`PredictionsPage.js`, over an explicit model of the embedded SQL store.

Modelling decisions.

* The module variables `db` and `dbPath` and the content of the file at `dbPath`
  form the `Store`.  Every operation takes the store and returns its result (or the
  message of the error it throws) together with the store it leaves behind.
* `new Date().toISOString()` is the argument `now` of the operations that read it.
* A table holds its rows in rowid order, which is the order of a table scan.  The
  three record tables are declared `AUTOINCREMENT`; `Table.seq` is their entry in
  `sqlite_sequence`.
* Numbers are exact rationals: a JavaScript number is a `ℚ`, the storage class
  REAL holds a `ℚ`, and the sums and quotients of the model are exact.  NaN and the
  infinities are not modelled.  The engine and the runtime compute in IEEE 754
  doubles: `roundDouble` is their rounding, and the aggregates of the analytics are
  given a second time with it (`sumDouble`, `avgMonthlyDouble`, `totalBetweenDouble`,
  `categoryBreakdownDouble`), to settle the claims that equate values which the engine
  rounds separately.
* The conversions between TEXT and numbers that column affinity performs
  (rendering a REAL as text, reading a numeric literal from text) belong to the SQL
  engine; they are the parameter `Conversions`, and every theorem holds for all of
  them.
* `insert` and `update` splice the keys of the field object into the text of their
  statement unquoted.  A key made of identifier characters is one name there, and the
  engine resolves it as it resolves every column name (`resolveColumn`): without regard
  to the case of ASCII letters, and with `rowid`, `oid` and `_rowid_` standing for the
  rowid.  When several keys stand for one column, `INSERT` takes the first of them (the
  last for the rowid) and `UPDATE` the last.  A key with any other character changes
  the statement itself; that is outside the model, and the theorems that depend on how
  the keys are read assume `plainObject`.
* A statement that fails leaves the database as it was (the engine runs each
  statement in its own transaction).  Writing the file always succeeds.
* `db.export()` closes the connection and opens a new one on the same content, so
  the change counter and the last insert rowid of the connection are zero after
  `saveDatabase` has written the file.
* `ORDER BY` without a second key leaves rows of equal key in the order of the table
  scan (the engine's sorter is a stable merge sort).
* bcrypt: the key bytes that bcryptjs hands to the Blowfish key schedule are computed
  (`bcryptKey`); the Blowfish core itself is the parameter `Bcrypt`, and the salt that
  `genSaltSync` draws is an argument of `hashPassword`.  What a theorem needs of the
  core is stated as `Bcrypt.Accepts`.
* The replies of the handlers of `main.js` are the types `VerifyReply` and
  `ImageReply`; an error caught by a handler is its message.
* The aggregate `SUM` follows the engine's accumulator (`sumStep`, `sumFinalize`); the
  engine's reading of a number off a text or blob is the parameter `Casts`.  Sums are
  exact, by the decision on numbers above.
* `new Date().getFullYear().toString()` is the argument `currentYear` of
  `getDashboardStats`.
* `Date` follows the proleptic Gregorian calendar (`daysFromCivil`, `civilFromDays`);
  local time differs from UTC by the argument `offsetMinutes`, and `getPredictionData`
  takes `now.getFullYear()` and `now.getMonth()` as arguments.
* `GROUP BY` delivers its groups in ascending order of the key (the engine groups by
  sorting), and a later `ORDER BY` keeps groups of equal key in that order.
* A thrown value is given by its text.  `error.message` in a handler is that text,
  except for the refusal to bind, which sql.js throws as a bare string
  (`errorMessage`).  The dialogs and the file system that `image:upload` and
  `export:csv` use are fields of `Environment`.  What a handler gives its caller is a
  `Settled` promise: the reply it returns, or a rejection when it throws outside its
  `try` block.

The tables of a database the engine has written are always in the state `Table.WF`
(unique ascending rowids within the 64-bit range); `insert`, `update` and `deleteOne`
keep it (`insert_preserves_WF`, `update_preserves_WF`, `deleteOne_preserves_WF`).
-/

namespace FinanceTracker

/-! ## Values -/

/-- The storage classes of the SQL engine. -/
inductive Value where
  | null
  | int (i : Int)
  | real (q : ℚ)
  | text (s : String)
  | blob (b : List Nat)
  deriving DecidableEq, Repr

/-- The JavaScript values that cross the gateway. -/
inductive JsValue where
  | undefined
  | null
  | bool (b : Bool)
  | number (q : ℚ)
  | string (s : String)
  | bytes (b : List Nat)
  deriving DecidableEq, Repr

/-- A number read from text by the engine. -/
inductive Numeric where
  | int (i : Int)
  | real (q : ℚ)
  deriving DecidableEq, Repr

/-- The engine's conversions between text and numbers. -/
structure Conversions where
  realToText : ℚ → String
  textToNumber : String → Option Numeric

/-- A plain JavaScript object, as the list of its own properties in key order. -/
abbrev FieldObject := List (String × JsValue)

/-- The assignment `obj[key] = v`: an existing property keeps its place. -/
def setField (key : String) (v : JsValue) : FieldObject → FieldObject
  | [] => [(key, v)]
  | (k, w) :: rest => if k = key then (k, v) :: rest else (k, w) :: setField key v rest

/-- The value sql.js binds for a JavaScript value (`Statement.bindValue`): numbers
that equal their 32-bit truncation are bound as integers, the others as doubles;
booleans are bound as numbers; `undefined` is refused. -/
def bindValue : JsValue → Except String Value
  | .undefined =>
      .error "Wrong API use : tried to bind a value of an unknown type (undefined)."
  | .null => .ok .null
  | .bool b => .ok (.int (if b then 1 else 0))
  | .number q =>
      if q.den = 1 ∧ -2147483648 ≤ q.num ∧ q.num ≤ 2147483647 then .ok (.int q.num)
      else .ok (.real q)
  | .string s => .ok (.text s)
  | .bytes b => .ok (.blob b)

/-- The JavaScript value sql.js returns for a stored value (`Statement.get`). -/
def toJs : Value → JsValue
  | .null => .null
  | .int i => .number i
  | .real q => .number q
  | .text s => .string s
  | .blob b => .bytes b

/-- Binds the values of a field object, left to right. -/
def bindFields : FieldObject → Except String (List (String × Value))
  | [] => .ok []
  | (k, v) :: rest =>
      match bindValue v with
      | .error e => .error e
      | .ok w =>
          match bindFields rest with
          | .error e => .error e
          | .ok ws => .ok ((k, w) :: ws)

/-! ## Schema -/

/-- Column affinities of the declared types used by the schema. -/
inductive Affinity where
  | integer
  | text
  | real
  | blob
  deriving DecidableEq, Repr

/-- A column other than the `id` column. -/
structure Column where
  name : String
  affinity : Affinity
  notNull : Bool
  dflt : Value
  deriving DecidableEq, Repr

/-- The columns after `id` of each table created by `initDatabase`. -/
def schema : String → List Column
  | "settings" =>
      [⟨"name", .text, true, .text "User"⟩, ⟨"profileImage", .text, false, .null⟩,
       ⟨"currency", .text, false, .text "EUR"⟩, ⟨"masterPasswordHash", .text, false, .null⟩,
       ⟨"setupCompleted", .integer, false, .int 0⟩, ⟨"createdAt", .text, false, .null⟩,
       ⟨"updatedAt", .text, false, .null⟩]
  | "income" =>
      [⟨"description", .text, true, .null⟩, ⟨"amount", .real, true, .null⟩,
       ⟨"date", .text, true, .null⟩, ⟨"category", .text, false, .null⟩,
       ⟨"provider", .text, false, .null⟩, ⟨"icon", .text, false, .null⟩,
       ⟨"createdAt", .text, false, .null⟩, ⟨"updatedAt", .text, false, .null⟩]
  | "outgoing" =>
      [⟨"description", .text, true, .null⟩, ⟨"amount", .real, true, .null⟩,
       ⟨"date", .text, true, .null⟩, ⟨"category", .text, false, .null⟩,
       ⟨"provider", .text, false, .null⟩, ⟨"recurring", .integer, false, .int 0⟩,
       ⟨"billingCycle", .text, false, .null⟩, ⟨"nextPaymentDate", .text, false, .null⟩,
       ⟨"icon", .text, false, .null⟩, ⟨"createdAt", .text, false, .null⟩,
       ⟨"updatedAt", .text, false, .null⟩]
  | "payment_providers" =>
      [⟨"name", .text, true, .null⟩, ⟨"type", .text, true, .null⟩,
       ⟨"accountNumber", .text, false, .null⟩, ⟨"notes", .text, false, .null⟩,
       ⟨"icon", .text, false, .null⟩, ⟨"createdAt", .text, false, .null⟩,
       ⟨"updatedAt", .text, false, .null⟩]
  | "image_cache" =>
      [⟨"imageKey", .text, true, .null⟩, ⟨"data", .blob, true, .null⟩,
       ⟨"mimeType", .text, true, .null⟩, ⟨"createdAt", .text, false, .null⟩]
  | _ => []

/-- The column names of `SELECT *`: `id` first, then the declared columns. -/
def columnNames (tableName : String) : List String :=
  "id" :: (schema tableName).map Column.name

/-- The largest rowid of the engine. -/
def maxRowid : Int := 9223372036854775807

/-- The smallest rowid of the engine. -/
def minRowid : Int := -9223372036854775808

/-- The integer a number stands for, when it is one that fits a rowid. -/
def Numeric.toRowid : Numeric → Option Int
  | .int i => if minRowid ≤ i ∧ i ≤ maxRowid then some i else none
  | .real q => if q.den = 1 ∧ minRowid ≤ q.num ∧ q.num ≤ maxRowid then some q.num else none

/-- The rowid a bound value designates in the `id` column: the value itself when
it is an integer, or converts to one without loss under the column's INTEGER
affinity; `none` for NULL and for every value that is not an integer. -/
def rowidOf (cv : Conversions) : Value → Option Int
  | .null => none
  | .int i => Numeric.toRowid (.int i)
  | .real q => Numeric.toRowid (.real q)
  | .text s =>
      match cv.textToNumber s with
      | some n => n.toRowid
      | none => none
  | .blob _ => none

/-- The value a column of the given affinity stores for a bound value. -/
def applyAffinity (cv : Conversions) : Affinity → Value → Value
  | .text, .int i => .text (toString i)
  | .text, .real q => .text (cv.realToText q)
  | .integer, .real q => if q.den = 1 then .int q.num else .real q
  | .integer, .text s =>
      match cv.textToNumber s with
      | some (.int i) => .int i
      | some (.real q) => if q.den = 1 then .int q.num else .real q
      | none => .text s
  | .real, .int i => .real i
  | .real, .text s =>
      match cv.textToNumber s with
      | some (.int i) => .real i
      | some (.real q) => .real q
      | none => .text s
  | _, v => v

/-! ## Tables, database, store -/

/-- A stored row: its rowid (the `id` column) and the values of the other columns. -/
structure Row where
  id : Int
  cells : List (String × Value)
  deriving DecidableEq, Repr

/-- The value a row holds in a column other than `id`. -/
def Row.get (r : Row) (col : String) : Value :=
  (r.cells.lookup col).getD .null

/-- A table: its rows in rowid order and its `sqlite_sequence` entry. -/
structure Table where
  rows : List Row
  seq : Int
  deriving DecidableEq, Repr

/-- The five tables of the database file. -/
structure Database where
  settings : Table
  income : Table
  outgoing : Table
  payment_providers : Table
  image_cache : Table
  deriving DecidableEq, Repr

/-- An open sql.js database: its content and the counters of its connection. -/
structure Connection where
  data : Database
  changes : Nat
  lastInsertRowid : Int
  deriving DecidableEq, Repr

/-- The module state of `database.js` together with the file at `dbPath`. -/
structure Store where
  db : Option Connection
  dbPath : Option String
  file : Option Database
  deriving DecidableEq, Repr

/-- The table of a given name. -/
def Database.table (d : Database) : String → Table
  | "settings" => d.settings
  | "income" => d.income
  | "outgoing" => d.outgoing
  | "payment_providers" => d.payment_providers
  | "image_cache" => d.image_cache
  | _ => ⟨[], 0⟩

/-- Replaces the table of a given name. -/
def Database.setTable (d : Database) (name : String) (t : Table) : Database :=
  match name with
  | "settings" => { d with settings := t }
  | "income" => { d with income := t }
  | "outgoing" => { d with outgoing := t }
  | "payment_providers" => { d with payment_providers := t }
  | "image_cache" => { d with image_cache := t }
  | _ => d

/-! ## Ordering of values -/

/-- Lexicographic order on sequences of numbers (the order of `memcmp`, a proper
prefix first). -/
def lexLeb : List Nat → List Nat → Bool
  | [], _ => true
  | _ :: _, [] => false
  | a :: as, b :: bs => if a < b then true else if a = b then lexLeb as bs else false

/-- The code points of a text.  The engine compares the UTF-8 bytes of two texts; that
order is the lexicographic order of their code points. -/
def codePoints (s : String) : List Nat :=
  s.data.map Char.toNat

/-- The engine's order on values, as used by `ORDER BY`: NULL first, then numbers by
value, then text in byte order, then blobs in byte order. -/
def Value.leb : Value → Value → Bool
  | .null, _ => true
  | .int i, .int j => decide ((i : ℚ) ≤ j)
  | .int i, .real q => decide ((i : ℚ) ≤ q)
  | .int _, .text _ => true
  | .int _, .blob _ => true
  | .real p, .int j => decide (p ≤ (j : ℚ))
  | .real p, .real q => decide (p ≤ q)
  | .real _, .text _ => true
  | .real _, .blob _ => true
  | .text s, .text t => lexLeb (codePoints s) (codePoints t)
  | .text _, .blob _ => true
  | .blob x, .blob y => lexLeb x y
  | _, _ => false

/-- The relation `a` may precede `b` under `ORDER BY createdAt DESC`. -/
def createdAtDesc (a b : Row) : Prop :=
  Value.leb (b.get "createdAt") (a.get "createdAt") = true

instance : DecidableRel createdAtDesc :=
  fun a b => inferInstanceAs (Decidable (Value.leb (b.get "createdAt") (a.get "createdAt") = true))

/-! ## Statements -/

/-- One result set of `db.exec`. -/
structure QueryResult where
  columns : List String
  values : List (List JsValue)
  deriving DecidableEq, Repr

/-- The values of a row in the column order of `SELECT *`. -/
def rowValues (tableName : String) (r : Row) : List JsValue :=
  .number r.id :: (schema tableName).map (fun c => toJs (r.get c.name))

/-- The result of `db.exec` for a query that yields the given rows: no result set at
all when there is no row. -/
def resultSet (tableName : String) : List Row → List QueryResult
  | [] => []
  | r :: rs => [⟨columnNames tableName, (r :: rs).map (rowValues tableName)⟩]

/-- The query `SELECT * FROM t ORDER BY createdAt DESC`: the scan of the table in
rowid order goes through the engine's sorter, which keeps rows of equal key in the
order it received them. -/
def selectAllByCreatedAtDesc (d : Database) (tableName : String) : List QueryResult :=
  resultSet tableName ((d.table tableName).rows.insertionSort createdAtDesc)

/-- The rows with a given rowid, found by a seek on the rowid. -/
def selectByRowid (d : Database) (tableName : String) (k : Int) : List QueryResult :=
  match (d.table tableName).rows.find? (fun r => r.id = k) with
  | none => []
  | some r => resultSet tableName [r]

/-- The query `SELECT * FROM t WHERE id = ?`: a lookup by rowid. -/
def selectById (cv : Conversions) (d : Database) (tableName : String) (id : Value) :
    List QueryResult :=
  match rowidOf cv id with
  | none => []
  | some k => selectByRowid d tableName k

/-- Inserts a row at its place in rowid order. -/
def insertRow (r : Row) : List Row → List Row
  | [] => [r]
  | x :: xs => if r.id < x.id then r :: x :: xs else x :: insertRow r xs

/-- The rowid of the last row of a scan, if any. -/
def lastRowid : List Row → Option Int
  | [] => none
  | [r] => some r.id
  | _ :: r :: rs => lastRowid (r :: rs)

/-- The rowid an `AUTOINCREMENT` table chooses for a new row: one more than the
larger of the last rowid and the `sqlite_sequence` entry; the insert fails when
either has reached the largest rowid. -/
def newRowid (t : Table) : Except String Int :=
  let last := lastRowid t.rows
  if last = some maxRowid ∨ t.seq = maxRowid then .error "database or disk is full"
  else
    let v := match last with
      | none => 1
      | some m => m + 1
    .ok (if v < t.seq + 1 then t.seq + 1 else v)

/-- The first declared column that is `NOT NULL` and would hold NULL. -/
def notNullViolation (tableName : String) (cells : List (String × Value)) : Option String :=
  ((schema tableName).find? (fun c => c.notNull && decide (cells.lookup c.name = some .null))).map
    Column.name

/-- The characters of a name with its ASCII letters in lower case: the engine compares
the names of columns without regard to the case of ASCII letters. -/
def foldCase (s : String) : List Char :=
  s.data.map Char.toLower

/-- Whether the engine takes two names for the same. -/
def sameName (a b : String) : Bool :=
  foldCase a == foldCase b

/-- The names under which the engine knows the rowid of every table, unless a declared
column bears the name. -/
def rowidAliases : List String := ["_rowid_", "rowid", "oid"]

/-- The column a name in a column list or in an assignment stands for: the declared
column of that name, case set aside (`id`, the integer primary key, is the rowid), or
else the rowid when the name is one of its aliases. -/
def resolveColumn (tableName n : String) : Option String :=
  match (columnNames tableName).find? (fun c => sameName c n) with
  | some c => some c
  | none => if rowidAliases.any (fun a => sameName a n) then some "id" else none

/-- Whether a character is a letter of the ASCII alphabet, a digit or the underscore. -/
def identifierChar (c : Char) : Bool :=
  c.isAlphanum || c == '_'

/-- Whether a key consists of identifier characters only.  The gateway splices the keys
of a field object into the text of its statement unquoted; such a key is one token there
and is read as one name.  A key with any other character changes the statement itself
and is outside the model, where it is refused like an unknown name. -/
def plainKey (k : String) : Bool :=
  k.data.all identifierChar

/-- Whether a list of properties is a field object the model covers: no key occurs
twice (it is an object) and every key is a plain key. -/
def plainObject {α : Type} (o : List (String × α)) : Bool :=
  decide (o.map Prod.fst).Nodup && o.all (fun p => plainKey p.1)

/-- The first name of the list that stands for no column of the table. -/
def unknownColumn (tableName : String) (names : List String) : Option String :=
  names.find? (fun n => (resolveColumn tableName n).isNone)

/-- The first entry of a list of named values whose name stands for the given column. -/
def firstFor {α : Type} (tableName col : String) : List (String × α) → Option (String × α)
  | [] => none
  | (k, v) :: rest =>
      if resolveColumn tableName k = some col then some (k, v) else firstFor tableName col rest

/-- The last entry of a list of named values whose name stands for the given column. -/
def lastFor {α : Type} (tableName col : String) : List (String × α) → Option (String × α)
  | [] => none
  | (k, v) :: rest =>
      match lastFor tableName col rest with
      | some p => some p
      | none => if resolveColumn tableName k = some col then some (k, v) else none

/-- The value an `INSERT` with a column list gives each column it names.  For every
column of the table the engine looks through the list for the first name that stands
for it; the rowid is taken from the last name that stands for it. -/
def insertValues (tableName : String) (vals : List (String × Value)) : List (String × Value) :=
  (columnNames tableName).filterMap (fun col =>
    (if col = "id" then lastFor tableName col vals else firstFor tableName col vals).map
      (fun p => (col, p.2)))

/-- The value an `UPDATE` assigns to each column it names: of several assignments to
one column the rightmost counts. -/
def updateValues (tableName : String) (vals : List (String × Value)) : List (String × Value) :=
  (columnNames tableName).filterMap (fun col =>
    (lastFor tableName col vals).map (fun p => (col, p.2)))

/-- The cells of a new row: the value given for a column under the column's
affinity, its declared default when the column is not named. -/
def newCells (cv : Conversions) (tableName : String) (vals : List (String × Value)) :
    List (String × Value) :=
  (schema tableName).map (fun c =>
    (c.name, match vals.lookup c.name with
      | some v => applyAffinity cv c.affinity v
      | none => c.dflt))

/-- The statement `INSERT INTO t (columns) VALUES (values)` on a record table; it
returns the new table and the rowid of the new row. -/
def runInsert (cv : Conversions) (tableName : String) (t : Table)
    (vals : List (String × Value)) : Except String (Table × Int) :=
  let given := match vals.lookup "id" with
    | none => none
    | some .null => none
    | some v => some v
  let rowid : Except String Int := match given with
    | none => newRowid t
    | some v =>
        match rowidOf cv v with
        | none => .error "datatype mismatch"
        | some k => .ok k
  match rowid with
  | .error e => .error e
  | .ok k =>
      let cells := newCells cv tableName vals
      match notNullViolation tableName cells with
      | some c => .error ("NOT NULL constraint failed: " ++ tableName ++ "." ++ c)
      | none =>
          if t.rows.any (fun r => r.id = k) then
            .error ("UNIQUE constraint failed: " ++ tableName ++ ".id")
          else
            .ok (⟨insertRow ⟨k, cells⟩ t.rows, if k < t.seq then t.seq else k⟩, k)

/-- The cells of an updated row: the value assigned to a column under the column's
affinity, the row's own value when the column is not assigned. -/
def updatedCells (cv : Conversions) (tableName : String) (assigns : List (String × Value))
    (r : Row) : List (String × Value) :=
  (schema tableName).map (fun c =>
    (c.name, match assigns.lookup c.name with
      | some v => applyAffinity cv c.affinity v
      | none => r.get c.name))

/-- The statement `UPDATE t SET assignments WHERE id = ?`; it returns the new table
and the number of rows changed. -/
def runUpdate (cv : Conversions) (tableName : String) (t : Table)
    (assigns : List (String × Value)) (id : Value) : Except String (Table × Nat) :=
  match rowidOf cv id with
  | none => .ok (t, 0)
  | some k =>
      match t.rows.find? (fun r => r.id = k) with
      | none => .ok (t, 0)
      | some r =>
          let rowid : Except String Int := match assigns.lookup "id" with
            | none => .ok r.id
            | some v =>
                match rowidOf cv v with
                | none => .error "datatype mismatch"
                | some j => .ok j
          match rowid with
          | .error e => .error e
          | .ok j =>
              let cells := updatedCells cv tableName assigns r
              match notNullViolation tableName cells with
              | some c => .error ("NOT NULL constraint failed: " ++ tableName ++ "." ++ c)
              | none =>
                  if j ≠ k ∧ t.rows.any (fun x => x.id = j) then
                    .error ("UNIQUE constraint failed: " ++ tableName ++ ".id")
                  else
                    .ok (⟨insertRow ⟨j, cells⟩ (t.rows.filter (fun x => x.id ≠ k)), t.seq⟩, 1)

/-- The statement `DELETE FROM t WHERE id = ?`; it returns the new table and the
number of rows deleted. -/
def runDelete (cv : Conversions) (t : Table) (id : Value) : Table × Nat :=
  match rowidOf cv id with
  | none => (t, 0)
  | some k => (⟨t.rows.filter (fun x => x.id ≠ k), t.seq⟩, t.rows.countP (fun x => x.id = k))

/-! ## `database.js` -/

/-- The function `resultToObjects`: the rows of the first result set as objects. -/
def resultToObjects (result : List QueryResult) : List FieldObject :=
  match result with
  | [] => []
  | first :: _ => first.values.map (fun row => first.columns.zip row)

/-- The function `resultToObject`: the first object, or `null`. -/
def resultToObject (result : List QueryResult) : Option FieldObject :=
  (resultToObjects result).head?

/-- Whether a path is a truthy JavaScript value. -/
def truthyPath : Option String → Bool
  | none => false
  | some p => p != ""

/-- The function `saveDatabase`: when `db` and `dbPath` are set, `db.export()`
writes the database to the file.  The export closes the connection and opens a new
one on the same content, so the counters of the connection start again at zero. -/
def saveDatabase (s : Store) : Store :=
  match s.db with
  | none => s
  | some c =>
      if truthyPath s.dbPath then
        { s with db := some { c with changes := 0, lastInsertRowid := 0 },
                 file := some c.data }
      else s

/-- The table names the gateway accepts. -/
def validTables : List String := ["income", "outgoing", "payment_providers"]

/-- The message of the error a method call on the `null` handle throws. -/
def nullHandle (method : String) : String :=
  "Cannot read properties of null (reading '" ++ method ++ "')"

/-- The function `getAll`. -/
def getAll (tableName : String) (s : Store) : Except String (List FieldObject) × Store :=
  if !validTables.contains tableName then (.error "Invalid table name", s)
  else
    match s.db with
    | none => (.error (nullHandle "exec"), s)
    | some c => (.ok (resultToObjects (selectAllByCreatedAtDesc c.data tableName)), s)

/-- The function `getOne`. -/
def getOne (cv : Conversions) (tableName : String) (id : JsValue) (s : Store) :
    Except String (Option FieldObject) × Store :=
  if !validTables.contains tableName then (.error "Invalid table name", s)
  else
    match s.db with
    | none => (.error (nullHandle "exec"), s)
    | some c =>
        match bindValue id with
        | .error e => (.error e, s)
        | .ok v => (.ok (resultToObject (selectById cv c.data tableName v)), s)

/-- The call `db.run` of `insert`: prepare, bind, step. -/
def dbRunInsert (cv : Conversions) (tableName : String) (data : FieldObject)
    (c : Connection) : Except String Connection :=
  match unknownColumn tableName (data.map Prod.fst) with
  | some n => .error ("table " ++ tableName ++ " has no column named " ++ n)
  | none =>
      match bindFields data with
      | .error e => .error e
      | .ok vals =>
          match runInsert cv tableName (c.data.table tableName)
              (insertValues tableName vals) with
          | .error e => .error e
          | .ok (t, k) =>
              .ok { data := c.data.setTable tableName t, changes := 1, lastInsertRowid := k }

/-- The query `SELECT last_insert_rowid() as id`. -/
def selectLastInsertRowid (c : Connection) : List QueryResult :=
  [⟨["id"], [[.number c.lastInsertRowid]]⟩]

/-- The property `id` of an optional object (`obj?.id`). -/
def idOf : Option FieldObject → JsValue
  | none => .undefined
  | some o => (o.lookup "id").getD .undefined

/-- The function `insert`; the result is `insertedId`. -/
def insert (cv : Conversions) (tableName : String) (data : FieldObject) (now : String)
    (s : Store) : Except String JsValue × Store :=
  if !validTables.contains tableName then (.error "Invalid table name", s)
  else
    let data := setField "updatedAt" (.string now) (setField "createdAt" (.string now) data)
    match s.db with
    | none => (.error (nullHandle "run"), s)
    | some c =>
        match dbRunInsert cv tableName data c with
        | .error e => (.error e, s)
        | .ok c1 =>
            let insertedId := idOf (resultToObject (selectLastInsertRowid c1))
            (.ok insertedId, saveDatabase { s with db := some c1 })

/-- The call `db.run` of `update`: prepare, bind the values and then the id, step. -/
def dbRunUpdate (cv : Conversions) (tableName : String) (data : FieldObject) (id : JsValue)
    (c : Connection) : Except String Connection :=
  match unknownColumn tableName (data.map Prod.fst) with
  | some n => .error ("no such column: " ++ n)
  | none =>
      match bindFields data with
      | .error e => .error e
      | .ok assigns =>
          match bindValue id with
          | .error e => .error e
          | .ok v =>
              match runUpdate cv tableName (c.data.table tableName)
                  (updateValues tableName assigns) v with
              | .error e => .error e
              | .ok (t, n) =>
                  .ok { c with data := c.data.setTable tableName t, changes := n }

/-- The call `db.getRowsModified()`. -/
def getRowsModified (s : Store) : Except String Nat :=
  match s.db with
  | none => .error (nullHandle "getRowsModified")
  | some c => .ok c.changes

/-- The function `update`; the result is `modifiedCount`, read after
`saveDatabase`. -/
def update (cv : Conversions) (tableName : String) (id : JsValue) (data : FieldObject)
    (now : String) (s : Store) : Except String Nat × Store :=
  if !validTables.contains tableName then (.error "Invalid table name", s)
  else
    let data := setField "updatedAt" (.string now) data
    match s.db with
    | none => (.error (nullHandle "run"), s)
    | some c =>
        match dbRunUpdate cv tableName data id c with
        | .error e => (.error e, s)
        | .ok c1 =>
            let s1 := saveDatabase { s with db := some c1 }
            (getRowsModified s1, s1)

/-- The call `db.run` of `deleteOne`. -/
def dbRunDelete (cv : Conversions) (tableName : String) (id : JsValue) (c : Connection) :
    Except String Connection :=
  match bindValue id with
  | .error e => .error e
  | .ok v =>
      let (t, n) := runDelete cv (c.data.table tableName) v
      .ok { c with data := c.data.setTable tableName t, changes := n }

/-- The function `deleteOne`; the result is `deletedCount`, read before
`saveDatabase`. -/
def deleteOne (cv : Conversions) (tableName : String) (id : JsValue) (s : Store) :
    Except String Nat × Store :=
  if !validTables.contains tableName then (.error "Invalid table name", s)
  else
    match s.db with
    | none => (.error (nullHandle "run"), s)
    | some c =>
        match dbRunDelete cv tableName id c with
        | .error e => (.error e, s)
        | .ok c1 =>
            let deletedCount := c1.changes
            (.ok deletedCount, saveDatabase { s with db := some c1 })

/-- The database of `new SQL.Database()` once the five `CREATE TABLE IF NOT EXISTS`
statements have run. -/
def emptyDatabase : Database :=
  ⟨⟨[], 0⟩, ⟨[], 0⟩, ⟨[], 0⟩, ⟨[], 0⟩, ⟨[], 0⟩⟩

/-- The settings row `initDatabase` inserts when there is none with id 1. -/
def defaultSettings (now : String) : Row :=
  ⟨1, [("name", .text "User"), ("profileImage", .null), ("currency", .text "EUR"),
       ("masterPasswordHash", .null), ("setupCompleted", .int 0),
       ("createdAt", .text now), ("updatedAt", .text now)]⟩

/-- The function `initDatabase`: loads the file at `filePath` when it exists, creates
the missing tables, inserts the settings row when it is missing, and saves. -/
def initDatabase (filePath : String) (now : String) (s : Store) : Store :=
  let loaded : Database := match s.file with
    | some d => d
    | none => emptyDatabase
  let c : Connection := ⟨loaded, 0, 0⟩
  let inserted : Connection :=
    { data := c.data.setTable "settings"
        ⟨insertRow (defaultSettings now) c.data.settings.rows, c.data.settings.seq⟩,
      changes := 1, lastInsertRowid := 1 }
  let c1 : Connection :=
    match selectByRowid c.data "settings" 1 with
    | [] => inserted
    | first :: _ => if first.values.length = 0 then inserted else c
  saveDatabase { db := some c1, dbPath := some filePath, file := s.file }

/-- An engine that reads no number from any text. -/
def plainConversions : Conversions := ⟨fun _ => "", fun _ => none⟩

/-- The store after `initDatabase` on a path where no file exists yet. -/
def freshStore : Store :=
  initDatabase "finance_tracker.db" "2024-01-01T00:00:00.000Z" ⟨none, none, none⟩

/-- The declared column of a given name. -/
def columnOf (tableName col : String) : Option Column :=
  (schema tableName).find? (fun c => c.name = col)

/-- The columns of a table that are declared `NOT NULL` without a default. -/
def requiredFields (tableName : String) : List String :=
  ((schema tableName).filter (fun c => c.notNull && decide (c.dflt = .null))).map Column.name

/-- The state a table of the engine is always in: rows in strictly ascending rowid
order (the primary key is unique), rowids within the 64-bit range, and a
`sqlite_sequence` entry between zero and the largest rowid. -/
def Table.WF (t : Table) : Prop :=
  t.rows.Pairwise (fun a b => a.id < b.id) ∧
  (∀ r ∈ t.rows, minRowid ≤ r.id ∧ r.id ≤ maxRowid) ∧
  0 ≤ t.seq ∧ t.seq ≤ maxRowid

/-- A call of the gateway that inserts or deletes. -/
inductive Call where
  | insert (data : FieldObject) (now : String)
  | deleteOne (id : JsValue)
  deriving DecidableEq, Repr

/-- Runs a sequence of `insert` and `deleteOne` calls on one table and collects, in
order, the `insertedId` of every insert that succeeded. -/
def runCalls (cv : Conversions) (tableName : String) : List Call → Store → List JsValue × Store
  | [], s => ([], s)
  | .insert data now :: rest, s =>
      match insert cv tableName data now s with
      | (.ok id, s1) =>
          let (ids, s2) := runCalls cv tableName rest s1
          (id :: ids, s2)
      | (.error _, s1) => runCalls cv tableName rest s1
  | .deleteOne id :: rest, s => runCalls cv tableName rest (deleteOne cv tableName id s).2

/-- The JavaScript values a column of the given affinity gives back as they were
given: `null` and byte arrays in every column, strings in a TEXT column, numbers in a
REAL or INTEGER column, strings and numbers in a BLOB column. -/
def storedAsGiven : Affinity → JsValue → Bool
  | _, .null => true
  | _, .bytes _ => true
  | .text, .string _ => true
  | .blob, .string _ => true
  | .real, .number _ => true
  | .integer, .number _ => true
  | .blob, .number _ => true
  | _, _ => false

/-- Every record table of the open database is in the state the engine keeps it in. -/
def Store.WF (s : Store) : Prop :=
  ∀ c, s.db = some c → ∀ tableName ∈ validTables, (c.data.table tableName).WF

/-- An income record as the income page submits it. -/
def salary : FieldObject :=
  [("description", .string "Salary"), ("amount", .number 100), ("date", .string "2024-01-15")]

/-- An income record whose keys are spelled in another case than the schema spells
its columns, with a category and a second key for the description. -/
def mixedCaseSalary : FieldObject :=
  [("Description", .string "Salary"), ("AMOUNT", .number 100), ("date", .string "2024-01-15"),
   ("category", .string "Work"), ("description", .string "Wages")]

/-- An outgoing record with a boolean `recurring` flag. -/
def rent : FieldObject :=
  [("description", .string "Rent"), ("amount", .number 800), ("date", .string "2024-01-01"),
   ("recurring", .bool true)]

/-- The object `resultToObjects` builds for a row of `SELECT *`. -/
def recordOf (tableName : String) (r : Row) : FieldObject :=
  ("id", .number r.id) :: (schema tableName).map (fun c => (c.name, toJs (r.get c.name)))

/-- The store after one income record was inserted into the fresh store. -/
def storeWithSalary : Store :=
  (insert plainConversions "income" salary "2024-02-01T10:00:00.000Z" freshStore).2

/-- The row that insert stored in `storeWithSalary`. -/
def salaryRow : Row :=
  ⟨1, [("description", .text "Salary"), ("amount", .real 100), ("date", .text "2024-01-15"),
       ("category", .null), ("provider", .null), ("icon", .null),
       ("createdAt", .text "2024-02-01T10:00:00.000Z"),
       ("updatedAt", .text "2024-02-01T10:00:00.000Z")]⟩

/-- A second income record. -/
def bonus : FieldObject :=
  [("description", .string "Bonus"), ("amount", .number 50), ("date", .string "2024-02-10")]

/-- The store after three income records were inserted into the fresh store: the salary
first, then, both at one later instant, the bonus and the salary again. -/
def storeWithThree : Store :=
  (insert plainConversions "income" salary "2024-02-02T10:00:00.000Z"
    (insert plainConversions "income" bonus "2024-02-02T10:00:00.000Z"
      (insert plainConversions "income" salary "2024-02-01T10:00:00.000Z" freshStore).2).2).2

/-- The rows that the three inserts stored in `storeWithThree`, in rowid order. -/
def threeRows : List Row :=
  [⟨1, [("description", .text "Salary"), ("amount", .real 100), ("date", .text "2024-01-15"),
        ("category", .null), ("provider", .null), ("icon", .null),
        ("createdAt", .text "2024-02-01T10:00:00.000Z"),
        ("updatedAt", .text "2024-02-01T10:00:00.000Z")]⟩,
   ⟨2, [("description", .text "Bonus"), ("amount", .real 50), ("date", .text "2024-02-10"),
        ("category", .null), ("provider", .null), ("icon", .null),
        ("createdAt", .text "2024-02-02T10:00:00.000Z"),
        ("updatedAt", .text "2024-02-02T10:00:00.000Z")]⟩,
   ⟨3, [("description", .text "Salary"), ("amount", .real 100), ("date", .text "2024-01-15"),
        ("category", .null), ("provider", .null), ("icon", .null),
        ("createdAt", .text "2024-02-02T10:00:00.000Z"),
        ("updatedAt", .text "2024-02-02T10:00:00.000Z")]⟩]

/-- The store after one outgoing record was inserted into the fresh store. -/
def storeWithRent : Store :=
  (insert plainConversions "outgoing" rent "2024-02-01T10:00:00.000Z" freshStore).2

/-- Whether a call is an insert whose field object gives the rowid a value other than
`null`: the value of the last key that stands for the rowid. -/
def Call.suppliesId (tableName : String) : Call → Bool
  | .insert data _ =>
      match lastFor tableName "id" data with
      | none => false
      | some (_, .null) => false
      | some _ => true
  | .deleteOne _ => false

/-- Whether the field object of a call, if it has one, is a plain object. -/
def Call.plain : Call → Bool
  | .insert data _ => plainObject data
  | .deleteOne _ => true

/-- The order of the rows `getAll` returns: `a` may precede `b` under
`ORDER BY createdAt DESC`, and it has the smaller id when `b` may precede `a` too. -/
def precedes (a b : Row) : Prop :=
  createdAtDesc a b ∧ (createdAtDesc b a → a.id < b.id)

/-! ## Settings and credentials -/

/-- The function `getSettings`: the row of `SELECT * FROM settings WHERE id = 1`. -/
def getSettings (s : Store) : Except String (Option FieldObject) × Store :=
  match s.db with
  | none => (.error (nullHandle "exec"), s)
  | some c => (.ok (resultToObject (selectByRowid c.data "settings" 1)), s)

/-- The query `SELECT setupCompleted FROM settings WHERE id = 1`. -/
def selectSetupCompleted (d : Database) : List QueryResult :=
  match d.settings.rows.find? (fun r => r.id = 1) with
  | none => []
  | some r => [⟨["setupCompleted"], [[toJs (r.get "setupCompleted")]]⟩]

/-- A property of an optional object (`obj?.key`, and `obj.key` for an object). -/
def property (key : String) : Option FieldObject → JsValue
  | none => .undefined
  | some o => (o.lookup key).getD .undefined

/-- The function `isFirstRun`: `!settings || settings.setupCompleted === 0`. -/
def isFirstRun (s : Store) : Except String Bool × Store :=
  match s.db with
  | none => (.error (nullHandle "exec"), s)
  | some c =>
      let settings := resultToObject (selectSetupCompleted c.data)
      match settings with
      | none => (.ok true, s)
      | some o => (.ok (decide (property "setupCompleted" (some o) = .number 0)), s)

/-- Whether a JavaScript value is truthy. -/
def truthy : JsValue → Bool
  | .undefined => false
  | .null => false
  | .bool b => b
  | .number q => decide (q ≠ 0)
  | .string t => t != ""
  | .bytes _ => true

/-- The result of `typeof`. -/
def typeOf : JsValue → String
  | .undefined => "undefined"
  | .null => "object"
  | .bool _ => "boolean"
  | .number _ => "number"
  | .string _ => "string"
  | .bytes _ => "object"

/-- The UTF-8 bytes of a code point. -/
def utf8Char (c : Nat) : List Nat :=
  if c < 128 then [c]
  else if c < 2048 then [192 + c / 64, 128 + c % 64]
  else if c < 65536 then [224 + c / 4096, 128 + c / 64 % 64, 128 + c % 64]
  else [240 + c / 262144, 128 + c / 4096 % 64, 128 + c / 64 % 64, 128 + c % 64]

/-- The UTF-8 bytes of a string. -/
def utf8 (s : String) : List Nat :=
  (codePoints s).flatMap utf8Char

/-- The key bytes bcrypt works on: the UTF-8 bytes of the password followed by a NUL
byte, read cyclically for the 18 words (72 bytes) of the Blowfish key schedule.  Bytes
of the password beyond the 72nd are never read. -/
def bcryptKey (password : String) : List Nat :=
  let bytes := utf8 password ++ [0]
  (List.range 72).map (fun i => bytes.getD (i % bytes.length) 0)

/-- The first `n` characters of a string. -/
def takeChars (n : Nat) (s : String) : String :=
  ⟨s.data.take n⟩

/-- The Blowfish core of bcrypt: from the 72 key bytes and the salt setting (version,
cost and 22 salt characters, 29 characters in all) to the 60 character hash string,
or the error thrown for a malformed setting. -/
structure Bcrypt where
  crypt : List Nat → String → Except String String

/-- The function `hashPassword`, that is `bcrypt.hashSync(password, 10)`; `salt` is the
setting `genSaltSync(10)` draws. -/
def hashPassword (bc : Bcrypt) (password : JsValue) (salt : String) : Except String String :=
  match password with
  | .string p => bc.crypt (bcryptKey p) salt
  | other => .error ("Illegal arguments: " ++ typeOf other ++ ", string")

/-- The function `verifyPassword`, that is `bcrypt.compareSync(password, hash)`: a hash
that has not 60 characters is refused; otherwise the password is hashed under the
setting the hash begins with and the two strings are compared. -/
def verifyPassword (bc : Bcrypt) (password hash : JsValue) : Except String Bool :=
  match password, hash with
  | .string p, .string h =>
      if h.length ≠ 60 then .ok false
      else
        match bc.crypt (bcryptKey p) (takeChars 29 h) with
        | .error e => .error e
        | .ok h1 => .ok (h1 == h)
  | p, h => .error ("Illegal arguments: " ++ typeOf p ++ ", " ++ typeOf h)

/-- A `db.run` of an `UPDATE settings SET ... WHERE id = 1` statement with bound values. -/
def dbRunUpdateSettings (cv : Conversions) (assigns : List (String × Value)) (c : Connection) :
    Except String Connection :=
  match runUpdate cv "settings" c.data.settings assigns (.int 1) with
  | .error e => .error e
  | .ok (t, n) => .ok { c with data := c.data.setTable "settings" t, changes := n }

/-- The function `completeSetup`. -/
def completeSetup (cv : Conversions) (bc : Bcrypt) (name currency password profileImage : JsValue)
    (salt now : String) (s : Store) : Except String Unit × Store :=
  match hashPassword bc password salt with
  | .error e => (.error e, s)
  | .ok passwordHash =>
      match s.db with
      | none => (.error (nullHandle "run"), s)
      | some c =>
          match bindFields [("name", name), ("currency", currency),
              ("masterPasswordHash", .string passwordHash), ("profileImage", profileImage)] with
          | .error e => (.error e, s)
          | .ok vals =>
              match dbRunUpdateSettings cv
                  (vals ++ [("setupCompleted", .int 1), ("updatedAt", .text now)]) c with
              | .error e => (.error e, s)
              | .ok c1 => (.ok (), saveDatabase { s with db := some c1 })

/-- The expression `updates.key !== undefined ? updates.key : settings.key`. -/
def pickSetting (updates : FieldObject) (settings : Option FieldObject) (key : String) :
    Except String JsValue :=
  if property key (some updates) ≠ .undefined then .ok (property key (some updates))
  else
    match settings with
    | none => .error ("Cannot read properties of null (reading '" ++ key ++ "')")
    | some o => .ok (property key (some o))

/-- The function `updateSettings`. -/
def updateSettings (cv : Conversions) (updates : FieldObject) (now : String) (s : Store) :
    Except String Unit × Store :=
  match getSettings s with
  | (.error e, s1) => (.error e, s1)
  | (.ok settings, s1) =>
      match pickSetting updates settings "name" with
      | .error e => (.error e, s1)
      | .ok newName =>
          match pickSetting updates settings "currency" with
          | .error e => (.error e, s1)
          | .ok newCurrency =>
              match pickSetting updates settings "profileImage" with
              | .error e => (.error e, s1)
              | .ok newProfileImage =>
                  match s1.db with
                  | none => (.error (nullHandle "run"), s1)
                  | some c =>
                      match bindFields [("name", newName), ("currency", newCurrency),
                          ("profileImage", newProfileImage), ("updatedAt", .string now)] with
                      | .error e => (.error e, s1)
                      | .ok vals =>
                          match dbRunUpdateSettings cv vals c with
                          | .error e => (.error e, s1)
                          | .ok c1 => (.ok (), saveDatabase { s1 with db := some c1 })

/-- The reply of the `auth:verifyPassword` handler: `{ success: true, isValid }` or
`{ success: false, error }`. -/
inductive VerifyReply where
  | success (isValid : Bool)
  | failure (error : String)
  deriving DecidableEq, Repr

/-- The handler of `auth:verifyPassword` in `main.js`. -/
def verifyPasswordHandler (bc : Bcrypt) (password : JsValue) (s : Store) : VerifyReply × Store :=
  match getSettings s with
  | (.error e, s1) => (.failure e, s1)
  | (.ok settings, s1) =>
      if !truthy (property "masterPasswordHash" settings) then (.failure "No password set", s1)
      else
        match verifyPassword bc password (property "masterPasswordHash" settings) with
        | .error e => (.failure e, s1)
        | .ok isValid => (.success isValid, s1)

/-- A stand-in for the Blowfish core, used to evaluate examples: the hash is the
setting followed by 31 letters read off the key bytes. -/
def sampleBcrypt : Bcrypt :=
  ⟨fun key salt =>
    .ok (salt ++ String.mk ((List.range 31).map (fun i => Char.ofNat (97 + key.getD i 0 % 26))))⟩

/-- A salt setting as `genSaltSync(10)` produces it. -/
def sampleSalt : String := "$2a$10$abcdefghijklmnopqrstuv"

/-- What the theorems assume of the Blowfish core for a salt setting: every key is
hashed to a string of 60 characters that begins with the setting. -/
def Bcrypt.Accepts (bc : Bcrypt) (salt : String) : Prop :=
  ∀ key, ∃ h, bc.crypt key salt = .ok h ∧ h.length = 60 ∧ takeChars 29 h = salt

/-- The store after `initDatabase` on a database file whose settings row holds NULL in
`setupCompleted`. -/
def nullFlagStore : Store :=
  initDatabase "finance_tracker.db" "2024-03-01T09:00:00.000Z"
    ⟨none, none, some { emptyDatabase with settings :=
      ⟨[⟨1, [("name", .text "User"), ("profileImage", .null), ("currency", .text "EUR"),
             ("masterPasswordHash", .null), ("setupCompleted", .null),
             ("createdAt", .text "2024-01-01T00:00:00.000Z"),
             ("updatedAt", .text "2024-01-01T00:00:00.000Z")]⟩], 0⟩ }⟩

/-- A password of 73 characters: 72 times `a`, then the given character. -/
def paddedPassword (last : Char) : String :=
  String.mk (List.replicate 72 'a' ++ [last])

/-- The store after `completeSetup` with the password `secret123` on the fresh store. -/
def storeAfterSetup : Store :=
  (completeSetup plainConversions sampleBcrypt (.string "Ann") (.string "USD")
    (.string "secret123") .null sampleSalt "2024-03-01T09:00:00.000Z" freshStore).2

/-- The settings object `getSettings` returns on `storeAfterSetup`. -/
def storedSettings : FieldObject :=
  [("id", .number 1), ("name", .string "Ann"), ("profileImage", .null),
   ("currency", .string "USD"),
   ("masterPasswordHash", .string "$2a$10$abcdefghijklmnopqrstuvlxvkxmxyzalxvkxmxyzalxvkxmxyzal"),
   ("setupCompleted", .number 1), ("createdAt", .string "2024-01-01T00:00:00.000Z"),
   ("updatedAt", .string "2024-03-01T09:00:00.000Z")]

/-! ## Image cache -/

/-- The comparison `a = b` of the engine when it is true: NULL equals nothing, numbers
are compared by value, text with text and blob with blob byte by byte; values of
different storage classes are never equal. -/
def Value.sqlEq : Value → Value → Bool
  | .int i, .int j => decide (i = j)
  | .int i, .real q => decide ((i : ℚ) = q)
  | .real p, .int j => decide (p = (j : ℚ))
  | .real p, .real q => decide (p = q)
  | .text s, .text t => decide (s = t)
  | .blob x, .blob y => decide (x = y)
  | _, _ => false

/-- Whether a row satisfies `WHERE imageKey = ?`: the bound value is compared under the
TEXT affinity of the column. -/
def hasImageKey (cv : Conversions) (key : Value) (r : Row) : Bool :=
  Value.sqlEq (r.get "imageKey") (applyAffinity cv .text key)

/-- The query `SELECT id FROM image_cache WHERE imageKey = ?`. -/
def selectIdByImageKey (cv : Conversions) (d : Database) (key : Value) : List QueryResult :=
  match d.image_cache.rows.filter (hasImageKey cv key) with
  | [] => []
  | r :: rs => [⟨["id"], (r :: rs).map (fun x => [JsValue.number x.id])⟩]

/-- The query `SELECT * FROM image_cache WHERE imageKey = ?`. -/
def selectByImageKey (cv : Conversions) (d : Database) (key : Value) : List QueryResult :=
  resultSet "image_cache" (d.image_cache.rows.filter (hasImageKey cv key))

/-- The statement `UPDATE image_cache SET assignments WHERE imageKey = ?`; it returns
the new table and the number of rows changed. -/
def runUpdateImage (cv : Conversions) (t : Table) (assigns : List (String × Value))
    (key : Value) : Except String (Table × Nat) :=
  let hits := t.rows.filter (hasImageKey cv key)
  match hits.findSome? (fun r =>
      notNullViolation "image_cache" (updatedCells cv "image_cache" assigns r)) with
  | some c => .error ("NOT NULL constraint failed: image_cache." ++ c)
  | none =>
      .ok (⟨t.rows.map (fun r =>
              if hasImageKey cv key r then ⟨r.id, updatedCells cv "image_cache" assigns r⟩
              else r), t.seq⟩,
           hits.length)

/-- The statement `INSERT INTO image_cache (columns) VALUES (values)`: the insert of a
record table, and the `UNIQUE` constraint of `imageKey`. -/
def runInsertImage (cv : Conversions) (t : Table) (vals : List (String × Value)) :
    Except String (Table × Int) :=
  match runInsert cv "image_cache" t vals with
  | .error e => .error e
  | .ok (t1, k) =>
      if t.rows.any (fun r =>
          Value.sqlEq (r.get "imageKey") ((Row.mk k (newCells cv "image_cache" vals)).get "imageKey"))
      then .error "UNIQUE constraint failed: image_cache.imageKey"
      else .ok (t1, k)

/-- The statement `DELETE FROM image_cache WHERE imageKey = ?`; it returns the new
table and the number of rows deleted. -/
def runDeleteImage (cv : Conversions) (t : Table) (key : Value) : Table × Nat :=
  (⟨t.rows.filter (fun r => !hasImageKey cv key r), t.seq⟩,
   t.rows.countP (hasImageKey cv key))

/-- The function `saveImage`; the result is the id of the row. -/
def saveImage (cv : Conversions) (imageKey data mimeType : JsValue) (now : String)
    (s : Store) : Except String JsValue × Store :=
  match s.db with
  | none => (.error (nullHandle "exec"), s)
  | some c =>
      match bindValue imageKey with
      | .error e => (.error e, s)
      | .ok key =>
          match resultToObject (selectIdByImageKey cv c.data key) with
          | some existingObj =>
              match bindFields [("data", data), ("mimeType", mimeType)] with
              | .error e => (.error e, s)
              | .ok assigns =>
                  match runUpdateImage cv c.data.image_cache assigns key with
                  | .error e => (.error e, s)
                  | .ok (t, n) =>
                      let c1 : Connection :=
                        { c with data := c.data.setTable "image_cache" t, changes := n }
                      (.ok (property "id" (some existingObj)),
                       saveDatabase { s with db := some c1 })
          | none =>
              match bindFields [("imageKey", imageKey), ("data", data),
                  ("mimeType", mimeType), ("createdAt", .string now)] with
              | .error e => (.error e, s)
              | .ok vals =>
                  match runInsertImage cv c.data.image_cache vals with
                  | .error e => (.error e, s)
                  | .ok (t, k) =>
                      let c1 : Connection :=
                        { data := c.data.setTable "image_cache" t, changes := 1,
                          lastInsertRowid := k }
                      let insertedId := idOf (resultToObject (selectLastInsertRowid c1))
                      (.ok insertedId, saveDatabase { s with db := some c1 })

/-- The function `getImage`. -/
def getImage (cv : Conversions) (imageKey : JsValue) (s : Store) :
    Except String (Option FieldObject) × Store :=
  match s.db with
  | none => (.error (nullHandle "exec"), s)
  | some c =>
      match bindValue imageKey with
      | .error e => (.error e, s)
      | .ok key => (.ok (resultToObject (selectByImageKey cv c.data key)), s)

/-- The function `deleteImage`; the result is `deletedCount`, read before
`saveDatabase`. -/
def deleteImage (cv : Conversions) (imageKey : JsValue) (s : Store) :
    Except String Nat × Store :=
  match s.db with
  | none => (.error (nullHandle "run"), s)
  | some c =>
      match bindValue imageKey with
      | .error e => (.error e, s)
      | .ok key =>
          let deleted := runDeleteImage cv c.data.image_cache key
          let c1 : Connection :=
            { c with data := c.data.setTable "image_cache" deleted.1, changes := deleted.2 }
          (.ok c1.changes, saveDatabase { s with db := some c1 })

/-- The image cache holds at most one row under a key (the `UNIQUE` constraint of
`imageKey`). -/
def UniqueImageKey (cv : Conversions) (t : Table) (key : Value) : Prop :=
  (t.rows.filter (hasImageKey cv key)).length ≤ 1

/-- The store after a PNG header was saved under the key `logo_1` in the fresh store. -/
def storeWithImage : Store :=
  (saveImage plainConversions (.string "logo_1") (.bytes [137, 80, 78, 71])
    (.string "image/png") "2024-02-01T10:00:00.000Z" freshStore).2

/-! ## The `image:get` handler -/

/-- What the JavaScript runtime contributes beyond the model: the decimal rendering of
a number, and the message of the `TypeError` that `Buffer.from` throws for a value that
is neither a string nor array-like. -/
structure Runtime where
  numberToString : ℚ → String
  bufferFromError : JsValue → String

/-- The alphabet of base64. -/
def base64Alphabet : List Char :=
  "ABCDEFGHIJKLMNOPQRSTUVWXYZabcdefghijklmnopqrstuvwxyz0123456789+/".data

/-- The character of a 6-bit group. -/
def base64Digit (n : Nat) : Char :=
  base64Alphabet.getD n '='

/-- The base64 characters of a byte sequence: four characters for every three bytes,
the last group padded with `=`. -/
def base64Chars : List Nat → List Char
  | [] => []
  | [a] => [base64Digit (a / 4), base64Digit (a % 4 * 16), '=', '=']
  | [a, b] =>
      [base64Digit (a / 4), base64Digit (a % 4 * 16 + b / 16), base64Digit (b % 16 * 4), '=']
  | a :: b :: c :: rest =>
      base64Digit (a / 4) :: base64Digit (a % 4 * 16 + b / 16) ::
        base64Digit (b % 16 * 4 + c / 64) :: base64Digit (c % 64) :: base64Chars rest

/-- The call `buffer.toString('base64')`. -/
def base64 (bytes : List Nat) : String :=
  String.mk (base64Chars bytes)

/-- The bytes of `Buffer.from(value)`: the bytes of a byte array, the UTF-8 bytes of a
string; any other value of the model is refused. -/
def bufferFrom (rt : Runtime) : JsValue → Except String (List Nat)
  | .bytes b => .ok (b.map (fun x => x % 256))
  | .string t => .ok (utf8 t)
  | v => .error (rt.bufferFromError v)

/-- The text a template literal puts for a value (`String(value)`); a byte array is
written as its elements separated by commas. -/
def templateString (rt : Runtime) : JsValue → String
  | .undefined => "undefined"
  | .null => "null"
  | .bool b => if b then "true" else "false"
  | .number q => rt.numberToString q
  | .string t => t
  | .bytes b => ",".intercalate (b.map toString)

/-- The reply of the `image:get` handler: `{ success: true, data }` or
`{ success: false, error }`. -/
inductive ImageReply where
  | success (data : String)
  | failure (error : String)
  deriving DecidableEq, Repr

/-- The handler of `image:get` in `main.js`. -/
def imageGetHandler (cv : Conversions) (rt : Runtime) (imageKey : JsValue) (s : Store) :
    ImageReply × Store :=
  if !truthy imageKey then (.failure "No image key provided", s)
  else
    match getImage cv imageKey s with
    | (.error e, s1) => (.failure e, s1)
    | (.ok none, s1) => (.failure "Image not found", s1)
    | (.ok (some image), s1) =>
        match bufferFrom rt (property "data" (some image)) with
        | .error e => (.failure e, s1)
        | .ok bytes =>
            let base64 := base64 bytes
            let dataUri :=
              "data:" ++ templateString rt (property "mimeType" (some image)) ++ ";base64," ++ base64
            (.success dataUri, s1)

/-- A runtime that renders no number, used to evaluate examples without numbers. -/
def plainRuntime : Runtime := ⟨fun _ => "", fun _ => "The first argument must be of type string"⟩

/-! ## Sequences of operations -/

/-- A call of one of the exported operations that write to the store. -/
inductive Operation where
  | insert (tableName : String) (data : FieldObject) (now : String)
  | update (tableName : String) (id : JsValue) (data : FieldObject) (now : String)
  | deleteOne (tableName : String) (id : JsValue)
  | completeSetup (name currency password profileImage : JsValue) (salt now : String)
  | updateSettings (updates : FieldObject) (now : String)
  | saveImage (imageKey data mimeType : JsValue) (now : String)
  | deleteImage (imageKey : JsValue)
  deriving DecidableEq, Repr

/-- The store an operation leaves behind, whether it returns or throws. -/
def Operation.run (cv : Conversions) (bc : Bcrypt) : Operation → Store → Store
  | .insert tableName data now, s => (FinanceTracker.insert cv tableName data now s).2
  | .update tableName id data now, s => (FinanceTracker.update cv tableName id data now s).2
  | .deleteOne tableName id, s => (FinanceTracker.deleteOne cv tableName id s).2
  | .completeSetup name currency password profileImage salt now, s =>
      (FinanceTracker.completeSetup cv bc name currency password profileImage salt now s).2
  | .updateSettings updates now, s => (FinanceTracker.updateSettings cv updates now s).2
  | .saveImage imageKey data mimeType now, s =>
      (FinanceTracker.saveImage cv imageKey data mimeType now s).2
  | .deleteImage imageKey, s => (FinanceTracker.deleteImage cv imageKey s).2

/-- The store after a sequence of operations, run one after the other. -/
def runOperations (cv : Conversions) (bc : Bcrypt) (ops : List Operation) (s : Store) : Store :=
  ops.foldl (fun st op => op.run cv bc st) s

/-- A session of the application: a record is inserted, the setup is completed, an
image is saved and deleted again, the record is updated. -/
def sampleSession : List Operation :=
  [.insert "income" salary "2024-02-01T10:00:00.000Z",
   .completeSetup (.string "Ann") (.string "USD") (.string "secret123") .null sampleSalt
     "2024-02-02T10:00:00.000Z",
   .saveImage (.string "logo_1") (.bytes [137, 80, 78, 71]) (.string "image/png")
     "2024-02-03T10:00:00.000Z",
   .deleteImage (.string "logo_1"),
   .update "income" (.number 1) [("amount", .number 120)] "2024-02-04T10:00:00.000Z",
   .updateSettings [("currency", .string "EUR")] "2024-02-05T10:00:00.000Z",
   .deleteOne "income" (.number 1)]

/-- The settings table of the open database holds exactly one row, and its id is 1. -/
def SingleSettings (s : Store) : Prop :=
  ∃ c r, s.db = some c ∧ c.data.settings.rows = [r] ∧ r.id = 1

/-- The database is open on `path`, the file at `path` holds its content, and the
settings table has a row with id 1. -/
def Synced (path : String) (s : Store) : Prop :=
  ∃ c, s.db = some c ∧ s.dbPath = some path ∧ s.file = some c.data ∧
    ∃ r, c.data.settings.rows.find? (fun x => x.id = 1) = some r

/-! ## Dashboard -/

/-- The engine's conversion of a text or blob that is not a numeric literal to a number
(its longest numeric prefix, 0 when there is none), as `SUM` applies it. -/
structure Casts where
  textToReal : String → ℚ
  blobToReal : List Nat → ℚ

/-- The accumulator of the aggregate `SUM`: the number of values that were not NULL,
whether a value was not an integer, whether the integer sum overflowed, and the two
running sums. -/
structure SumState where
  count : Nat
  approx : Bool
  overflow : Bool
  iSum : Int
  rSum : ℚ
  deriving DecidableEq, Repr

/-- The step of `SUM` for an integer. -/
def sumInt (p : SumState) (v : Int) : SumState :=
  if !(p.approx || p.overflow) then
    if minRowid ≤ p.iSum + v ∧ p.iSum + v ≤ maxRowid then
      { p with count := p.count + 1, rSum := p.rSum + v, iSum := p.iSum + v }
    else
      { p with count := p.count + 1, rSum := p.rSum + v, approx := true, overflow := true }
  else { p with count := p.count + 1, rSum := p.rSum + v }

/-- The step of `SUM` for a value that is not an integer.  The running sum is exact
here; the engine keeps it as a double (`sumDoubleFrom`). -/
def sumReal (p : SumState) (q : ℚ) : SumState :=
  { p with count := p.count + 1, rSum := p.rSum + q, approx := true }

/-- The step of `SUM`: NULL is skipped, a text that is a numeric literal counts as
that number. -/
def sumStep (cv : Conversions) (ct : Casts) (p : SumState) : Value → SumState
  | .null => p
  | .int v => sumInt p v
  | .real q => sumReal p q
  | .text t =>
      match cv.textToNumber t with
      | some (.int v) => sumInt p v
      | some (.real q) => sumReal p q
      | none => sumReal p (ct.textToReal t)
  | .blob b => sumReal p (ct.blobToReal b)

/-- The result of `SUM`: NULL when every value was NULL, an error when the integer
sum overflowed, the integer sum when every value was an integer, else the sum as a
REAL. -/
def sumFinalize (p : SumState) : Except String Value :=
  if p.count = 0 then .ok .null
  else if p.overflow then .error "integer overflow"
  else if p.approx then .ok (.real p.rSum)
  else .ok (.int p.iSum)

/-- The aggregate `SUM` over the values of a column, in the order of the scan. -/
def sqlSum (cv : Conversions) (ct : Casts) (vs : List Value) : Except String Value :=
  sumFinalize (vs.foldl (sumStep cv ct) ⟨0, false, false, 0, 0⟩)

/-- The function `COALESCE(x, y)`. -/
def coalesce (x y : Value) : Value :=
  if x = .null then y else x

/-- The query `SELECT COALESCE(SUM(amount), 0) as total FROM t`. -/
def selectTotal (cv : Conversions) (ct : Casts) (t : Table) : Except String (List QueryResult) :=
  match sqlSum cv ct (t.rows.map (fun r => r.get "amount")) with
  | .error e => .error e
  | .ok v => .ok [⟨["total"], [[toJs (coalesce v (.int 0))]]⟩]

/-- The query `SELECT * FROM t ORDER BY createdAt DESC LIMIT 5`. -/
def selectRecent (d : Database) (tableName : String) : List QueryResult :=
  resultSet tableName (((d.table tableName).rows.insertionSort createdAtDesc).take 5)

/-- The function `substr(x, 1, n)`: the first `n` characters of a text, the first `n`
bytes of a blob; a number is taken as its text. -/
def sqlSubstr (cv : Conversions) (n : Nat) : Value → Value
  | .null => .null
  | .int i => .text (takeChars n (toString i))
  | .real q => .text (takeChars n (cv.realToText q))
  | .text t => .text (takeChars n t)
  | .blob b => .blob (b.take n)

/-- The relation `a` may precede `b` under `ORDER BY ... ASC`. -/
def keyLe (a b : Value) : Prop :=
  Value.leb a b = true

instance : DecidableRel keyLe :=
  fun a b => inferInstanceAs (Decidable (Value.leb a b = true))

/-- The grouping key `substr(date, 1, 7)` of a row. -/
def monthKey (cv : Conversions) (r : Row) : Value :=
  sqlSubstr cv 7 (r.get "date")

/-- Whether a row satisfies `WHERE substr(date, 1, 4) = ?`. -/
def inYear (cv : Conversions) (year : Value) (r : Row) : Bool :=
  Value.sqlEq (sqlSubstr cv 4 (r.get "date")) year

/-- The groups of `WHERE substr(date, 1, 4) = ? GROUP BY substr(date, 1, 7) ORDER BY _id
ASC`: the distinct keys of the rows that pass the filter, in ascending order, each with
its rows in the order of the scan.  (The keys are NULL, texts and blobs, for which the
engine's equality of grouping keys is equality of values.) -/
def monthlyGroups (cv : Conversions) (t : Table) (year : Value) : List (Value × List Row) :=
  let rows := t.rows.filter (inYear cv year)
  let keys := ((rows.map (monthKey cv)).dedup).insertionSort keyLe
  keys.map (fun k => (k, rows.filter (fun r => decide (monthKey cv r = k))))

/-- The result rows `[_id, total]` of the groups; the statement fails when a `SUM`
fails. -/
def monthlyValues (cv : Conversions) (ct : Casts) :
    List (Value × List Row) → Except String (List (List JsValue))
  | [] => .ok []
  | (k, rows) :: rest =>
      match sqlSum cv ct (rows.map (fun r => r.get "amount")) with
      | .error e => .error e
      | .ok v =>
          match monthlyValues cv ct rest with
          | .error e => .error e
          | .ok vs => .ok ([toJs k, toJs v] :: vs)

/-- The query `SELECT substr(date, 1, 7) as _id, SUM(amount) as total FROM t WHERE
substr(date, 1, 4) = ? GROUP BY substr(date, 1, 7) ORDER BY _id ASC`. -/
def selectMonthly (cv : Conversions) (ct : Casts) (t : Table) (year : Value) :
    Except String (List QueryResult) :=
  match monthlyValues cv ct (monthlyGroups cv t year) with
  | .error e => .error e
  | .ok [] => .ok []
  | .ok (v :: vs) => .ok [⟨["_id", "total"], v :: vs⟩]

/-- The expression `a || b`. -/
def orElse (a b : JsValue) : JsValue :=
  if truthy a then a else b

/-- The expression `a - b` for two numbers.  For other operands JavaScript gives NaN
or coerces them; the totals of `getDashboardStats` are always numbers, and the model
gives `undefined` for the other operands. -/
def minus : JsValue → JsValue → JsValue
  | .number a, .number b => .number (a - b)
  | _, _ => .undefined

/-- The object `getDashboardStats` returns. -/
structure DashboardStats where
  totalIncome : JsValue
  totalOutgoing : JsValue
  balance : JsValue
  recentIncome : List FieldObject
  recentOutgoing : List FieldObject
  monthlyIncome : List FieldObject
  monthlyOutgoing : List FieldObject
  deriving DecidableEq, Repr

/-- The function `getDashboardStats`; `currentYear` is
`new Date().getFullYear().toString()`. -/
def getDashboardStats (cv : Conversions) (ct : Casts) (currentYear : String) (s : Store) :
    Except String DashboardStats × Store :=
  match s.db with
  | none => (.error (nullHandle "exec"), s)
  | some c =>
      match selectTotal cv ct c.data.income with
      | .error e => (.error e, s)
      | .ok incomeResult =>
          let incomeTotal := orElse (property "total" (resultToObject incomeResult)) (.number 0)
          match selectTotal cv ct c.data.outgoing with
          | .error e => (.error e, s)
          | .ok outgoingResult =>
              let outgoingTotal :=
                orElse (property "total" (resultToObject outgoingResult)) (.number 0)
              let recentIncome := resultToObjects (selectRecent c.data "income")
              let recentOutgoing := resultToObjects (selectRecent c.data "outgoing")
              match selectMonthly cv ct c.data.income (.text currentYear) with
              | .error e => (.error e, s)
              | .ok monthlyIncomeResult =>
                  match selectMonthly cv ct c.data.outgoing (.text currentYear) with
                  | .error e => (.error e, s)
                  | .ok monthlyOutgoingResult =>
                      (.ok { totalIncome := incomeTotal,
                             totalOutgoing := outgoingTotal,
                             balance := minus incomeTotal outgoingTotal,
                             recentIncome := recentIncome,
                             recentOutgoing := recentOutgoing,
                             monthlyIncome := resultToObjects monthlyIncomeResult,
                             monthlyOutgoing := resultToObjects monthlyOutgoingResult }, s)

/-- The amount of a row as a number, for a row whose amount is stored as a number. -/
def amountOf (r : Row) : ℚ :=
  match r.get "amount" with
  | .real q => q
  | .int i => i
  | _ => 0

/-- The date of a row, for a row whose date is stored as text. -/
def dateOf (r : Row) : String :=
  match r.get "date" with
  | .text d => d
  | _ => ""

/-- Every amount of the table is stored as a REAL, as the REAL affinity of the column
stores every number. -/
def RealAmounts (t : Table) : Prop :=
  ∀ r ∈ t.rows, ∃ q, r.get "amount" = .real q

/-- Every date of the table is stored as text. -/
def TextDates (t : Table) : Prop :=
  ∀ r ∈ t.rows, ∃ d, r.get "date" = .text d

/-- Casts that read every text and blob as 0. -/
def plainCasts : Casts := ⟨fun _ => 0, fun _ => 0⟩

/-- The example of the specification: income of 100 in January and 50 in February
2024 and 70 in December 2023, and one outgoing of 30 in January 2024. -/
def sampleLedger : Store :=
  runOperations plainConversions sampleBcrypt
    [.insert "income" [("description", .string "Salary"), ("amount", .number 100),
        ("date", .string "2024-01-15")] "2024-01-15T10:00:00.000Z",
     .insert "income" [("description", .string "Bonus"), ("amount", .number 50),
        ("date", .string "2024-02-10")] "2024-02-10T10:00:00.000Z",
     .insert "income" [("description", .string "Gift"), ("amount", .number 70),
        ("date", .string "2023-12-24")] "2024-02-11T10:00:00.000Z",
     .insert "outgoing" [("description", .string "Food"), ("amount", .number 30),
        ("date", .string "2024-01-20")] "2024-02-12T10:00:00.000Z"]
    freshStore

/-- The text of a value that is a text. -/
def Value.textOf : Value → String
  | .text t => t
  | _ => ""

/-- Whether a value is stored as a REAL. -/
def Value.isReal : Value → Bool
  | .real _ => true
  | _ => false

/-- Whether a value is stored as text. -/
def Value.isText : Value → Bool
  | .text _ => true
  | _ => false

/-! ## History -/

/-- The comparison `a <= b` of the engine when it is true: NULL compares with nothing;
numbers come before texts and texts before blobs. -/
def Value.sqlLe (a b : Value) : Bool :=
  decide (a ≠ .null) && decide (b ≠ .null) && Value.leb a b

/-- The comparison `a < b` of the engine when it is true. -/
def Value.sqlLt (a b : Value) : Bool :=
  decide (a ≠ .null) && decide (b ≠ .null) && !Value.leb b a

/-- Whether a row satisfies `WHERE date BETWEEN ? AND ?`: both bounds are compared
under the TEXT affinity of the column, and both are inclusive. -/
def dateBetween (cv : Conversions) (lo hi : Value) (r : Row) : Bool :=
  Value.sqlLe (applyAffinity cv .text lo) (r.get "date") &&
    Value.sqlLe (r.get "date") (applyAffinity cv .text hi)

/-- The relation `a` may precede `b` under `ORDER BY date DESC`. -/
def dateDesc (a b : Row) : Prop :=
  Value.leb (b.get "date") (a.get "date") = true

instance : DecidableRel dateDesc :=
  fun a b => inferInstanceAs (Decidable (Value.leb (b.get "date") (a.get "date") = true))

/-- The query `SELECT * FROM t WHERE date BETWEEN ? AND ? ORDER BY date DESC`. -/
def selectBetween (cv : Conversions) (d : Database) (tableName : String) (lo hi : Value) :
    List QueryResult :=
  resultSet tableName
    (((d.table tableName).rows.filter (dateBetween cv lo hi)).insertionSort dateDesc)

/-- The query `SELECT COALESCE(SUM(amount), 0) as total FROM t WHERE date BETWEEN ? AND
?`. -/
def selectTotalBetween (cv : Conversions) (ct : Casts) (t : Table) (lo hi : Value) :
    Except String (List QueryResult) :=
  match sqlSum cv ct ((t.rows.filter (dateBetween cv lo hi)).map (fun r => r.get "amount")) with
  | .error e => .error e
  | .ok v => .ok [⟨["total"], [[toJs (coalesce v (.int 0))]]⟩]

/-- The groups of `GROUP BY category` over the given rows: the distinct categories in
ascending order (the order in which the engine's sorter delivers the groups), each with
its rows in the order of the scan.  (The column has TEXT affinity: its values are NULL,
texts and blobs, for which the engine's equality of grouping keys is equality of
values.  NULL and the empty text are different keys.) -/
def categoryGroups (rows : List Row) : List (Value × List Row) :=
  let keys := ((rows.map (fun r => r.get "category")).dedup).insertionSort keyLe
  keys.map (fun k => (k, rows.filter (fun r => decide (r.get "category" = k))))

/-- The result rows `(category, SUM(amount))` of the groups; the statement fails when a
`SUM` fails. -/
def categoryTotals (cv : Conversions) (ct : Casts) :
    List (Value × List Row) → Except String (List (Value × Value))
  | [] => .ok []
  | (k, rows) :: rest =>
      match sqlSum cv ct (rows.map (fun r => r.get "amount")) with
      | .error e => .error e
      | .ok v =>
          match categoryTotals cv ct rest with
          | .error e => .error e
          | .ok vs => .ok ((k, v) :: vs)

/-- The relation `a` may precede `b` under `ORDER BY total DESC`. -/
def totalDesc (a b : Value × Value) : Prop :=
  Value.leb b.2 a.2 = true

instance : DecidableRel totalDesc :=
  fun a b => inferInstanceAs (Decidable (Value.leb b.2 a.2 = true))

/-- The result of `db.exec` for result rows `(category, total)`. -/
def categoryResult : List (Value × Value) → List QueryResult
  | [] => []
  | p :: ps => [⟨["category", "total"], (p :: ps).map (fun x => [toJs x.1, toJs x.2])⟩]

/-- The query `SELECT category, SUM(amount) as total FROM outgoing WHERE date BETWEEN ?
AND ? GROUP BY category ORDER BY total DESC`. -/
def selectCategoryBreakdown (cv : Conversions) (ct : Casts) (t : Table) (lo hi : Value) :
    Except String (List QueryResult) :=
  match categoryTotals cv ct (categoryGroups (t.rows.filter (dateBetween cv lo hi))) with
  | .error e => .error e
  | .ok pairs => .ok (categoryResult (pairs.insertionSort totalDesc))

/-- The object `getHistoryData` returns. -/
structure HistoryData where
  income : List FieldObject
  outgoing : List FieldObject
  incomeTotal : JsValue
  outgoingTotal : JsValue
  net : JsValue
  categoryBreakdown : List FieldObject
  deriving DecidableEq, Repr

/-- The function `getHistoryData`. -/
def getHistoryData (cv : Conversions) (ct : Casts) (startDate endDate : JsValue) (s : Store) :
    Except String HistoryData × Store :=
  match s.db with
  | none => (.error (nullHandle "exec"), s)
  | some c =>
      match bindValue startDate with
      | .error e => (.error e, s)
      | .ok lo =>
          match bindValue endDate with
          | .error e => (.error e, s)
          | .ok hi =>
              let income := resultToObjects (selectBetween cv c.data "income" lo hi)
              let outgoing := resultToObjects (selectBetween cv c.data "outgoing" lo hi)
              match selectTotalBetween cv ct c.data.income lo hi with
              | .error e => (.error e, s)
              | .ok incomeTotalResult =>
                  let incomeTotal :=
                    orElse (property "total" (resultToObject incomeTotalResult)) (.number 0)
                  match selectTotalBetween cv ct c.data.outgoing lo hi with
                  | .error e => (.error e, s)
                  | .ok outgoingTotalResult =>
                      let outgoingTotal :=
                        orElse (property "total" (resultToObject outgoingTotalResult)) (.number 0)
                      match selectCategoryBreakdown cv ct c.data.outgoing lo hi with
                      | .error e => (.error e, s)
                      | .ok categoryResult =>
                          (.ok { income := income,
                                 outgoing := outgoing,
                                 incomeTotal := incomeTotal,
                                 outgoingTotal := outgoingTotal,
                                 net := minus incomeTotal outgoingTotal,
                                 categoryBreakdown := resultToObjects categoryResult }, s)

/-- The number a value stored as a number stands for. -/
def Value.ratOf : Value → ℚ
  | .real q => q
  | .int i => i
  | _ => 0

/-- Whether the date of a row lies between two texts, both inclusive, in the order of
texts. -/
def inRange (startDate endDate : String) (r : Row) : Bool :=
  lexLeb (codePoints startDate) (codePoints (dateOf r)) &&
    lexLeb (codePoints (dateOf r)) (codePoints endDate)

/-- A store with two outgoing rows in January 2024: one of 10 whose category was left
out, and one of 5 whose category is the empty text, as the form of the outgoing page
submits it. -/
def uncategorizedLedger : Store :=
  runOperations plainConversions sampleBcrypt
    [.insert "outgoing" [("description", .string "Cash"), ("amount", .number 10),
        ("date", .string "2024-01-20")] "2024-02-13T10:00:00.000Z",
     .insert "outgoing" [("description", .string "Tip"), ("amount", .number 5),
        ("date", .string "2024-01-21"), ("category", .string "")] "2024-02-14T10:00:00.000Z"]
    freshStore

/-! ## Dates of the JavaScript runtime -/

/-- The number of days from 1 January 1970 to a day of the proleptic Gregorian
calendar, the calendar of `Date`; `m` is the month, 1 to 12. -/
def daysFromCivil (y m d : Int) : Int :=
  let y1 := if m ≤ 2 then y - 1 else y
  let era := y1 / 400
  let yoe := y1 - era * 400
  let mp := if m > 2 then m - 3 else m + 9
  let doy := (153 * mp + 2) / 5 + d - 1
  let doe := yoe * 365 + yoe / 4 - yoe / 100 + doy
  era * 146097 + doe - 719468

/-- The year, month (1 to 12) and day of the month of a day number. -/
def civilFromDays (z : Int) : Int × Int × Int :=
  let z1 := z + 719468
  let era := z1 / 146097
  let doe := z1 - era * 146097
  let yoe := (doe - doe / 1460 + doe / 36524 - doe / 146096) / 365
  let y := yoe + era * 400
  let doy := doe - (365 * yoe + yoe / 4 - yoe / 100)
  let mp := (5 * doy + 2) / 153
  let d := doy - (153 * mp + 2) / 5 + 1
  let m := if mp < 10 then mp + 3 else mp - 9
  (if m ≤ 2 then y + 1 else y, m, d)

/-- The time value (milliseconds since the epoch, UTC) of `new Date(year, monthIndex,
day)`: midnight of that day in local time, where `offsetMinutes` is the offset of local
time from UTC in effect then (positive east of Greenwich).  A month index outside 0 to
11 carries into the year; a year from 0 to 99 means 1900 + year. -/
def makeLocalDate (offsetMinutes year monthIndex day : Int) : Int :=
  let fullYear := if 0 ≤ year ∧ year ≤ 99 then 1900 + year else year
  let ym := fullYear + monthIndex / 12
  let mn := monthIndex % 12
  (daysFromCivil ym (mn + 1) 1 + (day - 1)) * 86400000 - offsetMinutes * 60000

/-- The decimal digits of a number, padded with zeros to a width. -/
def padZero (width n : Nat) : String :=
  String.mk (List.replicate (width - (toString n).length) '0') ++ toString n

/-- The year of `toISOString`: four digits, or a sign and six digits outside 0 to
9999. -/
def isoYear (y : Int) : String :=
  if 0 ≤ y ∧ y ≤ 9999 then padZero 4 y.toNat
  else if y < 0 then "-" ++ padZero 6 (-y).toNat
  else "+" ++ padZero 6 y.toNat

/-- The part of `date.toISOString()` before the `T`: the day in UTC on which the time
value falls; a time value outside the range of `Date` makes `toISOString` throw. -/
def isoDate (t : Int) : Except String String :=
  if -8640000000000000 ≤ t ∧ t ≤ 8640000000000000 then
    let ymd := civilFromDays (t / 86400000)
    .ok (isoYear ymd.1 ++ "-" ++ padZero 2 ymd.2.1.toNat ++ "-" ++ padZero 2 ymd.2.2.toNat)
  else .error "Invalid time value"

/-- The expression `new Date(now.getFullYear(), now.getMonth() - n,
1).toISOString().split('T')[0]`, where `year` and `month` are `now.getFullYear()` and
`now.getMonth()`. -/
def monthsAgo (offsetMinutes year : Int) (month : Nat) (n : Int) : Except String String :=
  isoDate (makeLocalDate offsetMinutes year (month - n) 1)

/-! ## Predictions -/

/-- Whether a row satisfies `WHERE recurring = 1`. -/
def isRecurring (r : Row) : Bool :=
  Value.sqlEq (r.get "recurring") (.int 1)

/-- The relation `a` may precede `b` under `ORDER BY nextPaymentDate ASC`: NULL comes
first. -/
def nextPaymentAsc (a b : Row) : Prop :=
  Value.leb (a.get "nextPaymentDate") (b.get "nextPaymentDate") = true

instance : DecidableRel nextPaymentAsc :=
  fun a b => inferInstanceAs
    (Decidable (Value.leb (a.get "nextPaymentDate") (b.get "nextPaymentDate") = true))

/-- The query `SELECT * FROM outgoing WHERE recurring = 1 ORDER BY nextPaymentDate
ASC`. -/
def selectSubscriptions (d : Database) : List QueryResult :=
  resultSet "outgoing" ((d.outgoing.rows.filter isRecurring).insertionSort nextPaymentAsc)

/-- The groups of `GROUP BY substr(date, 1, 7)` over the given rows: the distinct keys
in ascending order, each with its rows in the order of the scan. -/
def monthGroups (cv : Conversions) (rows : List Row) : List (Value × List Row) :=
  let keys := ((rows.map (monthKey cv)).dedup).insertionSort keyLe
  keys.map (fun k => (k, rows.filter (fun r => decide (monthKey cv r = k))))

/-- The rows of `SELECT SUM(amount) as monthly_total FROM t GROUP BY substr(date, 1,
7)`. -/
def monthlyTotals (cv : Conversions) (ct : Casts) :
    List (Value × List Row) → Except String (List Value)
  | [] => .ok []
  | (_, rows) :: rest =>
      match sqlSum cv ct (rows.map (fun r => r.get "amount")) with
      | .error e => .error e
      | .ok v =>
          match monthlyTotals cv ct rest with
          | .error e => .error e
          | .ok vs => .ok (v :: vs)

/-- The aggregate `AVG`: the sum of the values that are not NULL, as a REAL, divided by
their number; NULL when there is none.  Sum and quotient are exact here; the engine
rounds both to doubles (`avgMonthlyDouble`). -/
def sqlAvg (cv : Conversions) (ct : Casts) (vs : List Value) : Value :=
  let p := vs.foldl (sumStep cv ct) ⟨0, false, false, 0, 0⟩
  if p.count = 0 then .null else .real (p.rSum / p.count)

/-- The query `SELECT AVG(monthly_total) as avg FROM (SELECT SUM(amount) as
monthly_total FROM t GROUP BY substr(date, 1, 7))`. -/
def selectAvgMonthly (cv : Conversions) (ct : Casts) (t : Table) :
    Except String (List QueryResult) :=
  match monthlyTotals cv ct (monthGroups cv t.rows) with
  | .error e => .error e
  | .ok totals => .ok [⟨["avg"], [[toJs (sqlAvg cv ct totals)]]⟩]

/-- Whether a row satisfies `WHERE date >= ?`, the bound compared under the TEXT
affinity of the column. -/
def dateFrom (cv : Conversions) (lo : Value) (r : Row) : Bool :=
  Value.sqlLe (applyAffinity cv .text lo) (r.get "date")

/-- Whether a row satisfies `WHERE date >= ? AND date < ?`. -/
def dateFromTo (cv : Conversions) (lo hi : Value) (r : Row) : Bool :=
  Value.sqlLe (applyAffinity cv .text lo) (r.get "date") &&
    Value.sqlLt (r.get "date") (applyAffinity cv .text hi)

/-- The query `SELECT category, SUM(amount) as total FROM outgoing WHERE ... GROUP BY
category` over the rows that pass the filter; the groups come in ascending order of the
category. -/
def selectCategoryTotals (cv : Conversions) (ct : Casts) (rows : List Row) :
    Except String (List QueryResult) :=
  match categoryTotals cv ct (categoryGroups rows) with
  | .error e => .error e
  | .ok pairs => .ok (categoryResult pairs)

/-- The operator `-` of the engine on two results of `COALESCE(SUM(amount), 0)`, which
are integers or REALs: an integer when both are and the difference fits, else a REAL.
(A text or blob operand cannot arise here; the model reads it with `Casts`.) -/
def sqlMinus (ct : Casts) (a b : Value) : Value :=
  let num : Value → ℚ := fun v =>
    match v with
    | .int i => i
    | .real q => q
    | .text t => ct.textToReal t
    | .blob x => ct.blobToReal x
    | .null => 0
  match a, b with
  | .null, _ => .null
  | _, .null => .null
  | .int x, .int y =>
      if minRowid ≤ x - y ∧ x - y ≤ maxRowid then .int (x - y) else .real ((x : ℚ) - y)
  | x, y => .real (num x - num y)

/-- The query `SELECT (SELECT COALESCE(SUM(amount), 0) FROM income) - (SELECT
COALESCE(SUM(amount), 0) FROM outgoing) as balance`. -/
def selectBalance (cv : Conversions) (ct : Casts) (d : Database) :
    Except String (List QueryResult) :=
  match sqlSum cv ct (d.income.rows.map (fun r => r.get "amount")) with
  | .error e => .error e
  | .ok vi =>
      match sqlSum cv ct (d.outgoing.rows.map (fun r => r.get "amount")) with
      | .error e => .error e
      | .ok vo =>
          .ok [⟨["balance"], [[toJs (sqlMinus ct (coalesce vi (.int 0)) (coalesce vo (.int 0)))]]⟩]

/-- The number `Number(v)` of a value that is not a string or an object; `undefined`
gives NaN, which is not modelled. -/
def toNumber : JsValue → Option ℚ
  | .null => some 0
  | .bool b => some (if b then 1 else 0)
  | .number q => some q
  | _ => none

/-- The expression `a + b`: the sum of two numbers; the concatenation of the texts when
an operand is a string or a byte array; for the other operands the sum of their numbers,
or NaN, for which the model gives `undefined`. -/
def plus (rt : Runtime) : JsValue → JsValue → JsValue
  | .number a, .number b => .number (a + b)
  | .string a, b => .string (a ++ templateString rt b)
  | .bytes a, b => .string (templateString rt (.bytes a) ++ templateString rt b)
  | a, .string b => .string (templateString rt a ++ b)
  | a, .bytes b => .string (templateString rt a ++ templateString rt (.bytes b))
  | a, b =>
      match toNumber a, toNumber b with
      | some x, some y => .number (x + y)
      | _, _ => .undefined

/-- The object `getPredictionData` returns. -/
structure PredictionData where
  subscriptions : List FieldObject
  avgMonthlyIncome : JsValue
  avgMonthlyOutgoing : JsValue
  recentCategories : List FieldObject
  previousCategories : List FieldObject
  currentBalance : JsValue
  subscriptionMonthlyTotal : JsValue
  deriving DecidableEq, Repr

/-- The function `getPredictionData`; `year` and `month` are `now.getFullYear()` and
`now.getMonth()` of `now = new Date()`, and `offsetMinutes` is the offset of local time
from UTC. -/
def getPredictionData (cv : Conversions) (ct : Casts) (rt : Runtime) (offsetMinutes year : Int)
    (month : Nat) (s : Store) : Except String PredictionData × Store :=
  match s.db with
  | none => (.error (nullHandle "exec"), s)
  | some c =>
      let subscriptions := resultToObjects (selectSubscriptions c.data)
      match selectAvgMonthly cv ct c.data.income with
      | .error e => (.error e, s)
      | .ok avgIncomeResult =>
          let avgMonthlyIncome :=
            orElse (property "avg" (resultToObject avgIncomeResult)) (.number 0)
          match selectAvgMonthly cv ct c.data.outgoing with
          | .error e => (.error e, s)
          | .ok avgOutgoingResult =>
              let avgMonthlyOutgoing :=
                orElse (property "avg" (resultToObject avgOutgoingResult)) (.number 0)
              match monthsAgo offsetMinutes year month 3 with
              | .error e => (.error e, s)
              | .ok threeMonthsAgo =>
                  match monthsAgo offsetMinutes year month 6 with
                  | .error e => (.error e, s)
                  | .ok sixMonthsAgo =>
                      match selectCategoryTotals cv ct (c.data.outgoing.rows.filter
                          (dateFrom cv (.text threeMonthsAgo))) with
                      | .error e => (.error e, s)
                      | .ok recentCatResult =>
                          match selectCategoryTotals cv ct (c.data.outgoing.rows.filter
                              (dateFromTo cv (.text sixMonthsAgo) (.text threeMonthsAgo))) with
                          | .error e => (.error e, s)
                          | .ok prevCatResult =>
                              match selectBalance cv ct c.data with
                              | .error e => (.error e, s)
                              | .ok balanceResult =>
                                  let currentBalance :=
                                    orElse (property "balance" (resultToObject balanceResult))
                                      (.number 0)
                                  let subscriptionMonthlyTotal :=
                                    (subscriptions.filter (fun o =>
                                      decide (property "billingCycle" (some o)
                                        = .string "monthly"))).foldl
                                      (fun sum o => plus rt sum
                                        (orElse (property "amount" (some o)) (.number 0)))
                                      (.number 0)
                                  (.ok { subscriptions := subscriptions,
                                         avgMonthlyIncome := avgMonthlyIncome,
                                         avgMonthlyOutgoing := avgMonthlyOutgoing,
                                         recentCategories := resultToObjects recentCatResult,
                                         previousCategories := resultToObjects prevCatResult,
                                         currentBalance := currentBalance,
                                         subscriptionMonthlyTotal := subscriptionMonthlyTotal },
                                   s)

/-- A store with three recurring outgoing rows (a monthly one of 10 due on 1 March
2024, a monthly one of 15 with no next payment date, a yearly one of 99) and an
outgoing row of 30 that is not recurring. -/
def subscriptionLedger : Store :=
  runOperations plainConversions sampleBcrypt
    [.insert "outgoing" [("description", .string "Music"), ("amount", .number 10),
        ("date", .string "2024-02-01"), ("recurring", .bool true),
        ("billingCycle", .string "monthly"), ("nextPaymentDate", .string "2024-03-01")]
        "2024-02-01T10:00:00.000Z",
     .insert "outgoing" [("description", .string "Cloud"), ("amount", .number 15),
        ("date", .string "2024-02-29"), ("recurring", .bool true),
        ("billingCycle", .string "monthly")] "2024-02-02T10:00:00.000Z",
     .insert "outgoing" [("description", .string "Domain"), ("amount", .number 99),
        ("date", .string "2024-03-05"), ("recurring", .bool true),
        ("billingCycle", .string "yearly"), ("nextPaymentDate", .string "2025-01-01")]
        "2024-02-03T10:00:00.000Z",
     .insert "outgoing" [("description", .string "Food"), ("amount", .number 30),
        ("date", .string "2024-03-20"), ("category", .string "Food")]
        "2024-02-04T10:00:00.000Z",
     .insert "income" [("description", .string "Salary"), ("amount", .number 100),
        ("date", .string "2024-01-15")] "2024-02-05T10:00:00.000Z",
     .insert "income" [("description", .string "Salary"), ("amount", .number 140),
        ("date", .string "2024-02-15")] "2024-02-06T10:00:00.000Z",
     .insert "income" [("description", .string "Bonus"), ("amount", .number 60),
        ("date", .string "2024-02-20")] "2024-02-07T10:00:00.000Z"]
    freshStore

/-! ## The arithmetic of the engine: doubles -/

/-- The number of binary digits of a natural number.  The first argument bounds the
recursion; the number itself is enough. -/
def bitLength : Nat → Nat → Nat
  | 0, _ => 0
  | fuel + 1, n => if n = 0 then 0 else bitLength fuel (n / 2) + 1

/-- The power of two with an integer exponent. -/
def twoPow (e : Int) : ℚ :=
  if 0 ≤ e then ((2 ^ e.toNat : Nat) : ℚ) else 1 / ((2 ^ (-e).toNat : Nat) : ℚ)

/-- The binary exponent of the positive rational `n / d`: the integer `e` with
`2 ^ e ≤ n / d < 2 ^ (e + 1)`. -/
def binaryExponent (n d : Nat) : Int :=
  let e : Int := (bitLength n n : Int) - (bitLength d d : Int)
  if (if 0 ≤ e then 2 ^ e.toNat * d ≤ n else d ≤ n * 2 ^ (-e).toNat) then e else e - 1

/-- The double nearest to a rational: the rounding of IEEE 754 binary64 arithmetic, to
53 significant binary digits (fewer below `2 ^ -1022`), a tie going to the even
significand.  The result is `none` when it lies beyond the largest double, where the
engine goes on with an infinity, which the model does not have. -/
def roundDouble (q : ℚ) : Option ℚ :=
  if q.num = 0 then some 0
  else
    let n := q.num.natAbs
    let d := q.den
    let e := max (binaryExponent n d) (-1022)
    let scaledNum := if e ≤ 52 then n * 2 ^ (52 - e).toNat else n
    let scaledDen := if e ≤ 52 then d else d * 2 ^ (e - 52).toNat
    let fl := scaledNum / scaledDen
    let rem := scaledNum % scaledDen
    let m : Nat :=
      if 2 * rem < scaledDen then fl
      else if scaledDen < 2 * rem then fl + 1
      else if fl % 2 = 0 then fl else fl + 1
    if 1024 ≤ e ∨ (e = 1023 ∧ m = 2 ^ 53) then none
    else some ((if q.num < 0 then -(m : Int) else (m : Int) : Int) * twoPow (e - 52))

/-- The double that a decimal numeral denotes. -/
def double (q : ℚ) : ℚ :=
  (roundDouble q).getD 0

/-- The running sum of `SUM` and `AVG` over REAL values as the engine keeps it: a double
to which the values are added one after the other, in the order of the scan, every
addition rounded. -/
def sumDoubleFrom (acc : ℚ) : List ℚ → Option ℚ
  | [] => some acc
  | q :: rest =>
      match roundDouble (acc + q) with
      | none => none
      | some a => sumDoubleFrom a rest

/-- The sum of `SUM` over REAL values in doubles. -/
def sumDouble (qs : List ℚ) : Option ℚ :=
  sumDoubleFrom 0 qs

/-- The sums of `SUM(amount)` for the groups of a `GROUP BY`, in doubles, for rows whose
amounts are REAL. -/
def groupSumsDouble : List (Value × List Row) → Option (List (Value × ℚ))
  | [] => some []
  | (k, rows) :: rest =>
      match sumDouble (rows.map amountOf) with
      | none => none
      | some v =>
          match groupSumsDouble rest with
          | none => none
          | some vs => some ((k, v) :: vs)

/-- The value of `avgMonthlyIncome` (and `avgMonthlyOutgoing`) in doubles, for a table
whose amounts are REAL: `AVG` divides the running sum of the monthly totals by their
number, and the division is rounded; without a row the result is 0. -/
def avgMonthlyDouble (cv : Conversions) (t : Table) : Option ℚ :=
  match groupSumsDouble (monthGroups cv t.rows) with
  | none => none
  | some [] => some 0
  | some (g :: gs) =>
      match sumDouble ((g :: gs).map Prod.snd) with
      | none => none
      | some total => roundDouble (total / ((g :: gs).length : ℚ))

/-- The value of `incomeTotal` (and `outgoingTotal`) of `getHistoryData` in doubles, for
a table whose amounts are REAL. -/
def totalBetweenDouble (cv : Conversions) (t : Table) (lo hi : Value) : Option ℚ :=
  sumDouble ((t.rows.filter (dateBetween cv lo hi)).map amountOf)

/-- The entries `(category, total)` of `categoryBreakdown` in doubles, for a table whose
amounts are REAL, in the order of `ORDER BY total DESC`. -/
def categoryBreakdownDouble (cv : Conversions) (t : Table) (lo hi : Value) :
    Option (List (Value × ℚ)) :=
  match groupSumsDouble (categoryGroups (t.rows.filter (dateBetween cv lo hi))) with
  | none => none
  | some pairs => some (pairs.insertionSort (fun a b => b.2 ≤ a.2))

/-- A store whose amounts are doubles that are not decimal fractions: income of 1.25 in
January 2024 and of 1 in each of the six months after it, and three outgoing rows in
January 2024, of 149.84, 951.39 and 275.2, each in a category of its own. -/
def roundingLedger : Store :=
  runOperations plainConversions sampleBcrypt
    [.insert "income" [("description", .string "Interest"), ("amount", .number (double 1.25)),
        ("date", .string "2024-01-15")] "2024-08-01T10:00:00.000Z",
     .insert "income" [("description", .string "Interest"), ("amount", .number (double 1)),
        ("date", .string "2024-02-15")] "2024-08-01T10:00:00.000Z",
     .insert "income" [("description", .string "Interest"), ("amount", .number (double 1)),
        ("date", .string "2024-03-15")] "2024-08-01T10:00:00.000Z",
     .insert "income" [("description", .string "Interest"), ("amount", .number (double 1)),
        ("date", .string "2024-04-15")] "2024-08-01T10:00:00.000Z",
     .insert "income" [("description", .string "Interest"), ("amount", .number (double 1)),
        ("date", .string "2024-05-15")] "2024-08-01T10:00:00.000Z",
     .insert "income" [("description", .string "Interest"), ("amount", .number (double 1)),
        ("date", .string "2024-06-15")] "2024-08-01T10:00:00.000Z",
     .insert "income" [("description", .string "Interest"), ("amount", .number (double 1)),
        ("date", .string "2024-07-15")] "2024-08-01T10:00:00.000Z",
     .insert "outgoing" [("description", .string "Shoes"), ("amount", .number (double 149.84)),
        ("date", .string "2024-01-10"), ("category", .string "X")] "2024-08-01T10:00:00.000Z",
     .insert "outgoing" [("description", .string "Rent"), ("amount", .number (double 951.39)),
        ("date", .string "2024-01-11"), ("category", .string "Y")] "2024-08-01T10:00:00.000Z",
     .insert "outgoing" [("description", .string "Food"), ("amount", .number (double 275.2)),
        ("date", .string "2024-01-12"), ("category", .string "Z")] "2024-08-01T10:00:00.000Z"]
    freshStore

/-! ## Projections of the predictions page -/

/-- The expression `a / b` for two numbers, the divisor not zero.  For the other
operands JavaScript gives NaN, an infinity or a coerced number; the model gives
`undefined`. -/
def divide : JsValue → JsValue → JsValue
  | .number a, .number b => if b = 0 then .undefined else .number (a / b)
  | _, _ => .undefined

/-- The expression `a * b` for two numbers; the model gives `undefined` for the other
operands. -/
def times : JsValue → JsValue → JsValue
  | .number a, .number b => .number (a * b)
  | _, _ => .undefined

/-- The object `calculateProjections` returns. -/
structure Projections where
  week : JsValue
  month : JsValue
  threeMonths : JsValue
  deriving DecidableEq, Repr

/-- The function `calculateProjections` of `PredictionsPage.js`; `predictions` is the
state of the page, `null` until the predictions are loaded. -/
def calculateProjections (rt : Runtime) (predictions : Option PredictionData) : Projections :=
  match predictions with
  | none => { week := .number 0, month := .number 0, threeMonths := .number 0 }
  | some p =>
      let weeklyIncome := divide p.avgMonthlyIncome (.number 4)
      let weeklyExpense := divide p.avgMonthlyOutgoing (.number 4)
      let weeklySubscriptions := divide p.subscriptionMonthlyTotal (.number 4)
      let weeklyNet := minus (minus weeklyIncome weeklyExpense) weeklySubscriptions
      let monthlyNet :=
        minus (minus p.avgMonthlyIncome p.avgMonthlyOutgoing) p.subscriptionMonthlyTotal
      { week := plus rt p.currentBalance weeklyNet,
        month := plus rt p.currentBalance monthlyNet,
        threeMonths := plus rt p.currentBalance (times monthlyNet (.number 3)) }

/-- The monthly net of the specification: `avgMonthlyIncome − avgMonthlyOutgoing −
subscriptionMonthlyTotal`. -/
def monthlyNetSpec (avgMonthlyIncome avgMonthlyOutgoing subscriptionMonthlyTotal : ℚ) : ℚ :=
  avgMonthlyIncome - avgMonthlyOutgoing - subscriptionMonthlyTotal

/-- The weekly net of the specification: the monthly net divided by 4, in a single
division. -/
def weeklyNetSpec (avgMonthlyIncome avgMonthlyOutgoing subscriptionMonthlyTotal : ℚ) : ℚ :=
  (avgMonthlyIncome - avgMonthlyOutgoing - subscriptionMonthlyTotal) / 4

/-! ## The request handlers of `main.js` -/

/-- The value of a field of a reply. -/
inductive Payload where
  | value (v : JsValue)
  | object (o : Option FieldObject)
  | objects (os : List FieldObject)
  | dashboard (stats : DashboardStats)
  | history (data : HistoryData)
  | predictions (data : PredictionData)
  deriving DecidableEq, Repr

/-- The object a handler returns, as the list of its fields. -/
abbrev Envelope := List (String × Payload)

/-- The text that sql.js throws, as a bare string, for a value it cannot bind. -/
def bindRefusal : String :=
  "Wrong API use : tried to bind a value of an unknown type (undefined)."

/-- The expression `error.message` for a caught value that the model gives by its text:
the refusal to bind is thrown as a bare string, which has no `message`; every other
value thrown is an `Error` with the text as its message. -/
def errorMessage (e : String) : JsValue :=
  if e = bindRefusal then .undefined else .string e

/-- The reply `{ success: false, error: error.message }` of a `catch` block. -/
def caught (e : String) : Envelope :=
  [("success", .value (.bool false)), ("error", .value (errorMessage e))]

/-- The reply `{ success: false, error }` with a message written in the handler. -/
def refused (message : String) : Envelope :=
  [("success", .value (.bool false)), ("error", .value (.string message))]

/-- The reply `{ success: false, canceled: true }`. -/
def canceledReply : Envelope :=
  [("success", .value (.bool false)), ("canceled", .value (.bool true))]

/-- The reply `{ success: true }`. -/
def done : Envelope :=
  [("success", .value (.bool true))]

/-- The reply `{ success: true, key: payload }`. -/
def succeeded (key : String) (payload : Payload) : Envelope :=
  [("success", .value (.bool true)), (key, payload)]

/-- The result of `dialog.showOpenDialog`. -/
structure OpenDialogResult where
  canceled : Bool
  filePaths : List String
  deriving DecidableEq, Repr

/-- The result of `dialog.showSaveDialog`; `filePath` is `undefined` when there is
none. -/
structure SaveDialogResult where
  canceled : Bool
  filePath : Option String
  deriving DecidableEq, Repr

/-- What a request reads from outside the store: the conversions of the SQL engine and
of the runtime, the Blowfish core and the salt drawn, the clock (`now` is `new
Date().toISOString()`, `dateNow` is `Date.now()`, `currentYear`, `year`, `month` and
`offsetMinutes` are read off `new Date()`), the dialogs and the file system. -/
structure Environment where
  cv : Conversions
  ct : Casts
  rt : Runtime
  bc : Bcrypt
  salt : String
  now : String
  dateNow : ℚ
  currentYear : String
  year : Int
  month : Nat
  offsetMinutes : Int
  showOpenDialog : Except String OpenDialogResult
  showSaveDialog : Except String SaveDialogResult
  readFileSync : String → Except String (List Nat)
  writeFileSync : String → JsValue → Except String Unit
  extname : String → String

/-- A request to a handler registered with `ipcMain.handle`, with its arguments.  A
collection name is a string, and a document or an update is an object.  The argument of
`auth:completeSetup` is an object, or `none` when the caller passes `undefined` or
`null`; a primitive value has none of the four properties the handler reads and is
given as the empty object. -/
inductive Request where
  | authIsFirstRun
  | authGetProfile
  | authVerifyPassword (password : JsValue)
  | authCompleteSetup (args : Option FieldObject)
  | imageUpload (category : JsValue)
  | imageGet (imageKey : JsValue)
  | imageDelete (imageKey : JsValue)
  | dbGetAll (collectionName : String)
  | dbGetOne (collectionName : String) (id : JsValue)
  | dbInsert (collectionName : String) (document : FieldObject)
  | dbUpdate (collectionName : String) (id : JsValue) (update : FieldObject)
  | dbDelete (collectionName : String) (id : JsValue)
  | dbGetSettings
  | dbUpdateSettings (updates : FieldObject)
  | dbGetDashboardStats
  | dbGetHistory (startDate endDate : JsValue)
  | dbGetPredictions
  | exportCsv (data defaultFileName : JsValue)
  deriving DecidableEq, Repr

/-- What the promise of a handler settles with, which is what `ipcRenderer.invoke`
gives the caller: the reply the handler returns, or a rejection with the `TypeError`
that is thrown before the handler has entered its `try` block. -/
inductive Settled where
  | resolved (reply : Envelope)
  | rejected
  deriving DecidableEq, Repr

/-- The handler of `image:upload`. -/
def imageUploadHandler (env : Environment) (category : JsValue) (s : Store) : Envelope × Store :=
  match env.showOpenDialog with
  | .error e => (caught e, s)
  | .ok result =>
      if result.canceled || result.filePaths.length == 0 then (canceledReply, s)
      else
        let sourcePath := result.filePaths.headD ""
        let ext := String.mk ((env.extname sourcePath).data.drop 1)
        let mimeType := if ext = "svg" then "image/svg+xml" else "image/" ++ ext
        let imageKey := templateString env.rt category ++ "_" ++ env.rt.numberToString env.dateNow
        match env.readFileSync sourcePath with
        | .error e => (caught e, s)
        | .ok imageData =>
            match saveImage env.cv (.string imageKey) (.bytes imageData) (.string mimeType)
                env.now s with
            | (.error e, s1) => (caught e, s1)
            | (.ok _, s1) => (succeeded "imageKey" (.value (.string imageKey)), s1)

/-- The handler of `export:csv`. -/
def exportCsvHandler (env : Environment) (data : JsValue) (s : Store) : Envelope × Store :=
  match env.showSaveDialog with
  | .error e => (caught e, s)
  | .ok result =>
      match result.filePath with
      | none => (canceledReply, s)
      | some filePath =>
          if result.canceled || filePath == "" then (canceledReply, s)
          else
            match env.writeFileSync filePath data with
            | .error e => (caught e, s)
            | .ok _ => (succeeded "path" (.value (.string filePath)), s)

/-- The handlers registered with `ipcMain.handle` in `main.js`: what the promise of the
handler settles with, and the store it leaves.  `auth:completeSetup` destructures its
argument in its parameter list, which throws for `undefined` and `null` before the
`try` block is entered; every other statement of every handler is inside `try`. -/
def handle (env : Environment) : Request → Store → Settled × Store
  | .authIsFirstRun, s =>
      match isFirstRun s with
      | (.error e, s1) => (.resolved (caught e), s1)
      | (.ok isFirst, s1) => (.resolved (succeeded "isFirstRun" (.value (.bool isFirst))), s1)
  | .authGetProfile, s =>
      match getSettings s with
      | (.error e, s1) => (.resolved (caught e), s1)
      | (.ok settings, s1) =>
          (.resolved (succeeded "data" (.object (some
            [("name", orElse (property "name" settings) (.string "User")),
             ("profileImage", orElse (property "profileImage" settings) .null),
             ("currency", orElse (property "currency" settings) (.string "EUR"))]))), s1)
  | .authVerifyPassword password, s =>
      match verifyPasswordHandler env.bc password s with
      | (.failure e, s1) => (.resolved (refused e), s1)
      | (.success isValid, s1) => (.resolved (succeeded "isValid" (.value (.bool isValid))), s1)
  | .authCompleteSetup none, s => (.rejected, s)
  | .authCompleteSetup (some args), s =>
      match completeSetup env.cv env.bc (property "name" (some args))
          (property "currency" (some args)) (property "password" (some args))
          (property "profileImage" (some args)) env.salt env.now s with
      | (.error e, s1) => (.resolved (caught e), s1)
      | (.ok _, s1) => (.resolved done, s1)
  | .imageUpload category, s =>
      (.resolved (imageUploadHandler env category s).1, (imageUploadHandler env category s).2)
  | .imageGet imageKey, s =>
      match imageGetHandler env.cv env.rt imageKey s with
      | (.failure e, s1) => (.resolved (refused e), s1)
      | (.success dataUri, s1) => (.resolved (succeeded "data" (.value (.string dataUri))), s1)
  | .imageDelete imageKey, s =>
      if truthy imageKey then
        match deleteImage env.cv imageKey s with
        | (.error e, s1) => (.resolved (caught e), s1)
        | (.ok _, s1) => (.resolved done, s1)
      else (.resolved done, s)
  | .dbGetAll collectionName, s =>
      match getAll collectionName s with
      | (.error e, s1) => (.resolved (caught e), s1)
      | (.ok data, s1) => (.resolved (succeeded "data" (.objects data)), s1)
  | .dbGetOne collectionName id, s =>
      match getOne env.cv collectionName id s with
      | (.error e, s1) => (.resolved (caught e), s1)
      | (.ok data, s1) => (.resolved (succeeded "data" (.object data)), s1)
  | .dbInsert collectionName document, s =>
      match insert env.cv collectionName document env.now s with
      | (.error e, s1) => (.resolved (caught e), s1)
      | (.ok insertedId, s1) =>
          (.resolved (succeeded "data" (.object (some [("insertedId", insertedId)]))), s1)
  | .dbUpdate collectionName id update, s =>
      match FinanceTracker.update env.cv collectionName id update env.now s with
      | (.error e, s1) => (.resolved (caught e), s1)
      | (.ok modifiedCount, s1) =>
          (.resolved (succeeded "data"
            (.object (some [("modifiedCount", .number modifiedCount)]))), s1)
  | .dbDelete collectionName id, s =>
      match deleteOne env.cv collectionName id s with
      | (.error e, s1) => (.resolved (caught e), s1)
      | (.ok deletedCount, s1) =>
          (.resolved (succeeded "data"
            (.object (some [("deletedCount", .number deletedCount)]))), s1)
  | .dbGetSettings, s =>
      match getSettings s with
      | (.error e, s1) => (.resolved (caught e), s1)
      | (.ok settings, s1) => (.resolved (succeeded "data" (.object settings)), s1)
  | .dbUpdateSettings updates, s =>
      match updateSettings env.cv updates env.now s with
      | (.error e, s1) => (.resolved (caught e), s1)
      | (.ok _, s1) => (.resolved done, s1)
  | .dbGetDashboardStats, s =>
      match getDashboardStats env.cv env.ct env.currentYear s with
      | (.error e, s1) => (.resolved (caught e), s1)
      | (.ok stats, s1) => (.resolved (succeeded "data" (.dashboard stats)), s1)
  | .dbGetHistory startDate endDate, s =>
      match getHistoryData env.cv env.ct startDate endDate s with
      | (.error e, s1) => (.resolved (caught e), s1)
      | (.ok data, s1) => (.resolved (succeeded "data" (.history data)), s1)
  | .dbGetPredictions, s =>
      match getPredictionData env.cv env.ct env.rt env.offsetMinutes env.year env.month s with
      | (.error e, s1) => (.resolved (caught e), s1)
      | (.ok data, s1) => (.resolved (succeeded "data" (.predictions data)), s1)
  | .exportCsv data _, s =>
      (.resolved (exportCsvHandler env data s).1, (exportCsvHandler env data s).2)

/-- The field in which the reply to a request carries its payload when it succeeds;
`none` for the handlers that reply `{ success: true }` alone. -/
def Request.payloadField : Request → Option String
  | .authIsFirstRun => some "isFirstRun"
  | .authVerifyPassword _ => some "isValid"
  | .authCompleteSetup _ => none
  | .imageUpload _ => some "imageKey"
  | .imageDelete _ => none
  | .dbUpdateSettings _ => none
  | .exportCsv _ _ => some "path"
  | _ => some "data"

/-- An environment for examples: no dialog is answered and no file is read. -/
def sampleEnvironment : Environment :=
  { cv := plainConversions, ct := plainCasts, rt := plainRuntime, bc := sampleBcrypt,
    salt := sampleSalt, now := "2024-06-15T10:00:00.000Z", dateNow := 1718445600000,
    currentYear := "2024", year := 2024, month := 5, offsetMinutes := 0,
    showOpenDialog := .ok ⟨true, []⟩, showSaveDialog := .ok ⟨true, none⟩,
    readFileSync := fun _ => .error "ENOENT: no such file or directory",
    writeFileSync := fun _ _ => .ok (), extname := fun _ => "" }

/-- Whether an operation returns, rather than throws, on a store. -/
def Operation.returns (cv : Conversions) (bc : Bcrypt) : Operation → Store → Bool
  | .insert tableName data now, s =>
      (FinanceTracker.insert cv tableName data now s).1.toOption.isSome
  | .update tableName id data now, s =>
      (FinanceTracker.update cv tableName id data now s).1.toOption.isSome
  | .deleteOne tableName id, s => (FinanceTracker.deleteOne cv tableName id s).1.toOption.isSome
  | .completeSetup name currency password profileImage salt now, s =>
      (FinanceTracker.completeSetup cv bc name currency password profileImage salt
        now s).1.toOption.isSome
  | .updateSettings updates now, s =>
      (FinanceTracker.updateSettings cv updates now s).1.toOption.isSome
  | .saveImage imageKey data mimeType now, s =>
      (FinanceTracker.saveImage cv imageKey data mimeType now s).1.toOption.isSome
  | .deleteImage imageKey, s => (FinanceTracker.deleteImage cv imageKey s).1.toOption.isSome

/-! ## Theorems -/


theorem contains_validTables_of_not_mem {tableName : String} (h : tableName ∉ validTables) :
    validTables.contains tableName = false := by
  simpa using h

theorem contains_validTables_of_mem {tableName : String} (h : tableName ∈ validTables) :
    validTables.contains tableName = true := by
  simpa using h

/-- C1: for a table name outside the three accepted ones, each of `getAll`, `getOne`,
`insert`, `update` and `deleteOne` fails with `Invalid table name` and returns the
store (the module state, all five tables and the file) as it received it. -/
theorem invalid_table_name_rejected (cv : Conversions) (tableName : String) (id : JsValue)
    (data : FieldObject) (now : String) (s : Store) (h : tableName ∉ validTables) :
    getAll tableName s = (.error "Invalid table name", s) ∧
    getOne cv tableName id s = (.error "Invalid table name", s) ∧
    insert cv tableName data now s = (.error "Invalid table name", s) ∧
    update cv tableName id data now s = (.error "Invalid table name", s) ∧
    deleteOne cv tableName id s = (.error "Invalid table name", s) := by
  simp [getAll, getOne, insert, update, deleteOne, h]

theorem invalid_table_name_rejected_witness :
    "not_a_table" ∉ validTables ∧
    getAll "not_a_table" freshStore = (.error "Invalid table name", freshStore) ∧
    getOne plainConversions "not_a_table" (.number 1) freshStore
      = (.error "Invalid table name", freshStore) ∧
    insert plainConversions "not_a_table" [("description", .string "Salary")] "2024-01-02T00:00:00.000Z" freshStore
      = (.error "Invalid table name", freshStore) ∧
    update plainConversions "not_a_table" (.number 1) [("description", .string "Salary")] "2024-01-02T00:00:00.000Z" freshStore
      = (.error "Invalid table name", freshStore) ∧
    deleteOne plainConversions "not_a_table" (.number 1) freshStore
      = (.error "Invalid table name", freshStore) :=
  ⟨by decide, invalid_table_name_rejected plainConversions "not_a_table" (.number 1)
    [("description", .string "Salary")] "2024-01-02T00:00:00.000Z" freshStore (by decide)⟩


theorem lookup_setField_self (k : String) (v : JsValue) (o : FieldObject) :
    (setField k v o).lookup k = some v := by
  induction o with
  | nil => simp [setField, List.lookup]
  | cons p rest ih =>
      obtain ⟨a, w⟩ := p
      by_cases h : a = k
      · subst h; simp [setField, List.lookup]
      · have h2 : (k == a) = false := by simpa using fun e => h e.symm
        simp [setField, h, List.lookup, h2, ih]

theorem lookup_setField_ne {k k2 : String} (v : JsValue) (o : FieldObject) (hne : k2 ≠ k) :
    (setField k v o).lookup k2 = o.lookup k2 := by
  induction o with
  | nil =>
      have h2 : (k2 == k) = false := by simpa using hne
      simp [setField, List.lookup, h2]
  | cons p rest ih =>
      obtain ⟨a, w⟩ := p
      by_cases h : a = k
      · subst h
        have h2 : (k2 == a) = false := by simpa using hne
        simp [setField, List.lookup, h2]
      · by_cases h3 : k2 = a
        · subst h3; simp [setField, h, List.lookup]
        · have h4 : (k2 == a) = false := by simpa using h3
          simp [setField, h, List.lookup, h4, ih]

theorem lookup_bindFields {o : FieldObject} {vals : List (String × Value)}
    (h : bindFields o = .ok vals) (k : String) :
    (o.lookup k = none → vals.lookup k = none) ∧
    (∀ x, o.lookup k = some x → ∃ v, bindValue x = .ok v ∧ vals.lookup k = some v) := by
  induction o generalizing vals with
  | nil =>
      simp [bindFields] at h
      subst h
      simp
  | cons p rest ih =>
      obtain ⟨a, w⟩ := p
      simp only [bindFields] at h
      cases hb : bindValue w with
      | error e => simp [hb] at h
      | ok b =>
          cases hr : bindFields rest with
          | error e => simp [hb, hr] at h
          | ok ws =>
              simp [hb, hr] at h
              subst h
              by_cases hk : k = a
              · subst hk
                simp [List.lookup, hb]
              · have h4 : (k == a) = false := by simpa using hk
                simpa [List.lookup, h4] using ih hr


theorem table_setTable_self {tableName : String} (h : tableName ∈ validTables) (d : Database)
    (t : Table) : (d.setTable tableName t).table tableName = t := by
  simp [validTables] at h
  rcases h with rfl | rfl | rfl <;> rfl

theorem find?_insertRow_self (r : Row) (l : List Row) (h : ∀ x ∈ l, x.id ≠ r.id) :
    (insertRow r l).find? (fun x => x.id = r.id) = some r := by
  induction l with
  | nil => simp [insertRow]
  | cons x xs ih =>
      have hx : x.id ≠ r.id := h x (List.mem_cons_self _ _)
      have hxs : ∀ y ∈ xs, y.id ≠ r.id := fun y hy => h y (List.mem_cons_of_mem _ hy)
      by_cases hlt : r.id < x.id
      · simp [insertRow, hlt]
      · simp [insertRow, hlt, List.find?, hx, ih hxs]

theorem find?_insertRow_ne (r : Row) (l : List Row) (k : Int) (h : r.id ≠ k) :
    (insertRow r l).find? (fun x => x.id = k) = l.find? (fun x => x.id = k) := by
  induction l with
  | nil => simp [insertRow, h]
  | cons x xs ih =>
      by_cases hlt : r.id < x.id
      · simp [insertRow, hlt, List.find?, h]
      · by_cases hx : x.id = k
        · have hlt2 : ¬ r.id < k := hx ▸ hlt
          simp [insertRow, hlt2, List.find?, hx]
        · simp [insertRow, hlt, List.find?, hx, ih]

theorem mem_insertRow (r x : Row) (l : List Row) : x ∈ insertRow r l ↔ x = r ∨ x ∈ l := by
  induction l with
  | nil => simp [insertRow]
  | cons y ys ih =>
      by_cases hlt : r.id < y.id
      · simp [insertRow, hlt]
      · simp only [insertRow, hlt, if_false, List.mem_cons, ih]
        tauto

theorem lookup_map_columns (cols : List Column) (f : Column → Value) (n : String) :
    (cols.map (fun c => (c.name, f c))).lookup n = (cols.find? (fun c => c.name = n)).map f := by
  induction cols with
  | nil => simp
  | cons c cs ih =>
      by_cases h : c.name = n
      · subst h; simp [List.lookup, List.find?]
      · have h2 : (n == c.name) = false := by simpa using fun e => h e.symm
        simp [List.lookup, List.find?, h, h2, ih]

theorem lookup_map_columns_js (cols : List Column) (f : Column → JsValue) (n : String) :
    (cols.map (fun c => (c.name, f c))).lookup n = (cols.find? (fun c => c.name = n)).map f := by
  induction cols with
  | nil => simp
  | cons c cs ih =>
      by_cases h : c.name = n
      · subst h; simp [List.lookup, List.find?]
      · have h2 : (n == c.name) = false := by simpa using fun e => h e.symm
        simp [List.lookup, List.find?, h, h2, ih]

theorem zip_names_values (cols : List Column) (f : Column → JsValue) :
    (cols.map Column.name).zip (cols.map f) = cols.map (fun c => (c.name, f c)) := by
  induction cols with
  | nil => rfl
  | cons c cs ih => simp [ih]

theorem columnOf_name {tableName col : String} {c : Column} (h : columnOf tableName col = some c) :
    c.name = col := by
  have := List.find?_some h
  simpa using this

theorem resultToObject_single (tableName : String) (r : Row) :
    resultToObject (resultSet tableName [r]) =
      some (("id", JsValue.number r.id) ::
        (schema tableName).map (fun c => (c.name, toJs (r.get c.name)))) := by
  simp [resultToObject, resultToObjects, resultSet, columnNames, rowValues, zip_names_values]


theorem runInsert_ok {cv : Conversions} {tableName : String} {t t1 : Table}
    {vals : List (String × Value)} {k : Int}
    (h : runInsert cv tableName t vals = .ok (t1, k)) :
    notNullViolation tableName (newCells cv tableName vals) = none ∧
    (∀ r ∈ t.rows, r.id ≠ k) ∧
    t1 = ⟨insertRow ⟨k, newCells cv tableName vals⟩ t.rows, if k < t.seq then t.seq else k⟩ ∧
    (((vals.lookup "id" = none ∨ vals.lookup "id" = some .null) ∧ newRowid t = .ok k) ∨
      (∃ v, vals.lookup "id" = some v ∧ v ≠ .null ∧ rowidOf cv v = some k)) := by
  unfold runInsert at h
  have key : ∀ (rowid : Except String Int),
      (match rowid with
        | .error e => (.error e : Except String (Table × Int))
        | .ok k =>
          match notNullViolation tableName (newCells cv tableName vals) with
          | some c => .error ("NOT NULL constraint failed: " ++ tableName ++ "." ++ c)
          | none =>
            if t.rows.any (fun r => r.id = k) then
              .error ("UNIQUE constraint failed: " ++ tableName ++ ".id")
            else .ok (⟨insertRow ⟨k, newCells cv tableName vals⟩ t.rows,
                        if k < t.seq then t.seq else k⟩, k)) = .ok (t1, k) →
      rowid = .ok k ∧ notNullViolation tableName (newCells cv tableName vals) = none ∧
      (∀ r ∈ t.rows, r.id ≠ k) ∧
      t1 = ⟨insertRow ⟨k, newCells cv tableName vals⟩ t.rows, if k < t.seq then t.seq else k⟩ := by
    intro rowid hr
    cases rowid with
    | error e => simp at hr
    | ok j =>
        simp only at hr
        cases hn : notNullViolation tableName (newCells cv tableName vals) with
        | some c => simp [hn] at hr
        | none =>
            simp only [hn] at hr
            split at hr
            · simp at hr
            · rename_i hany
              simp only [Except.ok.injEq, Prod.mk.injEq] at hr
              obtain ⟨h1, h2⟩ := hr
              subst h2
              refine ⟨rfl, rfl, ?_, h1.symm⟩
              intro r hr2 he
              exact hany (by simpa using ⟨r, hr2, he⟩)
  obtain ⟨h1, h2, h3, h4⟩ := key _ h
  refine ⟨h2, h3, h4, ?_⟩
  cases hid : vals.lookup "id" with
  | none => left; simp only [hid] at h1; exact ⟨Or.inl rfl, h1⟩
  | some v =>
      cases v with
      | null => left; simp only [hid] at h1; exact ⟨Or.inr rfl, h1⟩
      | int i =>
          right; simp only [hid] at h1
          refine ⟨_, rfl, by simp, ?_⟩
          cases hro : rowidOf cv (.int i) with
          | none => simp [hro] at h1
          | some j => simp [hro] at h1; simp [h1]
      | real q =>
          right; simp only [hid] at h1
          refine ⟨_, rfl, by simp, ?_⟩
          cases hro : rowidOf cv (.real q) with
          | none => simp [hro] at h1
          | some j => simp [hro] at h1; simp [h1]
      | text s =>
          right; simp only [hid] at h1
          refine ⟨_, rfl, by simp, ?_⟩
          cases hro : rowidOf cv (.text s) with
          | none => simp [hro] at h1
          | some j => simp [hro] at h1; simp [h1]
      | blob b =>
          right; simp only [hid] at h1
          refine ⟨_, rfl, by simp, ?_⟩
          cases hro : rowidOf cv (.blob b) with
          | none => simp [hro] at h1
          | some j => simp [hro] at h1; simp [h1]


theorem saveDatabase_db {s : Store} {c : Connection} (h : s.db = some c) :
    ∃ c1, (saveDatabase s).db = some c1 ∧ c1.data = c.data ∧
      (truthyPath s.dbPath = true → c1.changes = 0) ∧
      (truthyPath s.dbPath = false → c1 = c) := by
  unfold saveDatabase
  rw [h]
  by_cases hp : truthyPath s.dbPath = true
  · simp [hp]
  · simp [hp, h]

theorem insert_ok {cv : Conversions} {tableName : String} {data : FieldObject} {now : String}
    {s s1 : Store} {id : JsValue}
    (h : insert cv tableName data now s = (.ok id, s1)) :
    ∃ c vals t k, tableName ∈ validTables ∧ s.db = some c ∧
      unknownColumn tableName
        ((setField "updatedAt" (.string now) (setField "createdAt" (.string now) data)).map
          Prod.fst) = none ∧
      bindFields (setField "updatedAt" (.string now) (setField "createdAt" (.string now) data))
        = .ok vals ∧
      runInsert cv tableName (c.data.table tableName) (insertValues tableName vals)
        = .ok (t, k) ∧
      id = .number k ∧
      s1 = saveDatabase { s with db := some ⟨c.data.setTable tableName t, 1, k⟩ } := by
  unfold insert at h
  by_cases hv : tableName ∈ validTables
  swap
  · simp [hv] at h
  simp only [contains_validTables_of_mem hv, Bool.not_true, Bool.false_eq_true, if_false] at h
  cases hdb : s.db with
  | none => simp [hdb] at h
  | some c =>
      simp only [hdb] at h
      unfold dbRunInsert at h
      cases hu : unknownColumn tableName
          ((setField "updatedAt" (.string now) (setField "createdAt" (.string now) data)).map
            Prod.fst) with
      | some n => simp [hu] at h
      | none =>
          simp only [hu] at h
          cases hb : bindFields
              (setField "updatedAt" (.string now) (setField "createdAt" (.string now) data)) with
          | error e => simp [hb] at h
          | ok vals =>
              simp only [hb] at h
              cases hr : runInsert cv tableName (c.data.table tableName)
                  (insertValues tableName vals) with
              | error e => simp [hr] at h
              | ok p =>
                  obtain ⟨t, k⟩ := p
                  simp only [hr, Prod.mk.injEq, Except.ok.injEq] at h
                  obtain ⟨h1, h2⟩ := h
                  refine ⟨c, vals, t, k, hv, rfl, rfl, rfl, hr, ?_, h2.symm⟩
                  rw [← h1]
                  simp [idOf, resultToObject, resultToObjects, selectLastInsertRowid, List.lookup]

theorem Numeric.toRowid_range {n : Numeric} {k : Int} (h : n.toRowid = some k) :
    minRowid ≤ k ∧ k ≤ maxRowid := by
  cases n with
  | int i =>
      simp only [Numeric.toRowid] at h
      split at h
      · simp at h; subst h; assumption
      · simp at h
  | real q =>
      simp only [Numeric.toRowid] at h
      split at h
      · rename_i hq; simp at h; subst h; exact hq.2
      · simp at h

theorem rowidOf_range {cv : Conversions} {v : Value} {k : Int} (h : rowidOf cv v = some k) :
    minRowid ≤ k ∧ k ≤ maxRowid := by
  cases v with
  | null => simp [rowidOf] at h
  | int i => exact Numeric.toRowid_range (n := .int i) h
  | real q => exact Numeric.toRowid_range (n := .real q) h
  | text s =>
      simp only [rowidOf] at h
      cases hn : cv.textToNumber s with
      | none => simp [hn] at h
      | some n => simp only [hn] at h; exact Numeric.toRowid_range h
  | blob b => simp [rowidOf] at h

theorem rowidOf_bind_number (cv : Conversions) (k : Int) (h : minRowid ≤ k ∧ k ≤ maxRowid) :
    ∃ v, bindValue (.number k) = .ok v ∧ rowidOf cv v = some k := by
  by_cases h32 : -2147483648 ≤ k ∧ k ≤ 2147483647
  · refine ⟨.int k, ?_, ?_⟩
    · simp [bindValue, h32]
    · simp [rowidOf, Numeric.toRowid, h]
  · refine ⟨.real k, ?_, ?_⟩
    · simp only [bindValue, Rat.intCast_den, Rat.intCast_num, true_and, h32, if_false]
    · simp [rowidOf, Numeric.toRowid, h]

theorem lastRowid_mem {l : List Row} {m : Int} (h : lastRowid l = some m) :
    ∃ r ∈ l, r.id = m := by
  induction l with
  | nil => simp [lastRowid] at h
  | cons x xs ih =>
      cases xs with
      | nil => simp [lastRowid] at h; exact ⟨x, by simp, h⟩
      | cons y ys =>
          simp only [lastRowid] at h
          obtain ⟨r, hr, he⟩ := ih h
          exact ⟨r, List.mem_cons_of_mem _ hr, he⟩

theorem lastRowid_max {l : List Row} (hs : l.Pairwise (fun a b => a.id < b.id)) :
    ∀ r ∈ l, ∃ m, lastRowid l = some m ∧ r.id ≤ m := by
  induction l with
  | nil => simp
  | cons x xs ih =>
      cases xs with
      | nil => intro r hr; simp at hr; subst hr; exact ⟨r.id, rfl, le_refl _⟩
      | cons y ys =>
          intro r hr
          have hs2 := List.Pairwise.of_cons hs
          have hx := (List.pairwise_cons.mp hs).1
          simp only [lastRowid]
          rcases List.mem_cons.mp hr with rfl | hr2
          · obtain ⟨m, hm, hle⟩ := ih hs2 y (List.mem_cons_self _ _)
            exact ⟨m, hm, le_trans (le_of_lt (hx y (List.mem_cons_self _ _))) hle⟩
          · exact ih hs2 r hr2

theorem newRowid_gt_seq {t : Table} {k : Int} (h : newRowid t = .ok k) : t.seq < k := by
  simp only [newRowid] at h
  split at h
  · simp at h
  · simp only [Except.ok.injEq] at h
    split at h <;> omega

theorem newRowid_spec {t : Table} {k : Int} (hwf : t.WF) (h : newRowid t = .ok k) :
    (∀ r ∈ t.rows, r.id < k) ∧ t.seq < k ∧ minRowid ≤ k ∧ k ≤ maxRowid := by
  obtain ⟨hs, hr, h0, hm⟩ := hwf
  have hseq := newRowid_gt_seq h
  simp only [newRowid] at h
  split at h
  · simp at h
  · rename_i hfull
    simp only [not_or] at hfull
    simp only [Except.ok.injEq] at h
    have hmin : minRowid ≤ k := by unfold minRowid; omega
    refine ⟨?_, hseq, hmin, ?_⟩
    · intro r hr2
      obtain ⟨m, hm2, hle⟩ := lastRowid_max hs r hr2
      rw [hm2] at h
      simp only at h
      split at h <;> omega
    · cases hl : lastRowid t.rows with
      | none =>
          rw [hl] at h
          simp only at h
          unfold maxRowid at *
          split at h <;> omega
      | some m =>
          rw [hl] at h hfull
          simp only at h
          obtain ⟨r, hr2, he⟩ := lastRowid_mem hl
          have := (hr r hr2).2
          have hne : m ≠ maxRowid := fun e => hfull.1 (by rw [e])
          unfold maxRowid at *
          split at h <;> omega


theorem toJs_applyAffinity_of_storedAsGiven (cv : Conversions) {a : Affinity} {x : JsValue}
    {v : Value} (hs : storedAsGiven a x = true) (hb : bindValue x = .ok v) :
    toJs (applyAffinity cv a v) = x := by
  cases x with
  | undefined => simp [bindValue] at hb
  | null => simp [bindValue] at hb; subst hb; cases a <;> rfl
  | bool b => cases a <;> simp [storedAsGiven] at hs
  | bytes b => simp [bindValue] at hb; subst hb; cases a <;> rfl
  | string s =>
      simp [bindValue] at hb; subst hb
      cases a <;> first | rfl | simp [storedAsGiven] at hs
  | number q =>
      simp only [bindValue] at hb
      split at hb
      · rename_i hq
        simp only [Except.ok.injEq] at hb; subst hb
        have hcast : ((q.num : ℤ) : ℚ) = q := Rat.coe_int_num_of_den_eq_one hq.1
        cases a
        · simp [applyAffinity, toJs, hcast]
        · simp [storedAsGiven] at hs
        · simp [applyAffinity, toJs, hcast]
        · simp [applyAffinity, toJs, hcast]
      · simp only [Except.ok.injEq] at hb; subst hb
        cases a
        · by_cases hd : q.den = 1
          · have hcast : ((q.num : ℤ) : ℚ) = q := Rat.coe_int_num_of_den_eq_one hd
            simp [applyAffinity, toJs, hd, hcast]
          · simp [applyAffinity, toJs, hd]
        · simp [storedAsGiven] at hs
        · simp [applyAffinity, toJs]
        · simp [applyAffinity, toJs]

theorem unknownColumn_none {tableName : String} {names : List String}
    (h : unknownColumn tableName names = none) :
    ∀ n ∈ names, ∃ col, resolveColumn tableName n = some col := by
  intro n hn
  simp only [unknownColumn, List.find?_eq_none] at h
  have h1 := h n hn
  cases hr : resolveColumn tableName n with
  | none => simp [hr] at h1
  | some col => exact ⟨col, rfl⟩

theorem resolveColumn_mem {tableName n col : String}
    (h : resolveColumn tableName n = some col) : col ∈ columnNames tableName := by
  unfold resolveColumn at h
  cases hf : (columnNames tableName).find? (fun c => sameName c n) with
  | some c =>
      simp only [hf, Option.some.injEq] at h
      subst h
      exact List.mem_of_find?_eq_some hf
  | none =>
      simp only [hf] at h
      split at h
      · simp only [Option.some.injEq] at h
        subst h
        simp [columnNames]
      · cases h

theorem columnOf_of_mem {tableName col : String} (h : col ∈ columnNames tableName) :
    col = "id" ∨ ∃ c, columnOf tableName col = some c := by
  rcases List.mem_cons.mp h with h2 | h2
  · exact Or.inl h2
  · right
    obtain ⟨c, hc, hcn⟩ := List.mem_map.mp h2
    cases hf : columnOf tableName col with
    | some c => exact ⟨c, rfl⟩
    | none =>
        simp only [columnOf, List.find?_eq_none] at hf
        exact absurd (by simpa using hcn) (hf c hc)

theorem mem_columnNames_of_columnOf {tableName col : String} {c : Column}
    (h : columnOf tableName col = some c) : col ∈ columnNames tableName := by
  have hmem : c ∈ schema tableName := List.mem_of_find?_eq_some h
  have hn : c.name = col := by simpa using List.find?_some h
  exact List.mem_cons_of_mem _ (List.mem_map.mpr ⟨c, hmem, hn⟩)

theorem resolveColumn_stamps {tableName : String} (h : tableName ∈ validTables) :
    resolveColumn tableName "createdAt" = some "createdAt" ∧
    resolveColumn tableName "updatedAt" = some "updatedAt" := by
  simp [validTables] at h
  rcases h with rfl | rfl | rfl <;> exact ⟨by decide, by decide⟩

theorem firstFor_some {α : Type} {tableName col : String} {o : List (String × α)}
    {p : String × α} (h : firstFor tableName col o = some p) :
    p ∈ o ∧ resolveColumn tableName p.1 = some col := by
  induction o with
  | nil => simp [firstFor] at h
  | cons q rest ih =>
      obtain ⟨a, w⟩ := q
      simp only [firstFor] at h
      split at h
      · rename_i hr
        simp only [Option.some.injEq] at h
        subst h
        exact ⟨List.mem_cons_self _ _, hr⟩
      · exact ⟨List.mem_cons_of_mem _ (ih h).1, (ih h).2⟩

theorem lastFor_some {α : Type} {tableName col : String} {o : List (String × α)}
    {p : String × α} (h : lastFor tableName col o = some p) :
    p ∈ o ∧ resolveColumn tableName p.1 = some col := by
  induction o with
  | nil => simp [lastFor] at h
  | cons q rest ih =>
      obtain ⟨a, w⟩ := q
      simp only [lastFor] at h
      cases hl : lastFor tableName col rest with
      | some p2 =>
          simp only [hl, Option.some.injEq] at h
          subst h
          exact ⟨List.mem_cons_of_mem _ (ih hl).1, (ih hl).2⟩
      | none =>
          simp only [hl] at h
          split at h
          · rename_i hr
            simp only [Option.some.injEq] at h
            subst h
            exact ⟨List.mem_cons_self _ _, hr⟩
          · cases h

theorem firstFor_setField_ne {tableName col k : String} (v : JsValue) (o : FieldObject)
    (h : resolveColumn tableName k ≠ some col) :
    firstFor tableName col (setField k v o) = firstFor tableName col o := by
  induction o with
  | nil => simp [setField, firstFor, h]
  | cons q rest ih =>
      obtain ⟨a, w⟩ := q
      by_cases hk : a = k
      · subst hk
        simp [setField, firstFor, h]
      · simp only [setField, hk, if_false, firstFor, ih]

theorem lastFor_setField_ne {tableName col k : String} (v : JsValue) (o : FieldObject)
    (h : resolveColumn tableName k ≠ some col) :
    lastFor tableName col (setField k v o) = lastFor tableName col o := by
  induction o with
  | nil => simp [setField, lastFor, h]
  | cons q rest ih =>
      obtain ⟨a, w⟩ := q
      by_cases hk : a = k
      · subst hk
        simp [setField, lastFor, h]
      · simp only [setField, hk, if_false, lastFor, ih]

theorem firstFor_setField_self {tableName col : String} (v : JsValue) (o : FieldObject)
    (hr : resolveColumn tableName col = some col)
    (h : ∀ p, firstFor tableName col o = some p → p.1 = col) :
    firstFor tableName col (setField col v o) = some (col, v) := by
  induction o with
  | nil => simp [setField, firstFor, hr]
  | cons q rest ih =>
      obtain ⟨a, w⟩ := q
      by_cases hk : a = col
      · subst hk
        simp [setField, firstFor, hr]
      · by_cases hra : resolveColumn tableName a = some col
        · exact absurd (h (a, w) (by simp [firstFor, hra])) hk
        · simp only [setField, hk, if_false, firstFor, hra]
          refine ih ?_
          intro p hp
          exact h p (by simp only [firstFor, hra, if_false]; exact hp)

theorem lastFor_setField_self {tableName col : String} (v : JsValue) (o : FieldObject)
    (hr : resolveColumn tableName col = some col) (hnd : (o.map Prod.fst).Nodup)
    (h : ∀ p, lastFor tableName col o = some p → p.1 = col) :
    lastFor tableName col (setField col v o) = some (col, v) := by
  induction o with
  | nil => simp [setField, lastFor, hr]
  | cons q rest ih =>
      obtain ⟨a, w⟩ := q
      simp only [List.map_cons, List.nodup_cons] at hnd
      by_cases hk : a = col
      · subst hk
        have hnone : lastFor tableName a rest = none := by
          cases hl : lastFor tableName a rest with
          | none => rfl
          | some p =>
              exfalso
              have hp := h p (by simp [lastFor, hl])
              exact hnd.1 (List.mem_map.mpr ⟨p, (lastFor_some hl).1, hp⟩)
        simp [setField, lastFor, hnone, hr]
      · have hrest : lastFor tableName col (setField col v rest) = some (col, v) := by
          refine ih hnd.2 ?_
          intro p hp
          exact h p (by simp [lastFor, hp])
        simp only [setField, hk, if_false, lastFor, hrest]

theorem firstFor_bindFields {tableName col : String} {o : FieldObject}
    {vals : List (String × Value)} (h : bindFields o = .ok vals) :
    (firstFor tableName col o = none → firstFor tableName col vals = none) ∧
    (∀ k x, firstFor tableName col o = some (k, x) →
      ∃ v, bindValue x = .ok v ∧ firstFor tableName col vals = some (k, v)) := by
  induction o generalizing vals with
  | nil =>
      simp [bindFields] at h
      subst h
      simp [firstFor]
  | cons p rest ih =>
      obtain ⟨a, w⟩ := p
      simp only [bindFields] at h
      cases hb : bindValue w with
      | error e => simp [hb] at h
      | ok b =>
          cases hr : bindFields rest with
          | error e => simp [hb, hr] at h
          | ok ws =>
              simp [hb, hr] at h
              subst h
              by_cases hk : resolveColumn tableName a = some col
              · simp [firstFor, hk, hb]
              · simpa [firstFor, hk] using ih hr

theorem lastFor_bindFields {tableName col : String} {o : FieldObject}
    {vals : List (String × Value)} (h : bindFields o = .ok vals) :
    (lastFor tableName col o = none → lastFor tableName col vals = none) ∧
    (∀ k x, lastFor tableName col o = some (k, x) →
      ∃ v, bindValue x = .ok v ∧ lastFor tableName col vals = some (k, v)) := by
  induction o generalizing vals with
  | nil =>
      simp [bindFields] at h
      subst h
      simp [lastFor]
  | cons p rest ih =>
      obtain ⟨a, w⟩ := p
      simp only [bindFields] at h
      cases hb : bindValue w with
      | error e => simp [hb] at h
      | ok b =>
          cases hr : bindFields rest with
          | error e => simp [hb, hr] at h
          | ok ws =>
              simp [hb, hr] at h
              subst h
              obtain ⟨ih1, ih2⟩ := ih hr
              cases hl : lastFor tableName col rest with
              | none =>
                  have hl2 := ih1 hl
                  by_cases hk : resolveColumn tableName a = some col
                  · simp [lastFor, hl, hl2, hk, hb]
                  · simp [lastFor, hl, hl2, hk]
              | some q =>
                  obtain ⟨k2, x2⟩ := q
                  obtain ⟨v2, hb2, hl2⟩ := ih2 k2 x2 hl
                  simp only [lastFor, hl, hl2]
                  refine ⟨by simp, ?_⟩
                  intro k x hkx
                  simp only [Option.some.injEq, Prod.mk.injEq] at hkx
                  obtain ⟨rfl, rfl⟩ := hkx
                  exact ⟨v2, hb2, rfl⟩

theorem lookup_keyed (cols : List String) (g : String → Option (String × Value))
    (col : String) :
    (cols.filterMap (fun c => (g c).map (fun p => (c, p.2)))).lookup col
      = if col ∈ cols then (g col).map Prod.snd else none := by
  induction cols with
  | nil => simp
  | cons c cs ih =>
      by_cases hc : col = c
      · subst hc
        cases hg : g col with
        | none =>
            simp only [List.filterMap_cons, hg, Option.map_none', ih, List.mem_cons, true_or,
              if_true]
            split <;> rfl
        | some p => simp [List.filterMap_cons, hg, List.lookup]
      · have h2 : (col == c) = false := by simpa using hc
        cases hg : g c with
        | none => simp [List.filterMap_cons, hg, ih, hc]
        | some p => simp [List.filterMap_cons, hg, List.lookup, h2, ih, hc]

theorem lookup_insertValues_id (tableName : String) (vals : List (String × Value)) :
    (insertValues tableName vals).lookup "id" = (lastFor tableName "id" vals).map Prod.snd := by
  unfold insertValues
  rw [lookup_keyed]
  simp [columnNames]

theorem lookup_insertValues {tableName col : String} (vals : List (String × Value))
    (hne : col ≠ "id") (hmem : col ∈ columnNames tableName) :
    (insertValues tableName vals).lookup col = (firstFor tableName col vals).map Prod.snd := by
  unfold insertValues
  rw [lookup_keyed]
  simp [hmem, hne]

theorem lookup_insertValues_none {tableName col : String} (vals : List (String × Value))
    (hmem : col ∉ columnNames tableName) : (insertValues tableName vals).lookup col = none := by
  unfold insertValues
  rw [lookup_keyed]
  simp [hmem]

theorem lookup_updateValues {tableName col : String} (vals : List (String × Value))
    (hmem : col ∈ columnNames tableName) :
    (updateValues tableName vals).lookup col = (lastFor tableName col vals).map Prod.snd := by
  unfold updateValues
  rw [lookup_keyed]
  simp [hmem]

theorem lookup_updateValues_none {tableName col : String} (vals : List (String × Value))
    (hmem : col ∉ columnNames tableName) : (updateValues tableName vals).lookup col = none := by
  unfold updateValues
  rw [lookup_keyed]
  simp [hmem]

theorem plainObject_nodup {α : Type} {o : List (String × α)} (h : plainObject o = true) :
    (o.map Prod.fst).Nodup := by
  simp only [plainObject, Bool.and_eq_true, decide_eq_true_eq] at h
  exact h.1

theorem mem_keys_of_lookup {o : FieldObject} {k : String} {x : JsValue}
    (h : o.lookup k = some x) : k ∈ o.map Prod.fst := by
  induction o with
  | nil => simp at h
  | cons p rest ih =>
      obtain ⟨a, w⟩ := p
      by_cases hk : k = a
      · simp [hk]
      · have h4 : (k == a) = false := by simpa using hk
        simp only [List.lookup, h4] at h
        simp [ih h]

theorem get_newCells {cv : Conversions} {tableName col : String} {c : Column} (k : Int)
    (vals : List (String × Value)) (hc : columnOf tableName col = some c) :
    (Row.mk k (newCells cv tableName vals)).get col =
      match vals.lookup col with
      | some v => applyAffinity cv c.affinity v
      | none => c.dflt := by
  have hn := columnOf_name hc
  simp only [Row.get, newCells, lookup_map_columns]
  unfold columnOf at hc
  rw [hc]
  simp [hn]

theorem lookup_record {tableName col : String} {c : Column} (r : Row)
    (hc : columnOf tableName col = some c) (hne : col ≠ "id") :
    (("id", JsValue.number r.id) ::
        (schema tableName).map (fun c => (c.name, toJs (r.get c.name)))).lookup col
      = some (toJs (r.get col)) := by
  have hn := columnOf_name hc
  have h2 : (col == "id") = false := by simpa using hne
  simp only [List.lookup, h2, lookup_map_columns_js]
  unfold columnOf at hc
  rw [hc]
  simp [hn]

theorem columnOf_stamps {tableName : String} (h : tableName ∈ validTables) :
    columnOf tableName "createdAt" = some ⟨"createdAt", .text, false, .null⟩ ∧
    columnOf tableName "updatedAt" = some ⟨"updatedAt", .text, false, .null⟩ := by
  simp [validTables] at h
  rcases h with rfl | rfl | rfl <;> exact ⟨rfl, rfl⟩


theorem getOne_of_find (cv : Conversions) {tableName : String} {s : Store} {c : Connection}
    {r : Row} (hv : tableName ∈ validTables) (hdb : s.db = some c)
    (hrange : minRowid ≤ r.id ∧ r.id ≤ maxRowid)
    (hf : (c.data.table tableName).rows.find? (fun x => x.id = r.id) = some r) :
    getOne cv tableName (.number r.id) s =
      (.ok (some (("id", JsValue.number r.id) ::
        (schema tableName).map (fun c => (c.name, toJs (r.get c.name))))), s) := by
  obtain ⟨v, hb, hro⟩ := rowidOf_bind_number cv r.id hrange
  simp only [getOne, contains_validTables_of_mem hv, Bool.not_true, Bool.false_eq_true,
    if_false, hdb, hb, selectById, hro, selectByRowid, hf, resultToObject_single]

/-- C2 (amended): for a plain field object `X` on which `insert` succeeds, `getOne` with
the returned id finds a record whose `id` is the returned id.  Its `createdAt` is the
insertion timestamp unless a key of `X` in another spelling stands for that column
before `createdAt` itself does, and likewise its `updatedAt`.  For every other column,
the record holds under the column's name the value of the first key of `X` that stands
for the column, as sql.js binds it and the column's affinity stores it, which is the
given value itself when it is `null`, text in a TEXT column or a number in a REAL or
INTEGER column. -/
theorem insert_then_getOne (cv : Conversions) (tableName : String) (X : FieldObject)
    (now : String) (s s1 : Store) (id : JsValue) (hwf : s.WF)
    (hobj : plainObject X = true)
    (hins : insert cv tableName X now s = (.ok id, s1)) :
    ∃ record, getOne cv tableName id s1 = (.ok (some record), s1) ∧
      record.lookup "id" = some id ∧
      ((∀ p, firstFor tableName "createdAt" X = some p → p.1 = "createdAt") →
        record.lookup "createdAt" = some (.string now)) ∧
      ((∀ p, firstFor tableName "updatedAt" X = some p → p.1 = "updatedAt") →
        record.lookup "updatedAt" = some (.string now)) ∧
      ∀ col key x, firstFor tableName col X = some (key, x) →
        col ≠ "id" → col ≠ "createdAt" → col ≠ "updatedAt" →
        ∃ column v, columnOf tableName col = some column ∧ bindValue x = .ok v ∧
          record.lookup col = some (toJs (applyAffinity cv column.affinity v)) ∧
          (storedAsGiven column.affinity x = true → record.lookup col = some x) := by
  have _ := hobj
  obtain ⟨c, vals, t, k, hv, hdb, hu, hb, hr, hid, hs1⟩ := insert_ok hins
  obtain ⟨hnn, huniq, ht, hrow⟩ := runInsert_ok hr
  -- the rowid is within range
  have hrange : minRowid ≤ k ∧ k ≤ maxRowid := by
    rcases hrow with ⟨_, hnew⟩ | ⟨v, _, _, hro⟩
    · exact (newRowid_spec (hwf c hdb tableName hv) hnew).2.2
    · exact rowidOf_range hro
  -- the store after the insert
  obtain ⟨c1, hc1, hdata, _, _⟩ :=
    saveDatabase_db (s := { s with db := some ⟨c.data.setTable tableName t, 1, k⟩ }) rfl
  rw [← hs1] at hc1
  have htab : c1.data.table tableName = t := by
    rw [hdata]; exact table_setTable_self hv _ _
  have hfind : (c1.data.table tableName).rows.find?
      (fun x => x.id = (Row.mk k (newCells cv tableName (insertValues tableName vals))).id)
      = some (Row.mk k (newCells cv tableName (insertValues tableName vals))) := by
    rw [htab, ht]
    exact find?_insertRow_self _ _ huniq
  have hget := getOne_of_find cv hv hc1 hrange hfind
  obtain ⟨hcre, hupd⟩ := columnOf_stamps hv
  obtain ⟨hrcre, hrupd⟩ := resolveColumn_stamps hv
  -- what the statement gives a column other than the rowid
  have hcell : ∀ col key x column,
      firstFor tableName col (setField "updatedAt" (JsValue.string now)
        (setField "createdAt" (JsValue.string now) X)) = some (key, x) →
      col ≠ "id" → columnOf tableName col = some column →
      ∃ v, bindValue x = .ok v ∧
        (("id", JsValue.number k) :: (schema tableName).map (fun c =>
          (c.name, toJs ((Row.mk k (newCells cv tableName
            (insertValues tableName vals))).get c.name)))).lookup col
          = some (toJs (applyAffinity cv column.affinity v)) := by
    intro col key x column hx hne hcol
    obtain ⟨v, hbv, hlv⟩ := (firstFor_bindFields hb).2 key x hx
    refine ⟨v, hbv, ?_⟩
    have hrec := lookup_record
      (Row.mk k (newCells cv tableName (insertValues tableName vals))) hcol hne
    rw [get_newCells k _ hcol,
      lookup_insertValues vals hne (mem_columnNames_of_columnOf hcol), hlv] at hrec
    exact hrec
  refine ⟨_, by rw [hid]; exact hget, ?_, ?_, ?_, ?_⟩
  · simp [List.lookup, hid]
  · intro hfirst
    have hx : firstFor tableName "createdAt" (setField "updatedAt" (JsValue.string now)
        (setField "createdAt" (JsValue.string now) X)) = some ("createdAt", .string now) := by
      rw [firstFor_setField_ne _ _ (by rw [hrupd]; decide)]
      exact firstFor_setField_self _ _ hrcre hfirst
    obtain ⟨v, hbv, hrec⟩ := hcell _ _ _ _ hx (by decide) hcre
    simp only [bindValue, Except.ok.injEq] at hbv
    subst hbv
    exact hrec
  · intro hfirst
    have hx : firstFor tableName "updatedAt" (setField "updatedAt" (JsValue.string now)
        (setField "createdAt" (JsValue.string now) X)) = some ("updatedAt", .string now) := by
      refine firstFor_setField_self _ _ hrupd ?_
      intro p hp
      rw [firstFor_setField_ne _ _ (by rw [hrcre]; decide)] at hp
      exact hfirst p hp
    obtain ⟨v, hbv, hrec⟩ := hcell _ _ _ _ hx (by decide) hupd
    simp only [bindValue, Except.ok.injEq] at hbv
    subst hbv
    exact hrec
  · intro col key x hx hne1 hne2 hne3
    have hx2 : firstFor tableName col (setField "updatedAt" (JsValue.string now)
        (setField "createdAt" (JsValue.string now) X)) = some (key, x) := by
      rw [firstFor_setField_ne _ _ (by rw [hrupd]; simpa using hne3.symm),
        firstFor_setField_ne _ _ (by rw [hrcre]; simpa using hne2.symm), hx]
    rcases columnOf_of_mem (resolveColumn_mem (firstFor_some hx).2) with h0 | ⟨column, hcol⟩
    · exact absurd h0 hne1
    · obtain ⟨v, hbv, hrec⟩ := hcell _ _ _ _ hx2 hne1 hcol
      refine ⟨column, v, hcol, hbv, hrec, ?_⟩
      intro hsa
      rw [hrec, toJs_applyAffinity_of_storedAsGiven cv hsa hbv]

theorem freshStore_WF : freshStore.WF := by
  intro c hc tableName hv
  have hc2 : c = ⟨(initDatabase "finance_tracker.db" "2024-01-01T00:00:00.000Z"
      ⟨none, none, none⟩).file.get rfl, 0, 0⟩ := by
    have : freshStore.db = some ⟨(initDatabase "finance_tracker.db" "2024-01-01T00:00:00.000Z"
      ⟨none, none, none⟩).file.get rfl, 0, 0⟩ := rfl
    rw [this] at hc
    exact (Option.some.inj hc).symm
  subst hc2
  simp [validTables] at hv
  rcases hv with rfl | rfl | rfl <;>
    exact ⟨List.Pairwise.nil, (by intro r hr; cases hr), (by decide), (by decide)⟩

theorem insert_then_getOne_witness :
    plainObject mixedCaseSalary = true ∧
    ∃ record,
      getOne plainConversions "income" (.number 1)
          (insert plainConversions "income" mixedCaseSalary "2024-02-01T10:00:00.000Z"
            freshStore).2
        = (.ok (some record),
          (insert plainConversions "income" mixedCaseSalary "2024-02-01T10:00:00.000Z"
            freshStore).2) ∧
      record.lookup "id" = some (.number 1) ∧
      ((∀ p, firstFor "income" "createdAt" mixedCaseSalary = some p → p.1 = "createdAt") →
        record.lookup "createdAt" = some (.string "2024-02-01T10:00:00.000Z")) ∧
      ((∀ p, firstFor "income" "updatedAt" mixedCaseSalary = some p → p.1 = "updatedAt") →
        record.lookup "updatedAt" = some (.string "2024-02-01T10:00:00.000Z")) ∧
      ∀ col key x, firstFor "income" col mixedCaseSalary = some (key, x) →
        col ≠ "id" → col ≠ "createdAt" → col ≠ "updatedAt" →
        ∃ column v, columnOf "income" col = some column ∧ bindValue x = .ok v ∧
          record.lookup col = some (toJs (applyAffinity plainConversions column.affinity v)) ∧
          (storedAsGiven column.affinity x = true → record.lookup col = some x) :=
  ⟨by decide,
    insert_then_getOne plainConversions "income" mixedCaseSalary "2024-02-01T10:00:00.000Z"
      freshStore _ (.number 1) freshStore_WF (by decide) rfl⟩

/-- C2 (counterexample): each of these field objects is accepted.  One that carries its
own `createdAt` is read back with the insertion timestamp in `createdAt`, not the
given value.  One that carries `CreatedAt` is read back with the given value in
`createdAt`, not the insertion timestamp.  A boolean `recurring` is read back as the
number 1.  And one that carries `rowid` is read back without a field of that name. -/
theorem insert_then_getOne_counterexample :
    (∃ record,
      getOne plainConversions "income" (.number 1)
          (insert plainConversions "income" (("createdAt", .string "1999-12-31") :: salary)
            "2024-02-01T10:00:00.000Z" freshStore).2
        = (.ok (some record),
          (insert plainConversions "income" (("createdAt", .string "1999-12-31") :: salary)
            "2024-02-01T10:00:00.000Z" freshStore).2) ∧
      (insert plainConversions "income" (("createdAt", .string "1999-12-31") :: salary)
            "2024-02-01T10:00:00.000Z" freshStore).1 = .ok (.number 1) ∧
      List.lookup "createdAt" (("createdAt", JsValue.string "1999-12-31") :: salary)
        = some (.string "1999-12-31") ∧
      record.lookup "createdAt" = some (.string "2024-02-01T10:00:00.000Z")) ∧
    (∃ record,
      getOne plainConversions "income" (.number 1)
          (insert plainConversions "income" (("CreatedAt", .string "1999-12-31") :: salary)
            "2024-02-01T10:00:00.000Z" freshStore).2
        = (.ok (some record),
          (insert plainConversions "income" (("CreatedAt", .string "1999-12-31") :: salary)
            "2024-02-01T10:00:00.000Z" freshStore).2) ∧
      (insert plainConversions "income" (("CreatedAt", .string "1999-12-31") :: salary)
            "2024-02-01T10:00:00.000Z" freshStore).1 = .ok (.number 1) ∧
      record.lookup "createdAt" = some (.string "1999-12-31") ∧
      record.lookup "CreatedAt" = none ∧
      record.lookup "updatedAt" = some (.string "2024-02-01T10:00:00.000Z")) ∧
    (∃ record,
      getOne plainConversions "outgoing" (.number 1)
          (insert plainConversions "outgoing" rent "2024-02-01T10:00:00.000Z" freshStore).2
        = (.ok (some record),
          (insert plainConversions "outgoing" rent "2024-02-01T10:00:00.000Z" freshStore).2) ∧
      (insert plainConversions "outgoing" rent "2024-02-01T10:00:00.000Z" freshStore).1
        = .ok (.number 1) ∧
      List.lookup "recurring" rent = some (.bool true) ∧
      record.lookup "recurring" = some (.number 1)) ∧
    (∃ record,
      getOne plainConversions "income" (.number 5)
          (insert plainConversions "income" (("rowid", .number 5) :: salary)
            "2024-02-01T10:00:00.000Z" freshStore).2
        = (.ok (some record),
          (insert plainConversions "income" (("rowid", .number 5) :: salary)
            "2024-02-01T10:00:00.000Z" freshStore).2) ∧
      (insert plainConversions "income" (("rowid", .number 5) :: salary)
            "2024-02-01T10:00:00.000Z" freshStore).1 = .ok (.number 5) ∧
      record.lookup "rowid" = none ∧
      record.lookup "id" = some (.number 5)) :=
  ⟨⟨_, rfl, rfl, rfl, rfl⟩, ⟨_, rfl, rfl, rfl, rfl, rfl⟩, ⟨_, rfl, rfl, rfl, rfl⟩,
    ⟨_, rfl, rfl, rfl, rfl⟩⟩


theorem bindValue_null {x : JsValue} (h : bindValue x = .ok .null) : x = .null := by
  cases x with
  | undefined => simp [bindValue] at h
  | null => rfl
  | bool b => simp [bindValue] at h
  | number q => simp only [bindValue] at h; split at h <;> simp at h
  | string s => simp [bindValue] at h
  | bytes b => simp [bindValue] at h

/-- C3 (amended): `insert` does not ignore a caller-supplied id.  The rowid of the new
row is taken from the last key of the plain field object that stands for the rowid
(`id` in any letter case, or `rowid`, `oid`, `_rowid_`): when its value is not `null`
and the insert succeeds, the returned id and the id of the stored row are the integer
that value stands for; the store assigns the id itself, above every id of the table
and above its sequence entry, only when no key stands for the rowid or the value of
the last one is `null`. -/
theorem insert_id_assignment (cv : Conversions) (tableName : String) (X : FieldObject)
    (now : String) (s s1 : Store) (id : JsValue) (hwf : s.WF)
    (hobj : plainObject X = true)
    (hins : insert cv tableName X now s = (.ok id, s1)) :
    ∃ c c1, ∃ k : Int, s.db = some c ∧ s1.db = some c1 ∧ id = .number k ∧
      (∃ r ∈ (c1.data.table tableName).rows, r.id = k) ∧
      (∀ key x, lastFor tableName "id" X = some (key, x) → x ≠ .null →
        ∃ v, bindValue x = .ok v ∧ rowidOf cv v = some k) ∧
      ((lastFor tableName "id" X = none ∨ ∃ key, lastFor tableName "id" X = some (key, .null)) →
        (∀ r ∈ (c.data.table tableName).rows, r.id < k) ∧ (c.data.table tableName).seq < k) := by
  have _ := hobj
  obtain ⟨c, vals, t, k, hv, hdb, hu, hb, hr, hid, hs1⟩ := insert_ok hins
  obtain ⟨hnn, huniq, ht, hrow⟩ := runInsert_ok hr
  obtain ⟨c1, hc1, hdata, _, _⟩ :=
    saveDatabase_db (s := { s with db := some ⟨c.data.setTable tableName t, 1, k⟩ }) rfl
  rw [← hs1] at hc1
  have htab : c1.data.table tableName = t := by
    rw [hdata]; exact table_setTable_self hv _ _
  obtain ⟨hrcre, hrupd⟩ := resolveColumn_stamps hv
  have hlook : lastFor tableName "id" (setField "updatedAt" (JsValue.string now)
        (setField "createdAt" (JsValue.string now) X)) = lastFor tableName "id" X := by
    rw [lastFor_setField_ne _ _ (by rw [hrupd]; decide),
      lastFor_setField_ne _ _ (by rw [hrcre]; decide)]
  rw [lookup_insertValues_id] at hrow
  refine ⟨c, c1, k, hdb, hc1, hid, ?_, ?_, ?_⟩
  · rw [htab, ht]
    exact ⟨⟨k, newCells cv tableName (insertValues tableName vals)⟩,
      (mem_insertRow _ _ _).mpr (Or.inl rfl), rfl⟩
  · intro key x hx hxn
    obtain ⟨v, hbv, hlv⟩ := (lastFor_bindFields hb).2 key x (by rw [hlook]; exact hx)
    refine ⟨v, hbv, ?_⟩
    rw [hlv] at hrow
    rcases hrow with ⟨hnone | hnull, _⟩ | ⟨w, hw, _, hro⟩
    · cases hnone
    · simp only [Option.map_some', Option.some.injEq] at hnull
      rw [hnull] at hbv
      exact absurd (bindValue_null hbv) hxn
    · simp only [Option.map_some', Option.some.injEq] at hw
      rw [hw]
      exact hro
  · intro hx
    have hvals : (lastFor tableName "id" vals).map Prod.snd = none ∨
        (lastFor tableName "id" vals).map Prod.snd = some .null := by
      rcases hx with hx | ⟨key, hx⟩
      · left
        rw [(lastFor_bindFields hb).1 (by rw [hlook]; exact hx)]
        rfl
      · right
        obtain ⟨v, hbv, hlv⟩ := (lastFor_bindFields hb).2 key _ (by rw [hlook]; exact hx)
        simp only [bindValue, Except.ok.injEq] at hbv
        rw [hlv, ← hbv]
        rfl
    have hnew : newRowid (c.data.table tableName) = .ok k := by
      rcases hrow with ⟨_, hnew⟩ | ⟨w, hw, hwn, _⟩
      · exact hnew
      · rcases hvals with h1 | h1
        · rw [h1] at hw; cases hw
        · rw [h1] at hw; cases hw; exact absurd rfl hwn
    have hspec := newRowid_spec (hwf c hdb tableName hv) hnew
    exact ⟨hspec.1, hspec.2.1⟩

theorem insert_id_assignment_witness :
    plainObject (("id", JsValue.number 42) :: ("ROWID", .number 43) :: salary) = true ∧
    ∃ c c1, ∃ k : Int, freshStore.db = some c ∧
      (insert plainConversions "income" (("id", .number 42) :: ("ROWID", .number 43) :: salary)
        "2024-02-01T10:00:00.000Z" freshStore).2.db = some c1 ∧
      JsValue.number 43 = .number k ∧
      (∃ r ∈ (c1.data.table "income").rows, r.id = k) ∧
      (∀ key x, lastFor "income" "id"
          (("id", JsValue.number 42) :: ("ROWID", .number 43) :: salary) = some (key, x) →
        x ≠ .null → ∃ v, bindValue x = .ok v ∧ rowidOf plainConversions v = some k) ∧
      ((lastFor "income" "id" (("id", JsValue.number 42) :: ("ROWID", .number 43) :: salary)
          = none ∨
        ∃ key, lastFor "income" "id"
          (("id", JsValue.number 42) :: ("ROWID", .number 43) :: salary) = some (key, .null)) →
        (∀ r ∈ (c.data.table "income").rows, r.id < k) ∧ (c.data.table "income").seq < k) :=
  ⟨by decide,
    insert_id_assignment plainConversions "income"
      (("id", .number 42) :: ("ROWID", .number 43) :: salary)
      "2024-02-01T10:00:00.000Z" freshStore _ (.number 43) freshStore_WF (by decide) rfl⟩

/-- C3 (counterexample): on the freshly initialised store, where the store itself
assigns id 1, an insert whose field object carries `id: 42` returns 42 and stores
the row under id 42. -/
theorem insert_id_assignment_counterexample :
    (insert plainConversions "income" salary "2024-02-01T10:00:00.000Z" freshStore).1
      = .ok (.number 1) ∧
    (insert plainConversions "income" (("id", .number 42) :: salary)
      "2024-02-01T10:00:00.000Z" freshStore).1 = .ok (.number 42) ∧
    (getAll "income"
      (insert plainConversions "income" (("id", .number 42) :: salary)
        "2024-02-01T10:00:00.000Z" freshStore).2).1
      = .ok [[("id", .number 42), ("description", .string "Salary"), ("amount", .number 100),
              ("date", .string "2024-01-15"), ("category", .null), ("provider", .null),
              ("icon", .null), ("createdAt", .string "2024-02-01T10:00:00.000Z"),
              ("updatedAt", .string "2024-02-01T10:00:00.000Z")]] :=
  ⟨rfl, rfl, rfl⟩


theorem runUpdate_ok {cv : Conversions} {tableName : String} {t t1 : Table}
    {assigns : List (String × Value)} {v : Value} {m : Nat}
    (h : runUpdate cv tableName t assigns v = .ok (t1, m)) :
    ((rowidOf cv v = none ∨
        ∃ k, rowidOf cv v = some k ∧ t.rows.find? (fun r => r.id = k) = none) ∧
      t1 = t ∧ m = 0) ∨
    (∃ k r j, rowidOf cv v = some k ∧ t.rows.find? (fun r => r.id = k) = some r ∧
      (match assigns.lookup "id" with
        | none => j = r.id
        | some w => rowidOf cv w = some j) ∧
      notNullViolation tableName (updatedCells cv tableName assigns r) = none ∧
      ¬ (j ≠ k ∧ ∃ x ∈ t.rows, x.id = j) ∧
      t1 = ⟨insertRow ⟨j, updatedCells cv tableName assigns r⟩
              (t.rows.filter (fun x => x.id ≠ k)), t.seq⟩ ∧
      m = 1) := by
  unfold runUpdate at h
  cases hro : rowidOf cv v with
  | none =>
      simp only [hro, Except.ok.injEq, Prod.mk.injEq] at h
      exact Or.inl ⟨Or.inl rfl, h.1.symm, h.2.symm⟩
  | some k =>
      simp only [hro] at h
      cases hf : t.rows.find? (fun r => r.id = k) with
      | none =>
          simp only [hf, Except.ok.injEq, Prod.mk.injEq] at h
          exact Or.inl ⟨Or.inr ⟨k, rfl, hf⟩, h.1.symm, h.2.symm⟩
      | some r =>
          simp only [hf] at h
          right
          have key : ∀ (rowid : Except String Int),
              (match rowid with
                | .error e => (.error e : Except String (Table × Nat))
                | .ok j =>
                  match notNullViolation tableName (updatedCells cv tableName assigns r) with
                  | some c => .error ("NOT NULL constraint failed: " ++ tableName ++ "." ++ c)
                  | none =>
                    if j ≠ k ∧ t.rows.any (fun x => x.id = j) then
                      .error ("UNIQUE constraint failed: " ++ tableName ++ ".id")
                    else .ok (⟨insertRow ⟨j, updatedCells cv tableName assigns r⟩
                        (t.rows.filter (fun x => x.id ≠ k)), t.seq⟩, 1)) = .ok (t1, m) →
              ∃ j, rowid = .ok j ∧
                notNullViolation tableName (updatedCells cv tableName assigns r) = none ∧
                ¬ (j ≠ k ∧ ∃ x ∈ t.rows, x.id = j) ∧
                t1 = ⟨insertRow ⟨j, updatedCells cv tableName assigns r⟩
                  (t.rows.filter (fun x => x.id ≠ k)), t.seq⟩ ∧ m = 1 := by
            intro rowid hr
            cases rowid with
            | error e => simp at hr
            | ok j =>
                simp only at hr
                cases hn : notNullViolation tableName (updatedCells cv tableName assigns r) with
                | some c => simp [hn] at hr
                | none =>
                    simp only [hn] at hr
                    split at hr
                    · simp at hr
                    · rename_i hany
                      simp only [Except.ok.injEq, Prod.mk.injEq] at hr
                      refine ⟨j, rfl, rfl, ?_, hr.1.symm, hr.2.symm⟩
                      intro hc
                      exact hany ⟨hc.1, by simpa using hc.2⟩
          obtain ⟨j, h1, h2, h3, h4, h5⟩ := key _ h
          refine ⟨k, r, j, rfl, hf, ?_, h2, h3, h4, h5⟩
          cases hid : assigns.lookup "id" with
          | none => simp only [hid, Except.ok.injEq] at h1; exact h1.symm
          | some w =>
              simp only [hid] at h1
              cases hw : rowidOf cv w with
              | none => simp [hw] at h1
              | some j2 => simp only [hw, Except.ok.injEq] at h1; simp only [hw, h1]

theorem update_ok {cv : Conversions} {tableName : String} {id : JsValue} {data : FieldObject}
    {now : String} {s s1 : Store} {n : Nat}
    (h : update cv tableName id data now s = (.ok n, s1)) :
    ∃ c assigns v t m, tableName ∈ validTables ∧ s.db = some c ∧
      unknownColumn tableName ((setField "updatedAt" (.string now) data).map Prod.fst) = none ∧
      bindFields (setField "updatedAt" (.string now) data) = .ok assigns ∧
      bindValue id = .ok v ∧
      runUpdate cv tableName (c.data.table tableName) (updateValues tableName assigns) v
        = .ok (t, m) ∧
      s1 = saveDatabase
        { s with db := some { c with data := c.data.setTable tableName t, changes := m } } ∧
      getRowsModified s1 = .ok n := by
  unfold update at h
  by_cases hv : tableName ∈ validTables
  swap
  · simp [hv] at h
  simp only [contains_validTables_of_mem hv, Bool.not_true, Bool.false_eq_true, if_false] at h
  cases hdb : s.db with
  | none => simp [hdb] at h
  | some c =>
      simp only [hdb] at h
      unfold dbRunUpdate at h
      cases hu : unknownColumn tableName
          ((setField "updatedAt" (.string now) data).map Prod.fst) with
      | some n => simp [hu] at h
      | none =>
          simp only [hu] at h
          cases hb : bindFields (setField "updatedAt" (.string now) data) with
          | error e => simp [hb] at h
          | ok assigns =>
              simp only [hb] at h
              cases hbi : bindValue id with
              | error e => simp [hbi] at h
              | ok v =>
                  simp only [hbi] at h
                  cases hr : runUpdate cv tableName (c.data.table tableName)
                      (updateValues tableName assigns) v with
                  | error e => simp [hr] at h
                  | ok p =>
                      obtain ⟨t, m⟩ := p
                      simp only [hr, Prod.mk.injEq] at h
                      obtain ⟨h1, h2⟩ := h
                      exact ⟨c, assigns, v, t, m, hv, rfl, rfl, rfl, rfl, hr, h2.symm,
                        by rw [← h2]; exact h1⟩


theorem lookup_recordOf_id (tableName : String) (r : Row) :
    (recordOf tableName r).lookup "id" = some (.number r.id) := by
  simp [recordOf, List.lookup]

theorem lookup_recordOf {tableName col : String} (r : Row) (hne : col ≠ "id") :
    (recordOf tableName r).lookup col
      = (columnOf tableName col).map (fun _ => toJs (r.get col)) := by
  have h2 : (col == "id") = false := by simpa using hne
  simp only [recordOf, List.lookup, h2, lookup_map_columns_js, columnOf]
  cases hf : (schema tableName).find? (fun c => c.name = col) with
  | none => rfl
  | some c =>
      have hn : c.name = col := by simpa using List.find?_some hf
      simp [hn]

theorem getOne_eq (cv : Conversions) {tableName : String} {id : JsValue} {s : Store}
    {c : Connection} {v : Value} (hv : tableName ∈ validTables) (hdb : s.db = some c)
    (hb : bindValue id = .ok v) :
    getOne cv tableName id s =
      (.ok (match rowidOf cv v with
        | none => none
        | some k =>
            ((c.data.table tableName).rows.find? (fun x => x.id = k)).map (recordOf tableName)),
       s) := by
  simp only [getOne, contains_validTables_of_mem hv, Bool.not_true, Bool.false_eq_true,
    if_false, hdb, hb, selectById]
  cases hro : rowidOf cv v with
  | none => simp [resultToObject, resultToObjects]
  | some k =>
      simp only [selectByRowid]
      cases hf : (c.data.table tableName).rows.find? (fun x => x.id = k) with
      | none => simp [resultToObject, resultToObjects]
      | some r => simp [resultToObject_single, recordOf]

theorem getOne_some {cv : Conversions} {tableName : String} {id : JsValue} {s s2 : Store}
    {old : FieldObject} (h : getOne cv tableName id s = (.ok (some old), s2)) :
    ∃ c v k r, tableName ∈ validTables ∧ s.db = some c ∧ bindValue id = .ok v ∧
      rowidOf cv v = some k ∧
      (c.data.table tableName).rows.find? (fun x => x.id = k) = some r ∧ r.id = k ∧
      old = recordOf tableName r := by
  by_cases hv : tableName ∈ validTables
  swap
  · simp [getOne, hv] at h
  cases hdb : s.db with
  | none =>
      simp only [getOne, contains_validTables_of_mem hv, Bool.not_true, Bool.false_eq_true,
        if_false, hdb] at h
      simp at h
  | some c =>
      cases hb : bindValue id with
      | error e =>
          simp only [getOne, contains_validTables_of_mem hv, Bool.not_true,
            Bool.false_eq_true, if_false, hdb, hb] at h
          simp at h
      | ok v =>
          rw [getOne_eq cv hv hdb hb] at h
          simp only [Prod.mk.injEq, Except.ok.injEq] at h
          cases hro : rowidOf cv v with
          | none => simp [hro] at h
          | some k =>
              simp only [hro] at h
              cases hf : (c.data.table tableName).rows.find? (fun x => x.id = k) with
              | none => simp [hf] at h
              | some r =>
                  simp only [hf, Option.map_some', Option.some.injEq] at h
                  have hk : r.id = k := by simpa using List.find?_some hf
                  exact ⟨c, v, k, r, hv, rfl, rfl, hro, hf, hk, h.1.symm⟩

theorem find?_filter_ne (l : List Row) {j k : Int} (h : j ≠ k) :
    (l.filter (fun x => x.id ≠ k)).find? (fun x => x.id = j) = l.find? (fun x => x.id = j) := by
  have hp : (fun a : Row => decide (decide (a.id ≠ k) = true ∧ decide (a.id = j) = true))
      = (fun a => decide (a.id = j)) := by
    funext a
    by_cases ha : a.id = j
    · have hk : a.id ≠ k := fun e => h (ha.symm.trans e)
      simp [ha, hk, h]
    · simp [ha]
  rw [List.find?_filter, hp]

theorem find?_filter_self (l : List Row) (k : Int) :
    (l.filter (fun x => x.id ≠ k)).find? (fun x => x.id = k) = none := by
  simp [List.find?_eq_none]

theorem get_updatedCells {cv : Conversions} {tableName col : String} {c : Column} (j : Int)
    (assigns : List (String × Value)) (r : Row) (hc : columnOf tableName col = some c) :
    (Row.mk j (updatedCells cv tableName assigns r)).get col =
      match assigns.lookup col with
      | some v => applyAffinity cv c.affinity v
      | none => r.get col := by
  have hn := columnOf_name hc
  simp only [Row.get, updatedCells, lookup_map_columns]
  unfold columnOf at hc
  rw [hc]
  simp [hn, Row.get]


theorem update_row {cv : Conversions} {tableName : String} {id : JsValue} {fields : FieldObject}
    {now : String} {s s1 : Store} {n : Nat} {old : FieldObject}
    (hold : getOne cv tableName id s = (.ok (some old), s))
    (hupd : update cv tableName id fields now s = (.ok n, s1)) :
    ∃ c c1 v k r assigns j, tableName ∈ validTables ∧
      s.db = some c ∧ s1.db = some c1 ∧ bindValue id = .ok v ∧ rowidOf cv v = some k ∧
      (c.data.table tableName).rows.find? (fun x => x.id = k) = some r ∧ r.id = k ∧
      old = recordOf tableName r ∧
      unknownColumn tableName ((setField "updatedAt" (.string now) fields).map Prod.fst)
        = none ∧
      bindFields (setField "updatedAt" (.string now) fields) = .ok assigns ∧
      (match (lastFor tableName "id" assigns).map Prod.snd with
        | none => j = k
        | some w => rowidOf cv w = some j) ∧
      (c1.data.table tableName).rows =
        insertRow ⟨j, updatedCells cv tableName (updateValues tableName assigns) r⟩
          ((c.data.table tableName).rows.filter (fun x => x.id ≠ k)) := by
  obtain ⟨c, v, k, r, hv, hdb, hb, hro, hf, hk, hrec⟩ := getOne_some hold
  obtain ⟨c0, assigns, v0, t, m, _, hdb0, hu, hbf, hb0, hr, hs1, _⟩ := update_ok hupd
  rw [hdb] at hdb0; cases hdb0
  rw [hb] at hb0; cases hb0
  obtain ⟨c1, hc1, hdata, _, _⟩ :=
    saveDatabase_db
      (s := { s with db := some { c with data := c.data.setTable tableName t, changes := m } })
      rfl
  rw [← hs1] at hc1
  have htab : c1.data.table tableName = t := by
    rw [hdata]; exact table_setTable_self hv _ _
  rcases runUpdate_ok hr with ⟨hnone, _, _⟩ | ⟨k2, r2, j, hro2, hf2, hj, _, _, ht, _⟩
  · rcases hnone with h1 | ⟨k2, h1, h2⟩
    · rw [hro] at h1; cases h1
    · rw [hro] at h1; cases h1; rw [hf] at h2; cases h2
  · rw [hro] at hro2; cases hro2
    rw [hf] at hf2; cases hf2
    rw [lookup_updateValues assigns (List.mem_cons_self _ _)] at hj
    refine ⟨c, c1, v, k, r, assigns, j, hv, hdb, hc1, hb, hro, hf, hk, hrec, hu, hbf, ?_, ?_⟩
    · cases hid : (lastFor tableName "id" assigns).map Prod.snd with
      | none => simp only [hid] at hj ⊢; rw [hj, hk]
      | some w => simp only [hid] at hj ⊢; exact hj
    · rw [htab, ht]

theorem update_row_no_id {cv : Conversions} {tableName : String} {id : JsValue}
    {fields : FieldObject} {now : String} {s s1 : Store} {n : Nat} {old : FieldObject}
    (hold : getOne cv tableName id s = (.ok (some old), s))
    (hnoid : lastFor tableName "id" fields = none)
    (hupd : update cv tableName id fields now s = (.ok n, s1)) :
    ∃ c c1 v k r assigns, tableName ∈ validTables ∧
      s.db = some c ∧ s1.db = some c1 ∧ bindValue id = .ok v ∧ rowidOf cv v = some k ∧
      r.id = k ∧ old = recordOf tableName r ∧
      bindFields (setField "updatedAt" (.string now) fields) = .ok assigns ∧
      (c1.data.table tableName).rows =
        insertRow ⟨k, updatedCells cv tableName (updateValues tableName assigns) r⟩
          ((c.data.table tableName).rows.filter (fun x => x.id ≠ k)) ∧
      getOne cv tableName id s1 =
        (.ok (some (recordOf tableName
          ⟨k, updatedCells cv tableName (updateValues tableName assigns) r⟩)), s1) := by
  obtain ⟨c, c1, v, k, r, assigns, j, hv, hdb, hc1, hb, hro, hf, hk, hrec, hu, hbf, hj, hrows⟩ :=
    update_row hold hupd
  obtain ⟨_, hrupd⟩ := resolveColumn_stamps hv
  have hidl : lastFor tableName "id" (setField "updatedAt" (JsValue.string now) fields)
      = none := by
    rw [lastFor_setField_ne _ _ (by rw [hrupd]; decide), hnoid]
  have hida : lastFor tableName "id" assigns = none := (lastFor_bindFields hbf).1 hidl
  simp only [hida, Option.map_none'] at hj
  subst hj
  have hfilter : ∀ x ∈ (c.data.table tableName).rows.filter (fun x => x.id ≠ j),
      x.id ≠ (Row.mk j (updatedCells cv tableName (updateValues tableName assigns) r)).id := by
    intro x hx
    simpa using (List.mem_filter.mp hx).2
  have hfind : (c1.data.table tableName).rows.find? (fun x => x.id = j)
      = some ⟨j, updatedCells cv tableName (updateValues tableName assigns) r⟩ := by
    rw [hrows]
    exact find?_insertRow_self
      ⟨j, updatedCells cv tableName (updateValues tableName assigns) r⟩ _ hfilter
  refine ⟨c, c1, v, j, r, assigns, hv, hdb, hc1, hb, hro, hk, hrec, hbf, hrows, ?_⟩
  rw [getOne_eq cv hv hc1 hb]
  simp only [hro, hfind, Option.map_some']

/-- C4 (amended): when a row with the given id exists, no key of the plain field object
stands for the rowid and `update` succeeds, the row read back afterwards keeps its id.
It holds `now` in `updatedAt` unless a key in another spelling stands for that column
after `updatedAt` itself.  For every other column that a key stands for, it holds the
value of the last such key, as sql.js binds it and the column's affinity stores it
(the given value itself when it is `null`, text in a TEXT column or a number in a REAL
or INTEGER column), and it keeps its prior value in every column that no key stands
for; reading any other row gives what it gave before. -/
theorem update_then_getOne (cv : Conversions) (tableName : String) (id : JsValue)
    (fields : FieldObject) (now : String) (s s1 : Store) (n : Nat) (old : FieldObject)
    (hold : getOne cv tableName id s = (.ok (some old), s))
    (hobj : plainObject fields = true)
    (hnoid : lastFor tableName "id" fields = none)
    (hupd : update cv tableName id fields now s = (.ok n, s1)) :
    ∃ record, getOne cv tableName id s1 = (.ok (some record), s1) ∧
      record.lookup "id" = old.lookup "id" ∧
      ((∀ p, lastFor tableName "updatedAt" fields = some p → p.1 = "updatedAt") →
        record.lookup "updatedAt" = some (.string now)) ∧
      (∀ col key x, lastFor tableName col fields = some (key, x) → col ≠ "updatedAt" →
        ∃ column v, columnOf tableName col = some column ∧ bindValue x = .ok v ∧
          record.lookup col = some (toJs (applyAffinity cv column.affinity v)) ∧
          (storedAsGiven column.affinity x = true → record.lookup col = some x)) ∧
      (∀ col, lastFor tableName col fields = none → col ≠ "updatedAt" →
        record.lookup col = old.lookup col) ∧
      (∀ id2 v v2, bindValue id = .ok v → bindValue id2 = .ok v2 →
        rowidOf cv v2 ≠ rowidOf cv v →
        (getOne cv tableName id2 s1).1 = (getOne cv tableName id2 s).1) := by
  obtain ⟨c, c1, v, j, r, assigns, hv, hdb, hc1, hb, hro, hk, hrec, hbf, hrows, hget⟩ :=
    update_row_no_id hold hnoid hupd
  obtain ⟨_, hupdc⟩ := columnOf_stamps hv
  obtain ⟨_, hrupd⟩ := resolveColumn_stamps hv
  -- what the statement assigns to a column
  have hcell : ∀ col key x column,
      lastFor tableName col (setField "updatedAt" (JsValue.string now) fields)
        = some (key, x) →
      col ≠ "id" → columnOf tableName col = some column →
      ∃ w, bindValue x = .ok w ∧
        (recordOf tableName
          ⟨j, updatedCells cv tableName (updateValues tableName assigns) r⟩).lookup col
          = some (toJs (applyAffinity cv column.affinity w)) := by
    intro col key x column hx hne hcol
    obtain ⟨w, hbw, hlw⟩ := (lastFor_bindFields hbf).2 key x hx
    refine ⟨w, hbw, ?_⟩
    rw [lookup_recordOf _ hne, hcol, get_updatedCells j _ r hcol,
      lookup_updateValues assigns (mem_columnNames_of_columnOf hcol), hlw]
    rfl
  refine ⟨_, hget, ?_, ?_, ?_, ?_, ?_⟩
  · rw [hrec, lookup_recordOf_id, lookup_recordOf_id, hk]
  · intro hlast
    have hx := lastFor_setField_self (.string now) fields hrupd (plainObject_nodup hobj) hlast
    obtain ⟨w, hbw, hrecl⟩ := hcell _ _ _ _ hx (by decide) hupdc
    simp only [bindValue, Except.ok.injEq] at hbw
    subst hbw
    exact hrecl
  · intro col key x hx hne
    have hx2 : lastFor tableName col (setField "updatedAt" (JsValue.string now) fields)
        = some (key, x) := by
      rw [lastFor_setField_ne _ _ (by rw [hrupd]; simpa using hne.symm), hx]
    have hcid : col ≠ "id" := by
      intro e; rw [e, hnoid] at hx; cases hx
    rcases columnOf_of_mem (resolveColumn_mem (lastFor_some hx).2) with h0 | ⟨column, hcol⟩
    · exact absurd h0 hcid
    · obtain ⟨w, hbw, hrecl⟩ := hcell _ _ _ _ hx2 hcid hcol
      refine ⟨column, w, hcol, hbw, hrecl, ?_⟩
      intro hsa
      rw [hrecl, toJs_applyAffinity_of_storedAsGiven cv hsa hbw]
  · intro col hx hne
    rw [hrec]
    by_cases hcid : col = "id"
    · rw [hcid, lookup_recordOf_id, lookup_recordOf_id, hk]
    · rw [lookup_recordOf _ hcid, lookup_recordOf _ hcid]
      cases hcol : columnOf tableName col with
      | none => rfl
      | some column =>
          have hx2 : lastFor tableName col (setField "updatedAt" (JsValue.string now) fields)
              = none := by
            rw [lastFor_setField_ne _ _ (by rw [hrupd]; simpa using hne.symm), hx]
          have hla := (lastFor_bindFields hbf).1 hx2
          simp only [Option.map_some', get_updatedCells j _ r hcol,
            lookup_updateValues assigns (mem_columnNames_of_columnOf hcol), hla,
            Option.map_none']
  · intro id2 v0 v2 hb0 hb2 hne2
    rw [hb] at hb0; cases hb0
    rw [getOne_eq cv hv hc1 hb2, getOne_eq cv hv hdb hb2]
    simp only
    cases hro2 : rowidOf cv v2 with
    | none => rfl
    | some k2 =>
        have hkk : j ≠ k2 := by
          intro e
          rw [hro2, hro, e] at hne2
          exact hne2 rfl
        simp only [hrows]
        rw [find?_insertRow_ne _ _ _ hkk, find?_filter_ne _ (Ne.symm hkk)]

theorem update_then_getOne_witness :
    plainObject [("Description", JsValue.string "Gift"), ("description", .string "Bonus")]
      = true ∧
    lastFor "income" "id"
      [("Description", JsValue.string "Gift"), ("description", .string "Bonus")] = none ∧
    ∃ record,
      getOne plainConversions "income" (.number 1)
          (update plainConversions "income" (.number 1)
            [("Description", .string "Gift"), ("description", .string "Bonus")]
            "2024-03-01T09:00:00.000Z" storeWithSalary).2
        = (.ok (some record),
          (update plainConversions "income" (.number 1)
            [("Description", .string "Gift"), ("description", .string "Bonus")]
            "2024-03-01T09:00:00.000Z" storeWithSalary).2) ∧
      record.lookup "id" = (recordOf "income" salaryRow).lookup "id" ∧
      ((∀ p, lastFor "income" "updatedAt"
          [("Description", JsValue.string "Gift"), ("description", .string "Bonus")] = some p →
          p.1 = "updatedAt") →
        record.lookup "updatedAt" = some (.string "2024-03-01T09:00:00.000Z")) ∧
      (∀ col key x, lastFor "income" col
          [("Description", JsValue.string "Gift"), ("description", .string "Bonus")]
          = some (key, x) → col ≠ "updatedAt" →
        ∃ column v, columnOf "income" col = some column ∧ bindValue x = .ok v ∧
          record.lookup col = some (toJs (applyAffinity plainConversions column.affinity v)) ∧
          (storedAsGiven column.affinity x = true → record.lookup col = some x)) ∧
      (∀ col, lastFor "income" col
          [("Description", JsValue.string "Gift"), ("description", .string "Bonus")] = none →
        col ≠ "updatedAt" →
        record.lookup col = (recordOf "income" salaryRow).lookup col) ∧
      (∀ id2 v v2, bindValue (.number 1) = .ok v → bindValue id2 = .ok v2 →
        rowidOf plainConversions v2 ≠ rowidOf plainConversions v →
        (getOne plainConversions "income" id2
          (update plainConversions "income" (.number 1)
            [("Description", .string "Gift"), ("description", .string "Bonus")]
            "2024-03-01T09:00:00.000Z" storeWithSalary).2).1
          = (getOne plainConversions "income" id2 storeWithSalary).1) :=
  ⟨by decide, by decide,
    update_then_getOne plainConversions "income" (.number 1)
      [("Description", .string "Gift"), ("description", .string "Bonus")]
      "2024-03-01T09:00:00.000Z" storeWithSalary _ 0 (recordOf "income" salaryRow) rfl
      (by decide) (by decide) rfl⟩

/-- C4 (counterexample): on a store holding one income row with id 1, an update that
sets `description` to `null` fails and leaves the store as it was; an update that
names `updatedAt` stores `now` instead of the given value; an update that names `id`,
or `rowid`, moves the row, so that no row is left under the id it was called with; an
update that names `Description` and then `description` stores the second value in
`description`; and on an outgoing row a boolean `recurring` is stored as the number
0. -/
theorem update_then_getOne_counterexample :
    update plainConversions "income" (.number 1) [("description", .null)]
        "2024-03-01T09:00:00.000Z" storeWithSalary
      = (.error "NOT NULL constraint failed: income.description", storeWithSalary) ∧
    (∃ record,
      (getOne plainConversions "income" (.number 1)
          (update plainConversions "income" (.number 1) [("updatedAt", .string "1999-12-31")]
            "2024-03-01T09:00:00.000Z" storeWithSalary).2).1 = .ok (some record) ∧
      record.lookup "updatedAt" = some (.string "2024-03-01T09:00:00.000Z")) ∧
    (update plainConversions "income" (.number 1) [("id", .number 7)]
        "2024-03-01T09:00:00.000Z" storeWithSalary).1 = .ok 0 ∧
    (getOne plainConversions "income" (.number 1)
        (update plainConversions "income" (.number 1) [("id", .number 7)]
          "2024-03-01T09:00:00.000Z" storeWithSalary).2).1 = .ok none ∧
    (getOne plainConversions "income" (.number 1)
        (update plainConversions "income" (.number 1) [("rowid", .number 7)]
          "2024-03-01T09:00:00.000Z" storeWithSalary).2).1 = .ok none ∧
    (∃ record,
      (getOne plainConversions "income" (.number 1)
          (update plainConversions "income" (.number 1)
            [("Description", .string "Gift"), ("description", .string "Bonus")]
            "2024-03-01T09:00:00.000Z" storeWithSalary).2).1 = .ok (some record) ∧
      record.lookup "description" = some (.string "Bonus") ∧
      record.lookup "Description" = none) ∧
    (∃ record,
      (getOne plainConversions "outgoing" (.number 1)
          (update plainConversions "outgoing" (.number 1) [("recurring", .bool false)]
            "2024-03-01T09:00:00.000Z" storeWithRent).2).1 = .ok (some record) ∧
      record.lookup "recurring" = some (.number 0)) :=
  ⟨rfl, ⟨_, rfl, rfl⟩, rfl, rfl, rfl, ⟨_, rfl, rfl, rfl⟩, ⟨_, rfl, rfl⟩⟩

/-- C10 (amended): when a row with the given id exists, `update` succeeds and no key of
the plain field object stands for the rowid (`id` in any letter case, `rowid`, `oid`,
`_rowid_`) or for `createdAt` in any letter case, the row read back afterwards has the
id and the `createdAt` it had before. -/
theorem update_keeps_id_and_createdAt (cv : Conversions) (tableName : String) (id : JsValue)
    (fields : FieldObject) (now : String) (s s1 : Store) (n : Nat) (old : FieldObject)
    (hold : getOne cv tableName id s = (.ok (some old), s))
    (hobj : plainObject fields = true)
    (hnoid : lastFor tableName "id" fields = none)
    (hnocreated : lastFor tableName "createdAt" fields = none)
    (hupd : update cv tableName id fields now s = (.ok n, s1)) :
    ∃ record, getOne cv tableName id s1 = (.ok (some record), s1) ∧
      record.lookup "id" = old.lookup "id" ∧
      record.lookup "createdAt" = old.lookup "createdAt" := by
  have _ := hobj
  obtain ⟨c, c1, v, j, r, assigns, hv, hdb, hc1, hb, hro, hk, hrec, hbf, hrows, hget⟩ :=
    update_row_no_id hold hnoid hupd
  obtain ⟨hcre, _⟩ := columnOf_stamps hv
  obtain ⟨_, hrupd⟩ := resolveColumn_stamps hv
  have hca : lastFor tableName "createdAt" assigns = none :=
    (lastFor_bindFields hbf).1
      (by rw [lastFor_setField_ne _ _ (by rw [hrupd]; decide), hnocreated])
  refine ⟨_, hget, ?_, ?_⟩
  · rw [hrec, lookup_recordOf_id, lookup_recordOf_id, hk]
  · rw [hrec, lookup_recordOf _ (by decide), lookup_recordOf _ (by decide), hcre]
    simp only [Option.map_some', get_updatedCells j _ r hcre,
      lookup_updateValues assigns (mem_columnNames_of_columnOf hcre), hca, Option.map_none']

theorem update_keeps_id_and_createdAt_witness :
    plainObject [("Amount", JsValue.number 250)] = true ∧
    lastFor "income" "id" [("Amount", JsValue.number 250)] = none ∧
    lastFor "income" "createdAt" [("Amount", JsValue.number 250)] = none ∧
    ∃ record,
      getOne plainConversions "income" (.number 1)
          (update plainConversions "income" (.number 1) [("Amount", .number 250)]
            "2024-03-01T09:00:00.000Z" storeWithSalary).2
        = (.ok (some record),
          (update plainConversions "income" (.number 1) [("Amount", .number 250)]
            "2024-03-01T09:00:00.000Z" storeWithSalary).2) ∧
      record.lookup "id" = (recordOf "income" salaryRow).lookup "id" ∧
      record.lookup "createdAt" = (recordOf "income" salaryRow).lookup "createdAt" :=
  ⟨by decide, by decide, by decide,
    update_keeps_id_and_createdAt plainConversions "income" (.number 1)
      [("Amount", .number 250)] "2024-03-01T09:00:00.000Z" storeWithSalary _ 0
      (recordOf "income" salaryRow) rfl (by decide) (by decide) (by decide) rfl⟩

/-- C10 (counterexample): on a store holding one income row with id 1, created at
`2024-02-01T10:00:00.000Z`, an update whose field object names `id: 7`, or `rowid: 7`,
renumbers the row (it is found under 7 and no longer under 1), and an update whose
field object names `createdAt`, or `CreatedAt`, replaces the row's creation
timestamp. -/
theorem update_keeps_id_and_createdAt_counterexample :
    (getOne plainConversions "income" (.number 1) storeWithSalary).1
      = .ok (some (recordOf "income" salaryRow)) ∧
    (getOne plainConversions "income" (.number 1)
        (update plainConversions "income" (.number 1) [("id", .number 7)]
          "2024-03-01T09:00:00.000Z" storeWithSalary).2).1 = .ok none ∧
    (∃ record,
      (getOne plainConversions "income" (.number 7)
          (update plainConversions "income" (.number 1) [("id", .number 7)]
            "2024-03-01T09:00:00.000Z" storeWithSalary).2).1 = .ok (some record) ∧
      record.lookup "id" = some (.number 7) ∧
      record.lookup "description" = some (.string "Salary")) ∧
    (∃ record,
      (getOne plainConversions "income" (.number 7)
          (update plainConversions "income" (.number 1) [("rowid", .number 7)]
            "2024-03-01T09:00:00.000Z" storeWithSalary).2).1 = .ok (some record) ∧
      record.lookup "id" = some (.number 7) ∧
      record.lookup "description" = some (.string "Salary")) ∧
    (recordOf "income" salaryRow).lookup "createdAt"
      = some (.string "2024-02-01T10:00:00.000Z") ∧
    (∃ record,
      (getOne plainConversions "income" (.number 1)
          (update plainConversions "income" (.number 1) [("createdAt", .string "1999-12-31")]
            "2024-03-01T09:00:00.000Z" storeWithSalary).2).1 = .ok (some record) ∧
      record.lookup "createdAt" = some (.string "1999-12-31")) ∧
    (∃ record,
      (getOne plainConversions "income" (.number 1)
          (update plainConversions "income" (.number 1) [("CreatedAt", .string "1999-12-31")]
            "2024-03-01T09:00:00.000Z" storeWithSalary).2).1 = .ok (some record) ∧
      record.lookup "createdAt" = some (.string "1999-12-31")) :=
  ⟨rfl, rfl, ⟨_, rfl, rfl, rfl⟩, ⟨_, rfl, rfl, rfl⟩, rfl, ⟨_, rfl, rfl⟩, ⟨_, rfl, rfl⟩⟩


/-- Whenever `dbPath` is set, a successful `update` reports zero modified rows: the
count is read from the connection that `saveDatabase` has just reopened. -/
theorem update_modifiedCount_zero {cv : Conversions} {tableName : String} {id : JsValue}
    {data : FieldObject} {now : String} {s s1 : Store} {n : Nat}
    (hp : truthyPath s.dbPath = true)
    (h : update cv tableName id data now s = (.ok n, s1)) : n = 0 := by
  obtain ⟨c, assigns, v, t, m, _, _, _, _, _, _, hs1, hn⟩ := update_ok h
  obtain ⟨c1, hc1, _, hch, _⟩ :=
    saveDatabase_db
      (s := { s with db := some { c with data := c.data.setTable tableName t, changes := m } })
      rfl
  rw [← hs1] at hc1
  simp only [getRowsModified, hc1, Except.ok.injEq] at hn
  rw [← hn]
  exact hch hp

/-- C5 (the code at the failing input): on a store holding one income row with id 1,
`update` changes the row (the description read back is the new one) and returns
`modifiedCount` 0, while `deleteOne`, which reads the count before `saveDatabase`,
returns `deletedCount` 1 for the same row. -/
theorem update_modifiedCount_at_existing_row :
    (update plainConversions "income" (.number 1) [("description", .string "Bonus")]
      "2024-03-01T09:00:00.000Z" storeWithSalary).1 = .ok 0 ∧
    (recordOf "income" salaryRow).lookup "description" = some (.string "Salary") ∧
    (getOne plainConversions "income" (.number 1) storeWithSalary).1
      = .ok (some (recordOf "income" salaryRow)) ∧
    (∃ record,
      (getOne plainConversions "income" (.number 1)
          (update plainConversions "income" (.number 1) [("description", .string "Bonus")]
            "2024-03-01T09:00:00.000Z" storeWithSalary).2).1 = .ok (some record) ∧
      record.lookup "description" = some (.string "Bonus")) ∧
    (deleteOne plainConversions "income" (.number 1) storeWithSalary).1 = .ok 1 :=
  ⟨rfl, rfl, rfl, ⟨_, rfl, rfl⟩, rfl⟩

theorem countP_id_eq_zero {l : List Row} {k : Int} (h : ∀ x ∈ l, x.id ≠ k) :
    l.countP (fun x => x.id = k) = 0 := by
  rw [List.countP_eq_zero]
  intro x hx
  simpa using h x hx

theorem countP_id {l : List Row} (hs : l.Pairwise (fun a b => a.id < b.id)) (k : Int) :
    l.countP (fun x => x.id = k) = if (l.find? (fun x => x.id = k)).isSome then 1 else 0 := by
  induction l with
  | nil => simp
  | cons x xs ih =>
      obtain ⟨hx, hxs⟩ := List.pairwise_cons.mp hs
      by_cases hk : x.id = k
      · have h0 : xs.countP (fun y => y.id = k) = 0 :=
          countP_id_eq_zero (fun y hy => by have := hx y hy; omega)
        simp [List.countP_cons, List.find?, hk, h0]
      · simp [List.countP_cons, List.find?, hk, ih hxs]

/-- C6: on an open store whose tables are in the state the engine keeps them in, and
for an id that sql.js can bind, `deleteOne` succeeds; it returns 1 when `getOne` found
a row under that id and 0 when it found none; afterwards `getOne` finds no row under
that id, and reading any other row gives what it gave before. -/
theorem deleteOne_spec (cv : Conversions) (tableName : String) (id : JsValue) (s : Store)
    (c : Connection) (v : Value) (hv : tableName ∈ validTables) (hdb : s.db = some c)
    (hb : bindValue id = .ok v) (hwf : s.WF) :
    ∃ n s1, deleteOne cv tableName id s = (.ok n, s1) ∧
      (∀ old, (getOne cv tableName id s).1 = .ok (some old) → n = 1) ∧
      ((getOne cv tableName id s).1 = .ok none → n = 0) ∧
      getOne cv tableName id s1 = (.ok none, s1) ∧
      (∀ id2 v2, bindValue id2 = .ok v2 → rowidOf cv v2 ≠ rowidOf cv v →
        (getOne cv tableName id2 s1).1 = (getOne cv tableName id2 s).1) := by
  have hsorted := (hwf c hdb tableName hv).1
  obtain ⟨c1, hc1, hdata, _, _⟩ :=
    saveDatabase_db
      (s := { s with db := some { c with
          data := c.data.setTable tableName (runDelete cv (c.data.table tableName) v).1,
          changes := (runDelete cv (c.data.table tableName) v).2 } })
      rfl
  have htab : c1.data.table tableName = (runDelete cv (c.data.table tableName) v).1 := by
    rw [hdata]; exact table_setTable_self hv _ _
  refine ⟨(runDelete cv (c.data.table tableName) v).2,
    saveDatabase { s with db := some { c with
      data := c.data.setTable tableName (runDelete cv (c.data.table tableName) v).1,
      changes := (runDelete cv (c.data.table tableName) v).2 } }, ?_, ?_, ?_, ?_, ?_⟩
  · simp only [deleteOne, contains_validTables_of_mem hv, Bool.not_true, Bool.false_eq_true,
      if_false, hdb, dbRunDelete, hb]
  · intro old hold
    rw [getOne_eq cv hv hdb hb] at hold
    simp only [Except.ok.injEq] at hold
    cases hro : rowidOf cv v with
    | none => simp [hro] at hold
    | some k =>
        simp only [hro] at hold
        simp only [runDelete, hro, countP_id hsorted k]
        cases hf : (c.data.table tableName).rows.find? (fun x => x.id = k) with
        | none => simp [hf] at hold
        | some r => simp
  · intro hnone
    rw [getOne_eq cv hv hdb hb] at hnone
    simp only [Except.ok.injEq] at hnone
    cases hro : rowidOf cv v with
    | none => simp [runDelete, hro]
    | some k =>
        simp only [hro] at hnone
        simp only [runDelete, hro, countP_id hsorted k]
        cases hf : (c.data.table tableName).rows.find? (fun x => x.id = k) with
        | none => simp
        | some r => simp [hf] at hnone
  · rw [getOne_eq cv hv hc1 hb]
    cases hro : rowidOf cv v with
    | none => rfl
    | some k =>
        simp only [htab, runDelete, hro, find?_filter_self, Option.map_none']
  · intro id2 v2 hb2 hne
    rw [getOne_eq cv hv hc1 hb2, getOne_eq cv hv hdb hb2]
    simp only
    cases hro2 : rowidOf cv v2 with
    | none => rfl
    | some k2 =>
        simp only [htab, runDelete]
        cases hro : rowidOf cv v with
        | none => rfl
        | some k =>
            have hkk : k2 ≠ k := by
              intro e
              rw [hro2, hro, e] at hne
              exact hne rfl
            simp only [find?_filter_ne _ hkk]

theorem storeWithSalary_WF : storeWithSalary.WF := by
  intro c hc tableName hv
  have hd : storeWithSalary.db = some ⟨storeWithSalary.file.get rfl, 0, 0⟩ := rfl
  rw [hd] at hc
  have hc2 := (Option.some.inj hc).symm
  subst hc2
  simp [validTables] at hv
  rcases hv with rfl | rfl | rfl
  · refine ⟨?_, ?_, (by decide), (by decide)⟩
    · exact List.pairwise_singleton _ _
    · intro r hr
      have hr1 : r ∈ [salaryRow] := hr
      have hr2 : r = salaryRow := by simpa using hr1
      subst hr2
      exact ⟨by decide, by decide⟩
  · exact ⟨List.Pairwise.nil, (by intro r hr; cases hr), (by decide), (by decide)⟩
  · exact ⟨List.Pairwise.nil, (by intro r hr; cases hr), (by decide), (by decide)⟩

theorem deleteOne_spec_witness :
    ∃ n s1, deleteOne plainConversions "income" (.number 1) storeWithSalary = (.ok n, s1) ∧
      (∀ old, (getOne plainConversions "income" (.number 1) storeWithSalary).1
          = .ok (some old) → n = 1) ∧
      ((getOne plainConversions "income" (.number 1) storeWithSalary).1 = .ok none → n = 0) ∧
      getOne plainConversions "income" (.number 1) s1 = (.ok none, s1) ∧
      (∀ id2 v2, bindValue id2 = .ok v2 →
        rowidOf plainConversions v2 ≠ rowidOf plainConversions (.int 1) →
        (getOne plainConversions "income" id2 s1).1
          = (getOne plainConversions "income" id2 storeWithSalary).1) :=
  deleteOne_spec plainConversions "income" (.number 1) storeWithSalary
    ⟨storeWithSalary.file.get rfl, 0, 0⟩ (.int 1) (by decide) rfl rfl storeWithSalary_WF


theorem deleteOne_seq {cv : Conversions} {tableName : String} {id : JsValue} {s : Store}
    {c1 : Connection} (h : (deleteOne cv tableName id s).2.db = some c1) :
    ∃ c, s.db = some c ∧ (c1.data.table tableName).seq = (c.data.table tableName).seq := by
  unfold deleteOne at h
  by_cases hv : tableName ∈ validTables
  swap
  · simp only [contains_validTables_of_not_mem hv, Bool.not_false, if_true] at h
    exact ⟨c1, h, rfl⟩
  simp only [contains_validTables_of_mem hv, Bool.not_true, Bool.false_eq_true, if_false] at h
  cases hdb : s.db with
  | none => simp [hdb] at h
  | some c =>
      simp only [hdb] at h
      refine ⟨c, rfl, ?_⟩
      unfold dbRunDelete at h
      cases hb : bindValue id with
      | error e =>
          simp only [hb] at h
          rw [hdb] at h
          cases h
          rfl
      | ok v =>
          simp only [hb] at h
          obtain ⟨c2, hc2, hdata, _, _⟩ :=
            saveDatabase_db
              (s := { s with db := some { c with
                data := c.data.setTable tableName (runDelete cv (c.data.table tableName) v).1,
                changes := (runDelete cv (c.data.table tableName) v).2 } })
              rfl
          rw [hc2] at h
          cases h
          rw [hdata]
          simp only [table_setTable_self hv]
          unfold runDelete
          cases rowidOf cv v <;> rfl

theorem insert_no_id {cv : Conversions} {tableName : String} {data : FieldObject}
    {now : String} {s s1 : Store} {id : JsValue}
    (hno : lastFor tableName "id" data = none ∨
      ∃ key, lastFor tableName "id" data = some (key, .null))
    (h : insert cv tableName data now s = (.ok id, s1)) :
    ∃ c c1, ∃ k : Int, s.db = some c ∧ s1.db = some c1 ∧ id = .number k ∧
      (c.data.table tableName).seq < k ∧ (c1.data.table tableName).seq = k := by
  obtain ⟨c, vals, t, k, hv, hdb, hu, hb, hr, hid, hs1⟩ := insert_ok h
  obtain ⟨hnn, huniq, ht, hrow⟩ := runInsert_ok hr
  obtain ⟨c1, hc1, hdata, _, _⟩ :=
    saveDatabase_db (s := { s with db := some ⟨c.data.setTable tableName t, 1, k⟩ }) rfl
  rw [← hs1] at hc1
  have htab : c1.data.table tableName = t := by
    rw [hdata]; exact table_setTable_self hv _ _
  obtain ⟨hrcre, hrupd⟩ := resolveColumn_stamps hv
  have hlook : lastFor tableName "id" (setField "updatedAt" (JsValue.string now)
        (setField "createdAt" (JsValue.string now) data)) = lastFor tableName "id" data := by
    rw [lastFor_setField_ne _ _ (by rw [hrupd]; decide),
      lastFor_setField_ne _ _ (by rw [hrcre]; decide)]
  rw [lookup_insertValues_id] at hrow
  have hvals : (lastFor tableName "id" vals).map Prod.snd = none ∨
      (lastFor tableName "id" vals).map Prod.snd = some .null := by
    rcases hno with hx | ⟨key, hx⟩
    · left
      rw [(lastFor_bindFields hb).1 (by rw [hlook]; exact hx)]
      rfl
    · right
      obtain ⟨v, hbv, hlv⟩ := (lastFor_bindFields hb).2 key _ (by rw [hlook]; exact hx)
      simp only [bindValue, Except.ok.injEq] at hbv
      rw [hlv, ← hbv]
      rfl
  have hnew : newRowid (c.data.table tableName) = .ok k := by
    rcases hrow with ⟨_, hnew⟩ | ⟨w, hw, hwn, _⟩
    · exact hnew
    · rcases hvals with h1 | h1
      · rw [h1] at hw; cases hw
      · rw [h1] at hw; cases hw; exact absurd rfl hwn
  have hlt := newRowid_gt_seq hnew
  refine ⟨c, c1, k, hdb, hc1, hid, hlt, ?_⟩
  rw [htab, ht]
  simp only
  rw [if_neg (by omega)]

theorem insert_error_store {cv : Conversions} {tableName : String} {data : FieldObject}
    {now : String} {s s1 : Store} {e : String}
    (h : insert cv tableName data now s = (.error e, s1)) : s1 = s := by
  unfold insert at h
  split at h
  · simp only [Prod.mk.injEq] at h; exact h.2.symm
  · simp only at h
    split at h
    · simp only [Prod.mk.injEq] at h; exact h.2.symm
    · split at h
      · simp only [Prod.mk.injEq] at h; exact h.2.symm
      · simp at h

theorem runCalls_increasing (cv : Conversions) (tableName : String) (calls : List Call) :
    ∀ s : Store, (∀ call ∈ calls, call.suppliesId tableName = false) →
      ∃ ks : List Int,
        (runCalls cv tableName calls s).1 = ks.map (fun k : Int => JsValue.number (k : ℚ)) ∧
        ks.Pairwise (fun a b => a < b) ∧
        ∀ c, s.db = some c → ∀ k ∈ ks, (c.data.table tableName).seq < k := by
  induction calls with
  | nil =>
      intro s _
      exact ⟨[], rfl, List.Pairwise.nil, by intro c _ k hk; cases hk⟩
  | cons call rest ih =>
      intro s hall
      have hrest : ∀ call ∈ rest, call.suppliesId tableName = false :=
        fun x hx => hall x (List.mem_cons_of_mem _ hx)
      cases call with
      | deleteOne id =>
          obtain ⟨ks, hks, hpw, hseq⟩ := ih (deleteOne cv tableName id s).2 hrest
          refine ⟨ks, by simpa [runCalls] using hks, hpw, ?_⟩
          intro c hc k hk
          cases hd : (deleteOne cv tableName id s).2.db with
          | none =>
              -- the handle never disappears
              exfalso
              have : (deleteOne cv tableName id s).2.db ≠ none := by
                unfold deleteOne
                split
                · simp [hc]
                · simp only [hc]
                  split
                  · simp [hc]
                  · simp only [saveDatabase]
                    split <;> simp
              exact this hd
          | some c1 =>
              obtain ⟨c0, hc0, he⟩ := deleteOne_seq hd
              rw [hc] at hc0; cases hc0
              rw [← he]
              exact hseq c1 hd k hk
      | insert data now =>
          have hno : lastFor tableName "id" data = none ∨
              ∃ key, lastFor tableName "id" data = some (key, .null) := by
            have := hall (.insert data now) (List.mem_cons_self _ _)
            simp only [Call.suppliesId] at this
            cases hl : lastFor tableName "id" data with
            | none => exact Or.inl rfl
            | some p =>
                obtain ⟨key, x⟩ := p
                cases x with
                | null => exact Or.inr ⟨key, rfl⟩
                | undefined => simp [hl] at this
                | bool b => simp [hl] at this
                | number q => simp [hl] at this
                | string t => simp [hl] at this
                | bytes b => simp [hl] at this
          cases hins : insert cv tableName data now s with
          | mk res s1 =>
              cases res with
              | error e =>
                  have hs1 := insert_error_store hins
                  subst hs1
                  obtain ⟨ks, hks, hpw, hseq⟩ := ih s1 hrest
                  exact ⟨ks, by simpa [runCalls, hins] using hks, hpw, hseq⟩
              | ok id =>
                  obtain ⟨c, c1, k, hdb, hdb1, hid, hlt, hseq1⟩ := insert_no_id hno hins
                  obtain ⟨ks, hks, hpw, hseq⟩ := ih s1 hrest
                  refine ⟨k :: ks, ?_, ?_, ?_⟩
                  · simp only [runCalls, hins, List.map_cons, hid]
                    rw [← hks]
                  · refine List.pairwise_cons.mpr ⟨?_, hpw⟩
                    intro k2 hk2
                    have := hseq c1 hdb1 k2 hk2
                    omega
                  · intro c0 hc0 k2 hk2
                    rw [hdb] at hc0; cases hc0
                    rcases List.mem_cons.mp hk2 with rfl | hk3
                    · exact hlt
                    · have := hseq c1 hdb1 k2 hk3
                      omega


/-- C7 (amended): in every sequence of `insert` and `deleteOne` calls on one table in
which the field objects are plain and no insert gives the rowid a value of its own (no
key stands for the rowid, or the value of the last key that does is `null`), the ids
returned by the successful inserts are strictly increasing; so they are pairwise
distinct, and an id is never returned again, also after its row was deleted. -/
theorem inserted_ids_increasing (cv : Conversions) (tableName : String) (calls : List Call)
    (s : Store) (hobj : ∀ call ∈ calls, call.plain = true)
    (h : ∀ call ∈ calls, call.suppliesId tableName = false) :
    ∃ ks : List Int,
      (runCalls cv tableName calls s).1 = ks.map (fun k : Int => JsValue.number (k : ℚ)) ∧
      ks.Pairwise (fun a b => a < b) ∧ ks.Nodup := by
  have _ := hobj
  obtain ⟨ks, hks, hpw, _⟩ := runCalls_increasing cv tableName calls s h
  exact ⟨ks, hks, hpw, hpw.imp (fun hab => ne_of_lt hab)⟩

theorem inserted_ids_increasing_witness :
    ∃ ks : List Int,
      (runCalls plainConversions "income"
        [.insert salary "2024-02-01T10:00:00.000Z", .deleteOne (.number 1),
         .insert (("rowid", .null) :: mixedCaseSalary) "2024-02-02T10:00:00.000Z",
         .insert salary "2024-02-03T10:00:00.000Z"] freshStore).1
        = ks.map (fun k : Int => JsValue.number (k : ℚ)) ∧
      ks.Pairwise (fun a b => a < b) ∧ ks.Nodup :=
  inserted_ids_increasing plainConversions "income"
    [.insert salary "2024-02-01T10:00:00.000Z", .deleteOne (.number 1),
     .insert (("rowid", .null) :: mixedCaseSalary) "2024-02-02T10:00:00.000Z",
     .insert salary "2024-02-03T10:00:00.000Z"] freshStore (by decide) (by decide)

/-- C7 (counterexample): an insert that carries `id: 5`, the deletion of row 5 and a
second insert that carries `id: 5` return the id 5 twice; so do the same calls with
the key `rowid` in place of `id`. -/
theorem inserted_ids_increasing_counterexample :
    (runCalls plainConversions "income"
      [.insert (("id", .number 5) :: salary) "2024-02-01T10:00:00.000Z",
       .deleteOne (.number 5),
       .insert (("id", .number 5) :: salary) "2024-02-02T10:00:00.000Z"] freshStore).1
      = [.number 5, .number 5] ∧
    (runCalls plainConversions "income"
      [.insert (("rowid", .number 5) :: salary) "2024-02-01T10:00:00.000Z",
       .deleteOne (.number 5),
       .insert (("rowid", .number 5) :: salary) "2024-02-02T10:00:00.000Z"] freshStore).1
      = [.number 5, .number 5] := ⟨rfl, rfl⟩

theorem lexLeb_total (x y : List Nat) : lexLeb x y = true ∨ lexLeb y x = true := by
  induction x generalizing y with
  | nil => exact Or.inl rfl
  | cons a as ih =>
      cases y with
      | nil => exact Or.inr rfl
      | cons b bs =>
          rcases Nat.lt_trichotomy a b with h | h | h
          · left; simp [lexLeb, h]
          · subst h
            simpa [lexLeb] using ih bs
          · right; simp [lexLeb, h]

theorem lexLeb_trans {x y z : List Nat} (h1 : lexLeb x y = true) (h2 : lexLeb y z = true) :
    lexLeb x z = true := by
  induction x generalizing y z with
  | nil => rfl
  | cons a as ih =>
      cases y with
      | nil => simp [lexLeb] at h1
      | cons b bs =>
          cases z with
          | nil => simp [lexLeb] at h2
          | cons c cs =>
              simp only [lexLeb] at h1 h2 ⊢
              by_cases hab : a < b
              · by_cases hbc : b < c
                · simp [show a < c by omega]
                · by_cases hbc2 : b = c
                  · subst hbc2; simp [hab]
                  · simp [hbc, hbc2] at h2
              · by_cases hab2 : a = b
                · subst hab2
                  by_cases hac : a < c
                  · simp [hac]
                  · by_cases hac2 : a = c
                    · subst hac2
                      simp only [lt_self_iff_false, if_false, if_true] at h1 h2 ⊢
                      exact ih h1 h2
                    · simp [hac, hac2] at h2
                · simp [hab, hab2] at h1

theorem Value.leb_total (a b : Value) : Value.leb a b = true ∨ Value.leb b a = true := by
  cases a <;> cases b <;> simp only [Value.leb, decide_eq_true_eq, or_true, true_or] <;>
    first
      | exact le_total _ _
      | exact lexLeb_total _ _

theorem Value.leb_trans {a b c : Value} (h1 : Value.leb a b = true) (h2 : Value.leb b c = true) :
    Value.leb a c = true := by
  cases a <;> cases b <;> cases c <;>
    simp only [Value.leb, decide_eq_true_eq, Bool.false_eq_true] at h1 h2 ⊢ <;>
    first
      | exact le_trans h1 h2
      | exact lexLeb_trans h1 h2

theorem createdAtDesc_total (a b : Row) : createdAtDesc a b ∨ createdAtDesc b a :=
  Value.leb_total _ _

theorem createdAtDesc_trans {a b c : Row} (h1 : createdAtDesc a b) (h2 : createdAtDesc b c) :
    createdAtDesc a c :=
  Value.leb_trans h2 h1

theorem orderedInsert_precedes (a : Row) (l : List Row) (hl : l.Pairwise precedes)
    (hid : ∀ x ∈ l, a.id < x.id) : (l.orderedInsert createdAtDesc a).Pairwise precedes := by
  induction l with
  | nil => simp
  | cons b l ih =>
      obtain ⟨hb, hl2⟩ := List.pairwise_cons.mp hl
      by_cases hab : createdAtDesc a b
      · rw [List.orderedInsert, if_pos hab]
        refine List.pairwise_cons.mpr ⟨?_, hl⟩
        intro x hx
        refine ⟨?_, fun _ => hid x hx⟩
        rcases List.mem_cons.mp hx with rfl | hx2
        · exact hab
        · exact createdAtDesc_trans hab (hb x hx2).1
      · rw [List.orderedInsert, if_neg hab]
        refine List.pairwise_cons.mpr ⟨?_, ih hl2 (fun x hx => hid x (List.mem_cons_of_mem _ hx))⟩
        intro x hx
        rcases (List.mem_orderedInsert _).mp hx with rfl | hx2
        · exact ⟨(createdAtDesc_total _ _).resolve_left hab, fun h => absurd h hab⟩
        · exact hb x hx2

theorem insertionSort_precedes (l : List Row) (hs : l.Pairwise (fun a b => a.id < b.id)) :
    (l.insertionSort createdAtDesc).Pairwise precedes := by
  induction l with
  | nil => simp
  | cons a l ih =>
      obtain ⟨ha, hl⟩ := List.pairwise_cons.mp hs
      rw [List.insertionSort]
      refine orderedInsert_precedes a _ (ih hl) ?_
      intro x hx
      exact ha x ((List.mem_insertionSort _).mp hx)

theorem resultToObjects_resultSet (tableName : String) (rows : List Row) :
    resultToObjects (resultSet tableName rows) = rows.map (recordOf tableName) := by
  cases rows with
  | nil => rfl
  | cons r rs =>
      simp [resultToObjects, resultSet, recordOf, columnNames, rowValues, zip_names_values]

/-- C8 (amended): on an open store whose tables are in the state the engine keeps them
in, `getAll` returns the records of exactly the rows of the table, each once, sorted
by `createdAt` descending; rows with equal `createdAt` appear in ascending order of
their id. -/
theorem getAll_spec (tableName : String) (s : Store) (c : Connection)
    (hv : tableName ∈ validTables) (hdb : s.db = some c) (hwf : s.WF) :
    ∃ rows : List Row, getAll tableName s = (.ok (rows.map (recordOf tableName)), s) ∧
      rows.Perm (c.data.table tableName).rows ∧
      rows.Pairwise (fun a b => Value.leb (b.get "createdAt") (a.get "createdAt") = true) ∧
      rows.Pairwise (fun a b => a.get "createdAt" = b.get "createdAt" → a.id < b.id) := by
  have hsorted := (hwf c hdb tableName hv).1
  have hp := insertionSort_precedes _ hsorted
  refine ⟨(c.data.table tableName).rows.insertionSort createdAtDesc, ?_,
    List.perm_insertionSort _ _, hp.imp (fun h => h.1), hp.imp ?_⟩
  · simp only [getAll, contains_validTables_of_mem hv, Bool.not_true, Bool.false_eq_true,
      if_false, hdb, selectAllByCreatedAtDesc, resultToObjects_resultSet]
  · intro a b h he
    refine h.2 ?_
    unfold createdAtDesc
    rw [he]
    exact (Value.leb_total _ _).elim id id

/-- C8 (counterexample): two inserts with the same timestamp, the first carrying
`id: 5` and the second `id: 3`, return 5 and then 3; `getAll` lists the row with id 3
before the row with id 5, although both have the same `createdAt` and the row with
id 5 was inserted first. -/
theorem getAll_spec_counterexample :
    (runCalls plainConversions "income"
      [.insert (("id", .number 5) :: salary) "2024-02-01T10:00:00.000Z",
       .insert (("id", .number 3) :: salary) "2024-02-01T10:00:00.000Z"] freshStore).1
      = [.number 5, .number 3] ∧
    (getAll "income"
      (runCalls plainConversions "income"
        [.insert (("id", .number 5) :: salary) "2024-02-01T10:00:00.000Z",
         .insert (("id", .number 3) :: salary) "2024-02-01T10:00:00.000Z"] freshStore).2).1
      = .ok [recordOf "income" ⟨3, salaryRow.cells⟩, recordOf "income" ⟨5, salaryRow.cells⟩] ∧
    (recordOf "income" ⟨3, salaryRow.cells⟩).lookup "createdAt"
      = (recordOf "income" ⟨5, salaryRow.cells⟩).lookup "createdAt" :=
  ⟨rfl, rfl, rfl⟩


theorem requiredFields_eq :
    requiredFields "income" = ["description", "amount", "date"] ∧
    requiredFields "outgoing" = ["description", "amount", "date"] ∧
    requiredFields "payment_providers" = ["name", "type"] :=
  ⟨rfl, rfl, rfl⟩

theorem requiredFields_column {tableName col : String} (hv : tableName ∈ validTables)
    (h : col ∈ requiredFields tableName) :
    ∃ c, columnOf tableName col = some c ∧ c.notNull = true ∧ c.dflt = .null ∧
      col ≠ "createdAt" ∧ col ≠ "updatedAt" := by
  simp [validTables] at hv
  rcases hv with rfl | rfl | rfl
  · rw [requiredFields_eq.1] at h
    simp only [List.mem_cons, List.mem_singleton, List.not_mem_nil, or_false] at h
    rcases h with rfl | rfl | rfl <;> exact ⟨_, rfl, rfl, rfl, by decide, by decide⟩
  · rw [requiredFields_eq.2.1] at h
    simp only [List.mem_cons, List.mem_singleton, List.not_mem_nil, or_false] at h
    rcases h with rfl | rfl | rfl <;> exact ⟨_, rfl, rfl, rfl, by decide, by decide⟩
  · rw [requiredFields_eq.2.2] at h
    simp only [List.mem_cons, List.mem_singleton, List.not_mem_nil, or_false] at h
    rcases h with rfl | rfl <;> exact ⟨_, rfl, rfl, rfl, by decide, by decide⟩

theorem lookup_newCells {cv : Conversions} {tableName col : String} {c : Column}
    (vals : List (String × Value)) (hc : columnOf tableName col = some c) :
    (newCells cv tableName vals).lookup col =
      some (match vals.lookup col with
        | some v => applyAffinity cv c.affinity v
        | none => c.dflt) := by
  have hn := columnOf_name hc
  simp only [newCells, lookup_map_columns]
  unfold columnOf at hc
  rw [hc]
  simp [hn]

theorem runInsert_missing_required (cv : Conversions) {tableName col : String} (t : Table)
    {vals : List (String × Value)} (hv : tableName ∈ validTables)
    (hreq : col ∈ requiredFields tableName) (hmiss : vals.lookup col = none) :
    ∃ e, runInsert cv tableName t vals = .error e := by
  obtain ⟨c, hc, hnn, hd, _, _⟩ := requiredFields_column hv hreq
  have hcell : (newCells cv tableName vals).lookup c.name = some .null := by
    rw [columnOf_name hc, lookup_newCells vals hc, hmiss, hd]
  have hmem : c ∈ schema tableName := List.mem_of_find?_eq_some hc
  have hviol : ∃ n, notNullViolation tableName (newCells cv tableName vals) = some n := by
    unfold notNullViolation
    cases hf : (schema tableName).find?
        (fun c => c.notNull && decide ((newCells cv tableName vals).lookup c.name = some .null)) with
    | some c2 => exact ⟨c2.name, rfl⟩
    | none =>
        have := List.find?_eq_none.mp hf c hmem
        simp [hnn, hcell] at this
  obtain ⟨n, hn⟩ := hviol
  cases hr : runInsert cv tableName t vals with
  | error e => exact ⟨e, rfl⟩
  | ok p =>
      obtain ⟨t1, k⟩ := p
      have := (runInsert_ok hr).1
      rw [hn] at this
      cases this

theorem requiredFields_ne_id {tableName col : String} (hv : tableName ∈ validTables)
    (h : col ∈ requiredFields tableName) : col ≠ "id" := by
  simp [validTables] at hv
  rcases hv with rfl | rfl | rfl
  · rw [requiredFields_eq.1] at h
    simp only [List.mem_cons, List.mem_singleton, List.not_mem_nil, or_false] at h
    rcases h with rfl | rfl | rfl <;> decide
  · rw [requiredFields_eq.2.1] at h
    simp only [List.mem_cons, List.mem_singleton, List.not_mem_nil, or_false] at h
    rcases h with rfl | rfl | rfl <;> decide
  · rw [requiredFields_eq.2.2] at h
    simp only [List.mem_cons, List.mem_singleton, List.not_mem_nil, or_false] at h
    rcases h with rfl | rfl <;> decide

/-- C9 (amended): for every record table and every plain field object none of whose keys
stands for one of the table's required columns (`description`, `amount`, `date` for
income and outgoing; `name`, `type` for payment_providers; the engine reads a key
without regard to the case of its letters), `insert` fails and returns the store (the
module state, every table and the file) as it received it. -/
theorem insert_missing_required_field (cv : Conversions) (tableName : String)
    (data : FieldObject) (now : String) (s : Store) (col : String)
    (hv : tableName ∈ validTables) (hreq : col ∈ requiredFields tableName)
    (hobj : plainObject data = true)
    (hmiss : firstFor tableName col data = none) :
    ∃ e, insert cv tableName data now s = (.error e, s) := by
  have _ := hobj
  obtain ⟨c, hc, _, _, hne1, hne2⟩ := requiredFields_column hv hreq
  obtain ⟨hrcre, hrupd⟩ := resolveColumn_stamps hv
  cases hins : insert cv tableName data now s with
  | mk res s1 =>
      cases res with
      | error e =>
          have := insert_error_store hins
          subst this
          exact ⟨e, rfl⟩
      | ok id =>
          exfalso
          obtain ⟨c0, vals, t, k, _, _, _, hb, hr, _, _⟩ := insert_ok hins
          have hl : firstFor tableName col (setField "updatedAt" (JsValue.string now)
              (setField "createdAt" (JsValue.string now) data)) = none := by
            rw [firstFor_setField_ne _ _ (by rw [hrupd]; simpa using hne2.symm),
              firstFor_setField_ne _ _ (by rw [hrcre]; simpa using hne1.symm), hmiss]
          have hvals : (insertValues tableName vals).lookup col = none := by
            rw [lookup_insertValues vals (requiredFields_ne_id hv hreq)
              (mem_columnNames_of_columnOf hc), (firstFor_bindFields hb).1 hl]
            rfl
          obtain ⟨e, he⟩ := runInsert_missing_required cv (c0.data.table tableName)
            hv hreq hvals
          rw [he] at hr
          cases hr

theorem insert_missing_required_field_witness :
    "income" ∈ validTables ∧ "description" ∈ requiredFields "income" ∧
    plainObject [("Amount", JsValue.number 100), ("date", .string "2024-01-15"),
      ("descr", .string "Salary")] = true ∧
    firstFor "income" "description" [("Amount", JsValue.number 100),
      ("date", .string "2024-01-15"), ("descr", .string "Salary")] = none ∧
    ∃ e, insert plainConversions "income" [("Amount", .number 100),
      ("date", .string "2024-01-15"), ("descr", .string "Salary")]
      "2024-02-01T10:00:00.000Z" freshStore = (.error e, freshStore) :=
  ⟨by decide, by decide, by decide, by decide,
    insert_missing_required_field plainConversions "income"
      [("Amount", .number 100), ("date", .string "2024-01-15"), ("descr", .string "Salary")]
      "2024-02-01T10:00:00.000Z" freshStore "description" (by decide) (by decide) (by decide)
      (by decide)⟩

/-- C9 (counterexample): a field object without the key `description`, which spells
the required field `Description`, is accepted: the row is stored with the given value
in `description`. -/
theorem insert_missing_required_field_counterexample :
    List.lookup "description"
      [("Description", JsValue.string "Salary"), ("amount", .number 100),
       ("date", .string "2024-01-15")] = none ∧
    (insert plainConversions "income"
      [("Description", .string "Salary"), ("amount", .number 100),
       ("date", .string "2024-01-15")] "2024-02-01T10:00:00.000Z" freshStore).1
      = .ok (.number 1) ∧
    (getAll "income"
      (insert plainConversions "income"
        [("Description", .string "Salary"), ("amount", .number 100),
         ("date", .string "2024-01-15")] "2024-02-01T10:00:00.000Z" freshStore).2).1
      = .ok [recordOf "income" salaryRow] :=
  ⟨rfl, rfl, rfl⟩


theorem table_setTable_ne {tableName other : String} (h : tableName ∈ validTables)
    (hne : other ≠ tableName) (d : Database) (t : Table) :
    (d.setTable tableName t).table other = d.table other := by
  simp [validTables] at h
  rcases h with rfl | rfl | rfl
  · unfold Database.table Database.setTable
    split <;> first | rfl | exact absurd rfl hne
  · unfold Database.table Database.setTable
    split <;> first | rfl | exact absurd rfl hne
  · unfold Database.table Database.setTable
    split <;> first | rfl | exact absurd rfl hne

theorem insertRow_pairwise (r : Row) (l : List Row)
    (hs : l.Pairwise (fun a b => a.id < b.id)) (hne : ∀ x ∈ l, x.id ≠ r.id) :
    (insertRow r l).Pairwise (fun a b => a.id < b.id) := by
  induction l with
  | nil => simp [insertRow]
  | cons x xs ih =>
      obtain ⟨hx, hxs⟩ := List.pairwise_cons.mp hs
      by_cases hlt : r.id < x.id
      · simp only [insertRow, hlt, if_true]
        refine List.pairwise_cons.mpr ⟨?_, hs⟩
        intro y hy
        rcases List.mem_cons.mp hy with rfl | hy2
        · exact hlt
        · exact lt_trans hlt (hx y hy2)
      · simp only [insertRow, hlt, if_false]
        refine List.pairwise_cons.mpr
          ⟨?_, ih hxs (fun y hy => hne y (List.mem_cons_of_mem _ hy))⟩
        intro y hy
        rcases (mem_insertRow _ _ _).mp hy with rfl | hy2
        · have := hne x (List.mem_cons_self _ _)
          omega
        · exact hx y hy2

theorem Table.WF_insertRow {t : Table} {r : Row} {q : Int} (hwf : t.WF)
    (hne : ∀ x ∈ t.rows, x.id ≠ r.id) (hr : minRowid ≤ r.id ∧ r.id ≤ maxRowid)
    (hq : 0 ≤ q ∧ q ≤ maxRowid) : Table.WF ⟨insertRow r t.rows, q⟩ := by
  obtain ⟨hs, hrange, _, _⟩ := hwf
  refine ⟨insertRow_pairwise r _ hs hne, ?_, hq.1, hq.2⟩
  intro x hx
  rcases (mem_insertRow _ _ _).mp hx with rfl | hx2
  · exact hr
  · exact hrange x hx2

theorem Table.WF_filter {t : Table} (p : Row → Bool) (hwf : t.WF) :
    Table.WF ⟨t.rows.filter p, t.seq⟩ := by
  obtain ⟨hs, hrange, h0, hm⟩ := hwf
  exact ⟨hs.filter p, fun x hx => hrange x (List.mem_of_mem_filter hx), h0, hm⟩

theorem Store.WF_of_table {s s1 : Store} {c : Connection} {tableName : String} {t : Table}
    {n : Nat} {k : Int} (hv : tableName ∈ validTables) (hwf : s.WF) (hdb : s.db = some c)
    (ht : t.WF)
    (hs1 : s1 = saveDatabase
      { s with db := some { data := c.data.setTable tableName t, changes := n,
                            lastInsertRowid := k } }) : s1.WF := by
  obtain ⟨c1, hc1, hdata, _, _⟩ :=
    saveDatabase_db
      (s := { s with db := some { data := c.data.setTable tableName t, changes := n,
                                  lastInsertRowid := k } }) rfl
  rw [← hs1] at hc1
  intro c2 hc2 other hother
  rw [hc1] at hc2
  cases hc2
  rw [hdata]
  by_cases he : other = tableName
  · subst he
    rw [table_setTable_self hv]
    exact ht
  · rw [table_setTable_ne hv he]
    exact hwf c hdb other hother

/-- The state of the tables is kept by `insert`. -/
theorem insert_preserves_WF (cv : Conversions) (tableName : String) (data : FieldObject)
    (now : String) (s : Store) (hwf : s.WF) : (insert cv tableName data now s).2.WF := by
  cases hins : insert cv tableName data now s with
  | mk res s1 =>
      cases res with
      | error e => rw [insert_error_store hins]; exact hwf
      | ok id =>
          obtain ⟨c, vals, t, k, hv, hdb, _, _, hr, _, hs1⟩ := insert_ok hins
          obtain ⟨_, huniq, ht, hrow⟩ := runInsert_ok hr
          have htw := hwf c hdb tableName hv
          have hrange : minRowid ≤ k ∧ k ≤ maxRowid := by
            rcases hrow with ⟨_, hnew⟩ | ⟨v, _, _, hro⟩
            · exact (newRowid_spec htw hnew).2.2
            · exact rowidOf_range hro
          refine Store.WF_of_table hv hwf hdb ?_ hs1
          rw [ht]
          refine Table.WF_insertRow htw huniq hrange ?_
          obtain ⟨_, _, h0, hm⟩ := htw
          split <;> constructor <;> omega

theorem storeWithThree_WF : storeWithThree.WF :=
  insert_preserves_WF _ _ _ _ _ (insert_preserves_WF _ _ _ _ _
    (insert_preserves_WF _ _ _ _ _ freshStore_WF))

theorem getAll_spec_witness :
    (getAll "income" storeWithThree).1
      = .ok ([⟨2, [("description", .text "Bonus"), ("amount", .real 50),
                   ("date", .text "2024-02-10"), ("category", .null), ("provider", .null),
                   ("icon", .null), ("createdAt", .text "2024-02-02T10:00:00.000Z"),
                   ("updatedAt", .text "2024-02-02T10:00:00.000Z")]⟩,
              ⟨3, [("description", .text "Salary"), ("amount", .real 100),
                   ("date", .text "2024-01-15"), ("category", .null), ("provider", .null),
                   ("icon", .null), ("createdAt", .text "2024-02-02T10:00:00.000Z"),
                   ("updatedAt", .text "2024-02-02T10:00:00.000Z")]⟩,
              ⟨1, [("description", .text "Salary"), ("amount", .real 100),
                   ("date", .text "2024-01-15"), ("category", .null), ("provider", .null),
                   ("icon", .null), ("createdAt", .text "2024-02-01T10:00:00.000Z"),
                   ("updatedAt", .text "2024-02-01T10:00:00.000Z")]⟩].map
          (recordOf "income")) ∧
    ∃ rows : List Row,
      getAll "income" storeWithThree = (.ok (rows.map (recordOf "income")), storeWithThree) ∧
      rows.Perm threeRows ∧
      rows.Pairwise (fun a b => Value.leb (b.get "createdAt") (a.get "createdAt") = true) ∧
      rows.Pairwise (fun a b => a.get "createdAt" = b.get "createdAt" → a.id < b.id) :=
  ⟨rfl, getAll_spec "income" storeWithThree ⟨storeWithThree.file.get rfl, 0, 0⟩ (by decide) rfl
    storeWithThree_WF⟩

/-- The state of the tables is kept by `deleteOne`. -/
theorem deleteOne_preserves_WF (cv : Conversions) (tableName : String) (id : JsValue)
    (s : Store) (hwf : s.WF) : (deleteOne cv tableName id s).2.WF := by
  unfold deleteOne
  by_cases hv : tableName ∈ validTables
  swap
  · simp only [contains_validTables_of_not_mem hv, Bool.not_false, if_true]
    exact hwf
  simp only [contains_validTables_of_mem hv, Bool.not_true, Bool.false_eq_true, if_false]
  cases hdb : s.db with
  | none => exact hwf
  | some c =>
      simp only [dbRunDelete]
      cases hb : bindValue id with
      | error e => exact hwf
      | ok v =>
          simp only
          refine Store.WF_of_table hv hwf hdb ?_ rfl
          have htw := hwf c hdb tableName hv
          unfold runDelete
          cases rowidOf cv v with
          | none => exact htw
          | some k => exact Table.WF_filter _ htw

theorem update_error_store {cv : Conversions} {tableName : String} {id : JsValue}
    {data : FieldObject} {now : String} {s s1 : Store} {e : String}
    (h : update cv tableName id data now s = (.error e, s1)) : s1 = s := by
  unfold update at h
  split at h
  · simp only [Prod.mk.injEq] at h; exact h.2.symm
  · simp only at h
    split at h
    · simp only [Prod.mk.injEq] at h; exact h.2.symm
    · split at h
      · simp only [Prod.mk.injEq] at h; exact h.2.symm
      · rename_i c1 _
        exfalso
        obtain ⟨c2, hc2, _, _, _⟩ :=
          saveDatabase_db (s := { s with db := some c1 }) rfl
        simp only [getRowsModified, hc2, Prod.mk.injEq] at h
        exact absurd h.1 (by simp)

/-- The state of the tables is kept by `update`. -/
theorem update_preserves_WF (cv : Conversions) (tableName : String) (id : JsValue)
    (data : FieldObject) (now : String) (s : Store) (hwf : s.WF) :
    (update cv tableName id data now s).2.WF := by
  cases hupd : update cv tableName id data now s with
  | mk res s1 =>
      cases res with
      | error e => rw [update_error_store hupd]; exact hwf
      | ok n =>
          obtain ⟨c, assigns, v, t, m, hv, hdb, _, _, _, hr, hs1, _⟩ := update_ok hupd
          refine Store.WF_of_table hv hwf hdb ?_ hs1
          have htw := hwf c hdb tableName hv
          rcases runUpdate_ok hr with ⟨_, ht, _⟩ | ⟨k, r, j, _, hf, hj, _, hun, ht, _⟩
          · rw [ht]; exact htw
          · rw [ht]
            have hrmem : r ∈ (c.data.table tableName).rows := List.mem_of_find?_eq_some hf
            have hjr : minRowid ≤ j ∧ j ≤ maxRowid := by
              cases hid : (updateValues tableName assigns).lookup "id" with
              | none =>
                  simp only [hid] at hj
                  rw [hj]
                  exact htw.2.1 r hrmem
              | some w =>
                  simp only [hid] at hj
                  exact rowidOf_range hj
            have hfw := Table.WF_filter (fun x => decide (x.id ≠ k)) htw
            refine Table.WF_insertRow (r := ⟨j, _⟩) hfw ?_ hjr ⟨htw.2.2.1, htw.2.2.2⟩
            intro x hx
            have hxk : x.id ≠ k := by simpa using (List.mem_filter.mp hx).2
            have hxm := List.mem_of_mem_filter hx
            intro he
            simp only at he
            by_cases hjk : j = k
            · exact hxk (he.trans hjk)
            · exact hun ⟨hjk, x, hxm, he⟩


theorem resultToObject_selectByRowid (d : Database) (tableName : String) (k : Int) :
    resultToObject (selectByRowid d tableName k) =
      ((d.table tableName).rows.find? (fun x => x.id = k)).map (recordOf tableName) := by
  unfold selectByRowid
  cases hf : (d.table tableName).rows.find? (fun x => x.id = k) with
  | none => simp [resultToObject, resultToObjects]
  | some r => simp [resultToObject_single, recordOf]

theorem getSettings_eq {s : Store} {c : Connection} (hdb : s.db = some c) :
    getSettings s =
      (.ok ((c.data.settings.rows.find? (fun x => x.id = 1)).map (recordOf "settings")), s) := by
  simp only [getSettings, hdb, resultToObject_selectByRowid]
  rfl

/-- C11 (amended): on an open store `isFirstRun` returns true exactly when there is no
settings row with id 1 or that row's `setupCompleted` is the number 0.  For any other
value of the flag, NULL included, it returns false. -/
theorem isFirstRun_spec (s : Store) (c : Connection) (hdb : s.db = some c) :
    ∃ b, isFirstRun s = (.ok b, s) ∧
      (b = true ↔ ((getSettings s).1 = .ok none ∨
        ∃ o, (getSettings s).1 = .ok (some o) ∧ o.lookup "setupCompleted" = some (.number 0))) := by
  rw [getSettings_eq hdb]
  simp only [isFirstRun, hdb, selectSetupCompleted]
  cases hf : c.data.settings.rows.find? (fun x => x.id = 1) with
  | none =>
      refine ⟨true, ?_, ?_⟩
      · simp [resultToObject, resultToObjects]
      · simp
  | some r =>
      refine ⟨decide (toJs (r.get "setupCompleted") = .number 0), ?_, ?_⟩
      · simp [resultToObject, resultToObjects, property, List.lookup]
      · have hl : (recordOf "settings" r).lookup "setupCompleted"
            = some (toJs (r.get "setupCompleted")) := by
          rw [lookup_recordOf r (by decide)]
          rfl
        simp [hl]

theorem isFirstRun_spec_witness :
    ∃ b, isFirstRun freshStore = (.ok b, freshStore) ∧
      (b = true ↔ ((getSettings freshStore).1 = .ok none ∨
        ∃ o, (getSettings freshStore).1 = .ok (some o) ∧
          o.lookup "setupCompleted" = some (.number 0))) :=
  isFirstRun_spec freshStore ⟨freshStore.file.get rfl, 0, 0⟩ rfl

/-- C11 (counterexample): on a database file whose settings row holds NULL in
`setupCompleted`, `getSettings` shows the flag as `null` and `isFirstRun` returns
false. -/
theorem isFirstRun_spec_counterexample :
    (∃ o, (getSettings nullFlagStore).1 = .ok (some o) ∧
      o.lookup "setupCompleted" = some .null) ∧
    (isFirstRun nullFlagStore).1 = .ok false :=
  ⟨⟨_, rfl, rfl⟩, rfl⟩


theorem updateSettings_cases (cv : Conversions) (updates : FieldObject) (now : String)
    {s : Store} {c : Connection} (hdb : s.db = some c) :
    (updateSettings cv updates now s).2 = s ∨
    ∃ newName newCurrency newProfileImage vals c1,
      pickSetting updates ((c.data.settings.rows.find? (fun x => x.id = 1)).map
        (recordOf "settings")) "name" = .ok newName ∧
      pickSetting updates ((c.data.settings.rows.find? (fun x => x.id = 1)).map
        (recordOf "settings")) "currency" = .ok newCurrency ∧
      pickSetting updates ((c.data.settings.rows.find? (fun x => x.id = 1)).map
        (recordOf "settings")) "profileImage" = .ok newProfileImage ∧
      bindFields [("name", newName), ("currency", newCurrency),
        ("profileImage", newProfileImage), ("updatedAt", .string now)] = .ok vals ∧
      dbRunUpdateSettings cv vals c = .ok c1 ∧
      updateSettings cv updates now s = (.ok (), saveDatabase { s with db := some c1 }) := by
  unfold updateSettings
  rw [getSettings_eq hdb]
  simp only [hdb]
  cases h1 : pickSetting updates ((c.data.settings.rows.find? (fun x => x.id = 1)).map
      (recordOf "settings")) "name" with
  | error e => exact Or.inl rfl
  | ok newName =>
    cases h2 : pickSetting updates ((c.data.settings.rows.find? (fun x => x.id = 1)).map
        (recordOf "settings")) "currency" with
    | error e => exact Or.inl rfl
    | ok newCurrency =>
      cases h3 : pickSetting updates ((c.data.settings.rows.find? (fun x => x.id = 1)).map
          (recordOf "settings")) "profileImage" with
      | error e => exact Or.inl rfl
      | ok newProfileImage =>
        simp only
        cases h4 : bindFields [("name", newName), ("currency", newCurrency),
            ("profileImage", newProfileImage), ("updatedAt", .string now)] with
        | error e => exact Or.inl rfl
        | ok vals =>
          simp only
          cases h5 : dbRunUpdateSettings cv vals c with
          | error e => exact Or.inl rfl
          | ok c1 =>
            exact Or.inr ⟨newName, newCurrency, newProfileImage, vals, c1, rfl, rfl, rfl, h4,
              h5, rfl⟩

theorem rowidOf_one (cv : Conversions) : rowidOf cv (.int 1) = some 1 := by
  simp [rowidOf, Numeric.toRowid, minRowid, maxRowid]

theorem dbRunUpdateSettings_ok {cv : Conversions} {assigns : List (String × Value)}
    {c c1 : Connection} (hid : assigns.lookup "id" = none)
    (h : dbRunUpdateSettings cv assigns c = .ok c1) :
    c1.data.income = c.data.income ∧ c1.data.outgoing = c.data.outgoing ∧
    c1.data.payment_providers = c.data.payment_providers ∧
    c1.data.image_cache = c.data.image_cache ∧
    ((c.data.settings.rows.find? (fun x => x.id = 1) = none ∧
        c1.data.settings = c.data.settings) ∨
      ∃ r, c.data.settings.rows.find? (fun x => x.id = 1) = some r ∧ r.id = 1 ∧
        c1.data.settings.rows =
          insertRow ⟨1, updatedCells cv "settings" assigns r⟩
            (c.data.settings.rows.filter (fun x => x.id ≠ 1))) := by
  unfold dbRunUpdateSettings at h
  cases hr : runUpdate cv "settings" c.data.settings assigns (.int 1) with
  | error e => simp [hr] at h
  | ok p =>
      obtain ⟨t, n⟩ := p
      simp only [hr, Except.ok.injEq] at h
      subst h
      refine ⟨rfl, rfl, rfl, rfl, ?_⟩
      rcases runUpdate_ok hr with ⟨hnone, ht, _⟩ | ⟨k, r, j, hro, hf, hj, _, _, ht, _⟩
      · left
        rcases hnone with h1 | ⟨k, h1, h2⟩
        · rw [rowidOf_one] at h1; cases h1
        · rw [rowidOf_one] at h1; cases h1
          exact ⟨h2, by rw [ht]; rfl⟩
      · right
        rw [rowidOf_one] at hro; cases hro
        have hk : r.id = 1 := by simpa using List.find?_some hf
        simp only [hid] at hj
        refine ⟨r, hf, hk, ?_⟩
        rw [ht, hj, hk]
        rfl

theorem bind_toJs_text (cv : Conversions) {v : Value} (h : ∀ q, toJs v ≠ .number q) :
    bindValue (toJs v) = .ok v ∧ applyAffinity cv .text v = v := by
  cases v with
  | null => exact ⟨rfl, rfl⟩
  | int i => exact absurd rfl (h i)
  | real q => exact absurd rfl (h q)
  | text t => exact ⟨rfl, rfl⟩
  | blob b => exact ⟨rfl, rfl⟩


theorem pickSetting_absent {updates : FieldObject} {settings : Option FieldObject}
    {key : String} {v : JsValue}
    (habs : updates.lookup key = none ∨ updates.lookup key = some .undefined)
    (h : pickSetting updates settings key = .ok v) :
    ∃ o, settings = some o ∧ v = (o.lookup key).getD .undefined := by
  have hp : property key (some updates) = .undefined := by
    rcases habs with h1 | h1 <;> simp [property, h1]
  unfold pickSetting at h
  rw [hp] at h
  simp only [ne_eq, not_true_eq_false, if_false] at h
  cases settings with
  | none => simp at h
  | some o =>
      simp only [Except.ok.injEq] at h
      exact ⟨o, rfl, h.symm⟩

/-- C13: on an open store with a settings row, whatever `updateSettings` does with an
`updates` object, the settings row read back afterwards has the `id`,
`masterPasswordHash`, `setupCompleted` and `createdAt` it had before; each of `name`,
`currency`, `profileImage` that `updates` does not carry keeps its prior value; and
the other four tables are unchanged. -/
theorem updateSettings_frame (cv : Conversions) (updates : FieldObject) (now : String)
    (s : Store) (c : Connection) (old : FieldObject) (hdb : s.db = some c)
    (hold : (getSettings s).1 = .ok (some old))
    (htext : ∀ col ∈ ["name", "currency", "profileImage"],
      ∀ q, old.lookup col ≠ some (.number q)) :
    ∃ c1 new, (updateSettings cv updates now s).2.db = some c1 ∧
      (getSettings (updateSettings cv updates now s).2).1 = .ok (some new) ∧
      new.lookup "id" = old.lookup "id" ∧
      new.lookup "masterPasswordHash" = old.lookup "masterPasswordHash" ∧
      new.lookup "setupCompleted" = old.lookup "setupCompleted" ∧
      new.lookup "createdAt" = old.lookup "createdAt" ∧
      (∀ col ∈ ["name", "currency", "profileImage"],
        (updates.lookup col = none ∨ updates.lookup col = some .undefined) →
        new.lookup col = old.lookup col) ∧
      c1.data.income = c.data.income ∧ c1.data.outgoing = c.data.outgoing ∧
      c1.data.payment_providers = c.data.payment_providers ∧
      c1.data.image_cache = c.data.image_cache := by
  rw [getSettings_eq hdb] at hold
  simp only [Except.ok.injEq] at hold
  cases hf : c.data.settings.rows.find? (fun x => x.id = 1) with
  | none => rw [hf] at hold; simp at hold
  | some r =>
  rw [hf] at hold
  simp only [Option.map_some', Option.some.injEq] at hold
  have hrid : r.id = 1 := by simpa using List.find?_some hf
  rcases updateSettings_cases cv updates now hdb with hsame | ⟨newName, newCurrency,
      newProfileImage, vals, c1, hp1, hp2, hp3, hb, hrun, hres⟩
  · rw [hsame]
    refine ⟨c, old, hdb, ?_, rfl, rfl, rfl, rfl, fun _ _ _ => rfl, rfl, rfl, rfl, rfl⟩
    rw [getSettings_eq hdb, hf, ← hold]
    rfl
  · rw [hres]
    obtain ⟨c2, hc2, hdata, _, _⟩ := saveDatabase_db (s := { s with db := some c1 }) rfl
    have hidv : vals.lookup "id" = none := (lookup_bindFields hb "id").1 (by simp [List.lookup])
    obtain ⟨hi, ho, hpp, him, hset⟩ := dbRunUpdateSettings_ok hidv hrun
    rcases hset with ⟨hnone, _⟩ | ⟨r2, hf2, _, hrows⟩
    · rw [hf] at hnone; cases hnone
    rw [hf] at hf2; cases hf2
    have hfind : c2.data.settings.rows.find? (fun x => x.id = 1)
        = some ⟨1, updatedCells cv "settings" vals r⟩ := by
      rw [hdata]
      show c1.data.settings.rows.find? (fun x => x.id = 1) = _
      rw [hrows]
      refine find?_insertRow_self ⟨1, updatedCells cv "settings" vals r⟩ _ ?_
      intro x hx
      simpa using (List.mem_filter.mp hx).2
    have hkeep : ∀ col column, columnOf "settings" col = some column → col ≠ "id" →
        vals.lookup col = none →
        (recordOf "settings" ⟨1, updatedCells cv "settings" vals r⟩).lookup col
          = old.lookup col := by
      intro col column hcol hne hv
      rw [← hold, lookup_recordOf _ hne, lookup_recordOf _ hne, hcol]
      simp only [Option.map_some', get_updatedCells 1 vals r hcol, hv]
    have hnone : ∀ col, col ≠ "name" → col ≠ "currency" → col ≠ "profileImage" →
        col ≠ "updatedAt" → vals.lookup col = none := by
      intro col h1 h2 h3 h4
      refine (lookup_bindFields hb col).1 ?_
      have e1 : (col == "name") = false := by simpa using h1
      have e2 : (col == "currency") = false := by simpa using h2
      have e3 : (col == "profileImage") = false := by simpa using h3
      have e4 : (col == "updatedAt") = false := by simpa using h4
      simp [List.lookup, e1, e2, e3, e4]
    have hpick : ∀ col column v, columnOf "settings" col = some column →
        column.affinity = .text → col ≠ "id" →
        (∀ q, old.lookup col ≠ some (.number q)) →
        (updates.lookup col = none ∨ updates.lookup col = some .undefined) →
        pickSetting updates ((c.data.settings.rows.find? (fun x => x.id = 1)).map
          (recordOf "settings")) col = .ok v →
        (∀ w, bindValue v = .ok w → vals.lookup col = some w) →
        (recordOf "settings" ⟨1, updatedCells cv "settings" vals r⟩).lookup col
          = old.lookup col := by
      intro col column v hcol haff hne hnum habs hp hval
      obtain ⟨o, ho1, hv⟩ := pickSetting_absent habs hp
      rw [hf] at ho1
      simp only [Option.map_some', Option.some.injEq] at ho1
      have holdl : old.lookup col = some (toJs (r.get col)) := by
        rw [← hold, lookup_recordOf _ hne, hcol]; rfl
      have hv2 : v = toJs (r.get col) := by
        rw [hv, ← ho1, hold, holdl]; rfl
      have hnn : ∀ q, toJs (r.get col) ≠ .number q := by
        intro q e
        exact hnum q (by rw [holdl, e])
      obtain ⟨hbv, haf⟩ := bind_toJs_text cv hnn
      have hl := hval (r.get col) (by rw [hv2]; exact hbv)
      rw [lookup_recordOf _ hne, hcol, holdl]
      simp only [Option.map_some', get_updatedCells 1 vals r hcol, hl, haff, haf]
    have hbn : ∀ w, bindValue newName = .ok w → vals.lookup "name" = some w := by
      intro w hw
      obtain ⟨w2, hw2, hl⟩ := (lookup_bindFields hb "name").2 newName (by simp [List.lookup])
      rw [hw] at hw2; cases hw2; exact hl
    have hbc : ∀ w, bindValue newCurrency = .ok w → vals.lookup "currency" = some w := by
      intro w hw
      obtain ⟨w2, hw2, hl⟩ := (lookup_bindFields hb "currency").2 newCurrency
        (by simp [List.lookup])
      rw [hw] at hw2; cases hw2; exact hl
    have hbp : ∀ w, bindValue newProfileImage = .ok w →
        vals.lookup "profileImage" = some w := by
      intro w hw
      obtain ⟨w2, hw2, hl⟩ := (lookup_bindFields hb "profileImage").2 newProfileImage
        (by simp [List.lookup])
      rw [hw] at hw2; cases hw2; exact hl
    refine ⟨c2, recordOf "settings" ⟨1, updatedCells cv "settings" vals r⟩, hc2, ?_, ?_,
      ?_, ?_, ?_, ?_, ?_, ?_, ?_, ?_⟩
    · rw [getSettings_eq hc2, hfind]; rfl
    · rw [← hold, lookup_recordOf_id, lookup_recordOf_id, hrid]
    · exact hkeep "masterPasswordHash" _ rfl (by decide)
        (hnone _ (by decide) (by decide) (by decide) (by decide))
    · exact hkeep "setupCompleted" _ rfl (by decide)
        (hnone _ (by decide) (by decide) (by decide) (by decide))
    · exact hkeep "createdAt" _ rfl (by decide)
        (hnone _ (by decide) (by decide) (by decide) (by decide))
    · intro col hcol habs
      simp only [List.mem_cons, List.mem_singleton, List.not_mem_nil, or_false] at hcol
      rcases hcol with rfl | rfl | rfl
      · exact hpick "name" _ newName rfl rfl (by decide) (htext _ (by simp)) habs hp1 hbn
      · exact hpick "currency" _ newCurrency rfl rfl (by decide) (htext _ (by simp)) habs
          hp2 hbc
      · exact hpick "profileImage" _ newProfileImage rfl rfl (by decide) (htext _ (by simp))
          habs hp3 hbp
    · rw [hdata]; exact hi
    · rw [hdata]; exact ho
    · rw [hdata]; exact hpp
    · rw [hdata]; exact him


theorem defaultSettings_text (now : String) :
    ∀ col ∈ ["name", "currency", "profileImage"],
      ∀ q, (recordOf "settings" (defaultSettings now)).lookup col ≠ some (.number q) := by
  intro col hcol q
  simp only [List.mem_cons, List.mem_singleton, List.not_mem_nil, or_false] at hcol
  rcases hcol with rfl | rfl | rfl <;>
    · intro h
      have h2 := Option.some.inj h
      cases h2

theorem updateSettings_frame_witness :
    ∃ c1 new, (updateSettings plainConversions [("name", .string "Ann")]
        "2024-03-01T09:00:00.000Z" freshStore).2.db = some c1 ∧
      (getSettings (updateSettings plainConversions [("name", .string "Ann")]
        "2024-03-01T09:00:00.000Z" freshStore).2).1 = .ok (some new) ∧
      new.lookup "id" = (recordOf "settings" (defaultSettings "2024-01-01T00:00:00.000Z")).lookup "id" ∧
      new.lookup "masterPasswordHash"
        = (recordOf "settings" (defaultSettings "2024-01-01T00:00:00.000Z")).lookup
            "masterPasswordHash" ∧
      new.lookup "setupCompleted"
        = (recordOf "settings" (defaultSettings "2024-01-01T00:00:00.000Z")).lookup
            "setupCompleted" ∧
      new.lookup "createdAt"
        = (recordOf "settings" (defaultSettings "2024-01-01T00:00:00.000Z")).lookup "createdAt" ∧
      (∀ col ∈ ["name", "currency", "profileImage"],
        (List.lookup col [("name", JsValue.string "Ann")] = none ∨
          List.lookup col [("name", JsValue.string "Ann")] = some .undefined) →
        new.lookup col
          = (recordOf "settings" (defaultSettings "2024-01-01T00:00:00.000Z")).lookup col) ∧
      c1.data.income = (Connection.mk (freshStore.file.get rfl) 0 0).data.income ∧
      c1.data.outgoing = (Connection.mk (freshStore.file.get rfl) 0 0).data.outgoing ∧
      c1.data.payment_providers
        = (Connection.mk (freshStore.file.get rfl) 0 0).data.payment_providers ∧
      c1.data.image_cache = (Connection.mk (freshStore.file.get rfl) 0 0).data.image_cache :=
  updateSettings_frame plainConversions [("name", .string "Ann")] "2024-03-01T09:00:00.000Z"
    freshStore ⟨freshStore.file.get rfl, 0, 0⟩
    (recordOf "settings" (defaultSettings "2024-01-01T00:00:00.000Z")) rfl rfl
    (defaultSettings_text _)


theorem sampleBcrypt_accepts : sampleBcrypt.Accepts sampleSalt := by
  intro key
  refine ⟨_, rfl, ?_, ?_⟩
  · simp [String.length_append, sampleSalt]
    rfl
  · simp only [takeChars, String.data_append]
    have h29 : sampleSalt.data.length = 29 := rfl
    rw [List.take_append_of_le_length (by rw [h29])]
    rw [List.take_of_length_le (by rw [h29])]


theorem runUpdate_success {cv : Conversions} {tableName : String} {t : Table}
    {assigns : List (String × Value)} {v : Value} {k : Int} {r : Row}
    (hro : rowidOf cv v = some k) (hf : t.rows.find? (fun x => x.id = k) = some r)
    (hid : assigns.lookup "id" = none)
    (hnn : notNullViolation tableName (updatedCells cv tableName assigns r) = none) :
    runUpdate cv tableName t assigns v =
      .ok (⟨insertRow ⟨k, updatedCells cv tableName assigns r⟩
              (t.rows.filter (fun x => x.id ≠ k)), t.seq⟩, 1) := by
  have hk : r.id = k := by simpa using List.find?_some hf
  simp only [runUpdate, hro, hf, hid, hnn, hk, ne_eq, not_true_eq_false, false_and, if_false]

theorem dbRunUpdateSettings_success {cv : Conversions} {assigns : List (String × Value)}
    {c : Connection} {r : Row} (hf : c.data.settings.rows.find? (fun x => x.id = 1) = some r)
    (hid : assigns.lookup "id" = none)
    (hnn : notNullViolation "settings" (updatedCells cv "settings" assigns r) = none) :
    ∃ c1, dbRunUpdateSettings cv assigns c = .ok c1 ∧
      c1.data.settings.rows =
        insertRow ⟨1, updatedCells cv "settings" assigns r⟩
          (c.data.settings.rows.filter (fun x => x.id ≠ 1)) := by
  have h := @runUpdate_success cv "settings" c.data.settings assigns (.int 1) 1 r
    (rowidOf_one cv) hf hid hnn
  exact ⟨{ c with
      data := c.data.setTable "settings"
        (Table.mk (insertRow ⟨1, updatedCells cv "settings" assigns r⟩
          (c.data.settings.rows.filter (fun x => x.id ≠ 1))) c.data.settings.seq),
      changes := 1 }, by simp only [dbRunUpdateSettings, h], rfl⟩

theorem verifyPassword_same_key (bc : Bcrypt) {p q : String} (h : bcryptKey p = bcryptKey q)
    (hash : JsValue) :
    verifyPassword bc (.string q) hash = verifyPassword bc (.string p) hash := by
  cases hash <;> simp [verifyPassword, h, typeOf]

theorem verifyPassword_hash {bc : Bcrypt} {salt hash : String} (hacc : bc.Accepts salt)
    {password : String} (hh : bc.crypt (bcryptKey password) salt = .ok hash) (other : String) :
    ∃ h2, bc.crypt (bcryptKey other) salt = .ok h2 ∧
      verifyPassword bc (.string other) (.string hash) = .ok (h2 == hash) := by
  obtain ⟨h1, hc1, hlen, htake⟩ := hacc (bcryptKey password)
  rw [hh] at hc1
  cases hc1
  obtain ⟨h2, hc2, _, _⟩ := hacc (bcryptKey other)
  refine ⟨h2, hc2, ?_⟩
  simp only [verifyPassword, hlen, ne_eq, not_true_eq_false, if_false, htake, hc2]


theorem isFirstRun_eq {s : Store} {c : Connection} (hdb : s.db = some c) :
    isFirstRun s =
      (.ok (match c.data.settings.rows.find? (fun x => x.id = 1) with
        | none => true
        | some r => decide (toJs (r.get "setupCompleted") = .number 0)), s) := by
  simp only [isFirstRun, hdb, selectSetupCompleted]
  cases hf : c.data.settings.rows.find? (fun x => x.id = 1) with
  | none => simp [resultToObject, resultToObjects]
  | some r => simp [resultToObject, resultToObjects, property, List.lookup]

/-- C12 (amended): on an open store with a settings row, `completeSetup` with a name, a
currency and a password that are strings and a profile image key that is a string or
`null` succeeds; afterwards the settings row has that name, currency and profile
image, `setupCompleted` 1, `updatedAt` = now and the bcrypt hash of the password, and
`isFirstRun` is false.  The hash differs from every password that has not 60
characters; `verifyPassword(password, hash)` is true; and `verifyPassword(other, hash)`
is true exactly when `other` hashes to the same string under the salt of the hash,
which is the case for every `other` with the same 72 key bytes. -/
theorem completeSetup_spec (cv : Conversions) (bc : Bcrypt) (name currency password : String)
    (profileImage : JsValue) (salt now : String) (s : Store) (c : Connection)
    (old : FieldObject) (hdb : s.db = some c)
    (hold : (getSettings s).1 = .ok (some old)) (hacc : bc.Accepts salt)
    (himg : profileImage = .null ∨ ∃ k, profileImage = .string k) :
    ∃ s1 hash new,
      completeSetup cv bc (.string name) (.string currency) (.string password) profileImage
        salt now s = (.ok (), s1) ∧
      hashPassword bc (.string password) salt = .ok hash ∧
      (getSettings s1).1 = .ok (some new) ∧
      new.lookup "name" = some (.string name) ∧
      new.lookup "currency" = some (.string currency) ∧
      new.lookup "profileImage" = some profileImage ∧
      new.lookup "setupCompleted" = some (.number 1) ∧
      new.lookup "updatedAt" = some (.string now) ∧
      new.lookup "masterPasswordHash" = some (.string hash) ∧
      (isFirstRun s1).1 = .ok false ∧
      (password.length ≠ 60 → hash ≠ password) ∧
      verifyPassword bc (.string password) (.string hash) = .ok true ∧
      (∀ other, ∃ h2, bc.crypt (bcryptKey other) salt = .ok h2 ∧
        verifyPassword bc (.string other) (.string hash) = .ok (h2 == hash)) ∧
      (∀ other, bcryptKey other = bcryptKey password →
        verifyPassword bc (.string other) (.string hash) = .ok true) := by
  rw [getSettings_eq hdb] at hold
  simp only [Except.ok.injEq] at hold
  cases hf : c.data.settings.rows.find? (fun x => x.id = 1) with
  | none => rw [hf] at hold; simp at hold
  | some r =>
  obtain ⟨hash, hh, hlen, htake⟩ := hacc (bcryptKey password)
  have hverify : verifyPassword bc (.string password) (.string hash) = .ok true := by
    obtain ⟨h2, hc2, hv⟩ := verifyPassword_hash hacc hh password
    rw [hh] at hc2
    cases hc2
    simpa using hv
  obtain ⟨w, hbw, hwnn⟩ : ∃ w, bindValue profileImage = .ok w ∧
      toJs (applyAffinity cv .text w) = profileImage := by
    rcases himg with rfl | ⟨k, rfl⟩
    · exact ⟨.null, rfl, rfl⟩
    · exact ⟨.text k, rfl, rfl⟩
  have hbind : bindFields [("name", .string name), ("currency", .string currency),
      ("masterPasswordHash", .string hash), ("profileImage", profileImage)]
      = .ok [("name", .text name), ("currency", .text currency),
          ("masterPasswordHash", .text hash), ("profileImage", w)] := by
    have e1 : bindValue (.string name) = .ok (.text name) := rfl
    have e2 : bindValue (.string currency) = .ok (.text currency) := rfl
    have e3 : bindValue (.string hash) = .ok (.text hash) := rfl
    simp only [bindFields, e1, e2, e3, hbw]
  have hnn : notNullViolation "settings" (updatedCells cv "settings"
      ([("name", .text name), ("currency", .text currency),
          ("masterPasswordHash", .text hash), ("profileImage", w)] ++
        [("setupCompleted", .int 1), ("updatedAt", .text now)]) r) = none := by
    simp [notNullViolation, updatedCells, schema, List.lookup, applyAffinity]
  obtain ⟨c1, hrun, hrows⟩ := dbRunUpdateSettings_success (c := c) hf (by simp [List.lookup]) hnn
  obtain ⟨c2, hc2, hdata, _, _⟩ := saveDatabase_db (s := { s with db := some c1 }) rfl
  have hfind : c2.data.settings.rows.find? (fun x => x.id = 1)
      = some ⟨1, updatedCells cv "settings"
          ([("name", .text name), ("currency", .text currency),
            ("masterPasswordHash", .text hash), ("profileImage", w)] ++
          [("setupCompleted", .int 1), ("updatedAt", .text now)]) r⟩ := by
    rw [hdata, hrows]
    refine find?_insertRow_self ⟨1, _⟩ _ ?_
    intro x hx
    simpa using (List.mem_filter.mp hx).2
  have hlook : ∀ col column v, columnOf "settings" col = some column → col ≠ "id" →
      List.lookup col ([("name", Value.text name), ("currency", .text currency),
            ("masterPasswordHash", .text hash), ("profileImage", w)] ++
          [("setupCompleted", .int 1), ("updatedAt", .text now)]) = some v →
      (recordOf "settings" ⟨1, updatedCells cv "settings"
          ([("name", .text name), ("currency", .text currency),
            ("masterPasswordHash", .text hash), ("profileImage", w)] ++
          [("setupCompleted", .int 1), ("updatedAt", .text now)]) r⟩).lookup col
        = some (toJs (applyAffinity cv column.affinity v)) := by
    intro col column v hcol hne hv
    rw [lookup_recordOf _ hne, hcol]
    simp only [Option.map_some', get_updatedCells 1 _ r hcol, hv]
  refine ⟨saveDatabase { s with db := some c1 }, hash,
    recordOf "settings" ⟨1, updatedCells cv "settings"
          ([("name", .text name), ("currency", .text currency),
            ("masterPasswordHash", .text hash), ("profileImage", w)] ++
          [("setupCompleted", .int 1), ("updatedAt", .text now)]) r⟩,
    ?_, hh, ?_, ?_, ?_, ?_, ?_, ?_, ?_, ?_, ?_, hverify, ?_, ?_⟩
  · simp only [completeSetup, hashPassword, hh, hdb, hbind, hrun]
  · rw [getSettings_eq hc2, hfind]; rfl
  · exact hlook "name" _ (.text name) rfl (by decide) (by simp [List.lookup])
  · exact hlook "currency" _ (.text currency) rfl (by decide) (by simp [List.lookup])
  · rw [hlook "profileImage" _ w rfl (by decide) (by simp [List.lookup]), hwnn]
  · rw [hlook "setupCompleted" _ (.int 1) rfl (by decide) (by simp [List.lookup])]
    simp [applyAffinity, toJs]
  · exact hlook "updatedAt" _ (.text now) rfl (by decide) (by simp [List.lookup])
  · exact hlook "masterPasswordHash" _ (.text hash) rfl (by decide) (by simp [List.lookup])
  · rw [isFirstRun_eq hc2, hfind]
    have hg : (Row.mk 1 (updatedCells cv "settings"
          ([("name", .text name), ("currency", .text currency),
            ("masterPasswordHash", .text hash), ("profileImage", w)] ++
          [("setupCompleted", .int 1), ("updatedAt", .text now)]) r)).get "setupCompleted"
        = .int 1 := by
      have hcol : columnOf "settings" "setupCompleted"
          = some ⟨"setupCompleted", .integer, false, .int 0⟩ := rfl
      rw [get_updatedCells 1 _ r hcol]
      simp [List.lookup, applyAffinity]
    simp only [hg, toJs]
    simp
  · intro hp he
    rw [he] at hlen
    exact hp hlen
  · exact fun other => verifyPassword_hash hacc hh other
  · intro other hk
    rw [verifyPassword_same_key bc hk.symm]
    exact hverify


theorem completeSetup_spec_witness :
    sampleBcrypt.Accepts sampleSalt ∧
    ∃ s1 hash new,
      completeSetup plainConversions sampleBcrypt (.string "Ann") (.string "USD")
        (.string "secret123") (.string "avatar_1") sampleSalt "2024-03-01T09:00:00.000Z"
        freshStore = (.ok (), s1) ∧
      hashPassword sampleBcrypt (.string "secret123") sampleSalt = .ok hash ∧
      (getSettings s1).1 = .ok (some new) ∧
      new.lookup "name" = some (.string "Ann") ∧
      new.lookup "currency" = some (.string "USD") ∧
      new.lookup "profileImage" = some (.string "avatar_1") ∧
      new.lookup "setupCompleted" = some (.number 1) ∧
      new.lookup "updatedAt" = some (.string "2024-03-01T09:00:00.000Z") ∧
      new.lookup "masterPasswordHash" = some (.string hash) ∧
      (isFirstRun s1).1 = .ok false ∧
      (("secret123" : String).length ≠ 60 → hash ≠ "secret123") ∧
      verifyPassword sampleBcrypt (.string "secret123") (.string hash) = .ok true ∧
      (∀ other, ∃ h2, sampleBcrypt.crypt (bcryptKey other) sampleSalt = .ok h2 ∧
        verifyPassword sampleBcrypt (.string other) (.string hash) = .ok (h2 == hash)) ∧
      (∀ other, bcryptKey other = bcryptKey "secret123" →
        verifyPassword sampleBcrypt (.string other) (.string hash) = .ok true) :=
  ⟨sampleBcrypt_accepts,
   completeSetup_spec plainConversions sampleBcrypt "Ann" "USD" "secret123" (.string "avatar_1")
     sampleSalt "2024-03-01T09:00:00.000Z" freshStore ⟨freshStore.file.get rfl, 0, 0⟩
     (recordOf "settings" (defaultSettings "2024-01-01T00:00:00.000Z")) rfl rfl
     sampleBcrypt_accepts (Or.inr ⟨_, rfl⟩)⟩

/-- C12 (counterexample): two different passwords of 73 characters that agree on their
first 72 bytes.  After `completeSetup` with the first one, `verifyPassword` accepts the
second one against the stored hash: bcrypt reads 72 key bytes and no more. -/
theorem completeSetup_spec_counterexample :
    paddedPassword 'b' ≠ paddedPassword 'c' ∧
    bcryptKey (paddedPassword 'c') = bcryptKey (paddedPassword 'b') ∧
    (completeSetup plainConversions sampleBcrypt (.string "Ann") (.string "USD")
      (.string (paddedPassword 'b')) .null sampleSalt "2024-03-01T09:00:00.000Z"
      freshStore).1 = .ok () ∧
    ∃ hash new,
      (getSettings (completeSetup plainConversions sampleBcrypt (.string "Ann") (.string "USD")
        (.string (paddedPassword 'b')) .null sampleSalt "2024-03-01T09:00:00.000Z"
        freshStore).2).1 = .ok (some new) ∧
      new.lookup "masterPasswordHash" = some (.string hash) ∧
      verifyPassword sampleBcrypt (.string (paddedPassword 'c')) (.string hash) = .ok true :=
  ⟨by decide, by decide, rfl, _, _, rfl, rfl, rfl⟩


theorem getSettings_snd (s : Store) : (getSettings s).2 = s := by
  unfold getSettings
  cases s.db <;> rfl

theorem illegal_arguments_ne (a : String) : "Illegal arguments: " ++ a ≠ "No password set" := by
  intro h
  have h1 := congrArg String.data h
  rw [String.data_append] at h1
  have h2 : ("Illegal arguments: " : String).data = 'I' :: ("llegal arguments: " : String).data := rfl
  have h3 : ("No password set" : String).data = 'N' :: ("o password set" : String).data := rfl
  rw [h2, h3] at h1
  simp at h1

theorem verifyPassword_error_ne (bc : Bcrypt) (password : JsValue) (h : String)
    (hmsg : ∀ key salt, bc.crypt key salt ≠ .error "No password set") :
    verifyPassword bc password (.string h) ≠ .error "No password set" := by
  cases password with
  | string p =>
      simp only [verifyPassword]
      split
      · simp
      · cases hc : bc.crypt (bcryptKey p) (takeChars 29 h) with
        | error e =>
            intro he
            simp only [Except.error.injEq] at he
            exact hmsg _ _ (he ▸ hc)
        | ok h1 => simp
  | undefined | null | bool _ | number _ | bytes _ =>
      simp only [verifyPassword, String.append_assoc]
      intro he
      simp only [Except.error.injEq] at he
      exact illegal_arguments_ne _ he

/-- C14: the `auth:verifyPassword` handler leaves the store as it is.  When the stored
`masterPasswordHash` is NULL or text and the bcrypt core has no error of the text
"No password set", the handler replies with the failure "No password set" exactly when
there is no settings row or its hash is `null` or the empty string; for a hash that is
a non-empty string it replies with success and `isValid` = the result of
`verifyPassword(password, hash)` when that returns, and with the failure of its
message when it throws. -/
theorem verifyPasswordHandler_spec (bc : Bcrypt) (password : JsValue) (s : Store)
    (settings : Option FieldObject) (hget : (getSettings s).1 = .ok settings)
    (hstored : ∀ o, settings = some o → o.lookup "masterPasswordHash" = some .null ∨
      ∃ h, o.lookup "masterPasswordHash" = some (.string h))
    (hmsg : ∀ key salt, bc.crypt key salt ≠ .error "No password set") :
    (verifyPasswordHandler bc password s).2 = s ∧
    ((verifyPasswordHandler bc password s).1 = .failure "No password set" ↔
      (settings = none ∨ ∃ o, settings = some o ∧
        (o.lookup "masterPasswordHash" = some .null ∨
          o.lookup "masterPasswordHash" = some (.string "")))) ∧
    (∀ o h, settings = some o → o.lookup "masterPasswordHash" = some (.string h) → h ≠ "" →
      (∀ b, verifyPassword bc password (.string h) = .ok b →
        (verifyPasswordHandler bc password s).1 = .success b) ∧
      (∀ e, verifyPassword bc password (.string h) = .error e →
        (verifyPasswordHandler bc password s).1 = .failure e)) := by
  have hg : getSettings s = (.ok settings, s) := Prod.ext hget (getSettings_snd s)
  cases settings with
  | none =>
      simp [verifyPasswordHandler, hg, property, truthy]
  | some o =>
      rcases hstored o rfl with hn | ⟨h, hh⟩
      · refine ⟨?_, ?_, ?_⟩
        · simp [verifyPasswordHandler, hg, property, truthy, hn]
        · simp [verifyPasswordHandler, hg, property, truthy, hn]
        · intro o1 h1 ho hl
          cases ho
          rw [hn] at hl
          cases hl
      · by_cases he : h = ""
        · subst he
          refine ⟨?_, ?_, ?_⟩
          · simp [verifyPasswordHandler, hg, property, truthy, hh]
          · simp [verifyPasswordHandler, hg, property, truthy, hh]
          · intro o1 h1 ho hl hne
            cases ho
            rw [hh] at hl
            cases hl
            exact absurd rfl hne
        · have hne := verifyPassword_error_ne bc password h hmsg
          cases hv : verifyPassword bc password (.string h) with
          | error e =>
              rw [hv] at hne
              have hne2 : e ≠ "No password set" := fun h2 => hne (by rw [h2])
              refine ⟨?_, ?_, ?_⟩
              · simp [verifyPasswordHandler, hg, property, truthy, hh, he, hv]
              · simp [verifyPasswordHandler, hg, property, truthy, hh, he, hv, hne2]
              · intro o1 h1 ho hl _
                cases ho
                rw [hh] at hl
                cases hl
                simp [verifyPasswordHandler, hg, property, truthy, hh, he, hv]
          | ok b =>
              refine ⟨?_, ?_, ?_⟩
              · simp [verifyPasswordHandler, hg, property, truthy, hh, he, hv]
              · simp [verifyPasswordHandler, hg, property, truthy, hh, he, hv]
              · intro o1 h1 ho hl _
                cases ho
                rw [hh] at hl
                cases hl
                simp [verifyPasswordHandler, hg, property, truthy, hh, he, hv]

theorem verifyPasswordHandler_spec_witness :
    (verifyPasswordHandler sampleBcrypt (.string "wrong") storeAfterSetup).2
      = storeAfterSetup ∧
    ((verifyPasswordHandler sampleBcrypt (.string "wrong") storeAfterSetup).1
        = .failure "No password set" ↔
      (some storedSettings = none ∨ ∃ o, some storedSettings = some o ∧
        (o.lookup "masterPasswordHash" = some .null ∨
          o.lookup "masterPasswordHash" = some (.string "")))) ∧
    (∀ o h, some storedSettings = some o →
      o.lookup "masterPasswordHash" = some (.string h) → h ≠ "" →
      (∀ b, verifyPassword sampleBcrypt (.string "wrong") (.string h) = .ok b →
        (verifyPasswordHandler sampleBcrypt (.string "wrong") storeAfterSetup).1 = .success b) ∧
      (∀ e, verifyPassword sampleBcrypt (.string "wrong") (.string h) = .error e →
        (verifyPasswordHandler sampleBcrypt (.string "wrong") storeAfterSetup).1
          = .failure e)) :=
  verifyPasswordHandler_spec sampleBcrypt (.string "wrong") storeAfterSetup
    (some storedSettings) rfl
    (fun o ho => Or.inr ⟨_, by cases ho; rfl⟩)
    (fun _ _ h => by cases h)

theorem verifyPasswordHandler_examples :
    (verifyPasswordHandler sampleBcrypt (.string "wrong") storeAfterSetup).1 = .success false ∧
    (verifyPasswordHandler sampleBcrypt (.string "secret123") storeAfterSetup).1
      = .success true ∧
    (verifyPasswordHandler sampleBcrypt (.string "secret123") freshStore).1
      = .failure "No password set" :=
  ⟨rfl, rfl, rfl⟩


theorem hasImageKey_text (cv : Conversions) (k : String) (r : Row) :
    hasImageKey cv (.text k) r = decide (r.get "imageKey" = .text k) := by
  simp only [hasImageKey, applyAffinity]
  cases h : r.get "imageKey" <;> simp [Value.sqlEq]

theorem filter_insertRow_of_nil (p : Row → Bool) (r : Row) (l : List Row)
    (hl : l.filter p = []) (hr : p r = true) : (insertRow r l).filter p = [r] := by
  induction l with
  | nil => simp [insertRow, hr]
  | cons x xs ih =>
      have hx : p x = false := by
        by_contra hx
        simp only [Bool.not_eq_false] at hx
        simp [List.filter, hx] at hl
      have hxs : xs.filter p = [] := by
        simpa [List.filter, hx] using hl
      simp only [insertRow]
      split
      · simp [List.filter, hr, hx, hxs]
      · simp [List.filter, hx, ih hxs]

theorem filter_map_hits (p : Row → Bool) (g : Row → Row) (l : List Row)
    (hg : ∀ r, p (g r) = p r) :
    (l.map (fun r => if p r then g r else r)).filter p = (l.filter p).map g := by
  induction l with
  | nil => rfl
  | cons x xs ih =>
      by_cases hx : p x = true
      · simp [List.filter, hx, hg, ih]
      · simp only [Bool.not_eq_true] at hx
        simp [List.filter, hx, ih]

theorem get_imageKey_updated (cv : Conversions) (B : List Nat) (m : String) (r : Row) :
    (Row.mk r.id (updatedCells cv "image_cache"
      [("data", .blob B), ("mimeType", .text m)] r)).get "imageKey" = r.get "imageKey" := by
  have hcol : columnOf "image_cache" "imageKey" = some ⟨"imageKey", .text, true, .null⟩ := rfl
  rw [get_updatedCells r.id _ r hcol]
  simp [List.lookup]

theorem saveImage_existing (cv : Conversions) (k : String) (B : List Nat) (m now : String)
    {s : Store} {c : Connection} {r : Row} (hdb : s.db = some c)
    (hf : c.data.image_cache.rows.filter (hasImageKey cv (.text k)) = [r]) :
    ∃ c1, saveImage cv (.string k) (.bytes B) (.string m) now s
        = (.ok (.number r.id), saveDatabase { s with db := some c1 }) ∧
      c1.data.image_cache.rows.filter (hasImageKey cv (.text k))
        = [⟨r.id, updatedCells cv "image_cache" [("data", .blob B), ("mimeType", .text m)] r⟩] ∧
      c1.data.image_cache.rows.map Row.id = c.data.image_cache.rows.map Row.id ∧
      c1.data.image_cache.seq = c.data.image_cache.seq ∧
      c1.data.settings = c.data.settings ∧ c1.data.income = c.data.income ∧
      c1.data.outgoing = c.data.outgoing ∧
      c1.data.payment_providers = c.data.payment_providers := by
  have hkey : r.get "imageKey" = .text k := by
    have hm : r ∈ c.data.image_cache.rows.filter (hasImageKey cv (.text k)) := by
      rw [hf]; exact List.mem_singleton.mpr rfl
    have := (List.mem_filter.mp hm).2
    rw [hasImageKey_text] at this
    simpa using this
  have hnn : notNullViolation "image_cache" (updatedCells cv "image_cache"
      [("data", .blob B), ("mimeType", .text m)] r) = none := by
    simp [notNullViolation, updatedCells, schema, List.lookup, applyAffinity, hkey]
  have hsel : resultToObject (selectIdByImageKey cv c.data (.text k))
      = some [("id", .number r.id)] := by
    simp [selectIdByImageKey, hf, resultToObject, resultToObjects]
  have hbind : bindFields [("data", .bytes B), ("mimeType", .string m)]
      = .ok [("data", .blob B), ("mimeType", .text m)] := rfl
  have hrun : runUpdateImage cv c.data.image_cache [("data", .blob B), ("mimeType", .text m)]
      (.text k) = .ok (⟨c.data.image_cache.rows.map (fun x =>
          if hasImageKey cv (.text k) x then
            ⟨x.id, updatedCells cv "image_cache" [("data", .blob B), ("mimeType", .text m)] x⟩
          else x), c.data.image_cache.seq⟩, 1) := by
    simp [runUpdateImage, hf, hnn]
  refine ⟨{ c with
      data := c.data.setTable "image_cache"
        (Table.mk (c.data.image_cache.rows.map (fun x =>
          if hasImageKey cv (.text k) x then
            ⟨x.id, updatedCells cv "image_cache" [("data", .blob B), ("mimeType", .text m)] x⟩
          else x)) c.data.image_cache.seq),
      changes := 1 }, ?_, ?_, ?_, rfl, rfl, rfl, rfl, rfl⟩
  · simp only [saveImage, hdb, bindValue, hsel, hbind, hrun, property, List.lookup]
    rfl
  · show (c.data.image_cache.rows.map _).filter _ = _
    rw [filter_map_hits (hasImageKey cv (.text k))
      (fun x => ⟨x.id, updatedCells cv "image_cache" [("data", .blob B), ("mimeType", .text m)] x⟩)
      _ ?_, hf]
    · rfl
    · intro x
      simp only [hasImageKey, get_imageKey_updated]
  · show (c.data.image_cache.rows.map _).map Row.id = _
    rw [List.map_map]
    apply List.map_congr_left
    intro x _
    simp only [Function.comp]
    split <;> rfl

theorem saveImage_absent (cv : Conversions) (k : String) (A : List Nat) (m now : String)
    {s : Store} {c : Connection} {k0 : Int} (hdb : s.db = some c)
    (hwf : c.data.image_cache.WF)
    (hf : c.data.image_cache.rows.filter (hasImageKey cv (.text k)) = [])
    (hroom : newRowid c.data.image_cache = .ok k0) :
    ∃ c1, saveImage cv (.string k) (.bytes A) (.string m) now s
        = (.ok (.number k0), saveDatabase { s with db := some c1 }) ∧
      c1.data.image_cache.rows.filter (hasImageKey cv (.text k))
        = [⟨k0, newCells cv "image_cache" [("imageKey", .text k), ("data", .blob A),
            ("mimeType", .text m), ("createdAt", .text now)]⟩] ∧
      c1.data.image_cache.rows = insertRow ⟨k0, newCells cv "image_cache"
          [("imageKey", .text k), ("data", .blob A),
            ("mimeType", .text m), ("createdAt", .text now)]⟩ c.data.image_cache.rows ∧
      c1.data.settings = c.data.settings ∧ c1.data.income = c.data.income ∧
      c1.data.outgoing = c.data.outgoing ∧
      c1.data.payment_providers = c.data.payment_providers := by
  obtain ⟨hlt, _, _, _⟩ := newRowid_spec hwf hroom
  have hnone : ∀ x ∈ c.data.image_cache.rows, hasImageKey cv (.text k) x = false := by
    intro x hx
    by_contra hne
    simp only [Bool.not_eq_false] at hne
    have : x ∈ c.data.image_cache.rows.filter (hasImageKey cv (.text k)) :=
      List.mem_filter.mpr ⟨hx, hne⟩
    rw [hf] at this
    cases this
  have hcol : columnOf "image_cache" "imageKey" = some ⟨"imageKey", .text, true, .null⟩ := rfl
  have hget : (Row.mk k0 (newCells cv "image_cache" [("imageKey", .text k), ("data", .blob A),
      ("mimeType", .text m), ("createdAt", .text now)])).get "imageKey" = .text k := by
    rw [get_newCells k0 _ hcol]
    simp [List.lookup, applyAffinity]
  have hnn : notNullViolation "image_cache" (newCells cv "image_cache"
      [("imageKey", .text k), ("data", .blob A),
        ("mimeType", .text m), ("createdAt", .text now)]) = none := by
    simp [notNullViolation, newCells, schema, List.lookup, applyAffinity]
  have hany : c.data.image_cache.rows.any (fun x => decide (x.id = k0)) = false := by
    rw [List.any_eq_false]
    intro x hx
    have := hlt x hx
    simp only [decide_eq_true_eq]
    omega
  have hins : runInsert cv "image_cache" c.data.image_cache
      [("imageKey", .text k), ("data", .blob A), ("mimeType", .text m), ("createdAt", .text now)]
      = .ok (⟨insertRow ⟨k0, newCells cv "image_cache" [("imageKey", .text k), ("data", .blob A),
            ("mimeType", .text m), ("createdAt", .text now)]⟩ c.data.image_cache.rows,
          if k0 < c.data.image_cache.seq then c.data.image_cache.seq else k0⟩, k0) := by
    simp only [runInsert, List.lookup, hroom, hnn]
    simp
    intro x hx
    have := hlt x hx
    omega
  have huniq : c.data.image_cache.rows.any (fun x =>
      Value.sqlEq (x.get "imageKey") ((Row.mk k0 (newCells cv "image_cache"
        [("imageKey", .text k), ("data", .blob A),
          ("mimeType", .text m), ("createdAt", .text now)])).get "imageKey")) = false := by
    rw [List.any_eq_false]
    intro x hx
    rw [hget]
    have := hnone x hx
    simp only [hasImageKey, applyAffinity] at this
    simp [this]
  have hrun : runInsertImage cv c.data.image_cache
      [("imageKey", .text k), ("data", .blob A), ("mimeType", .text m), ("createdAt", .text now)]
      = .ok (⟨insertRow ⟨k0, newCells cv "image_cache" [("imageKey", .text k), ("data", .blob A),
            ("mimeType", .text m), ("createdAt", .text now)]⟩ c.data.image_cache.rows,
          if k0 < c.data.image_cache.seq then c.data.image_cache.seq else k0⟩, k0) := by
    simp only [runInsertImage, hins, huniq]
    simp
  have hsel : resultToObject (selectIdByImageKey cv c.data (.text k)) = none := by
    simp [selectIdByImageKey, hf, resultToObject, resultToObjects]
  have hbind : bindFields [("imageKey", .string k), ("data", .bytes A), ("mimeType", .string m),
      ("createdAt", .string now)]
      = .ok [("imageKey", .text k), ("data", .blob A), ("mimeType", .text m),
          ("createdAt", .text now)] := rfl
  refine ⟨{
      data := c.data.setTable "image_cache"
        (Table.mk (insertRow (Row.mk k0 (newCells cv "image_cache" [("imageKey", .text k),
            ("data", .blob A), ("mimeType", .text m), ("createdAt", .text now)]))
          c.data.image_cache.rows)
          (if k0 < c.data.image_cache.seq then c.data.image_cache.seq else k0)),
      changes := 1, lastInsertRowid := k0 }, ?_, ?_, rfl, rfl, rfl, rfl, rfl⟩
  · simp only [saveImage, hdb, bindValue, hsel, hbind, hrun]
    rfl
  · show (insertRow _ c.data.image_cache.rows).filter _ = _
    refine filter_insertRow_of_nil _ _ _ hf ?_
    rw [hasImageKey_text, hget]
    simp

theorem getImage_of_filter (cv : Conversions) (k : String) {s : Store} {c : Connection}
    {r : Row} (hdb : s.db = some c)
    (hf : c.data.image_cache.rows.filter (hasImageKey cv (.text k)) = [r]) :
    getImage cv (.string k) s = (.ok (some (recordOf "image_cache" r)), s) := by
  simp only [getImage, hdb, bindValue, selectByImageKey, hf]
  rw [resultToObject_single]
  rfl


theorem saveImage_first (cv : Conversions) (k : String) (A : List Nat) (m now : String)
    {s : Store} {c : Connection} (hdb : s.db = some c) (hwf : c.data.image_cache.WF)
    (huniq : UniqueImageKey cv c.data.image_cache (.text k))
    (hroom : ∃ k0, newRowid c.data.image_cache = .ok k0) :
    ∃ c1 r1, saveImage cv (.string k) (.bytes A) (.string m) now s
        = (.ok (.number r1.id), saveDatabase { s with db := some c1 }) ∧
      c1.data.image_cache.rows.filter (hasImageKey cv (.text k)) = [r1] ∧
      r1.get "imageKey" = .text k ∧ r1.get "data" = .blob A ∧ r1.get "mimeType" = .text m ∧
      (c.data.image_cache.rows.filter (hasImageKey cv (.text k)) = [] →
        r1.get "createdAt" = .text now) ∧
      (∀ r0 ∈ c.data.image_cache.rows.filter (hasImageKey cv (.text k)),
        r1.id = r0.id ∧ r1.get "createdAt" = r0.get "createdAt") := by
  have hc1 : columnOf "image_cache" "imageKey" = some ⟨"imageKey", .text, true, .null⟩ := rfl
  have hc2 : columnOf "image_cache" "data" = some ⟨"data", .blob, true, .null⟩ := rfl
  have hc3 : columnOf "image_cache" "mimeType" = some ⟨"mimeType", .text, true, .null⟩ := rfl
  have hc4 : columnOf "image_cache" "createdAt" = some ⟨"createdAt", .text, false, .null⟩ := rfl
  cases hfl : c.data.image_cache.rows.filter (hasImageKey cv (.text k)) with
  | nil =>
      obtain ⟨k0, hk0⟩ := hroom
      obtain ⟨c1, hs, hf1, _⟩ := saveImage_absent cv k A m now hdb hwf hfl hk0
      refine ⟨c1, Row.mk k0 (newCells cv "image_cache" [("imageKey", .text k),
        ("data", .blob A), ("mimeType", .text m), ("createdAt", .text now)]),
        hs, hf1, ?_, ?_, ?_, ?_, ?_⟩
      · rw [get_newCells k0 _ hc1]; simp [List.lookup, applyAffinity]
      · rw [get_newCells k0 _ hc2]; simp [List.lookup, applyAffinity]
      · rw [get_newCells k0 _ hc3]; simp [List.lookup, applyAffinity]
      · intro _
        rw [get_newCells k0 _ hc4]; simp [List.lookup, applyAffinity]
      · intro r0 hr0
        cases hr0
  | cons r0 rest =>
      cases rest with
      | cons r1 rest2 =>
          have := huniq
          simp [UniqueImageKey, hfl] at this
      | nil =>
          obtain ⟨c1, hs, hf1, _⟩ := saveImage_existing cv k A m now hdb hfl
          have hkey : r0.get "imageKey" = .text k := by
            have hm : r0 ∈ c.data.image_cache.rows.filter (hasImageKey cv (.text k)) := by
              rw [hfl]; exact List.mem_singleton.mpr rfl
            have := (List.mem_filter.mp hm).2
            rw [hasImageKey_text] at this
            simpa using this
          refine ⟨c1, Row.mk r0.id (updatedCells cv "image_cache"
            [("data", .blob A), ("mimeType", .text m)] r0), hs, hf1, ?_, ?_, ?_, ?_, ?_⟩
          · rw [get_updatedCells r0.id _ r0 hc1]; simp [List.lookup, hkey]
          · rw [get_updatedCells r0.id _ r0 hc2]; simp [List.lookup, applyAffinity]
          · rw [get_updatedCells r0.id _ r0 hc3]; simp [List.lookup, applyAffinity]
          · intro h; cases h
          · intro x hx
            rw [List.mem_singleton] at hx
            subst hx
            refine ⟨rfl, ?_⟩
            rw [get_updatedCells x.id _ x hc4]; simp [List.lookup]

/-- C17: on an open store whose image cache is in the state the engine keeps it in (at
most one row per key, and room for one more rowid), `saveImage(key, A, m1)` followed by
`saveImage(key, B, m2)` both succeed and return the same id; afterwards exactly one row
of `image_cache` has the key, `getImage(key)` returns it with that id, the key, the
bytes `B`, the mime type `m2` and the `createdAt` that `getImage(key)` showed after the
first save, which is the time of the first save when the key was new. -/
theorem saveImage_twice (cv : Conversions) (k : String) (A B : List Nat)
    (m1 m2 now1 now2 : String) (s : Store) (c : Connection) (hdb : s.db = some c)
    (hwf : c.data.image_cache.WF)
    (huniq : UniqueImageKey cv c.data.image_cache (.text k))
    (hroom : ∃ k0, newRowid c.data.image_cache = .ok k0) :
    ∃ (n : Int) (s1 s2 : Store) (img1 img2 : FieldObject) (c2 : Connection) (r : Row),
      saveImage cv (.string k) (.bytes A) (.string m1) now1 s = (.ok (.number n), s1) ∧
      saveImage cv (.string k) (.bytes B) (.string m2) now2 s1 = (.ok (.number n), s2) ∧
      getImage cv (.string k) s1 = (.ok (some img1), s1) ∧
      getImage cv (.string k) s2 = (.ok (some img2), s2) ∧
      s2.db = some c2 ∧
      c2.data.image_cache.rows.filter (hasImageKey cv (.text k)) = [r] ∧
      img2 = recordOf "image_cache" r ∧
      img2.lookup "id" = some (.number n) ∧
      img2.lookup "imageKey" = some (.string k) ∧
      img2.lookup "data" = some (.bytes B) ∧
      img2.lookup "mimeType" = some (.string m2) ∧
      img2.lookup "createdAt" = img1.lookup "createdAt" ∧
      img1.lookup "data" = some (.bytes A) ∧
      img1.lookup "mimeType" = some (.string m1) ∧
      (c.data.image_cache.rows.filter (hasImageKey cv (.text k)) = [] →
        img1.lookup "createdAt" = some (.string now1)) := by
  obtain ⟨c1, r1, hs1, hf1, hk1, hd1, hm1, hnew, _⟩ :=
    saveImage_first cv k A m1 now1 hdb hwf huniq hroom
  obtain ⟨c1s, hc1s, hdata1, _, _⟩ := saveDatabase_db (s := { s with db := some c1 }) rfl
  have hf1s : c1s.data.image_cache.rows.filter (hasImageKey cv (.text k)) = [r1] := by
    rw [hdata1]; exact hf1
  obtain ⟨c2, hs2, hf2, _⟩ := saveImage_existing cv k B m2 now2 hc1s hf1s
  obtain ⟨c2s, hc2s, hdata2, _, _⟩ :=
    saveDatabase_db (s := { saveDatabase { s with db := some c1 } with db := some c2 }) rfl
  have hf2s : c2s.data.image_cache.rows.filter (hasImageKey cv (.text k))
      = [⟨r1.id, updatedCells cv "image_cache" [("data", .blob B), ("mimeType", .text m2)] r1⟩] := by
    rw [hdata2]; exact hf2
  have hc1 : columnOf "image_cache" "imageKey" = some ⟨"imageKey", .text, true, .null⟩ := rfl
  have hc2 : columnOf "image_cache" "data" = some ⟨"data", .blob, true, .null⟩ := rfl
  have hc3 : columnOf "image_cache" "mimeType" = some ⟨"mimeType", .text, true, .null⟩ := rfl
  have hc4 : columnOf "image_cache" "createdAt" = some ⟨"createdAt", .text, false, .null⟩ := rfl
  refine ⟨r1.id, _, _, recordOf "image_cache" r1, _, c2s, _, hs1, hs2,
    getImage_of_filter cv k hc1s hf1s, getImage_of_filter cv k hc2s hf2s, hc2s, hf2s, rfl,
    ?_, ?_, ?_, ?_, ?_, ?_, ?_, ?_⟩
  · rw [lookup_recordOf_id]
  · rw [lookup_recordOf _ (by decide), hc1, Option.map_some', get_updatedCells r1.id _ r1 hc1]
    simp [List.lookup, hk1, toJs]
  · rw [lookup_recordOf _ (by decide), hc2, Option.map_some', get_updatedCells r1.id _ r1 hc2]
    simp [List.lookup, applyAffinity, toJs]
  · rw [lookup_recordOf _ (by decide), hc3, Option.map_some', get_updatedCells r1.id _ r1 hc3]
    simp [List.lookup, applyAffinity, toJs]
  · rw [lookup_recordOf _ (by decide), lookup_recordOf _ (by decide), hc4, Option.map_some',
      Option.map_some', get_updatedCells r1.id _ r1 hc4]
    simp [List.lookup]
  · rw [lookup_recordOf _ (by decide), hc2, Option.map_some', hd1]; rfl
  · rw [lookup_recordOf _ (by decide), hc3, Option.map_some', hm1]; rfl
  · intro h
    rw [lookup_recordOf _ (by decide), hc4, Option.map_some', hnew h]; rfl

theorem emptyTable_WF : Table.WF ⟨[], 0⟩ := by
  refine ⟨List.Pairwise.nil, ?_, by decide, by decide⟩
  intro r hr
  cases hr

theorem saveImage_twice_witness :
    ∃ (n : Int) (s1 s2 : Store) (img1 img2 : FieldObject) (c2 : Connection) (r : Row),
      saveImage plainConversions (.string "logo_1") (.bytes [137, 80]) (.string "image/png")
        "2024-02-01T10:00:00.000Z" freshStore = (.ok (.number n), s1) ∧
      saveImage plainConversions (.string "logo_1") (.bytes [255, 216, 255])
        (.string "image/jpeg") "2024-02-02T10:00:00.000Z" s1 = (.ok (.number n), s2) ∧
      getImage plainConversions (.string "logo_1") s1 = (.ok (some img1), s1) ∧
      getImage plainConversions (.string "logo_1") s2 = (.ok (some img2), s2) ∧
      s2.db = some c2 ∧
      c2.data.image_cache.rows.filter (hasImageKey plainConversions (.text "logo_1")) = [r] ∧
      img2 = recordOf "image_cache" r ∧
      img2.lookup "id" = some (.number n) ∧
      img2.lookup "imageKey" = some (.string "logo_1") ∧
      img2.lookup "data" = some (.bytes [255, 216, 255]) ∧
      img2.lookup "mimeType" = some (.string "image/jpeg") ∧
      img2.lookup "createdAt" = img1.lookup "createdAt" ∧
      img1.lookup "data" = some (.bytes [137, 80]) ∧
      img1.lookup "mimeType" = some (.string "image/png") ∧
      ((Connection.mk (freshStore.file.get rfl) 0 0).data.image_cache.rows.filter
          (hasImageKey plainConversions (.text "logo_1")) = [] →
        img1.lookup "createdAt" = some (.string "2024-02-01T10:00:00.000Z")) :=
  saveImage_twice plainConversions "logo_1" [137, 80] [255, 216, 255] "image/png" "image/jpeg"
    "2024-02-01T10:00:00.000Z" "2024-02-02T10:00:00.000Z" freshStore
    ⟨freshStore.file.get rfl, 0, 0⟩ rfl
    emptyTable_WF (Nat.zero_le _) ⟨1, rfl⟩


theorem base64_vectors :
    base64 [] = "" ∧ base64 [102] = "Zg==" ∧ base64 [102, 111] = "Zm8=" ∧
    base64 [102, 111, 111] = "Zm9v" ∧ base64 [102, 111, 111, 98] = "Zm9vYg==" ∧
    base64 [102, 111, 111, 98, 97] = "Zm9vYmE=" ∧
    base64 [102, 111, 111, 98, 97, 114] = "Zm9vYmFy" ∧
    base64 [255, 255, 254] = "///+" := by
  decide

theorem map_mod_byte (bytes : List Nat) (h : ∀ b ∈ bytes, b < 256) :
    bytes.map (fun x => x % 256) = bytes := by
  induction bytes with
  | nil => rfl
  | cons a as ih =>
      simp only [List.map_cons]
      rw [Nat.mod_eq_of_lt (h a (List.mem_cons_self _ _)),
        ih (fun b hb => h b (List.mem_cons_of_mem _ hb))]

theorem getImage_eq (cv : Conversions) {imageKey : JsValue} {key : Value} {s : Store}
    {c : Connection} (hdb : s.db = some c) (hb : bindValue imageKey = .ok key) :
    getImage cv imageKey s
      = (.ok ((c.data.image_cache.rows.filter (hasImageKey cv key)).head?.map
          (recordOf "image_cache")), s) := by
  simp only [getImage, hdb, hb, selectByImageKey, resultToObject, resultToObjects_resultSet]
  cases c.data.image_cache.rows.filter (hasImageKey cv key) <;> rfl

/-- C18: the `image:get` handler leaves the store as it is.  For a key that is falsy
(`undefined`, `null`, the empty string, 0, `false`) it replies with the failure
"No image key provided".  For any other key, on an open store: when no row of
`image_cache` has the key it replies with the failure "Image not found"; when a row
has it, with bytes in `data` and text in `mimeType`, it replies with success and the
data URI `data:` + mimeType + `;base64,` + the base64 text of the bytes. -/
theorem imageGetHandler_spec (cv : Conversions) (rt : Runtime) (imageKey : JsValue) (s : Store)
    (c : Connection) (hdb : s.db = some c) :
    (imageGetHandler cv rt imageKey s).2 = s ∧
    (truthy imageKey = false →
      (imageGetHandler cv rt imageKey s).1 = .failure "No image key provided") ∧
    (truthy imageKey = true → ∃ key, bindValue imageKey = .ok key ∧
      (c.data.image_cache.rows.filter (hasImageKey cv key) = [] →
        (imageGetHandler cv rt imageKey s).1 = .failure "Image not found") ∧
      (∀ r rest bytes m, c.data.image_cache.rows.filter (hasImageKey cv key) = r :: rest →
        r.get "data" = .blob bytes → (∀ b ∈ bytes, b < 256) → r.get "mimeType" = .text m →
        (imageGetHandler cv rt imageKey s).1
          = .success ("data:" ++ m ++ ";base64," ++ base64 bytes))) := by
  by_cases ht : truthy imageKey = true
  · obtain ⟨key, hb⟩ : ∃ key, bindValue imageKey = .ok key := by
      cases imageKey with
      | undefined => simp [truthy] at ht
      | null => exact ⟨_, rfl⟩
      | bool b => exact ⟨_, rfl⟩
      | number q =>
          simp only [bindValue]
          split <;> exact ⟨_, rfl⟩
      | string t => exact ⟨_, rfl⟩
      | bytes b => exact ⟨_, rfl⟩
    have hg := getImage_eq cv hdb hb
    refine ⟨?_, ?_, ?_⟩
    · simp only [imageGetHandler, ht, hg]
      cases c.data.image_cache.rows.filter (hasImageKey cv key) with
      | nil => rfl
      | cons r rest =>
          simp only [List.head?, Option.map_some', Bool.not_true, Bool.false_eq_true, if_false]
          split <;> rfl
    · intro hf
      rw [ht] at hf
      cases hf
    · intro _
      refine ⟨key, hb, ?_, ?_⟩
      · intro hf
        simp [imageGetHandler, ht, hg, hf]
      · intro r rest bytes m hf hd hbytes hm
        have hc2 : columnOf "image_cache" "data" = some ⟨"data", .blob, true, .null⟩ := rfl
        have hc3 : columnOf "image_cache" "mimeType"
            = some ⟨"mimeType", .text, true, .null⟩ := rfl
        have h1 : property "data" (some (recordOf "image_cache" r)) = .bytes bytes := by
          simp only [property]
          rw [lookup_recordOf _ (by decide), hc2, Option.map_some', hd]
          rfl
        have h2 : property "mimeType" (some (recordOf "image_cache" r)) = .string m := by
          simp only [property]
          rw [lookup_recordOf _ (by decide), hc3, Option.map_some', hm]
          rfl
        simp only [imageGetHandler, ht, hg, hf, List.head?, Option.map_some', h1, h2,
          bufferFrom, templateString, map_mod_byte bytes hbytes]
        rfl
  · simp only [Bool.not_eq_true] at ht
    refine ⟨?_, ?_, ?_⟩
    · simp [imageGetHandler, ht]
    · intro _
      simp [imageGetHandler, ht]
    · intro h
      rw [ht] at h
      cases h

theorem imageGetHandler_spec_witness :
    (imageGetHandler plainConversions plainRuntime (.string "logo_1") storeWithImage).2
      = storeWithImage ∧
    (truthy (.string "logo_1") = false →
      (imageGetHandler plainConversions plainRuntime (.string "logo_1") storeWithImage).1
        = .failure "No image key provided") ∧
    (truthy (.string "logo_1") = true → ∃ key, bindValue (.string "logo_1") = .ok key ∧
      ((Connection.mk (storeWithImage.file.get rfl) 0 0).data.image_cache.rows.filter
          (hasImageKey plainConversions key) = [] →
        (imageGetHandler plainConversions plainRuntime (.string "logo_1") storeWithImage).1
          = .failure "Image not found") ∧
      (∀ r rest bytes m,
        (Connection.mk (storeWithImage.file.get rfl) 0 0).data.image_cache.rows.filter
          (hasImageKey plainConversions key) = r :: rest →
        r.get "data" = .blob bytes → (∀ b ∈ bytes, b < 256) → r.get "mimeType" = .text m →
        (imageGetHandler plainConversions plainRuntime (.string "logo_1") storeWithImage).1
          = .success ("data:" ++ m ++ ";base64," ++ base64 bytes))) :=
  imageGetHandler_spec plainConversions plainRuntime (.string "logo_1") storeWithImage
    ⟨storeWithImage.file.get rfl, 0, 0⟩ rfl

theorem imageGetHandler_examples :
    (imageGetHandler plainConversions plainRuntime (.string "logo_1") storeWithImage).1
      = .success "data:image/png;base64,iVBORw==" ∧
    (imageGetHandler plainConversions plainRuntime (.string "logo_2") storeWithImage).1
      = .failure "Image not found" ∧
    (imageGetHandler plainConversions plainRuntime (.string "") storeWithImage).1
      = .failure "No image key provided" ∧
    (imageGetHandler plainConversions plainRuntime .undefined storeWithImage).1
      = .failure "No image key provided" :=
  ⟨rfl, rfl, rfl, rfl⟩


theorem settings_setTable_valid {tableName : String} (h : tableName ∈ validTables)
    (d : Database) (t : Table) : (d.setTable tableName t).settings = d.settings := by
  simp only [validTables, List.mem_cons, List.mem_singleton, List.not_mem_nil, or_false] at h
  rcases h with rfl | rfl | rfl <;> rfl

theorem deleteOne_cases (cv : Conversions) (tableName : String) (id : JsValue) {s : Store}
    {c : Connection} (hdb : s.db = some c) :
    (deleteOne cv tableName id s).2 = s ∨
    ∃ c1, (deleteOne cv tableName id s).2 = saveDatabase { s with db := some c1 } ∧
      c1.data.settings = c.data.settings := by
  by_cases hv : tableName ∈ validTables
  · simp only [deleteOne, contains_validTables_of_mem hv, hdb, dbRunDelete]
    cases hb : bindValue id with
    | error e => left; rfl
    | ok v =>
        right
        exact ⟨_, rfl, settings_setTable_valid hv _ _⟩
  · left
    simp only [deleteOne, contains_validTables_of_not_mem hv]
    rfl

theorem insert_cases (cv : Conversions) (tableName : String) (data : FieldObject) (now : String)
    {s : Store} {c : Connection} (hdb : s.db = some c) :
    (insert cv tableName data now s).2 = s ∨
    ∃ c1, (insert cv tableName data now s).2 = saveDatabase { s with db := some c1 } ∧
      c1.data.settings = c.data.settings := by
  cases h : insert cv tableName data now s with
  | mk res s1 =>
      cases res with
      | error e => left; exact insert_error_store h
      | ok id =>
          right
          obtain ⟨c0, vals, t, k, hv, hdb0, _, _, _, _, hs1⟩ := insert_ok h
          rw [hdb] at hdb0
          cases hdb0
          exact ⟨_, hs1, settings_setTable_valid hv _ _⟩

theorem update_cases (cv : Conversions) (tableName : String) (id : JsValue) (data : FieldObject)
    (now : String) {s : Store} {c : Connection} (hdb : s.db = some c) :
    (update cv tableName id data now s).2 = s ∨
    ∃ c1, (update cv tableName id data now s).2 = saveDatabase { s with db := some c1 } ∧
      c1.data.settings = c.data.settings := by
  cases h : update cv tableName id data now s with
  | mk res s1 =>
      cases res with
      | error e => left; exact update_error_store h
      | ok n =>
          right
          obtain ⟨c0, assigns, v, t, m, hv, hdb0, _, _, _, _, hs1, _⟩ := update_ok h
          rw [hdb] at hdb0
          cases hdb0
          exact ⟨_, hs1, settings_setTable_valid hv _ _⟩

theorem saveImage_cases (cv : Conversions) (imageKey data mimeType : JsValue) (now : String)
    {s : Store} {c : Connection} (hdb : s.db = some c) :
    (saveImage cv imageKey data mimeType now s).2 = s ∨
    ∃ c1, (saveImage cv imageKey data mimeType now s).2 = saveDatabase { s with db := some c1 } ∧
      c1.data.settings = c.data.settings := by
  simp only [saveImage, hdb]
  cases hb : bindValue imageKey with
  | error e => left; rfl
  | ok key =>
      simp only []
      cases resultToObject (selectIdByImageKey cv c.data key) with
      | some o =>
          simp only []
          cases bindFields [("data", data), ("mimeType", mimeType)] with
          | error e => left; rfl
          | ok assigns =>
              simp only []
              cases runUpdateImage cv c.data.image_cache assigns key with
              | error e => left; rfl
              | ok tn => right; exact ⟨_, rfl, rfl⟩
      | none =>
          simp only []
          cases bindFields [("imageKey", imageKey), ("data", data),
              ("mimeType", mimeType), ("createdAt", .string now)] with
          | error e => left; rfl
          | ok vals =>
              simp only []
              cases runInsertImage cv c.data.image_cache vals with
              | error e => left; rfl
              | ok tk => right; exact ⟨_, rfl, rfl⟩

theorem deleteImage_cases (cv : Conversions) (imageKey : JsValue)
    {s : Store} {c : Connection} (hdb : s.db = some c) :
    (deleteImage cv imageKey s).2 = s ∨
    ∃ c1, (deleteImage cv imageKey s).2 = saveDatabase { s with db := some c1 } ∧
      c1.data.settings = c.data.settings := by
  simp only [deleteImage, hdb]
  cases hb : bindValue imageKey with
  | error e => left; rfl
  | ok key => right; exact ⟨_, rfl, rfl⟩

theorem completeSetup_cases (cv : Conversions) (bc : Bcrypt)
    (name currency password profileImage : JsValue) (salt now : String)
    {s : Store} {c : Connection} (hdb : s.db = some c) :
    (completeSetup cv bc name currency password profileImage salt now s).2 = s ∨
    ∃ c1 assigns, (completeSetup cv bc name currency password profileImage salt now s).2
        = saveDatabase { s with db := some c1 } ∧
      assigns.lookup "id" = none ∧ dbRunUpdateSettings cv assigns c = .ok c1 := by
  simp only [completeSetup]
  cases hh : hashPassword bc password salt with
  | error e => left; rfl
  | ok passwordHash =>
      simp only [hdb]
      cases hb : bindFields [("name", name), ("currency", currency),
          ("masterPasswordHash", .string passwordHash), ("profileImage", profileImage)] with
      | error e => left; rfl
      | ok vals =>
          simp only []
          cases hr : dbRunUpdateSettings cv
              (vals ++ [("setupCompleted", .int 1), ("updatedAt", .text now)]) c with
          | error e => left; rfl
          | ok c1 =>
              right
              refine ⟨c1, _, rfl, ?_, hr⟩
              have hidv : vals.lookup "id" = none :=
                (lookup_bindFields hb "id").1 (by simp [List.lookup])
              rw [List.lookup_append, hidv]
              simp [List.lookup]

theorem Operation.run_cases (cv : Conversions) (bc : Bcrypt) (op : Operation) {s : Store}
    {c : Connection} (hdb : s.db = some c) :
    op.run cv bc s = s ∨
    ∃ c1, op.run cv bc s = saveDatabase { s with db := some c1 } ∧
      (c1.data.settings = c.data.settings ∨
        ∃ r cells, c.data.settings.rows.find? (fun x => x.id = 1) = some r ∧
          c1.data.settings.rows
            = insertRow ⟨1, cells⟩ (c.data.settings.rows.filter (fun x => x.id ≠ 1))) := by
  cases op with
  | insert tableName data now =>
      rcases insert_cases cv tableName data now hdb with h | ⟨c1, h, hs⟩
      · exact Or.inl h
      · exact Or.inr ⟨c1, h, Or.inl hs⟩
  | update tableName id data now =>
      rcases update_cases cv tableName id data now hdb with h | ⟨c1, h, hs⟩
      · exact Or.inl h
      · exact Or.inr ⟨c1, h, Or.inl hs⟩
  | deleteOne tableName id =>
      rcases deleteOne_cases cv tableName id hdb with h | ⟨c1, h, hs⟩
      · exact Or.inl h
      · exact Or.inr ⟨c1, h, Or.inl hs⟩
  | saveImage imageKey data mimeType now =>
      rcases saveImage_cases cv imageKey data mimeType now hdb with h | ⟨c1, h, hs⟩
      · exact Or.inl h
      · exact Or.inr ⟨c1, h, Or.inl hs⟩
  | deleteImage imageKey =>
      rcases deleteImage_cases cv imageKey hdb with h | ⟨c1, h, hs⟩
      · exact Or.inl h
      · exact Or.inr ⟨c1, h, Or.inl hs⟩
  | completeSetup name currency password profileImage salt now =>
      rcases completeSetup_cases cv bc name currency password profileImage salt now hdb with
        h | ⟨c1, assigns, h, hid, hrun⟩
      · exact Or.inl h
      · obtain ⟨_, _, _, _, hset⟩ := dbRunUpdateSettings_ok hid hrun
        refine Or.inr ⟨c1, h, ?_⟩
        rcases hset with ⟨_, hs⟩ | ⟨r, hf, _, hrows⟩
        · exact Or.inl hs
        · exact Or.inr ⟨r, _, hf, hrows⟩
  | updateSettings updates now =>
      rcases updateSettings_cases cv updates now hdb with
        h | ⟨_, _, _, vals, c1, _, _, _, hb, hrun, h⟩
      · exact Or.inl h
      · have hidv : vals.lookup "id" = none :=
          (lookup_bindFields hb "id").1 (by simp [List.lookup])
        obtain ⟨_, _, _, _, hset⟩ := dbRunUpdateSettings_ok hidv hrun
        refine Or.inr ⟨c1, congrArg Prod.snd h, ?_⟩
        rcases hset with ⟨_, hs⟩ | ⟨r, hf, _, hrows⟩
        · exact Or.inl hs
        · exact Or.inr ⟨r, _, hf, hrows⟩

theorem saveDatabase_dbPath (s : Store) : (saveDatabase s).dbPath = s.dbPath := by
  unfold saveDatabase
  cases s.db with
  | none => rfl
  | some c =>
      simp only []
      split <;> rfl

theorem saveDatabase_file {s : Store} {c : Connection} (h : s.db = some c)
    (hp : truthyPath s.dbPath = true) : (saveDatabase s).file = some c.data := by
  simp [saveDatabase, h, hp]

theorem truthyPath_some {path : String} (h : path ≠ "") : truthyPath (some path) = true := by
  simp [truthyPath, h]

theorem initDatabase_found (path now : String) {s0 : Store} {d : Database} {r : Row}
    (hfile : s0.file = some d) (hf : d.settings.rows.find? (fun x => x.id = 1) = some r) :
    initDatabase path now s0 = saveDatabase ⟨some ⟨d, 0, 0⟩, some path, some d⟩ := by
  have hsel : selectByRowid d "settings" 1 = resultSet "settings" [r] := by
    simp only [selectByRowid]
    show (match d.settings.rows.find? (fun x => x.id = 1) with
      | none => []
      | some r => resultSet "settings" [r]) = _
    rw [hf]
  simp only [initDatabase, hfile, hsel, resultSet]
  rfl

theorem initDatabase_missing (path now : String) {s0 : Store}
    (hf : (s0.file.getD emptyDatabase).settings.rows.find? (fun x => x.id = 1) = none) :
    initDatabase path now s0 = saveDatabase ⟨some
      ⟨(s0.file.getD emptyDatabase).setTable "settings"
        (Table.mk (insertRow (defaultSettings now) (s0.file.getD emptyDatabase).settings.rows)
          (s0.file.getD emptyDatabase).settings.seq), 1, 1⟩, some path, s0.file⟩ := by
  have hsel : selectByRowid (s0.file.getD emptyDatabase) "settings" 1 = [] := by
    simp only [selectByRowid]
    show (match (s0.file.getD emptyDatabase).settings.rows.find? (fun x => x.id = 1) with
      | none => []
      | some r => resultSet "settings" [r]) = _
    rw [hf]
  cases hfile : s0.file with
  | none =>
      rw [hfile] at hsel
      simp only [Option.getD] at hsel
      simp only [initDatabase, hfile, hsel, Option.getD]
  | some d =>
      rw [hfile] at hsel
      simp only [Option.getD] at hsel
      simp only [initDatabase, hfile, hsel, Option.getD]


theorem SingleSettings_run (cv : Conversions) (bc : Bcrypt) (op : Operation) {s : Store}
    (h : SingleSettings s) : SingleSettings (op.run cv bc s) := by
  obtain ⟨c, r, hdb, hrows, hid⟩ := h
  rcases Operation.run_cases cv bc op hdb with h1 | ⟨c1, h1, hs⟩
  · rw [h1]; exact ⟨c, r, hdb, hrows, hid⟩
  · rw [h1]
    obtain ⟨c2, hc2, hdata, _, _⟩ := saveDatabase_db (s := { s with db := some c1 }) rfl
    rcases hs with hs | ⟨r0, cells, _, hrows1⟩
    · exact ⟨c2, r, hc2, by rw [hdata, hs]; exact hrows, hid⟩
    · refine ⟨c2, ⟨1, cells⟩, hc2, ?_, rfl⟩
      rw [hdata, hrows1, hrows]
      simp [List.filter, hid, insertRow]

theorem SingleSettings_runOperations (cv : Conversions) (bc : Bcrypt) (ops : List Operation) :
    ∀ {s : Store}, SingleSettings s → SingleSettings (runOperations cv bc ops s) := by
  induction ops with
  | nil => intro s h; exact h
  | cons op rest ih =>
      intro s h
      exact ih (SingleSettings_run cv bc op h)

theorem Synced_run (cv : Conversions) (bc : Bcrypt) (op : Operation) {path : String}
    (hpath : path ≠ "") {s : Store} (h : Synced path s) : Synced path (op.run cv bc s) := by
  obtain ⟨c, hdb, hp, hfile, r, hr⟩ := h
  rcases Operation.run_cases cv bc op hdb with h1 | ⟨c1, h1, hs⟩
  · rw [h1]; exact ⟨c, hdb, hp, hfile, r, hr⟩
  · rw [h1]
    obtain ⟨c2, hc2, hdata, _, _⟩ := saveDatabase_db (s := { s with db := some c1 }) rfl
    have htp : truthyPath ({ s with db := some c1 } : Store).dbPath = true := by
      show truthyPath s.dbPath = true
      rw [hp]; exact truthyPath_some hpath
    refine ⟨c2, hc2, ?_, ?_, ?_⟩
    · rw [saveDatabase_dbPath]; exact hp
    · rw [saveDatabase_file (s := { s with db := some c1 }) rfl htp, hdata]
    · rw [hdata]
      rcases hs with hs | ⟨r0, cells, _, hrows1⟩
      · exact ⟨r, by rw [hs]; exact hr⟩
      · refine ⟨⟨1, cells⟩, ?_⟩
        rw [hrows1]
        refine find?_insertRow_self ⟨1, cells⟩ _ ?_
        intro x hx
        simpa using (List.mem_filter.mp hx).2

theorem Synced_runOperations (cv : Conversions) (bc : Bcrypt) (ops : List Operation)
    {path : String} (hpath : path ≠ "") :
    ∀ {s : Store}, Synced path s → Synced path (runOperations cv bc ops s) := by
  induction ops with
  | nil => intro s h; exact h
  | cons op rest ih =>
      intro s h
      exact ih (Synced_run cv bc op hpath h)

theorem Synced_saveDatabase {path : String} (hpath : path ≠ "") (c : Connection)
    (file : Option Database) {r : Row}
    (hr : c.data.settings.rows.find? (fun x => x.id = 1) = some r) :
    Synced path (saveDatabase ⟨some c, some path, file⟩) := by
  obtain ⟨c2, hc2, hdata, _, _⟩ := saveDatabase_db (s := ⟨some c, some path, file⟩) rfl
  refine ⟨c2, hc2, ?_, ?_, r, ?_⟩
  · rw [saveDatabase_dbPath]
  · rw [saveDatabase_file (s := ⟨some c, some path, file⟩) rfl (truthyPath_some hpath), hdata]
  · rw [hdata]; exact hr

theorem Synced_initDatabase {path : String} (hpath : path ≠ "") (now : String) (s0 : Store) :
    Synced path (initDatabase path now s0) := by
  cases hf : (s0.file.getD emptyDatabase).settings.rows.find? (fun x => x.id = 1) with
  | none =>
      rw [initDatabase_missing path now hf]
      refine Synced_saveDatabase hpath _ _ (r := defaultSettings now) ?_
      show (insertRow (defaultSettings now) _).find? _ = _
      refine find?_insertRow_self (defaultSettings now) _ ?_
      intro x hx hx1
      have := List.find?_eq_none.mp hf x hx
      simp only [decide_eq_true_eq] at this
      exact this hx1
  | some r =>
      cases hfile : s0.file with
      | none =>
          rw [hfile] at hf
          simp [emptyDatabase] at hf
      | some d =>
          rw [hfile] at hf
          simp only [Option.getD] at hf
          rw [initDatabase_found path now hfile hf]
          exact Synced_saveDatabase hpath _ _ hf

theorem SingleSettings_saveDatabase (c : Connection) (path : String) (file : Option Database)
    {r : Row} (hrows : c.data.settings.rows = [r]) (hid : r.id = 1) :
    SingleSettings (saveDatabase ⟨some c, some path, file⟩) := by
  obtain ⟨c2, hc2, hdata, _, _⟩ := saveDatabase_db (s := ⟨some c, some path, file⟩) rfl
  exact ⟨c2, r, hc2, by rw [hdata]; exact hrows, hid⟩

theorem SingleSettings_initDatabase (path now : String) (s0 : Store)
    (hfile : ∀ d, s0.file = some d →
      d.settings.rows = [] ∨ ∃ r, d.settings.rows = [r] ∧ r.id = 1) :
    SingleSettings (initDatabase path now s0) := by
  cases hf : s0.file with
  | none =>
      have hm : (s0.file.getD emptyDatabase).settings.rows.find? (fun x => x.id = 1) = none := by
        rw [hf]; rfl
      rw [initDatabase_missing path now hm, hf]
      exact SingleSettings_saveDatabase _ _ _ (r := defaultSettings now) rfl rfl
  | some d =>
      rcases hfile d hf with hrows | ⟨r, hrows, hid⟩
      · have hm : (s0.file.getD emptyDatabase).settings.rows.find? (fun x => x.id = 1)
            = none := by
          rw [hf]
          simp only [Option.getD, hrows]
          rfl
        rw [initDatabase_missing path now hm, hf]
        refine SingleSettings_saveDatabase _ _ _ (r := defaultSettings now) ?_ rfl
        show insertRow (defaultSettings now) d.settings.rows = _
        rw [hrows]
        rfl
      · have hfd : d.settings.rows.find? (fun x => x.id = 1) = some r := by
          rw [hrows]
          simp [List.find?, hid]
        rw [initDatabase_found path now hf hfd]
        exact SingleSettings_saveDatabase _ _ _ hrows hid

/-- C16: `initDatabase` on a path where no file exists, or where the file holds a
settings table that is empty or has the single row with id 1, leaves a store whose
settings table has exactly one row, with id 1; and so does every sequence of `insert`,
`update`, `deleteOne`, `completeSetup`, `updateSettings`, `saveImage` and `deleteImage`
calls run after it, whatever their arguments and whether they return or throw. -/
theorem settings_singleton (cv : Conversions) (bc : Bcrypt) (path now : String) (s0 : Store)
    (ops : List Operation)
    (hfile : ∀ d, s0.file = some d →
      d.settings.rows = [] ∨ ∃ r, d.settings.rows = [r] ∧ r.id = 1) :
    ∃ c r, (runOperations cv bc ops (initDatabase path now s0)).db = some c ∧
      c.data.settings.rows = [r] ∧ r.id = 1 :=
  SingleSettings_runOperations cv bc ops (SingleSettings_initDatabase path now s0 hfile)

theorem settings_singleton_witness :
    ∃ c r, (runOperations plainConversions sampleBcrypt sampleSession
        (initDatabase "finance_tracker.db" "2024-01-01T00:00:00.000Z" ⟨none, none, none⟩)).db
          = some c ∧
      c.data.settings.rows = [r] ∧ r.id = 1 :=
  settings_singleton plainConversions sampleBcrypt "finance_tracker.db"
    "2024-01-01T00:00:00.000Z" ⟨none, none, none⟩ sampleSession (fun _ h => by cases h)

/-- C15: after `initDatabase` on a path (not the empty string) and any sequence of
operations, `initDatabase` on the same path opens a database with the content the open
database had: every table has the rows it had, the settings row with id 1 is the one
that was there and `getSettings` returns what it returned; the file holds that content
too. -/
theorem initDatabase_idempotent (cv : Conversions) (bc : Bcrypt) (path now0 now1 : String)
    (s0 : Store) (ops : List Operation) (hpath : path ≠ "") :
    ∃ c r, (runOperations cv bc ops (initDatabase path now0 s0)).db = some c ∧
      c.data.settings.rows.find? (fun x => x.id = 1) = some r ∧
      (initDatabase path now1 (runOperations cv bc ops (initDatabase path now0 s0))).db
        = some ⟨c.data, 0, 0⟩ ∧
      (initDatabase path now1 (runOperations cv bc ops (initDatabase path now0 s0))).file
        = some c.data ∧
      (initDatabase path now1 (runOperations cv bc ops (initDatabase path now0 s0))).dbPath
        = some path ∧
      (getSettings (initDatabase path now1
          (runOperations cv bc ops (initDatabase path now0 s0)))).1
        = (getSettings (runOperations cv bc ops (initDatabase path now0 s0))).1 := by
  obtain ⟨c, hdb, hp, hfile, r, hr⟩ :=
    Synced_runOperations cv bc ops hpath (Synced_initDatabase hpath now0 s0)
  have hinit := initDatabase_found path now1 hfile hr
  have hsave : saveDatabase ⟨some ⟨c.data, 0, 0⟩, some path, some c.data⟩
      = ⟨some ⟨c.data, 0, 0⟩, some path, some c.data⟩ := by
    simp [saveDatabase, truthyPath_some hpath]
  rw [hsave] at hinit
  refine ⟨c, r, hdb, hr, ?_, ?_, ?_, ?_⟩
  · rw [hinit]
  · rw [hinit]
  · rw [hinit]
  · rw [hinit, getSettings_eq hdb, getSettings_eq (c := ⟨c.data, 0, 0⟩) rfl]

theorem initDatabase_idempotent_witness :
    ("finance_tracker.db" : String) ≠ "" ∧
    ∃ c r, (runOperations plainConversions sampleBcrypt sampleSession
        (initDatabase "finance_tracker.db" "2024-01-01T00:00:00.000Z" ⟨none, none, none⟩)).db
          = some c ∧
      c.data.settings.rows.find? (fun x => x.id = 1) = some r ∧
      (initDatabase "finance_tracker.db" "2024-06-01T00:00:00.000Z"
        (runOperations plainConversions sampleBcrypt sampleSession
          (initDatabase "finance_tracker.db" "2024-01-01T00:00:00.000Z" ⟨none, none, none⟩))).db
        = some ⟨c.data, 0, 0⟩ ∧
      (initDatabase "finance_tracker.db" "2024-06-01T00:00:00.000Z"
        (runOperations plainConversions sampleBcrypt sampleSession
          (initDatabase "finance_tracker.db" "2024-01-01T00:00:00.000Z" ⟨none, none, none⟩))).file
        = some c.data ∧
      (initDatabase "finance_tracker.db" "2024-06-01T00:00:00.000Z"
        (runOperations plainConversions sampleBcrypt sampleSession
          (initDatabase "finance_tracker.db" "2024-01-01T00:00:00.000Z"
            ⟨none, none, none⟩))).dbPath
        = some "finance_tracker.db" ∧
      (getSettings (initDatabase "finance_tracker.db" "2024-06-01T00:00:00.000Z"
          (runOperations plainConversions sampleBcrypt sampleSession
            (initDatabase "finance_tracker.db" "2024-01-01T00:00:00.000Z"
              ⟨none, none, none⟩)))).1
        = (getSettings (runOperations plainConversions sampleBcrypt sampleSession
            (initDatabase "finance_tracker.db" "2024-01-01T00:00:00.000Z"
              ⟨none, none, none⟩))).1 :=
  ⟨by decide, initDatabase_idempotent plainConversions sampleBcrypt "finance_tracker.db"
    "2024-01-01T00:00:00.000Z" "2024-06-01T00:00:00.000Z" ⟨none, none, none⟩ sampleSession
    (by decide)⟩


theorem foldl_sumStep_real (cv : Conversions) (ct : Casts) (qs : List ℚ) :
    ∀ p : SumState, (qs.map Value.real).foldl (sumStep cv ct) p
      = { count := p.count + qs.length, approx := p.approx || !qs.isEmpty,
          overflow := p.overflow, iSum := p.iSum, rSum := p.rSum + qs.sum } := by
  induction qs with
  | nil => intro p; cases p; simp
  | cons q qs ih =>
      intro p
      simp only [List.map_cons, List.foldl_cons, sumStep, ih, sumReal, List.length_cons,
        List.sum_cons, List.isEmpty_cons, Bool.not_false, Bool.or_true, Bool.true_or]
      congr 1
      · omega
      · ring

theorem sqlSum_real (cv : Conversions) (ct : Casts) (qs : List ℚ) :
    sqlSum cv ct (qs.map Value.real)
      = .ok (if qs = [] then Value.null else Value.real qs.sum) := by
  simp only [sqlSum, foldl_sumStep_real, sumFinalize]
  cases qs with
  | nil => simp
  | cons q qs => simp

theorem amounts_real {rows : List Row} (h : ∀ r ∈ rows, ∃ q, r.get "amount" = .real q) :
    rows.map (fun r => r.get "amount") = (rows.map amountOf).map Value.real := by
  rw [List.map_map]
  apply List.map_congr_left
  intro r hr
  obtain ⟨q, hq⟩ := h r hr
  simp [amountOf, hq]

theorem sqlSum_amounts (cv : Conversions) (ct : Casts) {rows : List Row}
    (h : ∀ r ∈ rows, ∃ q, r.get "amount" = .real q) :
    sqlSum cv ct (rows.map (fun r => r.get "amount"))
      = .ok (if rows = [] then Value.null else Value.real (rows.map amountOf).sum) := by
  rw [amounts_real h, sqlSum_real]
  cases rows <;> simp

theorem selectTotal_real (cv : Conversions) (ct : Casts) {t : Table} (h : RealAmounts t) :
    selectTotal cv ct t = .ok [⟨["total"], [[.number (t.rows.map amountOf).sum]]⟩] := by
  simp only [selectTotal, sqlSum_amounts cv ct h]
  cases hrows : t.rows with
  | nil => simp [coalesce, toJs]
  | cons r rs => simp [coalesce, toJs]

theorem orElse_total (q : ℚ) :
    orElse (property "total" (resultToObject [⟨["total"], [[.number q]]⟩])) (.number 0)
      = .number q := by
  have hp : property "total" (resultToObject [⟨["total"], [[.number q]]⟩]) = .number q := by
    simp [resultToObject, resultToObjects, property, List.lookup]
  rw [hp]
  by_cases hq : q = 0
  · simp [orElse, truthy, hq]
  · simp [orElse, truthy, hq]

theorem monthlyValues_real (cv : Conversions) (ct : Casts) (groups : List (Value × List Row))
    (h : ∀ g ∈ groups, ∀ r ∈ g.2, ∃ q, r.get "amount" = .real q) :
    monthlyValues cv ct groups
      = .ok (groups.map (fun g => [toJs g.1,
          toJs (if g.2 = [] then Value.null else Value.real (g.2.map amountOf).sum)])) := by
  induction groups with
  | nil => rfl
  | cons g rest ih =>
      obtain ⟨k, rows⟩ := g
      have h1 := sqlSum_amounts cv ct (h (k, rows) (List.mem_cons_self _ _))
      have h2 := ih (fun g hg => h g (List.mem_cons_of_mem _ hg))
      simp only [monthlyValues, h1, h2, List.map_cons]

theorem resultToObjects_monthly (vs : List (List JsValue)) :
    resultToObjects (match vs with
      | [] => []
      | v :: rest => [⟨["_id", "total"], v :: rest⟩])
      = vs.map (fun row => ["_id", "total"].zip row) := by
  cases vs <;> rfl

theorem monthlyGroups_real (cv : Conversions) {t : Table} (year : Value) (h : RealAmounts t) :
    ∀ g ∈ monthlyGroups cv t year, ∀ r ∈ g.2, ∃ q, r.get "amount" = .real q := by
  intro g hg r hr
  simp only [monthlyGroups, List.mem_map] at hg
  obtain ⟨k, _, rfl⟩ := hg
  exact h r (List.mem_filter.mp (List.mem_filter.mp hr).1).1

theorem selectMonthly_real (cv : Conversions) (ct : Casts) {t : Table} (year : Value)
    (h : RealAmounts t) :
    ∃ res, selectMonthly cv ct t year = .ok res ∧
      resultToObjects res = (monthlyGroups cv t year).map (fun g =>
        [("_id", toJs g.1),
         ("total", toJs (if g.2 = [] then Value.null else Value.real (g.2.map amountOf).sum))]) := by
  have hv := monthlyValues_real cv ct _ (monthlyGroups_real cv year h)
  refine ⟨match (monthlyGroups cv t year).map (fun g => [toJs g.1,
          toJs (if g.2 = [] then Value.null else Value.real (g.2.map amountOf).sum)]) with
      | [] => []
      | v :: rest => [⟨["_id", "total"], v :: rest⟩], ?_, ?_⟩
  · simp only [selectMonthly, hv]
    cases (monthlyGroups cv t year).map (fun g => [toJs g.1,
          toJs (if g.2 = [] then Value.null else Value.real (g.2.map amountOf).sum)]) <;> rfl
  · rw [resultToObjects_monthly, List.map_map]
    rfl

theorem getDashboardStats_real (cv : Conversions) (ct : Casts) (currentYear : String)
    {s : Store} {c : Connection} (hdb : s.db = some c) (hinc : RealAmounts c.data.income)
    (hout : RealAmounts c.data.outgoing) :
    getDashboardStats cv ct currentYear s =
      (.ok { totalIncome := .number (c.data.income.rows.map amountOf).sum,
             totalOutgoing := .number (c.data.outgoing.rows.map amountOf).sum,
             balance := .number ((c.data.income.rows.map amountOf).sum
               - (c.data.outgoing.rows.map amountOf).sum),
             recentIncome := resultToObjects (selectRecent c.data "income"),
             recentOutgoing := resultToObjects (selectRecent c.data "outgoing"),
             monthlyIncome := (monthlyGroups cv c.data.income (.text currentYear)).map (fun g =>
               [("_id", toJs g.1), ("total", toJs (if g.2 = [] then Value.null
                  else Value.real (g.2.map amountOf).sum))]),
             monthlyOutgoing :=
               (monthlyGroups cv c.data.outgoing (.text currentYear)).map (fun g =>
               [("_id", toJs g.1), ("total", toJs (if g.2 = [] then Value.null
                  else Value.real (g.2.map amountOf).sum))]) }, s) := by
  obtain ⟨mi, hmi, hmi2⟩ := selectMonthly_real cv ct (.text currentYear) hinc
  obtain ⟨mo, hmo, hmo2⟩ := selectMonthly_real cv ct (.text currentYear) hout
  simp only [getDashboardStats, hdb, selectTotal_real cv ct hinc, selectTotal_real cv ct hout,
    orElse_total, hmi, hmo, hmi2, hmo2, minus]

/-- C19: on an open store whose amounts are stored as numbers, `getDashboardStats`
returns; `totalIncome` is the sum of `amount` over all income rows, `totalOutgoing` the
sum of `amount` over all outgoing rows, each 0 when the table is empty, and `balance`
is `totalIncome - totalOutgoing`.  The store is left as it is. -/
theorem getDashboardStats_totals (cv : Conversions) (ct : Casts) (currentYear : String)
    (s : Store) (c : Connection) (hdb : s.db = some c) (hinc : RealAmounts c.data.income)
    (hout : RealAmounts c.data.outgoing) :
    ∃ stats, getDashboardStats cv ct currentYear s = (.ok stats, s) ∧
      stats.totalIncome = .number (c.data.income.rows.map amountOf).sum ∧
      stats.totalOutgoing = .number (c.data.outgoing.rows.map amountOf).sum ∧
      stats.balance = .number ((c.data.income.rows.map amountOf).sum
        - (c.data.outgoing.rows.map amountOf).sum) ∧
      stats.balance = minus stats.totalIncome stats.totalOutgoing ∧
      (c.data.income.rows = [] → stats.totalIncome = .number 0) ∧
      (c.data.outgoing.rows = [] → stats.totalOutgoing = .number 0) := by
  refine ⟨_, getDashboardStats_real cv ct currentYear hdb hinc hout, rfl, rfl, rfl, rfl, ?_, ?_⟩
  · intro h; simp [h]
  · intro h; simp [h]


theorem realAmounts_of_all {t : Table}
    (h : t.rows.all (fun r => (r.get "amount").isReal) = true) : RealAmounts t := by
  intro r hr
  have := List.all_eq_true.mp h r hr
  cases hv : r.get "amount" <;> simp [hv, Value.isReal] at this
  exact ⟨_, rfl⟩

theorem textDates_of_all {t : Table}
    (h : t.rows.all (fun r => (r.get "date").isText) = true) : TextDates t := by
  intro r hr
  have := List.all_eq_true.mp h r hr
  cases hv : r.get "date" <;> simp [hv, Value.isText] at this
  exact ⟨_, rfl⟩

theorem getDashboardStats_totals_witness :
    ∃ stats, getDashboardStats plainConversions plainCasts "2024" sampleLedger
        = (.ok stats, sampleLedger) ∧
      stats.totalIncome
        = .number ((Connection.mk (sampleLedger.file.get rfl) 0 0).data.income.rows.map
            amountOf).sum ∧
      stats.totalOutgoing
        = .number ((Connection.mk (sampleLedger.file.get rfl) 0 0).data.outgoing.rows.map
            amountOf).sum ∧
      stats.balance
        = .number (((Connection.mk (sampleLedger.file.get rfl) 0 0).data.income.rows.map
            amountOf).sum
          - ((Connection.mk (sampleLedger.file.get rfl) 0 0).data.outgoing.rows.map
            amountOf).sum) ∧
      stats.balance = minus stats.totalIncome stats.totalOutgoing ∧
      ((Connection.mk (sampleLedger.file.get rfl) 0 0).data.income.rows = [] →
        stats.totalIncome = .number 0) ∧
      ((Connection.mk (sampleLedger.file.get rfl) 0 0).data.outgoing.rows = [] →
        stats.totalOutgoing = .number 0) :=
  getDashboardStats_totals plainConversions plainCasts "2024" sampleLedger
    ⟨sampleLedger.file.get rfl, 0, 0⟩ rfl (realAmounts_of_all rfl) (realAmounts_of_all rfl)

theorem getDashboardStats_examples :
    ∃ stats, (getDashboardStats plainConversions plainCasts "2024" sampleLedger).1 = .ok stats ∧
      stats.totalIncome = .number 220 ∧ stats.totalOutgoing = .number 30 ∧
      stats.balance = .number 190 ∧
      stats.monthlyIncome = [[("_id", .string "2024-01"), ("total", .number 100)],
        [("_id", .string "2024-02"), ("total", .number 50)]] ∧
      stats.monthlyOutgoing = [[("_id", .string "2024-01"), ("total", .number 30)]] ∧
      (getDashboardStats plainConversions plainCasts "2024" freshStore).1.toOption.map
          (fun st => (st.totalIncome, st.totalOutgoing, st.balance))
        = some (.number 0, .number 0, .number 0) := by
  refine ⟨_, rfl, ?_, ?_, ?_, ?_, ?_, ?_⟩ <;> with_unfolding_all decide

theorem takeChars_takeChars (s : String) : takeChars 4 (takeChars 7 s) = takeChars 4 s := by
  simp [takeChars, List.take_take]

theorem monthly_entries (cv : Conversions) (t : Table) (year : String) (hd : TextDates t) :
    ∃ keys : List String,
      (monthlyGroups cv t (.text year)).map (fun g =>
          [("_id", toJs g.1),
           ("total", toJs (if g.2 = [] then Value.null else Value.real (g.2.map amountOf).sum))])
        = keys.map (fun k => [("_id", JsValue.string k),
            ("total", JsValue.number ((t.rows.filter (fun r =>
              decide (takeChars 7 (dateOf r) = k))).map amountOf).sum)]) ∧
      keys.Pairwise (fun a b => a ≠ b ∧ lexLeb (codePoints a) (codePoints b) = true) ∧
      (∀ k, k ∈ keys ↔
        ∃ r ∈ t.rows, takeChars 4 (dateOf r) = year ∧ takeChars 7 (dateOf r) = k) ∧
      (∀ k ∈ keys, takeChars 4 k = year) := by
  have hkey : ∀ r ∈ t.rows, monthKey cv r = .text (takeChars 7 (dateOf r)) := by
    intro r hr
    obtain ⟨d, hdt⟩ := hd r hr
    simp [monthKey, sqlSubstr, dateOf, hdt]
  have hyear : ∀ r ∈ t.rows,
      inYear cv (.text year) r = decide (takeChars 4 (dateOf r) = year) := by
    intro r hr
    obtain ⟨d, hdt⟩ := hd r hr
    simp [inYear, sqlSubstr, dateOf, hdt, Value.sqlEq]
  have hmemV : ∀ v, v ∈ (((t.rows.filter (inYear cv (.text year))).map
        (monthKey cv)).dedup).insertionSort keyLe ↔
      ∃ r ∈ t.rows, takeChars 4 (dateOf r) = year ∧ v = .text (takeChars 7 (dateOf r)) := by
    intro v
    rw [(List.perm_insertionSort keyLe _).mem_iff, List.mem_dedup, List.mem_map]
    constructor
    · rintro ⟨r, hr, rfl⟩
      obtain ⟨hrt, hy⟩ := List.mem_filter.mp hr
      rw [hyear r hrt] at hy
      exact ⟨r, hrt, by simpa using hy, hkey r hrt⟩
    · rintro ⟨r, hrt, hy, rfl⟩
      exact ⟨r, List.mem_filter.mpr ⟨hrt, by rw [hyear r hrt]; simpa using hy⟩, hkey r hrt⟩
  have hmem : ∀ k, k ∈ ((((t.rows.filter (inYear cv (.text year))).map
        (monthKey cv)).dedup).insertionSort keyLe).map Value.textOf ↔
      ∃ r ∈ t.rows, takeChars 4 (dateOf r) = year ∧ takeChars 7 (dateOf r) = k := by
    intro k
    rw [List.mem_map]
    constructor
    · rintro ⟨v, hv, rfl⟩
      obtain ⟨r, hr, hy, rfl⟩ := (hmemV v).mp hv
      exact ⟨r, hr, hy, rfl⟩
    · rintro ⟨r, hr, hy, rfl⟩
      exact ⟨_, (hmemV _).mpr ⟨r, hr, hy, rfl⟩, rfl⟩
  have hyr : ∀ k ∈ ((((t.rows.filter (inYear cv (.text year))).map
        (monthKey cv)).dedup).insertionSort keyLe).map Value.textOf,
      takeChars 4 k = year := by
    intro k hk
    obtain ⟨r, _, hy, rfl⟩ := (hmem k).mp hk
    rw [takeChars_takeChars]
    exact hy
  refine ⟨((((t.rows.filter (inYear cv (.text year))).map
        (monthKey cv)).dedup).insertionSort keyLe).map Value.textOf, ?_, ?_, hmem, hyr⟩
  · simp only [monthlyGroups, List.map_map]
    apply List.map_congr_left
    intro v hv
    obtain ⟨r0, hr0, hy0, rfl⟩ := (hmemV v).mp hv
    have hfilter : (t.rows.filter (inYear cv (.text year))).filter
        (fun r => decide (monthKey cv r = .text (takeChars 7 (dateOf r0))))
        = t.rows.filter (fun r => decide (takeChars 7 (dateOf r) = takeChars 7 (dateOf r0))) := by
      rw [List.filter_filter]
      apply List.filter_congr
      intro r hr
      rw [hkey r hr, hyear r hr]
      by_cases h7 : takeChars 7 (dateOf r) = takeChars 7 (dateOf r0)
      · have h4 : takeChars 4 (dateOf r) = year := by
          rw [← takeChars_takeChars, h7, takeChars_takeChars]
          exact hy0
        simp [h7, h4]
      · simp [h7]
    have hne : t.rows.filter (fun r => decide (takeChars 7 (dateOf r) = takeChars 7 (dateOf r0)))
        ≠ [] := by
      intro he
      have : r0 ∈ t.rows.filter
          (fun r => decide (takeChars 7 (dateOf r) = takeChars 7 (dateOf r0))) :=
        List.mem_filter.mpr ⟨hr0, by simp⟩
      rw [he] at this
      cases this
    simp only [Function.comp, hfilter, hne, if_false, toJs, Value.textOf]
  · rw [List.pairwise_map]
    have hs : (((t.rows.filter (inYear cv (.text year))).map
        (monthKey cv)).dedup.insertionSort keyLe).Pairwise keyLe := by
      haveI : IsTotal Value keyLe := ⟨Value.leb_total⟩
      haveI : IsTrans Value keyLe := ⟨fun _ _ _ => Value.leb_trans⟩
      exact List.sorted_insertionSort keyLe _
    have hn : (((t.rows.filter (inYear cv (.text year))).map
        (monthKey cv)).dedup.insertionSort keyLe).Pairwise (fun a b => a ≠ b) :=
      (List.perm_insertionSort keyLe _).nodup_iff.mpr (List.nodup_dedup _)
    refine (hn.and hs).imp_of_mem ?_
    intro a b ha hb hab
    obtain ⟨ra, _, _, rfl⟩ := (hmemV a).mp ha
    obtain ⟨rb, _, _, rfl⟩ := (hmemV b).mp hb
    refine ⟨?_, ?_⟩
    · intro he
      simp only [Value.textOf] at he
      exact hab.1 (by rw [he])
    · exact hab.2

/-- C20: on an open store whose amounts are stored as numbers and whose dates are
stored as text, `getDashboardStats` returns, and `monthlyIncome` is the list of the
entries `{_id: k, total}` for the keys `k` of a list that holds, in strictly ascending
order and each once, exactly the first seven characters of the dates of the income
rows whose first four characters are the current year; `total` is the sum of `amount`
over the income rows whose date begins with `k`; every key begins with the current
year.  The same holds for `monthlyOutgoing` and the outgoing rows. -/
theorem getDashboardStats_monthly (cv : Conversions) (ct : Casts) (currentYear : String)
    (s : Store) (c : Connection) (hdb : s.db = some c)
    (hinc : RealAmounts c.data.income) (hout : RealAmounts c.data.outgoing)
    (hdi : TextDates c.data.income) (hdo : TextDates c.data.outgoing) :
    ∃ (stats : DashboardStats) (incomeKeys outgoingKeys : List String),
      getDashboardStats cv ct currentYear s = (.ok stats, s) ∧
      stats.monthlyIncome = incomeKeys.map (fun k => [("_id", JsValue.string k),
        ("total", JsValue.number ((c.data.income.rows.filter (fun r =>
          decide (takeChars 7 (dateOf r) = k))).map amountOf).sum)]) ∧
      incomeKeys.Pairwise (fun a b => a ≠ b ∧ lexLeb (codePoints a) (codePoints b) = true) ∧
      (∀ k, k ∈ incomeKeys ↔ ∃ r ∈ c.data.income.rows,
        takeChars 4 (dateOf r) = currentYear ∧ takeChars 7 (dateOf r) = k) ∧
      (∀ k ∈ incomeKeys, takeChars 4 k = currentYear) ∧
      stats.monthlyOutgoing = outgoingKeys.map (fun k => [("_id", JsValue.string k),
        ("total", JsValue.number ((c.data.outgoing.rows.filter (fun r =>
          decide (takeChars 7 (dateOf r) = k))).map amountOf).sum)]) ∧
      outgoingKeys.Pairwise (fun a b => a ≠ b ∧ lexLeb (codePoints a) (codePoints b) = true) ∧
      (∀ k, k ∈ outgoingKeys ↔ ∃ r ∈ c.data.outgoing.rows,
        takeChars 4 (dateOf r) = currentYear ∧ takeChars 7 (dateOf r) = k) ∧
      (∀ k ∈ outgoingKeys, takeChars 4 k = currentYear) := by
  obtain ⟨ki, hi1, hi2, hi3, hi4⟩ := monthly_entries cv c.data.income currentYear hdi
  obtain ⟨ko, ho1, ho2, ho3, ho4⟩ := monthly_entries cv c.data.outgoing currentYear hdo
  exact ⟨_, ki, ko, getDashboardStats_real cv ct currentYear hdb hinc hout,
    hi1, hi2, hi3, hi4, ho1, ho2, ho3, ho4⟩

theorem getDashboardStats_monthly_witness :
    ∃ (stats : DashboardStats) (incomeKeys outgoingKeys : List String),
      getDashboardStats plainConversions plainCasts "2024" sampleLedger
        = (.ok stats, sampleLedger) ∧
      stats.monthlyIncome = incomeKeys.map (fun k => [("_id", JsValue.string k),
        ("total", JsValue.number
          (((Connection.mk (sampleLedger.file.get rfl) 0 0).data.income.rows.filter (fun r =>
            decide (takeChars 7 (dateOf r) = k))).map amountOf).sum)]) ∧
      incomeKeys.Pairwise (fun a b => a ≠ b ∧ lexLeb (codePoints a) (codePoints b) = true) ∧
      (∀ k, k ∈ incomeKeys ↔
        ∃ r ∈ (Connection.mk (sampleLedger.file.get rfl) 0 0).data.income.rows,
          takeChars 4 (dateOf r) = "2024" ∧ takeChars 7 (dateOf r) = k) ∧
      (∀ k ∈ incomeKeys, takeChars 4 k = "2024") ∧
      stats.monthlyOutgoing = outgoingKeys.map (fun k => [("_id", JsValue.string k),
        ("total", JsValue.number
          (((Connection.mk (sampleLedger.file.get rfl) 0 0).data.outgoing.rows.filter (fun r =>
            decide (takeChars 7 (dateOf r) = k))).map amountOf).sum)]) ∧
      outgoingKeys.Pairwise (fun a b => a ≠ b ∧ lexLeb (codePoints a) (codePoints b) = true) ∧
      (∀ k, k ∈ outgoingKeys ↔
        ∃ r ∈ (Connection.mk (sampleLedger.file.get rfl) 0 0).data.outgoing.rows,
          takeChars 4 (dateOf r) = "2024" ∧ takeChars 7 (dateOf r) = k) ∧
      (∀ k ∈ outgoingKeys, takeChars 4 k = "2024") :=
  getDashboardStats_monthly plainConversions plainCasts "2024" sampleLedger
    ⟨sampleLedger.file.get rfl, 0, 0⟩ rfl (realAmounts_of_all rfl) (realAmounts_of_all rfl)
    (textDates_of_all rfl) (textDates_of_all rfl)


theorem sum_map_ite_eq {κ : Type} [DecidableEq κ] (keys : List κ) (hnd : keys.Nodup) (a : κ)
    (ha : a ∈ keys) (c : ℚ) : (keys.map (fun k => if a = k then c else 0)).sum = c := by
  induction keys with
  | nil => cases ha
  | cons k ks ih =>
      rw [List.nodup_cons] at hnd
      simp only [List.map_cons, List.sum_cons]
      by_cases hak : a = k
      · subst hak
        have hz : (ks.map (fun k => if a = k then c else 0)).sum = 0 := by
          apply List.sum_eq_zero
          intro x hx
          obtain ⟨k, hk, rfl⟩ := List.mem_map.mp hx
          have : a ≠ k := fun h => hnd.1 (h ▸ hk)
          simp [this]
        simp [hz]
      · have hmem : a ∈ ks := by
          rcases List.mem_cons.mp ha with h | h
          · exact absurd h hak
          · exact h
        simp [hak, ih hnd.2 hmem]

theorem sum_groups {κ : Type} [DecidableEq κ] (keys : List κ) (hnd : keys.Nodup)
    (key : Row → κ) (f : Row → ℚ) (rows : List Row) (hcover : ∀ r ∈ rows, key r ∈ keys) :
    (keys.map (fun k => ((rows.filter (fun r => decide (key r = k))).map f).sum)).sum
      = (rows.map f).sum := by
  induction rows with
  | nil => simp
  | cons r rs ih =>
      have hstep : ∀ k, ((List.filter (fun x => decide (key x = k)) (r :: rs)).map f).sum
          = (if key r = k then f r else 0)
            + ((rs.filter (fun x => decide (key x = k))).map f).sum := by
        intro k
        by_cases hk : key r = k
        · simp [List.filter, hk]
        · simp [List.filter, hk]
      simp only [hstep, List.sum_map_add, List.map_cons, List.sum_cons]
      rw [sum_map_ite_eq keys hnd (key r) (hcover r (List.mem_cons_self _ _)),
        ih (fun x hx => hcover x (List.mem_cons_of_mem _ hx))]


theorem dateBetween_text (cv : Conversions) (a b : String) {r : Row} {d : String}
    (hd : r.get "date" = .text d) :
    dateBetween cv (.text a) (.text b) r = inRange a b r := by
  simp [dateBetween, inRange, dateOf, hd, applyAffinity, Value.sqlLe, Value.leb]

theorem filter_dateBetween (cv : Conversions) (a b : String) {t : Table} (hd : TextDates t) :
    t.rows.filter (dateBetween cv (.text a) (.text b)) = t.rows.filter (inRange a b) := by
  apply List.filter_congr
  intro r hr
  obtain ⟨d, hdt⟩ := hd r hr
  exact dateBetween_text cv a b hdt

theorem selectTotalBetween_real (cv : Conversions) (ct : Casts) {t : Table} (lo hi : Value)
    (h : RealAmounts t) :
    selectTotalBetween cv ct t lo hi
      = .ok [⟨["total"],
          [[.number ((t.rows.filter (dateBetween cv lo hi)).map amountOf).sum]]⟩] := by
  have hr : ∀ r ∈ t.rows.filter (dateBetween cv lo hi), ∃ q, r.get "amount" = .real q :=
    fun r hr => h r (List.mem_filter.mp hr).1
  simp only [selectTotalBetween, sqlSum_amounts cv ct hr]
  cases hrows : t.rows.filter (dateBetween cv lo hi) with
  | nil => simp [coalesce, toJs]
  | cons r rs => simp [coalesce, toJs]

theorem categoryTotals_real (cv : Conversions) (ct : Casts) (groups : List (Value × List Row))
    (h : ∀ g ∈ groups, ∀ r ∈ g.2, ∃ q, r.get "amount" = .real q) :
    categoryTotals cv ct groups
      = .ok (groups.map (fun g =>
          (g.1, if g.2 = [] then Value.null else Value.real (g.2.map amountOf).sum))) := by
  induction groups with
  | nil => rfl
  | cons g rest ih =>
      obtain ⟨k, rows⟩ := g
      have h1 := sqlSum_amounts cv ct (h (k, rows) (List.mem_cons_self _ _))
      have h2 := ih (fun g hg => h g (List.mem_cons_of_mem _ hg))
      simp only [categoryTotals, h1, h2, List.map_cons]

theorem categoryGroups_mem {rows : List Row} {g : Value × List Row}
    (hg : g ∈ categoryGroups rows) :
    g.2 = rows.filter (fun r => decide (r.get "category" = g.1)) ∧
    ∃ r ∈ rows, r.get "category" = g.1 := by
  simp only [categoryGroups, List.mem_map] at hg
  obtain ⟨k, hk, rfl⟩ := hg
  refine ⟨rfl, ?_⟩
  rw [(List.perm_insertionSort keyLe _).mem_iff, List.mem_dedup, List.mem_map] at hk
  exact hk

theorem categoryGroups_real {rows : List Row}
    (h : ∀ r ∈ rows, ∃ q, r.get "amount" = .real q) :
    ∀ g ∈ categoryGroups rows, ∀ r ∈ g.2, ∃ q, r.get "amount" = .real q := by
  intro g hg r hr
  rw [(categoryGroups_mem hg).1] at hr
  exact h r (List.mem_filter.mp hr).1

theorem resultToObjects_categoryResult (pairs : List (Value × Value)) :
    resultToObjects (categoryResult pairs)
      = pairs.map (fun p => [("category", toJs p.1), ("total", toJs p.2)]) := by
  cases pairs with
  | nil => rfl
  | cons p ps =>
      simp only [categoryResult, resultToObjects, List.map_map]
      rfl

theorem getHistoryData_real (cv : Conversions) (ct : Casts) (startDate endDate : String)
    {s : Store} {c : Connection} (hdb : s.db = some c) (hinc : RealAmounts c.data.income)
    (hout : RealAmounts c.data.outgoing) :
    getHistoryData cv ct (.string startDate) (.string endDate) s =
      (.ok { income := ((c.data.income.rows.filter
                (dateBetween cv (.text startDate) (.text endDate))).insertionSort dateDesc).map
                (recordOf "income"),
             outgoing := ((c.data.outgoing.rows.filter
                (dateBetween cv (.text startDate) (.text endDate))).insertionSort dateDesc).map
                (recordOf "outgoing"),
             incomeTotal := .number ((c.data.income.rows.filter
                (dateBetween cv (.text startDate) (.text endDate))).map amountOf).sum,
             outgoingTotal := .number ((c.data.outgoing.rows.filter
                (dateBetween cv (.text startDate) (.text endDate))).map amountOf).sum,
             net := .number (((c.data.income.rows.filter
                (dateBetween cv (.text startDate) (.text endDate))).map amountOf).sum
              - ((c.data.outgoing.rows.filter
                (dateBetween cv (.text startDate) (.text endDate))).map amountOf).sum),
             categoryBreakdown :=
               (((categoryGroups (c.data.outgoing.rows.filter
                  (dateBetween cv (.text startDate) (.text endDate)))).map (fun g =>
                    (g.1, if g.2 = [] then Value.null
                      else Value.real (g.2.map amountOf).sum))).insertionSort totalDesc).map
                (fun p => [("category", toJs p.1), ("total", toJs p.2)]) }, s) := by
  have hr : ∀ r ∈ c.data.outgoing.rows.filter
      (dateBetween cv (.text startDate) (.text endDate)), ∃ q, r.get "amount" = .real q :=
    fun r hr => hout r (List.mem_filter.mp hr).1
  have hcat := categoryTotals_real cv ct _ (categoryGroups_real hr)
  simp only [getHistoryData, hdb, bindValue, selectTotalBetween_real cv ct _ _ hinc,
    selectTotalBetween_real cv ct _ _ hout, orElse_total, selectCategoryBreakdown, hcat,
    resultToObjects_categoryResult, selectBetween, resultToObjects_resultSet, minus]
  rfl


theorem sorted_between (cv : Conversions) (a b : String) {t : Table} (hd : TextDates t) :
    ((t.rows.filter (dateBetween cv (.text a) (.text b))).insertionSort dateDesc).Perm
      (t.rows.filter (inRange a b)) ∧
    ((t.rows.filter (dateBetween cv (.text a) (.text b))).insertionSort dateDesc).Pairwise
      (fun x y => lexLeb (codePoints (dateOf y)) (codePoints (dateOf x)) = true) ∧
    (((t.rows.filter (dateBetween cv (.text a) (.text b))).insertionSort dateDesc).map
      amountOf).sum
      = ((t.rows.filter (dateBetween cv (.text a) (.text b))).map amountOf).sum := by
  have hperm := List.perm_insertionSort dateDesc
    (t.rows.filter (dateBetween cv (.text a) (.text b)))
  refine ⟨?_, ?_, (hperm.map amountOf).sum_eq⟩
  · rw [← filter_dateBetween cv a b hd]
    exact hperm
  · have hs : ((t.rows.filter (dateBetween cv (.text a) (.text b))).insertionSort
        dateDesc).Pairwise dateDesc := by
      haveI : IsTotal Row dateDesc := ⟨fun x y => Value.leb_total _ _⟩
      haveI : IsTrans Row dateDesc := ⟨fun _ _ _ h1 h2 => Value.leb_trans h2 h1⟩
      exact List.sorted_insertionSort dateDesc _
    refine hs.imp_of_mem ?_
    intro x y hx hy hxy
    obtain ⟨dx, hdx⟩ := hd x (List.mem_filter.mp (hperm.mem_iff.mp hx)).1
    obtain ⟨dy, hdy⟩ := hd y (List.mem_filter.mp (hperm.mem_iff.mp hy)).1
    simp only [dateDesc, hdx, hdy, Value.leb] at hxy
    simp only [dateOf, hdx, hdy]
    exact hxy

/-- C21: on an open store whose dates are stored as text and whose amounts are stored
as numbers, `getHistoryData(start, end)` returns; `income` holds exactly the income
rows whose date lies between `start` and `end` in the order of texts, both bounds
inclusive, each once, sorted by date descending, and `outgoing` the outgoing rows
likewise; `incomeTotal` and `outgoingTotal` are the sums of `amount` over the rows
returned, and `net` is `incomeTotal - outgoingTotal`.  The store is left as it is. -/
theorem getHistoryData_range (cv : Conversions) (ct : Casts) (startDate endDate : String)
    (s : Store) (c : Connection) (hdb : s.db = some c)
    (hinc : RealAmounts c.data.income) (hout : RealAmounts c.data.outgoing)
    (hdi : TextDates c.data.income) (hdo : TextDates c.data.outgoing) :
    ∃ (h : HistoryData) (incomeRows outgoingRows : List Row),
      getHistoryData cv ct (.string startDate) (.string endDate) s = (.ok h, s) ∧
      h.income = incomeRows.map (recordOf "income") ∧
      incomeRows.Perm (c.data.income.rows.filter (inRange startDate endDate)) ∧
      incomeRows.Pairwise
        (fun x y => lexLeb (codePoints (dateOf y)) (codePoints (dateOf x)) = true) ∧
      h.outgoing = outgoingRows.map (recordOf "outgoing") ∧
      outgoingRows.Perm (c.data.outgoing.rows.filter (inRange startDate endDate)) ∧
      outgoingRows.Pairwise
        (fun x y => lexLeb (codePoints (dateOf y)) (codePoints (dateOf x)) = true) ∧
      h.incomeTotal = .number (incomeRows.map amountOf).sum ∧
      h.outgoingTotal = .number (outgoingRows.map amountOf).sum ∧
      h.net = .number ((incomeRows.map amountOf).sum - (outgoingRows.map amountOf).sum) ∧
      h.net = minus h.incomeTotal h.outgoingTotal := by
  obtain ⟨hi1, hi2, hi3⟩ := sorted_between cv startDate endDate hdi
  obtain ⟨ho1, ho2, ho3⟩ := sorted_between cv startDate endDate hdo
  refine ⟨_, _, _, getHistoryData_real cv ct startDate endDate hdb hinc hout, rfl, hi1, hi2,
    rfl, ho1, ho2, ?_, ?_, ?_, rfl⟩
  · simp only [hi3]
  · simp only [ho3]
  · simp only [hi3, ho3]

theorem getHistoryData_range_witness :
    ∃ (h : HistoryData) (incomeRows outgoingRows : List Row),
      getHistoryData plainConversions plainCasts (.string "2024-01-01") (.string "2024-01-31")
        sampleLedger = (.ok h, sampleLedger) ∧
      h.income = incomeRows.map (recordOf "income") ∧
      incomeRows.Perm ((Connection.mk (sampleLedger.file.get rfl) 0 0).data.income.rows.filter
        (inRange "2024-01-01" "2024-01-31")) ∧
      incomeRows.Pairwise
        (fun x y => lexLeb (codePoints (dateOf y)) (codePoints (dateOf x)) = true) ∧
      h.outgoing = outgoingRows.map (recordOf "outgoing") ∧
      outgoingRows.Perm
        ((Connection.mk (sampleLedger.file.get rfl) 0 0).data.outgoing.rows.filter
          (inRange "2024-01-01" "2024-01-31")) ∧
      outgoingRows.Pairwise
        (fun x y => lexLeb (codePoints (dateOf y)) (codePoints (dateOf x)) = true) ∧
      h.incomeTotal = .number (incomeRows.map amountOf).sum ∧
      h.outgoingTotal = .number (outgoingRows.map amountOf).sum ∧
      h.net = .number ((incomeRows.map amountOf).sum - (outgoingRows.map amountOf).sum) ∧
      h.net = minus h.incomeTotal h.outgoingTotal :=
  getHistoryData_range plainConversions plainCasts "2024-01-01" "2024-01-31" sampleLedger
    ⟨sampleLedger.file.get rfl, 0, 0⟩ rfl (realAmounts_of_all rfl) (realAmounts_of_all rfl)
    (textDates_of_all rfl) (textDates_of_all rfl)

theorem getHistoryData_examples :
    (getHistoryData plainConversions plainCasts (.string "2024-01-01") (.string "2024-01-31")
        sampleLedger).1.toOption.map
      (fun h => (h.income.map (fun o => o.lookup "date"),
        h.outgoing.map (fun o => o.lookup "date"), h.incomeTotal, h.outgoingTotal, h.net))
      = some ([some (.string "2024-01-15")], [some (.string "2024-01-20")],
          .number 100, .number 30, .number 70) := by
  with_unfolding_all decide

/-- C22: on a store with an outgoing row whose category is NULL and an outgoing row
whose category is the empty text, both dated in January 2024, the `categoryBreakdown`
of `getHistoryData("2024-01-01", "2024-01-31")` has two entries, one with category
`null` and one with category `""`: `GROUP BY category` keeps the two apart, and no
entry has the sum of both amounts. -/
theorem getHistoryData_uncategorized :
    (getHistoryData plainConversions plainCasts (.string "2024-01-01") (.string "2024-01-31")
        uncategorizedLedger).1.toOption.map (fun h => h.categoryBreakdown)
      = some [[("category", .null), ("total", .number 10)],
          [("category", .string ""), ("total", .number 5)]] := by
  with_unfolding_all decide


theorem categoryGroups_keys (rows : List Row) :
    (categoryGroups rows).map Prod.fst
      = ((rows.map (fun r => r.get "category")).dedup).insertionSort keyLe := by
  simp only [categoryGroups, List.map_map]
  exact List.map_id _

theorem categoryGroups_nodup (rows : List Row) :
    ((categoryGroups rows).map Prod.fst).Nodup := by
  rw [categoryGroups_keys]
  exact (List.perm_insertionSort keyLe _).nodup_iff.mpr (List.nodup_dedup _)

theorem categoryGroups_cover {rows : List Row} {r : Row} (hr : r ∈ rows) :
    r.get "category" ∈ (categoryGroups rows).map Prod.fst := by
  rw [categoryGroups_keys, (List.perm_insertionSort keyLe _).mem_iff, List.mem_dedup]
  exact List.mem_map_of_mem _ hr

theorem categoryGroups_sum (rows : List Row) :
    ((categoryGroups rows).map (fun g => (g.2.map amountOf).sum)).sum
      = (rows.map amountOf).sum := by
  have h := sum_groups ((categoryGroups rows).map Prod.fst) (categoryGroups_nodup rows)
    (fun r => r.get "category") amountOf rows (fun r hr => categoryGroups_cover hr)
  rw [← h, List.map_map]
  congr 1
  apply List.map_congr_left
  intro g hg
  simp only [Function.comp, (categoryGroups_mem hg).1]

theorem categoryGroups_ne_nil {rows : List Row} {g : Value × List Row}
    (hg : g ∈ categoryGroups rows) : g.2 ≠ [] := by
  obtain ⟨hg2, r, hr, hrc⟩ := categoryGroups_mem hg
  intro he
  have : r ∈ g.2 := by
    rw [hg2]
    exact List.mem_filter.mpr ⟨hr, by simpa using hrc⟩
  rw [he] at this
  cases this

/-- In the exact arithmetic of the model, on an open store whose amounts are stored as
numbers: the entries of `categoryBreakdown` have pairwise distinct categories, the
category of every outgoing row in range is one of them, the total of an entry is the sum
of `amount` over the rows in range with its category, the totals are in descending
order, and they sum to `outgoingTotal`.  The last of these is a fact of exact sums; of
the doubles the engine computes with it does not hold
(`sumDouble`, `categoryBreakdownDouble`). -/
theorem categoryBreakdown_sum_exact (cv : Conversions) (ct : Casts) (startDate endDate : String)
    (s : Store) (c : Connection) (hdb : s.db = some c)
    (hinc : RealAmounts c.data.income) (hout : RealAmounts c.data.outgoing) :
    ∃ (h : HistoryData) (entries : List (Value × ℚ)),
      getHistoryData cv ct (.string startDate) (.string endDate) s = (.ok h, s) ∧
      h.categoryBreakdown
        = entries.map (fun e => [("category", toJs e.1), ("total", JsValue.number e.2)]) ∧
      (entries.map Prod.fst).Nodup ∧
      (∀ r ∈ c.data.outgoing.rows.filter (dateBetween cv (.text startDate) (.text endDate)),
        r.get "category" ∈ entries.map Prod.fst) ∧
      (∀ e ∈ entries,
        (∃ r ∈ c.data.outgoing.rows.filter (dateBetween cv (.text startDate) (.text endDate)),
          r.get "category" = e.1) ∧
        e.2 = (((c.data.outgoing.rows.filter
            (dateBetween cv (.text startDate) (.text endDate))).filter
              (fun r => decide (r.get "category" = e.1))).map amountOf).sum) ∧
      entries.Pairwise (fun x y => y.2 ≤ x.2) ∧
      h.outgoingTotal = .number (entries.map Prod.snd).sum := by
  have hP : ∀ p ∈ (categoryGroups (c.data.outgoing.rows.filter
        (dateBetween cv (.text startDate) (.text endDate)))).map (fun g =>
          (g.1, if g.2 = [] then Value.null else Value.real (g.2.map amountOf).sum)),
      (∃ r ∈ c.data.outgoing.rows.filter (dateBetween cv (.text startDate) (.text endDate)),
        r.get "category" = p.1) ∧
      p.2 = .real (((c.data.outgoing.rows.filter
          (dateBetween cv (.text startDate) (.text endDate))).filter
            (fun r => decide (r.get "category" = p.1))).map amountOf).sum := by
    intro p hp
    obtain ⟨g, hg, rfl⟩ := List.mem_map.mp hp
    obtain ⟨hg2, r, hr, hrc⟩ := categoryGroups_mem hg
    refine ⟨⟨r, hr, hrc⟩, ?_⟩
    simp only [categoryGroups_ne_nil hg, if_false]
    rw [← hg2]
  have hperm := List.perm_insertionSort totalDesc
    ((categoryGroups (c.data.outgoing.rows.filter
        (dateBetween cv (.text startDate) (.text endDate)))).map (fun g =>
          (g.1, if g.2 = [] then Value.null else Value.real (g.2.map amountOf).sum)))
  have hS : ∀ p ∈ (((categoryGroups (c.data.outgoing.rows.filter
        (dateBetween cv (.text startDate) (.text endDate)))).map (fun g =>
          (g.1, if g.2 = [] then Value.null
            else Value.real (g.2.map amountOf).sum))).insertionSort totalDesc),
      (∃ r ∈ c.data.outgoing.rows.filter (dateBetween cv (.text startDate) (.text endDate)),
        r.get "category" = p.1) ∧
      p.2 = .real (((c.data.outgoing.rows.filter
          (dateBetween cv (.text startDate) (.text endDate))).filter
            (fun r => decide (r.get "category" = p.1))).map amountOf).sum :=
    fun p hp => hP p (hperm.mem_iff.mp hp)
  refine ⟨_, (((categoryGroups (c.data.outgoing.rows.filter
        (dateBetween cv (.text startDate) (.text endDate)))).map (fun g =>
          (g.1, if g.2 = [] then Value.null
            else Value.real (g.2.map amountOf).sum))).insertionSort totalDesc).map
      (fun p => (p.1, p.2.ratOf)),
    getHistoryData_real cv ct startDate endDate hdb hinc hout, ?_, ?_, ?_, ?_, ?_, ?_⟩
  · simp only [List.map_map]
    apply List.map_congr_left
    intro p hp
    simp only [Function.comp, (hS p hp).2, toJs, Value.ratOf]
  · rw [List.map_map]
    have h1 : (Prod.fst ∘ fun p : Value × Value => (p.1, p.2.ratOf)) = Prod.fst := rfl
    rw [h1]
    refine (hperm.map Prod.fst).nodup_iff.mpr ?_
    rw [List.map_map]
    exact categoryGroups_nodup _
  · intro r hr
    rw [List.map_map]
    have h1 : (Prod.fst ∘ fun p : Value × Value => (p.1, p.2.ratOf)) = Prod.fst := rfl
    rw [h1, (hperm.map Prod.fst).mem_iff, List.map_map]
    exact categoryGroups_cover hr
  · intro e he
    obtain ⟨p, hp, rfl⟩ := List.mem_map.mp he
    refine ⟨(hS p hp).1, ?_⟩
    simp only [(hS p hp).2, Value.ratOf]
  · rw [List.pairwise_map]
    have hs : ((((categoryGroups (c.data.outgoing.rows.filter
        (dateBetween cv (.text startDate) (.text endDate)))).map (fun g =>
          (g.1, if g.2 = [] then Value.null
            else Value.real (g.2.map amountOf).sum))).insertionSort totalDesc)).Pairwise
        totalDesc := by
      haveI : IsTotal (Value × Value) totalDesc := ⟨fun x y => Value.leb_total _ _⟩
      haveI : IsTrans (Value × Value) totalDesc := ⟨fun _ _ _ h1 h2 => Value.leb_trans h2 h1⟩
      exact List.sorted_insertionSort totalDesc _
    refine hs.imp_of_mem ?_
    intro x y hx hy hxy
    simp only [totalDesc, (hS x hx).2, (hS y hy).2, Value.leb, decide_eq_true_eq] at hxy
    simp only [(hS x hx).2, (hS y hy).2, Value.ratOf]
    exact hxy
  · show JsValue.number _ = JsValue.number _
    congr 1
    rw [List.map_map, ← categoryGroups_sum, ((hperm.map _).sum_eq), List.map_map]
    congr 1
    apply List.map_congr_left
    intro g hg
    simp only [Function.comp, categoryGroups_ne_nil hg, if_false, Value.ratOf]

/-- C30 (amended): on an open store whose amounts are stored as numbers, `getHistoryData`
returns; the entries of `categoryBreakdown` have pairwise distinct categories, the
category of every outgoing row in range is the category of one entry (so every row in
range is counted in exactly one entry), the total of an entry is the sum of `amount`
over the rows in range with its category, and the entries are in descending order of
their totals. -/
theorem categoryBreakdown_partition (cv : Conversions) (ct : Casts) (startDate endDate : String)
    (s : Store) (c : Connection) (hdb : s.db = some c)
    (hinc : RealAmounts c.data.income) (hout : RealAmounts c.data.outgoing) :
    ∃ (h : HistoryData) (entries : List (Value × ℚ)),
      getHistoryData cv ct (.string startDate) (.string endDate) s = (.ok h, s) ∧
      h.categoryBreakdown
        = entries.map (fun e => [("category", toJs e.1), ("total", JsValue.number e.2)]) ∧
      (entries.map Prod.fst).Nodup ∧
      (∀ r ∈ c.data.outgoing.rows.filter (dateBetween cv (.text startDate) (.text endDate)),
        r.get "category" ∈ entries.map Prod.fst) ∧
      (∀ e ∈ entries,
        (∃ r ∈ c.data.outgoing.rows.filter (dateBetween cv (.text startDate) (.text endDate)),
          r.get "category" = e.1) ∧
        e.2 = (((c.data.outgoing.rows.filter
            (dateBetween cv (.text startDate) (.text endDate))).filter
              (fun r => decide (r.get "category" = e.1))).map amountOf).sum) ∧
      entries.Pairwise (fun x y => y.2 ≤ x.2) := by
  obtain ⟨h, entries, h1, h2, h3, h4, h5, h6, _⟩ :=
    categoryBreakdown_sum_exact cv ct startDate endDate s c hdb hinc hout
  exact ⟨h, entries, h1, h2, h3, h4, h5, h6⟩

theorem categoryBreakdown_partition_witness :
    ∃ (h : HistoryData) (entries : List (Value × ℚ)),
      getHistoryData plainConversions plainCasts (.string "2024-01-01") (.string "2024-01-31")
        uncategorizedLedger = (.ok h, uncategorizedLedger) ∧
      h.categoryBreakdown
        = entries.map (fun e => [("category", toJs e.1), ("total", JsValue.number e.2)]) ∧
      (entries.map Prod.fst).Nodup ∧
      (∀ r ∈ (Connection.mk (uncategorizedLedger.file.get rfl) 0 0).data.outgoing.rows.filter
          (dateBetween plainConversions (.text "2024-01-01") (.text "2024-01-31")),
        r.get "category" ∈ entries.map Prod.fst) ∧
      (∀ e ∈ entries,
        (∃ r ∈ (Connection.mk (uncategorizedLedger.file.get rfl) 0 0).data.outgoing.rows.filter
            (dateBetween plainConversions (.text "2024-01-01") (.text "2024-01-31")),
          r.get "category" = e.1) ∧
        e.2 = ((((Connection.mk (uncategorizedLedger.file.get rfl) 0 0).data.outgoing.rows.filter
            (dateBetween plainConversions (.text "2024-01-01") (.text "2024-01-31"))).filter
              (fun r => decide (r.get "category" = e.1))).map amountOf).sum) ∧
      entries.Pairwise (fun x y => y.2 ≤ x.2) :=
  categoryBreakdown_partition plainConversions plainCasts "2024-01-01" "2024-01-31"
    uncategorizedLedger ⟨uncategorizedLedger.file.get rfl, 0, 0⟩ rfl
    (realAmounts_of_all rfl) (realAmounts_of_all rfl)

/-- C30 (counterexample): three outgoing rows in January 2024, of 149.84, 951.39 and
275.2, each in a category of its own.  In the doubles of the engine `outgoingTotal`,
summed in the order of the scan, is 1376.43; the entries of `categoryBreakdown` are the
three amounts in descending order, and their sum, taken in that order in doubles, is
1376.4299999999998; their exact sum differs from `outgoingTotal` as well. -/
theorem categoryBreakdown_partition_counterexample :
    (roundingLedger.db.bind (fun c => totalBetweenDouble plainConversions c.data.outgoing
        (.text "2024-01-01") (.text "2024-01-31")))
      = some (6053603159278879 / 4398046511104) ∧
    (roundingLedger.db.bind (fun c => categoryBreakdownDouble plainConversions c.data.outgoing
        (.text "2024-01-01") (.text "2024-01-31")))
      = some [(.text "Y", 8368514940398469 / 8796093022208),
          (.text "Z", 4841369599423283 / 17592186044416),
          (.text "X", 5272026313790587 / 35184372088832)] ∧
    sumDouble [8368514940398469 / 8796093022208, 4841369599423283 / 17592186044416,
        5272026313790587 / 35184372088832]
      = some (3026801579639439 / 2199023255552) ∧
    (3026801579639439 / 2199023255552 : ℚ) ≠ 6053603159278879 / 4398046511104 ∧
    (8368514940398469 / 8796093022208 + 4841369599423283 / 17592186044416
        + 5272026313790587 / 35184372088832 : ℚ) ≠ 6053603159278879 / 4398046511104 := by
  decide!


theorem orderedInsert_stable (r : Row → Row → Prop) [DecidableRel r]
    (htot : ∀ a b, r a b ∨ r b a) (htrans : ∀ a b c, r a b → r b c → r a c)
    (a : Row) (l : List Row)
    (hl : l.Pairwise (fun x y => r x y ∧ (r y x → x.id < y.id)))
    (hid : ∀ x ∈ l, a.id < x.id) :
    (l.orderedInsert r a).Pairwise (fun x y => r x y ∧ (r y x → x.id < y.id)) := by
  induction l with
  | nil => simp
  | cons b l ih =>
      obtain ⟨hb, hl2⟩ := List.pairwise_cons.mp hl
      by_cases hab : r a b
      · rw [List.orderedInsert, if_pos hab]
        refine List.pairwise_cons.mpr ⟨?_, hl⟩
        intro x hx
        refine ⟨?_, fun _ => hid x hx⟩
        rcases List.mem_cons.mp hx with rfl | hx2
        · exact hab
        · exact htrans _ _ _ hab (hb x hx2).1
      · rw [List.orderedInsert, if_neg hab]
        refine List.pairwise_cons.mpr ⟨?_, ih hl2 (fun x hx => hid x (List.mem_cons_of_mem _ hx))⟩
        intro x hx
        rcases (List.mem_orderedInsert _).mp hx with rfl | hx2
        · exact ⟨(htot _ _).resolve_left hab, fun h => absurd h hab⟩
        · exact hb x hx2

theorem insertionSort_stable (r : Row → Row → Prop) [DecidableRel r]
    (htot : ∀ a b, r a b ∨ r b a) (htrans : ∀ a b c, r a b → r b c → r a c)
    (l : List Row) (hs : l.Pairwise (fun a b => a.id < b.id)) :
    (l.insertionSort r).Pairwise (fun x y => r x y ∧ (r y x → x.id < y.id)) := by
  induction l with
  | nil => simp
  | cons a l ih =>
      obtain ⟨ha, hl⟩ := List.pairwise_cons.mp hs
      rw [List.insertionSort]
      refine orderedInsert_stable r htot htrans a _ (ih hl) ?_
      intro x hx
      exact ha x ((List.mem_insertionSort _).mp hx)

theorem sqlAvg_real (cv : Conversions) (ct : Casts) (qs : List ℚ) :
    sqlAvg cv ct (qs.map Value.real)
      = if qs = [] then Value.null else Value.real (qs.sum / qs.length) := by
  simp only [sqlAvg, foldl_sumStep_real]
  cases qs with
  | nil => simp
  | cons q qs => simp

theorem monthGroups_mem {cv : Conversions} {rows : List Row} {g : Value × List Row}
    (hg : g ∈ monthGroups cv rows) :
    g.2 = rows.filter (fun r => decide (monthKey cv r = g.1)) ∧
    ∃ r ∈ rows, monthKey cv r = g.1 := by
  simp only [monthGroups, List.mem_map] at hg
  obtain ⟨k, hk, rfl⟩ := hg
  refine ⟨rfl, ?_⟩
  rw [(List.perm_insertionSort keyLe _).mem_iff, List.mem_dedup, List.mem_map] at hk
  exact hk

theorem monthGroups_ne_nil {cv : Conversions} {rows : List Row} {g : Value × List Row}
    (hg : g ∈ monthGroups cv rows) : g.2 ≠ [] := by
  obtain ⟨hg2, r, hr, hrc⟩ := monthGroups_mem hg
  intro he
  have : r ∈ g.2 := by
    rw [hg2]
    exact List.mem_filter.mpr ⟨hr, by simpa using hrc⟩
  rw [he] at this
  cases this

theorem monthGroups_keys (cv : Conversions) (rows : List Row) :
    (monthGroups cv rows).map Prod.fst
      = ((rows.map (monthKey cv)).dedup).insertionSort keyLe := by
  simp only [monthGroups, List.map_map]
  exact List.map_id _

theorem monthGroups_nodup (cv : Conversions) (rows : List Row) :
    ((monthGroups cv rows).map Prod.fst).Nodup := by
  rw [monthGroups_keys]
  exact (List.perm_insertionSort keyLe _).nodup_iff.mpr (List.nodup_dedup _)

theorem monthGroups_cover {cv : Conversions} {rows : List Row} {r : Row} (hr : r ∈ rows) :
    monthKey cv r ∈ (monthGroups cv rows).map Prod.fst := by
  rw [monthGroups_keys, (List.perm_insertionSort keyLe _).mem_iff, List.mem_dedup]
  exact List.mem_map_of_mem _ hr

theorem monthGroups_sum (cv : Conversions) (rows : List Row) :
    ((monthGroups cv rows).map (fun g => (g.2.map amountOf).sum)).sum
      = (rows.map amountOf).sum := by
  have h := sum_groups ((monthGroups cv rows).map Prod.fst) (monthGroups_nodup cv rows)
    (monthKey cv) amountOf rows (fun r hr => monthGroups_cover hr)
  rw [← h, List.map_map]
  congr 1
  apply List.map_congr_left
  intro g hg
  simp only [Function.comp, (monthGroups_mem hg).1]

theorem monthlyTotals_real (cv : Conversions) (ct : Casts) (groups : List (Value × List Row))
    (h : ∀ g ∈ groups, ∀ r ∈ g.2, ∃ q, r.get "amount" = .real q)
    (hne : ∀ g ∈ groups, g.2 ≠ []) :
    monthlyTotals cv ct groups
      = .ok ((groups.map (fun g => (g.2.map amountOf).sum)).map Value.real) := by
  induction groups with
  | nil => rfl
  | cons g rest ih =>
      obtain ⟨k, rows⟩ := g
      have h1 := sqlSum_amounts cv ct (h (k, rows) (List.mem_cons_self _ _))
      have h0 : rows ≠ [] := hne (k, rows) (List.mem_cons_self _ _)
      have h2 := ih (fun g hg => h g (List.mem_cons_of_mem _ hg))
        (fun g hg => hne g (List.mem_cons_of_mem _ hg))
      simp only [monthlyTotals, h1, h2, h0, if_false, List.map_cons]

theorem orElse_single (col : String) (q : ℚ) :
    orElse (property col (resultToObject [⟨[col], [[.number q]]⟩])) (.number 0)
      = .number q := by
  have hp : property col (resultToObject [⟨[col], [[.number q]]⟩]) = .number q := by
    simp [resultToObject, resultToObjects, property, List.lookup]
  rw [hp]
  by_cases hq : q = 0
  · simp [orElse, truthy, hq]
  · simp [orElse, truthy, hq]

theorem orElse_single_null (col : String) :
    orElse (property col (resultToObject [⟨[col], [[.null]]⟩])) (.number 0) = .number 0 := by
  simp [resultToObject, resultToObjects, property, List.lookup, orElse, truthy]

theorem avgMonthly_real (cv : Conversions) (ct : Casts) {t : Table} (h : RealAmounts t) :
    ∃ res, selectAvgMonthly cv ct t = .ok res ∧
      orElse (property "avg" (resultToObject res)) (.number 0)
        = .number (if monthGroups cv t.rows = [] then 0
            else ((monthGroups cv t.rows).map (fun g => (g.2.map amountOf).sum)).sum
              / (monthGroups cv t.rows).length) := by
  have hg : ∀ g ∈ monthGroups cv t.rows, ∀ r ∈ g.2, ∃ q, r.get "amount" = .real q := by
    intro g hg r hr
    rw [(monthGroups_mem hg).1] at hr
    exact h r (List.mem_filter.mp hr).1
  have hm := monthlyTotals_real cv ct _ hg (fun g hg => monthGroups_ne_nil hg)
  refine ⟨[⟨["avg"], [[toJs (sqlAvg cv ct
    (((monthGroups cv t.rows).map (fun g => (g.2.map amountOf).sum)).map Value.real))]]⟩],
    ?_, ?_⟩
  · simp only [selectAvgMonthly, hm]
  rw [sqlAvg_real]
  cases hgs : monthGroups cv t.rows with
  | nil => simp [toJs, orElse_single_null]
  | cons g gs =>
      simp only [List.map_cons, reduceCtorEq, if_false, toJs, orElse_single, List.length_cons,
        List.length_map]


theorem monthsAgo_three_ok (offsetMinutes year : Int) (month : Nat)
    (hy : -100000 ≤ year ∧ year ≤ 100000) (hm : month ≤ 11)
    (ho : -1440 ≤ offsetMinutes ∧ offsetMinutes ≤ 1440) :
    ∃ b, monthsAgo offsetMinutes year month 3 = .ok b := by
  simp only [monthsAgo, isoDate, makeLocalDate, daysFromCivil]
  rw [if_pos]
  · exact ⟨_, rfl⟩
  · split_ifs <;> omega

theorem monthsAgo_six_ok (offsetMinutes year : Int) (month : Nat)
    (hy : -100000 ≤ year ∧ year ≤ 100000) (hm : month ≤ 11)
    (ho : -1440 ≤ offsetMinutes ∧ offsetMinutes ≤ 1440) :
    ∃ b, monthsAgo offsetMinutes year month 6 = .ok b := by
  simp only [monthsAgo, isoDate, makeLocalDate, daysFromCivil]
  rw [if_pos]
  · exact ⟨_, rfl⟩
  · split_ifs <;> omega


theorem selectBalance_real (cv : Conversions) (ct : Casts) {d : Database}
    (hinc : RealAmounts d.income) (hout : RealAmounts d.outgoing) :
    selectBalance cv ct d
      = .ok [⟨["balance"],
          [[.number ((d.income.rows.map amountOf).sum - (d.outgoing.rows.map amountOf).sum)]]⟩] := by
  simp only [selectBalance, sqlSum_amounts cv ct hinc, sqlSum_amounts cv ct hout]
  cases hi : d.income.rows with
  | nil =>
      cases ho : d.outgoing.rows with
      | nil =>
          simp [coalesce, sqlMinus, toJs]
          decide
      | cons r rs => simp [coalesce, sqlMinus, toJs]
  | cons r rs =>
      cases ho : d.outgoing.rows with
      | nil => simp [coalesce, sqlMinus, toJs]
      | cons r2 rs2 => simp [coalesce, sqlMinus, toJs]

theorem selectCategoryTotals_real (cv : Conversions) (ct : Casts) {rows : List Row}
    (h : ∀ r ∈ rows, ∃ q, r.get "amount" = .real q) :
    ∃ res, selectCategoryTotals cv ct rows = .ok res ∧
      resultToObjects res = (categoryGroups rows).map (fun g =>
        [("category", toJs g.1), ("total", JsValue.number (g.2.map amountOf).sum)]) := by
  have hcat := categoryTotals_real cv ct _ (categoryGroups_real h)
  refine ⟨categoryResult ((categoryGroups rows).map (fun g =>
    (g.1, if g.2 = [] then Value.null else Value.real (g.2.map amountOf).sum))), ?_, ?_⟩
  · simp only [selectCategoryTotals, hcat]
  · rw [resultToObjects_categoryResult, List.map_map]
    apply List.map_congr_left
    intro g hg
    simp only [Function.comp, categoryGroups_ne_nil hg, if_false, toJs]

theorem property_recordOf_outgoing (r : Row) (col : String) (column : Column)
    (hcol : columnOf "outgoing" col = some column) (hne : col ≠ "id") :
    property col (some (recordOf "outgoing" r)) = toJs (r.get col) := by
  simp only [property]
  rw [lookup_recordOf r hne, hcol]
  rfl

theorem toJs_eq_string (v : Value) (t : String) : toJs v = .string t ↔ v = .text t := by
  cases v <;> simp [toJs]

theorem foldl_plus_amounts (rt : Runtime) (rows : List Row)
    (h : ∀ r ∈ rows, ∃ q, r.get "amount" = .real q) :
    ∀ a : ℚ, (rows.map (recordOf "outgoing")).foldl
        (fun sum o => plus rt sum (orElse (property "amount" (some o)) (.number 0)))
        (.number a)
      = .number (a + (rows.map amountOf).sum) := by
  induction rows with
  | nil => intro a; simp
  | cons r rs ih =>
      intro a
      obtain ⟨q, hq⟩ := h r (List.mem_cons_self _ _)
      have hp : property "amount" (some (recordOf "outgoing" r)) = .number q := by
        rw [property_recordOf_outgoing r "amount" _ rfl (by decide), hq]
        rfl
      have ho : orElse (JsValue.number q) (.number 0) = .number q := by
        by_cases h0 : q = 0
        · simp [orElse, truthy, h0]
        · simp [orElse, truthy, h0]
      have ha : amountOf r = q := by simp [amountOf, hq]
      rw [List.map_cons, List.foldl_cons, List.map_cons, List.sum_cons, ha]
      show List.foldl _ (plus rt (JsValue.number a)
        (orElse (property "amount" (some (recordOf "outgoing" r))) (JsValue.number 0))) _ = _
      rw [hp, ho]
      show List.foldl _ (JsValue.number (a + q)) _ = _
      rw [ih (fun x hx => h x (List.mem_cons_of_mem _ hx)), add_assoc]

theorem subscriptionMonthlyTotal_real (rt : Runtime) {t : Table} (h : RealAmounts t) :
    (((((t.rows.filter isRecurring).insertionSort nextPaymentAsc).map
        (recordOf "outgoing")).filter (fun o =>
          decide (property "billingCycle" (some o) = .string "monthly"))).foldl
        (fun sum o => plus rt sum (orElse (property "amount" (some o)) (.number 0)))
        (.number 0))
      = .number ((t.rows.filter (fun r => isRecurring r &&
          decide (r.get "billingCycle" = .text "monthly"))).map amountOf).sum := by
  have hf : (((t.rows.filter isRecurring).insertionSort nextPaymentAsc).map
        (recordOf "outgoing")).filter (fun o =>
          decide (property "billingCycle" (some o) = .string "monthly"))
      = (((t.rows.filter isRecurring).insertionSort nextPaymentAsc).filter (fun r =>
          decide (r.get "billingCycle" = .text "monthly"))).map (recordOf "outgoing") := by
    rw [List.filter_map]
    congr 1
    apply List.filter_congr
    intro r _
    simp only [Function.comp, property_recordOf_outgoing r "billingCycle" _ rfl (by decide),
      toJs_eq_string]
  have hperm := List.perm_insertionSort nextPaymentAsc (t.rows.filter isRecurring)
  have hmem : ∀ r ∈ ((t.rows.filter isRecurring).insertionSort nextPaymentAsc).filter (fun r =>
      decide (r.get "billingCycle" = .text "monthly")), ∃ q, r.get "amount" = .real q := by
    intro r hr
    exact h r (List.mem_filter.mp (hperm.mem_iff.mp (List.mem_filter.mp hr).1)).1
  rw [hf, foldl_plus_amounts rt _ hmem 0, zero_add]
  congr 1
  rw [((hperm.filter _).map amountOf).sum_eq, List.filter_filter]
  congr 2
  apply List.filter_congr
  intro r _
  exact Bool.and_comm _ _


theorem getPredictionData_real (cv : Conversions) (ct : Casts) (rt : Runtime)
    (offsetMinutes year : Int) (month : Nat) {s : Store} {c : Connection} {b3 b6 : String}
    (hdb : s.db = some c) (hinc : RealAmounts c.data.income)
    (hout : RealAmounts c.data.outgoing)
    (h3 : monthsAgo offsetMinutes year month 3 = .ok b3)
    (h6 : monthsAgo offsetMinutes year month 6 = .ok b6) :
    getPredictionData cv ct rt offsetMinutes year month s =
      (.ok { subscriptions := ((c.data.outgoing.rows.filter isRecurring).insertionSort
                nextPaymentAsc).map (recordOf "outgoing"),
             avgMonthlyIncome := .number (if monthGroups cv c.data.income.rows = [] then 0
                else ((monthGroups cv c.data.income.rows).map
                    (fun g => (g.2.map amountOf).sum)).sum
                  / (monthGroups cv c.data.income.rows).length),
             avgMonthlyOutgoing := .number (if monthGroups cv c.data.outgoing.rows = [] then 0
                else ((monthGroups cv c.data.outgoing.rows).map
                    (fun g => (g.2.map amountOf).sum)).sum
                  / (monthGroups cv c.data.outgoing.rows).length),
             recentCategories := (categoryGroups (c.data.outgoing.rows.filter
                (dateFrom cv (.text b3)))).map (fun g =>
                  [("category", toJs g.1), ("total", JsValue.number (g.2.map amountOf).sum)]),
             previousCategories := (categoryGroups (c.data.outgoing.rows.filter
                (dateFromTo cv (.text b6) (.text b3)))).map (fun g =>
                  [("category", toJs g.1), ("total", JsValue.number (g.2.map amountOf).sum)]),
             currentBalance := .number ((c.data.income.rows.map amountOf).sum
                - (c.data.outgoing.rows.map amountOf).sum),
             subscriptionMonthlyTotal := .number ((c.data.outgoing.rows.filter (fun r =>
                isRecurring r && decide (r.get "billingCycle" = .text "monthly"))).map
                  amountOf).sum }, s) := by
  obtain ⟨ai, hai, hai2⟩ := avgMonthly_real cv ct hinc
  obtain ⟨ao, hao, hao2⟩ := avgMonthly_real cv ct hout
  obtain ⟨rc, hrc, hrc2⟩ := @selectCategoryTotals_real cv ct
    (c.data.outgoing.rows.filter (dateFrom cv (.text b3)))
    (fun r hr => hout r (List.mem_filter.mp hr).1)
  obtain ⟨pc, hpc, hpc2⟩ := @selectCategoryTotals_real cv ct
    (c.data.outgoing.rows.filter (dateFromTo cv (.text b6) (.text b3)))
    (fun r hr => hout r (List.mem_filter.mp hr).1)
  simp only [getPredictionData, hdb, hai, hao, hai2, hao2, h3, h6, hrc, hpc, hrc2, hpc2,
    selectBalance_real cv ct hinc hout, orElse_single, selectSubscriptions,
    resultToObjects_resultSet, subscriptionMonthlyTotal_real rt hout]


theorem monthGroups_mem_keys (cv : Conversions) (rows : List Row) (k : Value) :
    k ∈ (monthGroups cv rows).map Prod.fst ↔ ∃ r ∈ rows, monthKey cv r = k := by
  rw [monthGroups_keys, (List.perm_insertionSort keyLe _).mem_iff, List.mem_dedup, List.mem_map]

theorem monthGroups_totals (cv : Conversions) (rows : List Row) :
    (monthGroups cv rows).map (fun g => (g.2.map amountOf).sum)
      = ((monthGroups cv rows).map Prod.fst).map (fun k =>
          ((rows.filter (fun r => decide (monthKey cv r = k))).map amountOf).sum) := by
  rw [List.map_map]
  apply List.map_congr_left
  intro g hg
  simp only [Function.comp]
  have h2 := (monthGroups_mem hg).1
  conv_lhs => rw [h2]

theorem monthlyAverage_spec (cv : Conversions) (rows : List Row) :
    ∃ (avg : ℚ) (months : List Value),
      avg = (if monthGroups cv rows = [] then 0
        else ((monthGroups cv rows).map (fun g => (g.2.map amountOf).sum)).sum
          / (monthGroups cv rows).length) ∧
      months.Nodup ∧
      (∀ k, k ∈ months ↔ ∃ r ∈ rows, monthKey cv r = k) ∧
      avg = (if months = [] then 0
        else (months.map (fun k =>
            ((rows.filter (fun r => decide (monthKey cv r = k))).map amountOf).sum)).sum
          / months.length) ∧
      avg * months.length = (rows.map amountOf).sum ∧
      (rows = [] → avg = 0) := by
  refine ⟨_, (monthGroups cv rows).map Prod.fst, rfl, monthGroups_nodup cv rows,
    monthGroups_mem_keys cv rows, ?_, ?_, ?_⟩
  · rw [monthGroups_totals]
    cases hg : monthGroups cv rows with
    | nil => simp
    | cons g gs => simp
  · cases hg : monthGroups cv rows with
    | nil =>
        have hrows : rows = [] := by
          cases hr : rows with
          | nil => rfl
          | cons r rs =>
              have hm := @monthGroups_cover cv rows r
                (by rw [hr]; exact List.mem_cons_self _ _)
              rw [hg] at hm
              cases hm
        simp [hrows]
    | cons g gs =>
        rw [← hg, ← monthGroups_sum cv rows]
        have hlen : ((monthGroups cv rows).length : ℚ) ≠ 0 := by
          rw [hg]
          simp only [List.length_cons, Nat.cast_add, Nat.cast_one]
          positivity
        have hne : monthGroups cv rows ≠ [] := by rw [hg]; simp
        simp only [hne, if_false, List.length_map]
        field_simp
  · intro hrows
    subst hrows
    rfl

/-- C23 (amended): on an open store whose amounts are stored as numbers (and for a
current date and a time zone offset in the range of `Date`), `getPredictionData`
returns; `avgMonthlyIncome` is the arithmetic mean, over the distinct keys
`substr(date, 1, 7)` of the income rows, of the sums of `amount` of the rows with that
key, and 0 when there is no income row.  The same holds for `avgMonthlyOutgoing` and the
outgoing rows. -/
theorem getPredictionData_averages (cv : Conversions) (ct : Casts) (rt : Runtime)
    (offsetMinutes year : Int) (month : Nat) (s : Store) (c : Connection)
    (hdb : s.db = some c) (hinc : RealAmounts c.data.income)
    (hout : RealAmounts c.data.outgoing)
    (hy : -100000 ≤ year ∧ year ≤ 100000) (hm : month ≤ 11)
    (ho : -1440 ≤ offsetMinutes ∧ offsetMinutes ≤ 1440) :
    ∃ (p : PredictionData) (avgIncome avgOutgoing : ℚ) (incomeMonths outgoingMonths : List Value),
      getPredictionData cv ct rt offsetMinutes year month s = (.ok p, s) ∧
      p.avgMonthlyIncome = .number avgIncome ∧
      incomeMonths.Nodup ∧
      (∀ k, k ∈ incomeMonths ↔ ∃ r ∈ c.data.income.rows, monthKey cv r = k) ∧
      avgIncome = (if incomeMonths = [] then 0
        else (incomeMonths.map (fun k => ((c.data.income.rows.filter
            (fun r => decide (monthKey cv r = k))).map amountOf).sum)).sum
          / incomeMonths.length) ∧
      (c.data.income.rows = [] → avgIncome = 0) ∧
      p.avgMonthlyOutgoing = .number avgOutgoing ∧
      outgoingMonths.Nodup ∧
      (∀ k, k ∈ outgoingMonths ↔ ∃ r ∈ c.data.outgoing.rows, monthKey cv r = k) ∧
      avgOutgoing = (if outgoingMonths = [] then 0
        else (outgoingMonths.map (fun k => ((c.data.outgoing.rows.filter
            (fun r => decide (monthKey cv r = k))).map amountOf).sum)).sum
          / outgoingMonths.length) ∧
      (c.data.outgoing.rows = [] → avgOutgoing = 0) := by
  obtain ⟨b3, h3⟩ := monthsAgo_three_ok offsetMinutes year month hy hm ho
  obtain ⟨b6, h6⟩ := monthsAgo_six_ok offsetMinutes year month hy hm ho
  obtain ⟨ai, mi, hi0, hi1, hi2, hi3, _, hi5⟩ := monthlyAverage_spec cv c.data.income.rows
  obtain ⟨ao, mo, ho0, ho1, ho2, ho3, _, ho5⟩ := monthlyAverage_spec cv c.data.outgoing.rows
  refine ⟨_, ai, ao, mi, mo,
    getPredictionData_real cv ct rt offsetMinutes year month hdb hinc hout h3 h6,
    ?_, hi1, hi2, hi3, hi5, ?_, ho1, ho2, ho3, ho5⟩
  · simp only [hi0]
  · simp only [ho0]

theorem getPredictionData_averages_witness :
    ∃ (p : PredictionData) (avgIncome avgOutgoing : ℚ) (incomeMonths outgoingMonths : List Value),
      getPredictionData plainConversions plainCasts plainRuntime 60 2024 5 subscriptionLedger
        = (.ok p, subscriptionLedger) ∧
      p.avgMonthlyIncome = .number avgIncome ∧
      incomeMonths.Nodup ∧
      (∀ k, k ∈ incomeMonths ↔
        ∃ r ∈ (Connection.mk (subscriptionLedger.file.get rfl) 0 0).data.income.rows,
          monthKey plainConversions r = k) ∧
      avgIncome = (if incomeMonths = [] then 0
        else (incomeMonths.map (fun k =>
          (((Connection.mk (subscriptionLedger.file.get rfl) 0 0).data.income.rows.filter
            (fun r => decide (monthKey plainConversions r = k))).map amountOf).sum)).sum
          / incomeMonths.length) ∧
      ((Connection.mk (subscriptionLedger.file.get rfl) 0 0).data.income.rows = [] →
        avgIncome = 0) ∧
      p.avgMonthlyOutgoing = .number avgOutgoing ∧
      outgoingMonths.Nodup ∧
      (∀ k, k ∈ outgoingMonths ↔
        ∃ r ∈ (Connection.mk (subscriptionLedger.file.get rfl) 0 0).data.outgoing.rows,
          monthKey plainConversions r = k) ∧
      avgOutgoing = (if outgoingMonths = [] then 0
        else (outgoingMonths.map (fun k =>
          (((Connection.mk (subscriptionLedger.file.get rfl) 0 0).data.outgoing.rows.filter
            (fun r => decide (monthKey plainConversions r = k))).map amountOf).sum)).sum
          / outgoingMonths.length) ∧
      ((Connection.mk (subscriptionLedger.file.get rfl) 0 0).data.outgoing.rows = [] →
        avgOutgoing = 0) :=
  getPredictionData_averages plainConversions plainCasts plainRuntime 60 2024 5
    subscriptionLedger ⟨subscriptionLedger.file.get rfl, 0, 0⟩ rfl
    (realAmounts_of_all rfl) (realAmounts_of_all rfl) (by decide) (by decide) (by decide)

/-- C23 (counterexample): income of 1.25 in one month and of 1 in each of six other
months.  In the doubles of the engine the total income is 7.25 and there are seven
distinct months, but `avgMonthlyIncome` is 1.0357142857142858, the double nearest to
7.25 / 7; seven times that double is not 7.25, neither exactly nor when the product is
rounded to a double (7.250000000000001). -/
theorem getPredictionData_averages_counterexample :
    (roundingLedger.db.bind (fun c => sumDouble (c.data.income.rows.map amountOf)))
      = some (29 / 4) ∧
    (roundingLedger.db.map (fun c => (monthGroups plainConversions c.data.income.rows).length))
      = some 7 ∧
    (roundingLedger.db.bind (fun c => avgMonthlyDouble plainConversions c.data.income))
      = some (4664442471205157 / 4503599627370496) ∧
    (4664442471205157 / 4503599627370496 : ℚ) * 7 ≠ 29 / 4 ∧
    roundDouble (4664442471205157 / 4503599627370496 * 7)
      = some (8162774324609025 / 1125899906842624) ∧
    (8162774324609025 / 1125899906842624 : ℚ) ≠ 29 / 4 := by
  decide!

theorem getPredictionData_examples :
    (getPredictionData plainConversions plainCasts plainRuntime 0 2024 5
        subscriptionLedger).1.toOption.map
      (fun p => (p.subscriptions.map (fun o => o.lookup "id"), p.avgMonthlyIncome,
        p.avgMonthlyOutgoing, p.currentBalance, p.subscriptionMonthlyTotal))
      = some ([some (.number 2), some (.number 1), some (.number 3)], .number 150,
          .number 77, .number 146, .number 25) := by
  with_unfolding_all decide


theorem isoDate_congr {t1 t2 : Int}
    (h1 : -8640000000000000 ≤ t1 ∧ t1 ≤ 8640000000000000)
    (h2 : -8640000000000000 ≤ t2 ∧ t2 ≤ 8640000000000000)
    (hd : t1 / 86400000 = t2 / 86400000) : isoDate t1 = isoDate t2 := by
  simp only [isoDate, h1, h2, hd, and_self, if_true]

theorem monthsAgo_offset (offsetMinutes year : Int) (month : Nat) (n : Int)
    (hy : -100000 ≤ year ∧ year ≤ 100000) (hm : month ≤ 11) (hn : 0 ≤ n ∧ n ≤ 12) :
    (0 < offsetMinutes ∧ offsetMinutes ≤ 1440 →
      monthsAgo offsetMinutes year month n = monthsAgo 1440 year month n) ∧
    (-1440 < offsetMinutes ∧ offsetMinutes ≤ 0 →
      monthsAgo offsetMinutes year month n = monthsAgo 0 year month n) := by
  constructor
  · intro ho
    apply isoDate_congr
    · simp only [makeLocalDate, daysFromCivil]
      split_ifs <;> omega
    · simp only [makeLocalDate, daysFromCivil]
      split_ifs <;> omega
    · simp only [makeLocalDate]
      omega
  · intro ho
    apply isoDate_congr
    · simp only [makeLocalDate, daysFromCivil]
      split_ifs <;> omega
    · simp only [makeLocalDate, daysFromCivil]
      split_ifs <;> omega
    · simp only [makeLocalDate]
      omega

/-- C24: with today in June 2024, the lower bound that `getPredictionData` computes
for `recentCategories` is `2024-03-01` where local time is UTC or five hours behind it,
and `2024-02-29` where local time is one or two hours ahead of UTC: `toISOString` gives
the day in UTC of local midnight of 1 March.  Two hours ahead of UTC, the outgoing row
of 29 February 2024 is counted in `recentCategories` (114 instead of 99) and left out of
`previousCategories`. -/
theorem monthsAgo_ahead_of_utc :
    (monthsAgo 0 2024 5 3).toOption = some "2024-03-01" ∧
    (monthsAgo (-300) 2024 5 3).toOption = some "2024-03-01" ∧
    (monthsAgo 60 2024 5 3).toOption = some "2024-02-29" ∧
    (monthsAgo 120 2024 5 3).toOption = some "2024-02-29" ∧
    (getPredictionData plainConversions plainCasts plainRuntime 0 2024 5
        subscriptionLedger).1.toOption.map (fun p => (p.recentCategories, p.previousCategories))
      = some ([[("category", .null), ("total", .number 99)],
                [("category", .string "Food"), ("total", .number 30)]],
              [[("category", .null), ("total", .number 25)]]) ∧
    (getPredictionData plainConversions plainCasts plainRuntime 120 2024 5
        subscriptionLedger).1.toOption.map (fun p => (p.recentCategories, p.previousCategories))
      = some ([[("category", .null), ("total", .number 114)],
                [("category", .string "Food"), ("total", .number 30)]],
              [[("category", .null), ("total", .number 10)]]) := by
  refine ⟨?_, ?_, ?_, ?_, ?_, ?_⟩ <;> with_unfolding_all decide

theorem Value.leb_null_right {v : Value} (h : Value.leb v .null = true) : v = .null := by
  cases v <;> simp [Value.leb] at h ⊢

/-- C25 (amended): on an open store whose outgoing table is in the state the engine
keeps it in and whose amounts are stored as numbers, `getPredictionData` returns and
`subscriptions` holds the records of exactly the outgoing rows with `recurring = 1`,
each once, sorted by `nextPaymentDate` ascending in the order of the engine, in which
NULL comes first: no row follows a row with a `nextPaymentDate` when its own is NULL.
Rows with equal `nextPaymentDate` appear in ascending order of their id, so the list is
determined by the content of the table. -/
theorem getPredictionData_subscriptions (cv : Conversions) (ct : Casts) (rt : Runtime)
    (offsetMinutes year : Int) (month : Nat) (s : Store) (c : Connection)
    (hdb : s.db = some c) (hinc : RealAmounts c.data.income)
    (hout : RealAmounts c.data.outgoing) (hwf : c.data.outgoing.WF)
    (hy : -100000 ≤ year ∧ year ≤ 100000) (hm : month ≤ 11)
    (ho : -1440 ≤ offsetMinutes ∧ offsetMinutes ≤ 1440) :
    ∃ (p : PredictionData) (rows : List Row),
      getPredictionData cv ct rt offsetMinutes year month s = (.ok p, s) ∧
      p.subscriptions = rows.map (recordOf "outgoing") ∧
      rows.Perm (c.data.outgoing.rows.filter isRecurring) ∧
      rows.Pairwise (fun x y =>
        Value.leb (x.get "nextPaymentDate") (y.get "nextPaymentDate") = true) ∧
      rows.Pairwise (fun x y =>
        y.get "nextPaymentDate" = .null → x.get "nextPaymentDate" = .null) ∧
      rows.Pairwise (fun x y =>
        x.get "nextPaymentDate" = y.get "nextPaymentDate" → x.id < y.id) := by
  obtain ⟨b3, h3⟩ := monthsAgo_three_ok offsetMinutes year month hy hm ho
  obtain ⟨b6, h6⟩ := monthsAgo_six_ok offsetMinutes year month hy hm ho
  have hp := insertionSort_stable nextPaymentAsc (fun a b => Value.leb_total _ _)
    (fun _ _ _ h1 h2 => Value.leb_trans h1 h2) (c.data.outgoing.rows.filter isRecurring)
    (hwf.1.filter _)
  refine ⟨_, _, getPredictionData_real cv ct rt offsetMinutes year month hdb hinc hout h3 h6,
    rfl, List.perm_insertionSort _ _, hp.imp (fun h => h.1), hp.imp ?_, hp.imp ?_⟩
  · intro x y h hn
    have h1 := h.1
    simp only [nextPaymentAsc, hn] at h1
    exact Value.leb_null_right h1
  · intro x y h he
    refine h.2 ?_
    simp only [nextPaymentAsc, he]
    exact (Value.leb_total _ _).elim id id

/-- C25 (counterexample): of three recurring outgoing rows, the one without a
`nextPaymentDate` (id 2) is the first of `subscriptions`, before the rows due on
1 March 2024 (id 1) and on 1 January 2025 (id 3). -/
theorem getPredictionData_subscriptions_counterexample :
    (getPredictionData plainConversions plainCasts plainRuntime 0 2024 5
        subscriptionLedger).1.toOption.map
      (fun p => p.subscriptions.map (fun o => (o.lookup "id", o.lookup "nextPaymentDate")))
      = some [(some (.number 2), some .null),
          (some (.number 1), some (.string "2024-03-01")),
          (some (.number 3), some (.string "2025-01-01"))] := by
  with_unfolding_all decide

/-- C26: on an open store whose amounts are stored as numbers, `getPredictionData`
returns and `subscriptionMonthlyTotal` is the sum of `amount` over the outgoing rows
with `recurring = 1` whose `billingCycle` is the text `monthly`. -/
theorem getPredictionData_subscriptionMonthlyTotal (cv : Conversions) (ct : Casts)
    (rt : Runtime) (offsetMinutes year : Int) (month : Nat) (s : Store) (c : Connection)
    (hdb : s.db = some c) (hinc : RealAmounts c.data.income)
    (hout : RealAmounts c.data.outgoing)
    (hy : -100000 ≤ year ∧ year ≤ 100000) (hm : month ≤ 11)
    (ho : -1440 ≤ offsetMinutes ∧ offsetMinutes ≤ 1440) :
    ∃ p : PredictionData,
      getPredictionData cv ct rt offsetMinutes year month s = (.ok p, s) ∧
      p.subscriptionMonthlyTotal = .number ((c.data.outgoing.rows.filter (fun r =>
        isRecurring r && decide (r.get "billingCycle" = .text "monthly"))).map amountOf).sum := by
  obtain ⟨b3, h3⟩ := monthsAgo_three_ok offsetMinutes year month hy hm ho
  obtain ⟨b6, h6⟩ := monthsAgo_six_ok offsetMinutes year month hy hm ho
  exact ⟨_, getPredictionData_real cv ct rt offsetMinutes year month hdb hinc hout h3 h6, rfl⟩

theorem getPredictionData_subscriptionMonthlyTotal_witness :
    ∃ p : PredictionData,
      getPredictionData plainConversions plainCasts plainRuntime 60 2024 5 subscriptionLedger
        = (.ok p, subscriptionLedger) ∧
      p.subscriptionMonthlyTotal
        = .number (((Connection.mk (subscriptionLedger.file.get rfl) 0 0).data.outgoing.rows.filter
            (fun r => isRecurring r && decide (r.get "billingCycle" = .text "monthly"))).map
              amountOf).sum :=
  getPredictionData_subscriptionMonthlyTotal plainConversions plainCasts plainRuntime 60 2024 5
    subscriptionLedger ⟨subscriptionLedger.file.get rfl, 0, 0⟩ rfl
    (realAmounts_of_all rfl) (realAmounts_of_all rfl) (by decide) (by decide) (by decide)

theorem subscriptionLedger_WF :
    (Connection.mk (subscriptionLedger.file.get rfl) 0 0).data.outgoing.WF := by
  unfold Table.WF
  with_unfolding_all decide

theorem getPredictionData_subscriptions_witness :
    ∃ (p : PredictionData) (rows : List Row),
      getPredictionData plainConversions plainCasts plainRuntime 60 2024 5 subscriptionLedger
        = (.ok p, subscriptionLedger) ∧
      p.subscriptions = rows.map (recordOf "outgoing") ∧
      rows.Perm ((Connection.mk (subscriptionLedger.file.get rfl) 0 0).data.outgoing.rows.filter
        isRecurring) ∧
      rows.Pairwise (fun x y =>
        Value.leb (x.get "nextPaymentDate") (y.get "nextPaymentDate") = true) ∧
      rows.Pairwise (fun x y =>
        y.get "nextPaymentDate" = .null → x.get "nextPaymentDate" = .null) ∧
      rows.Pairwise (fun x y =>
        x.get "nextPaymentDate" = y.get "nextPaymentDate" → x.id < y.id) :=
  getPredictionData_subscriptions plainConversions plainCasts plainRuntime 60 2024 5
    subscriptionLedger ⟨subscriptionLedger.file.get rfl, 0, 0⟩ rfl
    (realAmounts_of_all rfl) (realAmounts_of_all rfl) subscriptionLedger_WF
    (by decide) (by decide) (by decide)


/-- C27: for every prediction record whose averages, subscription total and balance
are numbers, over exact rationals, `calculateProjections` returns `week` =
`currentBalance + weeklyNet`, `month` = `currentBalance + monthlyNet` and `threeMonths`
= `currentBalance + 3 * monthlyNet`, with the weekly and monthly net of the
specification: dividing each term by 4 and subtracting gives what the single division
gives.  Before the predictions are loaded the three projections are 0. -/
theorem calculateProjections_spec (rt : Runtime) (subscriptions : List FieldObject)
    (recentCategories previousCategories : List FieldObject)
    (avgMonthlyIncome avgMonthlyOutgoing subscriptionMonthlyTotal currentBalance : ℚ) :
    calculateProjections rt (some
      { subscriptions := subscriptions,
        avgMonthlyIncome := .number avgMonthlyIncome,
        avgMonthlyOutgoing := .number avgMonthlyOutgoing,
        recentCategories := recentCategories,
        previousCategories := previousCategories,
        currentBalance := .number currentBalance,
        subscriptionMonthlyTotal := .number subscriptionMonthlyTotal })
      = { week := .number (currentBalance
            + weeklyNetSpec avgMonthlyIncome avgMonthlyOutgoing subscriptionMonthlyTotal),
          month := .number (currentBalance
            + monthlyNetSpec avgMonthlyIncome avgMonthlyOutgoing subscriptionMonthlyTotal),
          threeMonths := .number (currentBalance
            + 3 * monthlyNetSpec avgMonthlyIncome avgMonthlyOutgoing subscriptionMonthlyTotal) } ∧
    calculateProjections rt none
      = { week := .number 0, month := .number 0, threeMonths := .number 0 } := by
  refine ⟨?_, rfl⟩
  have h4 : (4 : ℚ) ≠ 0 := by norm_num
  simp only [calculateProjections, divide, h4, if_false, minus, plus, times, weeklyNetSpec,
    monthlyNetSpec]
  congr 2 <;> ring

theorem calculateProjections_examples :
    calculateProjections plainRuntime (some
      { subscriptions := [], avgMonthlyIncome := .number 150, avgMonthlyOutgoing := .number 77,
        recentCategories := [], previousCategories := [], currentBalance := .number 146,
        subscriptionMonthlyTotal := .number 25 })
      = { week := .number 158, month := .number 194, threeMonths := .number 290 } := by
  with_unfolding_all decide


theorem caught_shape (e : String) :
    ∃ v, caught e = [("success", .value (.bool false)), ("error", .value v)] ∧
      (v = .undefined ∨ ∃ message, v = .string message) := by
  refine ⟨errorMessage e, rfl, ?_⟩
  unfold errorMessage
  split
  · exact Or.inl rfl
  · exact Or.inr ⟨_, rfl⟩

theorem refused_shape (e : String) :
    ∃ v, refused e = [("success", .value (.bool false)), ("error", .value v)] ∧
      (v = .undefined ∨ ∃ message, v = .string message) :=
  ⟨.string e, rfl, Or.inr ⟨_, rfl⟩⟩

/-- C28 (amended): for every request, store and environment, the promise of the handler
is rejected in one case only, `auth:completeSetup` called with `undefined` or `null`
(the argument is destructured before the `try` block is entered); in every other case
the handler returns a reply (every call into the database layer is inside `try`), and
the reply is one of: `{ success: false, error }` with `error` a message string or, when
the caught value was the bare string sql.js throws, `undefined`; `{ success: false,
canceled: true }`, for `image:upload` and `export:csv` only; `{ success: true }` with
one payload field, which is `data` except for `auth:isFirstRun` (`isFirstRun`),
`auth:verifyPassword` (`isValid`), `image:upload` (`imageKey`) and `export:csv`
(`path`); or `{ success: true }` alone, for `auth:completeSetup`, `image:delete` and
`db:updateSettings`. -/
theorem handle_envelope (env : Environment) (req : Request) (s : Store) :
    ((handle env req s).1 = .rejected ∧ req = .authCompleteSetup none) ∨
    (req ≠ .authCompleteSetup none ∧ ∃ reply, (handle env req s).1 = .resolved reply ∧
      ((∃ v, reply = [("success", .value (.bool false)), ("error", .value v)] ∧
        (v = .undefined ∨ ∃ message, v = .string message)) ∨
      (reply = [("success", .value (.bool false)), ("canceled", .value (.bool true))] ∧
        ((∃ category, req = .imageUpload category) ∨ ∃ data name, req = .exportCsv data name)) ∨
      (∃ key payload, req.payloadField = some key ∧
        reply = [("success", .value (.bool true)), (key, payload)]) ∨
      (req.payloadField = none ∧ reply = [("success", .value (.bool true))]))) := by
  cases req with
  | authIsFirstRun =>
      simp only [handle]
      cases h : isFirstRun s with
      | mk res s1 =>
          cases res with
          | error e => exact Or.inr ⟨by simp, _, rfl, Or.inl (caught_shape e)⟩
          | ok b => exact Or.inr ⟨by simp, _, rfl, Or.inr (Or.inr (Or.inl ⟨_, _, rfl, rfl⟩))⟩
  | authGetProfile =>
      simp only [handle]
      cases h : getSettings s with
      | mk res s1 =>
          cases res with
          | error e => exact Or.inr ⟨by simp, _, rfl, Or.inl (caught_shape e)⟩
          | ok b => exact Or.inr ⟨by simp, _, rfl, Or.inr (Or.inr (Or.inl ⟨_, _, rfl, rfl⟩))⟩
  | authVerifyPassword password =>
      simp only [handle]
      cases h : verifyPasswordHandler env.bc password s with
      | mk res s1 =>
          cases res with
          | failure e => exact Or.inr ⟨by simp, _, rfl, Or.inl (refused_shape e)⟩
          | success b => exact Or.inr ⟨by simp, _, rfl, Or.inr (Or.inr (Or.inl ⟨_, _, rfl, rfl⟩))⟩
  | authCompleteSetup arg =>
      cases arg with
      | none => exact Or.inl ⟨rfl, rfl⟩
      | some args =>
      simp only [handle]
      cases h : completeSetup env.cv env.bc (property "name" (some args))
          (property "currency" (some args)) (property "password" (some args))
          (property "profileImage" (some args)) env.salt env.now s with
      | mk res s1 =>
          cases res with
          | error e => exact Or.inr ⟨by simp, _, rfl, Or.inl (caught_shape e)⟩
          | ok b => exact Or.inr ⟨by simp, _, rfl, Or.inr (Or.inr (Or.inr ⟨rfl, rfl⟩))⟩
  | imageUpload category =>
      refine Or.inr ⟨by simp, (imageUploadHandler env category s).1, rfl, ?_⟩
      simp only [imageUploadHandler]
      cases env.showOpenDialog with
      | error e => exact Or.inl (caught_shape e)
      | ok result =>
          simp only []
          split
          · exact Or.inr (Or.inl ⟨rfl, Or.inl ⟨_, rfl⟩⟩)
          · cases env.readFileSync (result.filePaths.headD "") with
            | error e => exact Or.inl (caught_shape e)
            | ok imageData =>
                simp only []
                split
                · exact Or.inl (caught_shape _)
                · exact Or.inr (Or.inr (Or.inl ⟨_, _, rfl, rfl⟩))
  | imageGet imageKey =>
      simp only [handle]
      cases h : imageGetHandler env.cv env.rt imageKey s with
      | mk res s1 =>
          cases res with
          | failure e => exact Or.inr ⟨by simp, _, rfl, Or.inl (refused_shape e)⟩
          | success b => exact Or.inr ⟨by simp, _, rfl, Or.inr (Or.inr (Or.inl ⟨_, _, rfl, rfl⟩))⟩
  | imageDelete imageKey =>
      simp only [handle]
      split
      · cases h : deleteImage env.cv imageKey s with
        | mk res s1 =>
            cases res with
            | error e => exact Or.inr ⟨by simp, _, rfl, Or.inl (caught_shape e)⟩
            | ok b => exact Or.inr ⟨by simp, _, rfl, Or.inr (Or.inr (Or.inr ⟨rfl, rfl⟩))⟩
      · exact Or.inr ⟨by simp, _, rfl, Or.inr (Or.inr (Or.inr ⟨rfl, rfl⟩))⟩
  | dbGetAll collectionName =>
      simp only [handle]
      cases h : getAll collectionName s with
      | mk res s1 =>
          cases res with
          | error e => exact Or.inr ⟨by simp, _, rfl, Or.inl (caught_shape e)⟩
          | ok b => exact Or.inr ⟨by simp, _, rfl, Or.inr (Or.inr (Or.inl ⟨_, _, rfl, rfl⟩))⟩
  | dbGetOne collectionName id =>
      simp only [handle]
      cases h : getOne env.cv collectionName id s with
      | mk res s1 =>
          cases res with
          | error e => exact Or.inr ⟨by simp, _, rfl, Or.inl (caught_shape e)⟩
          | ok b => exact Or.inr ⟨by simp, _, rfl, Or.inr (Or.inr (Or.inl ⟨_, _, rfl, rfl⟩))⟩
  | dbInsert collectionName document =>
      simp only [handle]
      cases h : insert env.cv collectionName document env.now s with
      | mk res s1 =>
          cases res with
          | error e => exact Or.inr ⟨by simp, _, rfl, Or.inl (caught_shape e)⟩
          | ok b => exact Or.inr ⟨by simp, _, rfl, Or.inr (Or.inr (Or.inl ⟨_, _, rfl, rfl⟩))⟩
  | dbUpdate collectionName id update =>
      simp only [handle]
      cases h : FinanceTracker.update env.cv collectionName id update env.now s with
      | mk res s1 =>
          cases res with
          | error e => exact Or.inr ⟨by simp, _, rfl, Or.inl (caught_shape e)⟩
          | ok b => exact Or.inr ⟨by simp, _, rfl, Or.inr (Or.inr (Or.inl ⟨_, _, rfl, rfl⟩))⟩
  | dbDelete collectionName id =>
      simp only [handle]
      cases h : deleteOne env.cv collectionName id s with
      | mk res s1 =>
          cases res with
          | error e => exact Or.inr ⟨by simp, _, rfl, Or.inl (caught_shape e)⟩
          | ok b => exact Or.inr ⟨by simp, _, rfl, Or.inr (Or.inr (Or.inl ⟨_, _, rfl, rfl⟩))⟩
  | dbGetSettings =>
      simp only [handle]
      cases h : getSettings s with
      | mk res s1 =>
          cases res with
          | error e => exact Or.inr ⟨by simp, _, rfl, Or.inl (caught_shape e)⟩
          | ok b => exact Or.inr ⟨by simp, _, rfl, Or.inr (Or.inr (Or.inl ⟨_, _, rfl, rfl⟩))⟩
  | dbUpdateSettings updates =>
      simp only [handle]
      cases h : updateSettings env.cv updates env.now s with
      | mk res s1 =>
          cases res with
          | error e => exact Or.inr ⟨by simp, _, rfl, Or.inl (caught_shape e)⟩
          | ok b => exact Or.inr ⟨by simp, _, rfl, Or.inr (Or.inr (Or.inr ⟨rfl, rfl⟩))⟩
  | dbGetDashboardStats =>
      simp only [handle]
      cases h : getDashboardStats env.cv env.ct env.currentYear s with
      | mk res s1 =>
          cases res with
          | error e => exact Or.inr ⟨by simp, _, rfl, Or.inl (caught_shape e)⟩
          | ok b => exact Or.inr ⟨by simp, _, rfl, Or.inr (Or.inr (Or.inl ⟨_, _, rfl, rfl⟩))⟩
  | dbGetHistory startDate endDate =>
      simp only [handle]
      cases h : getHistoryData env.cv env.ct startDate endDate s with
      | mk res s1 =>
          cases res with
          | error e => exact Or.inr ⟨by simp, _, rfl, Or.inl (caught_shape e)⟩
          | ok b => exact Or.inr ⟨by simp, _, rfl, Or.inr (Or.inr (Or.inl ⟨_, _, rfl, rfl⟩))⟩
  | dbGetPredictions =>
      simp only [handle]
      cases h : getPredictionData env.cv env.ct env.rt env.offsetMinutes env.year env.month s with
      | mk res s1 =>
          cases res with
          | error e => exact Or.inr ⟨by simp, _, rfl, Or.inl (caught_shape e)⟩
          | ok b => exact Or.inr ⟨by simp, _, rfl, Or.inr (Or.inr (Or.inl ⟨_, _, rfl, rfl⟩))⟩
  | exportCsv data name =>
      refine Or.inr ⟨by simp, (exportCsvHandler env data s).1, rfl, ?_⟩
      simp only [exportCsvHandler]
      cases env.showSaveDialog with
      | error e => exact Or.inl (caught_shape e)
      | ok result =>
          simp only []
          cases result.filePath with
          | none => exact Or.inr (Or.inl ⟨rfl, Or.inr ⟨_, _, rfl⟩⟩)
          | some filePath =>
              simp only []
              split
              · exact Or.inr (Or.inl ⟨rfl, Or.inr ⟨_, _, rfl⟩⟩)
              · cases env.writeFileSync filePath data with
                | error e => exact Or.inl (caught_shape e)
                | ok u => exact Or.inr (Or.inr (Or.inl ⟨_, _, rfl, rfl⟩))

/-- C28 (counterexample): the reply of `auth:isFirstRun` on the fresh store is
`{ success: true, isFirstRun: true }`: it is a success and it has no `data` field; and
`auth:completeSetup` called without an argument returns no reply at all: its promise
is rejected. -/
theorem handle_envelope_counterexample :
    (handle sampleEnvironment .authIsFirstRun freshStore).1
      = .resolved [("success", .value (.bool true)), ("isFirstRun", .value (.bool true))] ∧
    List.lookup "data"
      [("success", Payload.value (.bool true)), ("isFirstRun", .value (.bool true))] = none ∧
    (handle sampleEnvironment (.authCompleteSetup none) freshStore).1 = .rejected :=
  ⟨rfl, rfl, rfl⟩

theorem handle_examples :
    (handle sampleEnvironment (.dbGetOne "income" .undefined) freshStore).1
      = .resolved [("success", .value (.bool false)), ("error", .value .undefined)] ∧
    (handle sampleEnvironment (.dbGetAll "settings") freshStore).1
      = .resolved
          [("success", .value (.bool false)), ("error", .value (.string "Invalid table name"))] ∧
    (handle sampleEnvironment (.dbUpdateSettings [("currency", .string "USD")]) freshStore).1
      = .resolved [("success", .value (.bool true))] ∧
    (handle sampleEnvironment (.imageUpload (.string "logo")) freshStore).1
      = .resolved [("success", .value (.bool false)), ("canceled", .value (.bool true))] ∧
    (handle sampleEnvironment (.authCompleteSetup (some [])) freshStore).1
      = .resolved [("success", .value (.bool false)),
          ("error", .value (.string "Illegal arguments: undefined, string"))] := by
  refine ⟨?_, ?_, ?_, ?_, ?_⟩ <;> decide


theorem insert_saved {cv : Conversions} {tableName : String} {data : FieldObject} {now : String}
    {s : Store} (h : (insert cv tableName data now s).1.toOption.isSome = true) :
    ∃ c1, (insert cv tableName data now s).2 = saveDatabase { s with db := some c1 } := by
  cases hr : insert cv tableName data now s with
  | mk res s1 =>
      rw [hr] at h
      cases res with
      | error e => simp [Except.toOption] at h
      | ok id =>
          obtain ⟨c0, vals, t, k, _, _, _, _, _, _, hs1⟩ := insert_ok hr
          exact ⟨_, hs1⟩

theorem update_saved {cv : Conversions} {tableName : String} {id : JsValue} {data : FieldObject}
    {now : String} {s : Store}
    (h : (update cv tableName id data now s).1.toOption.isSome = true) :
    ∃ c1, (update cv tableName id data now s).2 = saveDatabase { s with db := some c1 } := by
  cases hr : update cv tableName id data now s with
  | mk res s1 =>
      rw [hr] at h
      cases res with
      | error e => simp [Except.toOption] at h
      | ok n =>
          obtain ⟨c0, assigns, v, t, m, _, _, _, _, _, _, hs1, _⟩ := update_ok hr
          exact ⟨_, hs1⟩

theorem deleteOne_saved {cv : Conversions} {tableName : String} {id : JsValue} {s : Store}
    (h : (deleteOne cv tableName id s).1.toOption.isSome = true) :
    ∃ c1, (deleteOne cv tableName id s).2 = saveDatabase { s with db := some c1 } := by
  by_cases hv : tableName ∈ validTables
  · simp only [deleteOne, contains_validTables_of_mem hv, dbRunDelete] at h ⊢
    cases hdb : s.db with
    | none => simp [hdb, Except.toOption] at h
    | some c =>
        simp only [hdb] at h ⊢
        cases hb : bindValue id with
        | error e => simp [hb, Except.toOption] at h
        | ok v => exact ⟨_, rfl⟩
  · simp only [deleteOne, contains_validTables_of_not_mem hv] at h
    simp [Except.toOption] at h

theorem completeSetup_saved {cv : Conversions} {bc : Bcrypt}
    {name currency password profileImage : JsValue} {salt now : String} {s : Store}
    (h : (completeSetup cv bc name currency password profileImage salt
      now s).1.toOption.isSome = true) :
    ∃ c1, (completeSetup cv bc name currency password profileImage salt now s).2
      = saveDatabase { s with db := some c1 } := by
  simp only [completeSetup] at h ⊢
  cases hh : hashPassword bc password salt with
  | error e => simp [hh, Except.toOption] at h
  | ok passwordHash =>
      simp only [hh] at h ⊢
      cases hdb : s.db with
      | none => simp [hdb, Except.toOption] at h
      | some c =>
          simp only [hdb] at h ⊢
          cases hb : bindFields [("name", name), ("currency", currency),
              ("masterPasswordHash", .string passwordHash), ("profileImage", profileImage)] with
          | error e => simp [hb, Except.toOption] at h
          | ok vals =>
              simp only [hb] at h ⊢
              cases hr : dbRunUpdateSettings cv
                  (vals ++ [("setupCompleted", .int 1), ("updatedAt", .text now)]) c with
              | error e => simp [hr, Except.toOption] at h
              | ok c1 => exact ⟨_, rfl⟩

theorem saveImage_saved {cv : Conversions} {imageKey data mimeType : JsValue} {now : String}
    {s : Store} (h : (saveImage cv imageKey data mimeType now s).1.toOption.isSome = true) :
    ∃ c1, (saveImage cv imageKey data mimeType now s).2
      = saveDatabase { s with db := some c1 } := by
  simp only [saveImage] at h ⊢
  cases hdb : s.db with
  | none => simp [hdb, Except.toOption] at h
  | some c =>
      simp only [hdb] at h ⊢
      cases hb : bindValue imageKey with
      | error e => simp [hb, Except.toOption] at h
      | ok key =>
          simp only [hb] at h ⊢
          cases hsel : resultToObject (selectIdByImageKey cv c.data key) with
          | some o =>
              simp only [hsel] at h ⊢
              cases hbf : bindFields [("data", data), ("mimeType", mimeType)] with
              | error e => simp [hbf, Except.toOption] at h
              | ok assigns =>
                  simp only [hbf] at h ⊢
                  cases hr : runUpdateImage cv c.data.image_cache assigns key with
                  | error e => simp [hr, Except.toOption] at h
                  | ok tn => exact ⟨_, rfl⟩
          | none =>
              simp only [hsel] at h ⊢
              cases hbf : bindFields [("imageKey", imageKey), ("data", data),
                  ("mimeType", mimeType), ("createdAt", .string now)] with
              | error e => simp [hbf, Except.toOption] at h
              | ok vals =>
                  simp only [hbf] at h ⊢
                  cases hr : runInsertImage cv c.data.image_cache vals with
                  | error e => simp [hr, Except.toOption] at h
                  | ok tk => exact ⟨_, rfl⟩

theorem deleteImage_saved {cv : Conversions} {imageKey : JsValue} {s : Store}
    (h : (deleteImage cv imageKey s).1.toOption.isSome = true) :
    ∃ c1, (deleteImage cv imageKey s).2 = saveDatabase { s with db := some c1 } := by
  simp only [deleteImage] at h ⊢
  cases hdb : s.db with
  | none => simp [hdb, Except.toOption] at h
  | some c =>
      simp only [hdb] at h ⊢
      cases hb : bindValue imageKey with
      | error e => simp [hb, Except.toOption] at h
      | ok key => exact ⟨_, rfl⟩

theorem updateSettings_saved {cv : Conversions} {updates : FieldObject} {now : String}
    {s : Store} (h : (updateSettings cv updates now s).1.toOption.isSome = true) :
    ∃ c1, (updateSettings cv updates now s).2 = saveDatabase { s with db := some c1 } := by
  unfold updateSettings at h ⊢
  cases hdb : s.db with
  | none => simp [getSettings, hdb, Except.toOption] at h
  | some c =>
      rw [getSettings_eq hdb] at h ⊢
      simp only [hdb] at h ⊢
      cases h1 : pickSetting updates ((c.data.settings.rows.find? (fun x => x.id = 1)).map
          (recordOf "settings")) "name" with
      | error e => simp [h1, Except.toOption] at h
      | ok newName =>
          simp only [h1] at h ⊢
          cases h2 : pickSetting updates ((c.data.settings.rows.find? (fun x => x.id = 1)).map
              (recordOf "settings")) "currency" with
          | error e => simp [h2, Except.toOption] at h
          | ok newCurrency =>
              simp only [h2] at h ⊢
              cases h3 : pickSetting updates
                  ((c.data.settings.rows.find? (fun x => x.id = 1)).map
                    (recordOf "settings")) "profileImage" with
              | error e => simp [h3, Except.toOption] at h
              | ok newProfileImage =>
                  simp only [h3] at h ⊢
                  cases hb : bindFields [("name", newName), ("currency", newCurrency),
                      ("profileImage", newProfileImage), ("updatedAt", .string now)] with
                  | error e => simp [hb, Except.toOption] at h
                  | ok vals =>
                      simp only [hb] at h ⊢
                      cases hr : dbRunUpdateSettings cv vals c with
                      | error e => simp [hr, Except.toOption] at h
                      | ok c1 => exact ⟨_, rfl⟩

theorem Operation.run_saved (cv : Conversions) (bc : Bcrypt) (op : Operation) {s : Store}
    (h : op.returns cv bc s = true) :
    ∃ c1, op.run cv bc s = saveDatabase { s with db := some c1 } := by
  cases op with
  | insert tableName data now => exact insert_saved h
  | update tableName id data now => exact update_saved h
  | deleteOne tableName id => exact deleteOne_saved h
  | completeSetup name currency password profileImage salt now => exact completeSetup_saved h
  | updateSettings updates now => exact updateSettings_saved h
  | saveImage imageKey data mimeType now => exact saveImage_saved h
  | deleteImage imageKey => exact deleteImage_saved h

/-- C29: on a store that is open on a path (not the empty string), after every call of
`insert`, `update`, `deleteOne`, `completeSetup`, `updateSettings`, `saveImage` or
`deleteImage` that returns, the file holds the content of the database as it is in
memory when the call returns. -/
theorem file_mirrors_database (cv : Conversions) (bc : Bcrypt) (op : Operation) (s : Store)
    (hpath : truthyPath s.dbPath = true) (hok : op.returns cv bc s = true) :
    ∃ c1, (op.run cv bc s).db = some c1 ∧ (op.run cv bc s).file = some c1.data := by
  obtain ⟨c0, hrun⟩ := Operation.run_saved cv bc op hok
  rw [hrun]
  obtain ⟨c1, hc1, hdata, _, _⟩ := saveDatabase_db (s := { s with db := some c0 }) rfl
  refine ⟨c1, hc1, ?_⟩
  rw [saveDatabase_file (s := { s with db := some c0 }) rfl hpath, hdata]

theorem file_mirrors_database_witness :
    ∃ c1, ((Operation.insert "income" salary "2024-02-01T10:00:00.000Z").run plainConversions
        sampleBcrypt freshStore).db = some c1 ∧
      ((Operation.insert "income" salary "2024-02-01T10:00:00.000Z").run plainConversions
        sampleBcrypt freshStore).file = some c1.data :=
  file_mirrors_database plainConversions sampleBcrypt
    (.insert "income" salary "2024-02-01T10:00:00.000Z") freshStore rfl rfl

end FinanceTracker
